import Mathlib

/-!
# Modbus RTU slave of the DAQ12 firmware: a shallow embedding

Embedding of `src/modbus.c`, `src/modbus.h` and `src/ModbusSlave.c` (mikroC PRO for PIC18).
`byte` is 8 bits wide and `uint` is 16 bits wide; values are natural numbers and every
operation that can leave the width is reduced explicitly (`% 256`, `% 65536`).
-/

namespace DAQ12

/-! ## Machine words -/

/-- Low byte of a 16-bit word, the `Lo()` accessor of `built_in.h`. -/
def Lo (x : Nat) : Nat := x % 256

/-- High byte of a 16-bit word, the `Hi()` accessor of `built_in.h`. -/
def Hi (x : Nat) : Nat := (x / 256) % 256

/-! ## CRC engine (`calcCRC`, modbus.c) -/

/-- PIC18 instruction `rrcf f,F`: rotate the 8-bit register right through the carry flag.
Returns the new register value and the new carry (the bit rotated out). -/
def rrcf (f : Nat) (c : Bool) : Nat × Bool :=
  ((if c then 128 else 0) + f / 2, decide (f % 2 = 1))

/-- One pass of the bit loop `MBgetCRC2` on the register pair (R0, R1):
`bcf STATUS,C; rrcf R1,F; rrcf R0,F; bnc $+10; movlw 0xA0; xorwf R1,F; movlw 0x01; xorwf R0,F`. -/
def MBgetCRC2_pass (r : Nat × Nat) : Nat × Nat :=
  let hi := rrcf r.2 false
  let lo := rrcf r.1 hi.2
  if lo.2 then (lo.1 ^^^ 0x01, hi.1 ^^^ 0xA0) else (lo.1, hi.1)

/-- Number of passes of a loop closed by `decfsz r,F` followed by `bra`, entered with the
8-bit counter holding `r`: the body runs, the counter is decremented, and the loop is left
when the counter reaches zero, so a counter of 0 gives 256 passes. -/
def decfszPasses (r : Nat) : Nat := if r % 256 = 0 then 256 else r % 256

/-- The bit loop `MBgetCRC2`, run for the given number of passes (R3 is preset to 8). -/
def MBgetCRC2 : Nat → Nat × Nat → Nat × Nat
  | 0, r => r
  | n + 1, r => MBgetCRC2 n (MBgetCRC2_pass r)

/-- The byte loop `MBgetCRC1`: `movf POSTINC0,W; xorwf R0,F; movlw 8; movwf R3`, then the bit
loop. `i` is the offset of FSR0 from the start of `arybytMbBuffer`; W is 8 bits wide. -/
def MBgetCRC1 (buf : Nat → Nat) : Nat → Nat → Nat × Nat → Nat × Nat
  | 0, _, r => r
  | n + 1, i, r => MBgetCRC1 buf n (i + 1) (MBgetCRC2 (decfszPasses 8) (r.1 ^^^ (buf i % 256), r.2))

/-- `calcCRC`: R2 is loaded from `bytMbIndex`, FSR0 points at `arybytMbBuffer`, R0 and R1 are
preset to 0xFF; the 16-bit result is returned in R1:R0 (R0 is the low byte). -/
def calcCRC (arybytMbBuffer : Nat → Nat) (bytMbIndex : Nat) : Nat :=
  let r := MBgetCRC1 arybytMbBuffer (decfszPasses bytMbIndex) 0 (0xFF, 0xFF)
  r.2 * 256 + r.1

/-- One bit step of CRC-16/Modbus as the specification words it: shift the 16-bit value right
by one bit and XOR it with 0xA001 whenever the bit shifted out was 1. -/
def crc16ShiftStep (v : Nat) : Nat :=
  if v % 2 = 1 then (v / 2) ^^^ 0xA001 else v / 2

/-- One byte step of CRC-16/Modbus as the specification words it: XOR the byte into the low
8 bits, then 8 shift steps. -/
def crc16ByteStep (v b : Nat) : Nat :=
  crc16ShiftStep^[8] (v ^^^ b)

/-- CRC-16/Modbus of a byte sequence as the specification words it: seed 0xFFFF, one byte
step per byte in order, no final XOR. -/
def crc16 (bytes : List Nat) : Nat :=
  bytes.foldl crc16ByteStep 0xFFFF

/-- The first `n` bytes of a buffer, in order. -/
def bufferBytes (buf : Nat → Nat) (n : Nat) : List Nat :=
  (List.range n).map (fun i => buf i % 256)

/-- Buffer holding the given bytes from index 0 on and zero after them. -/
def bufferOf (bytes : List Nat) : Nat → Nat := fun i => bytes.getD i 0

/-! ## Constants and the block registry (modbus.h, modbus.c) -/

/-- Bit set in the function code of an exception response. -/
abbrev EXCEPTION_FLAG : Nat := 0x80
/-- Capacity of the session buffer. -/
abbrev MAX_PACKET_LENGTH : Nat := 256
/-- Ceiling on the item count of function 15. -/
abbrev MAX_DISCRETES_IN_FC15 : Nat := 1968
/-- Ceiling on the item count of function 16. -/
abbrev MAX_REGISTERS_IN_FC16 : Nat := 123

/-- Enumerator of mbType. -/
abbrev COILS : Nat := 1
/-- Enumerator of mbType. -/
abbrev STATUS_INPUTS : Nat := 2
/-- Enumerator of mbType. -/
abbrev HOLDING_REGISTERS : Nat := 3
/-- Enumerator of mbType. -/
abbrev INPUT_REGISTERS : Nat := 4

/-- Enumerator of mbFunction. -/
abbrev READ_COILS : Nat := 1
/-- Enumerator of mbFunction. -/
abbrev READ_STATUS_INPUTS : Nat := 2
/-- Enumerator of mbFunction. -/
abbrev READ_HOLDING_REGISTERS : Nat := 3
/-- Enumerator of mbFunction. -/
abbrev READ_INPUT_REGISTERS : Nat := 4
/-- Enumerator of mbFunction. -/
abbrev FORCE_SINGLE_COIL : Nat := 5
/-- Enumerator of mbFunction. -/
abbrev PRESET_SINGLE_REGISTER : Nat := 6
/-- Enumerator of mbFunction. -/
abbrev FORCE_MULTIPLE_COILS : Nat := 15
/-- Enumerator of mbFunction. -/
abbrev PRESET_MULTIPLE_REGISTERS : Nat := 16

/-- Enumerator of mbException. -/
abbrev NO_EXCEPTION : Nat := 0
/-- Enumerator of mbException. -/
abbrev ILLEGAL_FUNCTION : Nat := 1
/-- Enumerator of mbException. -/
abbrev ILLEGAL_DATA_ADDRESS : Nat := 2

/-- The struct modbusBlockDef. The pointer `paryData` is represented by the array it points
to, seen from its first element (index to item: a byte of eight discretes, or a 16-bit
register); arrays of different blocks are taken to be distinct. The callback pointer is an
optional identifier. The link `pNext` is the position of the block in its list. -/
structure modbusBlockDef where
  /-- The modbus slave address 1 to 247 this block is associated with. -/
  bytSlaveAddress : Nat
  /-- The type of modbus data in this block. -/
  eType : Nat
  /-- The first address in the block. -/
  uintAddress : Nat
  /-- The total number of items in the block. -/
  uintTotal : Nat
  /-- The data storage area. -/
  paryData : Nat → Nat
  /-- Flag to indicate update of block. -/
  blnUpdate : Bool
  /-- Function to call when the block is updated, NULL when absent. -/
  pCallback : Option Nat

/-- The four linked lists `pCoils`, `pStatusBits`, `pHoldingRegs`, `pInputRegs`, each as the
list of its blocks in link order (the empty list is the NULL head). -/
structure Registry where
  /-- Blocks linked from pCoils. -/
  pCoils : List modbusBlockDef
  /-- Blocks linked from pStatusBits. -/
  pStatusBits : List modbusBlockDef
  /-- Blocks linked from pHoldingRegs. -/
  pHoldingRegs : List modbusBlockDef
  /-- Blocks linked from pInputRegs. -/
  pInputRegs : List modbusBlockDef

/-- The list head a pointer such as `pLL` or `pCurrBlock` refers to. -/
inductive ListHead where
  | pCoils
  | pStatusBits
  | pHoldingRegs
  | pInputRegs
  deriving DecidableEq, Repr

/-- Read the list behind a head pointer. -/
def Registry.get (regs : Registry) : ListHead → List modbusBlockDef
  | .pCoils => regs.pCoils
  | .pStatusBits => regs.pStatusBits
  | .pHoldingRegs => regs.pHoldingRegs
  | .pInputRegs => regs.pInputRegs

/-- Replace the list behind a head pointer. -/
def Registry.set (regs : Registry) (h : ListHead) (l : List modbusBlockDef) : Registry :=
  match h with
  | .pCoils => { regs with pCoils := l }
  | .pStatusBits => { regs with pStatusBits := l }
  | .pHoldingRegs => { regs with pHoldingRegs := l }
  | .pInputRegs => { regs with pInputRegs := l }

/-- The registry before any registration. -/
def Registry.empty : Registry := ⟨[], [], [], []⟩

/-- The selection of `pLL` from `eType` in addModbusBlock; `none` is the final else branch. -/
def selectList (eType : Nat) : Option ListHead :=
  if eType = COILS then some .pCoils
  else if eType = STATUS_INPUTS then some .pStatusBits
  else if eType = HOLDING_REGISTERS then some .pHoldingRegs
  else if eType = INPUT_REGISTERS then some .pInputRegs
  else none

/-- The scan of addModbusBlock over the list behind `pLL`,
`for( pNode=*pLL; pNode->pNext!=NULL; pNode=pNode->pNext )`: true when the body reaches
`return FALSE`. The body runs for a node only while that node has a successor. The bound
`pNode->uintAddress + pNode->uintTotal - 1` is computed in 16 bits. -/
def addressInUse (uintAddress : Nat) : List modbusBlockDef → Bool
  | [] => false
  | [_] => false
  | pNode :: next :: rest =>
    if pNode.uintAddress ≤ uintAddress
        ∧ uintAddress ≤ (pNode.uintAddress + pNode.uintTotal + 65535) % 65536 then true
    else addressInUse uintAddress (next :: rest)

/-- Outcome of a call of addModbusBlock. -/
structure AddResult where
  /-- The value returned: `some false` for `return FALSE`; `none` when control reaches the
  closing brace of the function, which has no return statement. -/
  ret : Option Bool
  /-- The four lists after the call. -/
  regs : Registry
  /-- The struct behind `pBlock` after the call (`none` for a NULL pointer). -/
  pBlock : Option modbusBlockDef

/-- The function addModbusBlock. `pBlock` is the content of the caller's struct (not yet
linked into a list), `none` for NULL; `paryData` and `pCallback` are `none` for NULL. -/
def addModbusBlock (regs : Registry) (bytSlaveAddress eType : Nat)
    (pBlock : Option modbusBlockDef) (uintAddress uintTotal : Nat)
    (paryData : Option (Nat → Nat)) (pCallback : Option Nat) : AddResult :=
  if bytSlaveAddress < 1 ∨ bytSlaveAddress > 247 then ⟨some false, regs, pBlock⟩
  else
    match pBlock, paryData with
    | some blk, some data =>
      if uintAddress = 0 ∨ uintTotal = 0 then ⟨some false, regs, pBlock⟩
      else
        match selectList eType with
        | none => ⟨some false, regs, pBlock⟩
        | some pLL =>
          let populated : modbusBlockDef :=
            { bytSlaveAddress := bytSlaveAddress, eType := eType, uintAddress := uintAddress,
              uintTotal := uintTotal, paryData := data, blnUpdate := blk.blnUpdate,
              pCallback := pCallback }
          match regs.get pLL with
          | [] => ⟨none, regs.set pLL [populated], some populated⟩
          | first :: rest =>
            if addressInUse uintAddress (first :: rest) = true then ⟨some false, regs, pBlock⟩
            else ⟨none, regs.set pLL ((first :: rest) ++ [populated]), some populated⟩
    | _, _ => ⟨some false, regs, pBlock⟩

/-! ## Session state and the slave (modbus.c, ModbusSlave.c) -/

/-- Store one item in an array. -/
def store (mem : Nat → Nat) (i v : Nat) : Nat → Nat := fun j => if j = i then v else mem j

/-- The 16-bit word built by the assignments `Lo(x) = lo; Hi(x) = hi`. -/
def word (hi lo : Nat) : Nat := (hi % 256) * 256 + lo % 256

/-- The globals of modbus.c and ModbusSlave.c together with the special function registers
of the PIC18 that the slave uses. -/
structure State where
  /-- The four block lists. -/
  regs : Registry
  /-- The static pointer pCurrBlock: NULL, or the list and the position of the node. -/
  pCurrBlock : Option (ListHead × Nat)
  /-- Pending exception code. -/
  eMbExceptionCode : Nat
  /-- Timer preset for 1 character time. -/
  uintMbRxGapSetPt1 : Nat
  /-- Timer preset for 2 character times. -/
  uintMbRxGapSetPt2 : Nat
  /-- Timer preset for 2.5 character times. -/
  uintMbRxGapSetPt3 : Nat
  /-- Timer preset for 4.5 character times. -/
  uintMbRxGapSetPt : Nat
  /-- Calculated CRC. -/
  uintCRC : Nat
  /-- The modbus slave address. -/
  bytMbSlaveAddress : Nat
  /-- Received packet buffer, seen from its first byte. The array has 256 bytes; indices
  from 256 on lie behind it, where the C program keeps other objects (modbus.c declares
  bytMbIndex and bytMbRxphase next). A store at such an index is recorded in this function
  only, not in the variables the C program keeps there. -/
  arybytMbBuffer : Nat → Nat
  /-- The byte index. -/
  bytMbIndex : Nat
  /-- The framing phase. -/
  bytMbRxphase : Nat
  /-- The local `blnState` of decodePacket, which one path reads before any assignment: its
  value at entry is whatever the location holds. -/
  blnState : Bool
  /-- Timer0 interrupt flag. -/
  TMR0IF_bit : Bool
  /-- Timer0 run control. -/
  TMR0ON_bit : Bool
  /-- Timer0 preset, high byte. -/
  TMR0H : Nat
  /-- Timer0 preset, low byte. -/
  TMR0L : Nat
  /-- Receive interrupt flag: a received byte waits in RCREG. -/
  RCIF_bit : Bool
  /-- The received byte. -/
  RCREG : Nat
  /-- Receiver overrun error. -/
  OERR_bit : Bool
  /-- Receiver framing error. -/
  FERR_bit : Bool
  /-- Continuous receive enable. -/
  CREN_bit : Bool
  /-- Receive interrupt enable. -/
  RCIE_bit : Bool
  /-- Transmit interrupt flag: TXREG is empty. -/
  TXIF_bit : Bool
  /-- Transmit interrupt enable. -/
  TXIE_bit : Bool
  /-- Transmitter enable. -/
  TXEN_bit : Bool
  /-- The bytes written to TXREG so far, oldest first. -/
  TXREG : List Nat

/-- The function startTimeout. -/
def startTimeout (s : State) : State :=
  let preset :=
    if s.bytMbRxphase.testBit 1 then s.uintMbRxGapSetPt3
    else if s.bytMbRxphase.testBit 2 then s.uintMbRxGapSetPt2
    else if s.bytMbRxphase.testBit 7 then s.uintMbRxGapSetPt1
    else s.uintMbRxGapSetPt
  { s with TMR0H := Hi preset, TMR0L := Lo preset, TMR0IF_bit := false, TMR0ON_bit := true }

/-- The function restartRx. Reading RCREG twice empties the receive FIFO (RCIF and FERR
clear), and toggling CREN clears OERR. -/
def restartRx (s : State) : State :=
  startTimeout
    { s with RCIF_bit := false, FERR_bit := false, OERR_bit := false, CREN_bit := true,
             bytMbRxphase := 0, bytMbIndex := 0, TXEN_bit := false, TXIE_bit := false,
             RCIE_bit := true }

/-- The block `pCurrBlock` points to. -/
def currBlock (s : State) : Option modbusBlockDef :=
  match s.pCurrBlock with
  | none => none
  | some (h, i) => (s.regs.get h)[i]?

/-- Overwrite the block `pCurrBlock` points to. -/
def setCurrBlock (s : State) (b : modbusBlockDef) : State :=
  match s.pCurrBlock with
  | none => s
  | some (h, i) => { s with regs := s.regs.set h ((s.regs.get h).set i b) }

/-- The function coilState; the second component is the value returned. -/
def coilState (s : State) (uintAddress : Nat) (blnState : Bool) : State × Bool :=
  match currBlock s with
  | none => (s, false)
  | some blk =>
    let uintOffset := (uintAddress + 65536 - blk.uintAddress % 65536) % 65536
    let bytIndex := (uintOffset / 8) % 256
    let bytBit := (1 <<< (uintOffset % 8)) % 256
    let old := blk.paryData bytIndex
    let data :=
      if blnState = true then store blk.paryData bytIndex (old ||| bytBit)
      else store blk.paryData bytIndex (old &&& (0xff ^^^ bytBit))
    (setCurrBlock s { blk with paryData := data, blnUpdate := true }, true)

/-- The function setRegister; the second component is the value returned. -/
def setRegister (s : State) (uintAddress bytDataHi bytDataLo : Nat) : State × Bool :=
  match currBlock s with
  | none => (s, false)
  | some blk =>
    let uintTemp := word bytDataHi bytDataLo
    let uintOffset := (uintAddress + 65536 - blk.uintAddress % 65536) % 65536
    (setCurrBlock s { blk with paryData := store blk.paryData uintOffset uintTemp,
                               blnUpdate := true }, true)

/-- The lookup loop of packBits and packRegisters:
`while( pNode != NULL ) { if ( uintStart >= pNode->uintAddress ) break; pNode = pNode->pNext; }`. -/
def firstNode (uintStart : Nat) : List modbusBlockDef → Option modbusBlockDef
  | [] => none
  | pNode :: rest => if uintStart ≥ pNode.uintAddress then some pNode else firstNode uintStart rest

/-- The variables of the packing loop of packBits. -/
structure PackBitsVars where
  /-- The memory `pBuffer` points into (the session buffer). -/
  mem : Nat → Nat
  /-- The position `pBuffer` points at. -/
  pBuffer : Nat
  /-- Index into the data array, a byte. -/
  bytIndex : Nat
  /-- The bit in the data, `Hi(uintOffset)`. -/
  dataBit : Nat
  /-- The bit of the response bit field, `Lo(uintOffset)`. -/
  respBit : Nat
  /-- Number of bytes counted so far. -/
  uintBytes : Nat
  /-- The next address. -/
  uintStart : Nat

/-- One pass of the body of `while( uintStart <= uintEnd )` in packBits. -/
def packBitsPass (data : Nat → Nat) (v : PackBitsVars) : PackBitsVars :=
  let uintBytes := if v.respBit.testBit 0 then (v.uintBytes + 1) % 65536 else v.uintBytes
  let mem :=
    if data v.bytIndex &&& v.dataBit ≠ 0 then
      store v.mem v.pBuffer (v.mem v.pBuffer ||| v.respBit)
    else v.mem
  let dataBit := (v.dataBit <<< 1) % 256
  let bytIndex := if dataBit = 0 then (v.bytIndex + 1) % 256 else v.bytIndex
  let dataBit := if dataBit = 0 then 1 else dataBit
  let respBit := (v.respBit <<< 1) % 256
  let pBuffer := if respBit = 0 then v.pBuffer + 1 else v.pBuffer
  let mem := if respBit = 0 then store mem pBuffer 0 else mem
  let respBit := if respBit = 0 then 1 else respBit
  { mem := mem, pBuffer := pBuffer, bytIndex := bytIndex, dataBit := dataBit,
    respBit := respBit, uintBytes := uintBytes, uintStart := (v.uintStart + 1) % 65536 }

/-- The loop `while( uintStart <= uintEnd )` of packBits, at most `fuel` passes; `none` when
the condition still holds after them. -/
def packBitsLoop (data : Nat → Nat) (uintEnd : Nat) : Nat → PackBitsVars → Option PackBitsVars
  | 0, v => if v.uintStart ≤ uintEnd then none else some v
  | fuel + 1, v =>
    if v.uintStart ≤ uintEnd then packBitsLoop data uintEnd fuel (packBitsPass data v)
    else some v

/-- The function packBits, writing into `mem` from position `pBuffer` on; returns the memory
and the value returned, or `none` when the packing loop does not end. -/
def packBits (regs : Registry) (eType : Nat) (mem : Nat → Nat) (pBuffer : Nat)
    (uintStart uintEnd : Nat) : Option ((Nat → Nat) × Nat) :=
  let head : Option (List modbusBlockDef) :=
    if eType = COILS then some regs.pCoils
    else if eType = STATUS_INPUTS then some regs.pStatusBits
    else none
  match head with
  | none => some (mem, 0)
  | some list =>
    match firstNode uintStart list with
    | none => some (mem, 0)
    | some pNode =>
      if uintEnd < (pNode.uintAddress + pNode.uintTotal) % 65536 then
        let uintOffset := (uintStart + 65536 - pNode.uintAddress % 65536) % 65536
        let v : PackBitsVars :=
          { mem := store mem pBuffer 0, pBuffer := pBuffer, bytIndex := (uintOffset / 8) % 256,
            dataBit := (1 <<< (Lo uintOffset &&& 7)) % 256, respBit := 1, uintBytes := 0,
            uintStart := uintStart }
        (packBitsLoop pNode.paryData uintEnd 65536 v).map (fun w => (w.mem, w.uintBytes))
      else some (mem, 0)

/-- The variables of the packing loop of packRegisters. -/
structure PackRegistersVars where
  /-- The memory `pBuffer` points into (the session buffer). -/
  mem : Nat → Nat
  /-- Number of bytes stored so far. -/
  uintBytes : Nat
  /-- The next address. -/
  uintStart : Nat
  /-- Index of the next register in the data array. -/
  uintOffset : Nat

/-- One pass of the body of `while( uintStart <= uintEnd )` in packRegisters. -/
def packRegistersPass (data : Nat → Nat) (pBuffer : Nat) (v : PackRegistersVars) :
    PackRegistersVars :=
  let mem := store v.mem (pBuffer + v.uintBytes) (Hi (data v.uintOffset))
  let uintBytes := (v.uintBytes + 1) % 65536
  let mem := store mem (pBuffer + uintBytes) (Lo (data v.uintOffset))
  let uintBytes := (uintBytes + 1) % 65536
  { mem := mem, uintBytes := uintBytes, uintStart := (v.uintStart + 1) % 65536,
    uintOffset := (v.uintOffset + 1) % 65536 }

/-- The loop `while( uintStart <= uintEnd )` of packRegisters, at most `fuel` passes; `none`
when the condition still holds after them. -/
def packRegistersLoop (data : Nat → Nat) (pBuffer uintEnd : Nat) :
    Nat → PackRegistersVars → Option PackRegistersVars
  | 0, v => if v.uintStart ≤ uintEnd then none else some v
  | fuel + 1, v =>
    if v.uintStart ≤ uintEnd then
      packRegistersLoop data pBuffer uintEnd fuel (packRegistersPass data pBuffer v)
    else some v

/-- The function packRegisters, writing into `mem` from position `pBuffer` on; returns the
memory and the value returned, or `none` when the packing loop does not end. -/
def packRegisters (regs : Registry) (eType : Nat) (mem : Nat → Nat) (pBuffer : Nat)
    (uintStart uintEnd : Nat) : Option ((Nat → Nat) × Nat) :=
  let head : Option (List modbusBlockDef) :=
    if eType = HOLDING_REGISTERS then some regs.pHoldingRegs
    else if eType = INPUT_REGISTERS then some regs.pInputRegs
    else none
  match head with
  | none => some (mem, 0)
  | some list =>
    match firstNode uintStart list with
    | none => some (mem, 0)
    | some pNode =>
      if uintEnd < (pNode.uintAddress + pNode.uintTotal) % 65536 then
        let v : PackRegistersVars :=
          { mem := mem, uintBytes := 0, uintStart := uintStart,
            uintOffset := (uintStart + 65536 - pNode.uintAddress % 65536) % 65536 }
        (packRegistersLoop pNode.paryData pBuffer uintEnd 65536 v).map
          (fun w => (w.mem, w.uintBytes))
      else some (mem, 0)

/-- The loop of decodePacket that looks for the block containing the addresses,
`while( pCurrBlock != NULL ) { if ( ... ) break; pCurrBlock = pCurrBlock->pNext; }`, from the
node at position `i` on; the result is the position of the node found. The bound
`pCurrBlock->uintAddress + pCurrBlock->uintTotal - 1` is computed in 16 bits. -/
def findBlock (uintSAddr uintEAddr : Nat) : List modbusBlockDef → Nat → Option Nat
  | [], _ => none
  | blk :: rest, i =>
    if uintSAddr ≥ blk.uintAddress
        ∧ uintEAddr ≤ (blk.uintAddress + blk.uintTotal + 65535) % 65536 then some i
    else findBlock uintSAddr uintEAddr rest (i + 1)

/-- The block search of decodePacket, starting at the node `pCurrBlock` points to. -/
def resolveCurrBlock (s : State) (uintSAddr uintEAddr : Nat) : State :=
  match s.pCurrBlock with
  | none => s
  | some (h, i) =>
    { s with pCurrBlock :=
        (findBlock uintSAddr uintEAddr ((s.regs.get h).drop i) i).map (fun j => (h, j)) }

/-- The first switch of decodePacket: is the function supported? -/
def selectTable (s : State) : State :=
  let fn := s.arybytMbBuffer 1
  if fn = READ_COILS ∨ fn = FORCE_SINGLE_COIL ∨ fn = FORCE_MULTIPLE_COILS then
    if s.regs.pCoils.isEmpty then { s with eMbExceptionCode := ILLEGAL_DATA_ADDRESS }
    else { s with pCurrBlock := some (.pCoils, 0) }
  else if fn = READ_STATUS_INPUTS then
    if s.regs.pStatusBits.isEmpty then { s with eMbExceptionCode := ILLEGAL_DATA_ADDRESS }
    else { s with pCurrBlock := some (.pStatusBits, 0) }
  else if fn = READ_HOLDING_REGISTERS ∨ fn = PRESET_SINGLE_REGISTER
      ∨ fn = PRESET_MULTIPLE_REGISTERS then
    if s.regs.pHoldingRegs.isEmpty then { s with eMbExceptionCode := ILLEGAL_DATA_ADDRESS }
    else { s with pCurrBlock := some (.pHoldingRegs, 0) }
  else if fn = READ_INPUT_REGISTERS then
    if s.regs.pInputRegs.isEmpty then { s with eMbExceptionCode := ILLEGAL_DATA_ADDRESS }
    else { s with pCurrBlock := some (.pInputRegs, 0) }
  else { s with eMbExceptionCode := ILLEGAL_FUNCTION }

/-- The variables of the write loop of functions 15 and 16. -/
structure WriteVars where
  /-- The globals. -/
  s : State
  /-- The bit mask within the current request data byte. -/
  bytBit : Nat
  /-- Offset of the current request data byte. -/
  uintOffset : Nat
  /-- The next address. -/
  uintAddr : Nat

/-- The loop `while( uintAddr <= uintEAddr )` of functions 15 and 16, at most `fuel` passes;
`none` when the loop is still running after them. -/
def writeLoop (uintEAddr : Nat) : Nat → WriteVars → Option WriteVars
  | 0, v => if v.uintAddr ≤ uintEAddr then none else some v
  | fuel + 1, v =>
    if v.uintAddr ≤ uintEAddr then
      if v.s.arybytMbBuffer 1 = PRESET_MULTIPLE_REGISTERS then
        let r := setRegister v.s v.uintAddr (v.s.arybytMbBuffer (7 + v.uintOffset))
          (v.s.arybytMbBuffer (8 + v.uintOffset))
        if r.2 = false then
          some { v with s := { r.1 with eMbExceptionCode := ILLEGAL_DATA_ADDRESS } }
        else
          writeLoop uintEAddr fuel
            { v with s := r.1, uintOffset := (v.uintOffset + 2) % 65536,
                     uintAddr := (v.uintAddr + 1) % 65536 }
      else
        let blnState := decide ((v.s.arybytMbBuffer (7 + v.uintOffset) &&& v.bytBit) > 0)
        let r := coilState { v.s with blnState := blnState } v.uintAddr blnState
        if r.2 = false then
          some { v with s := { r.1 with eMbExceptionCode := ILLEGAL_DATA_ADDRESS } }
        else
          let bytBit := (v.bytBit <<< 1) % 256
          writeLoop uintEAddr fuel
            { s := r.1, bytBit := if bytBit = 0 then 1 else bytBit,
              uintOffset := if bytBit = 0 then (v.uintOffset + 1) % 65536 else v.uintOffset,
              uintAddr := (v.uintAddr + 1) % 65536 }
    else some v

/-- The body of `if( eMbExceptionCode == NO_EXCEPTION )` in decodePacket: decode the address
range, look for the block and carry out the function. `none` when a loop does not end. -/
def execute (s : State) : Option State :=
  let fn := s.arybytMbBuffer 1
  let uintItemCount :=
    if fn = FORCE_SINGLE_COIL ∨ fn = PRESET_SINGLE_REGISTER then 1
    else word (s.arybytMbBuffer 4) (s.arybytMbBuffer 5)
  let uintEAddr := (word (s.arybytMbBuffer 2) (s.arybytMbBuffer 3) + uintItemCount) % 65536
  let uintSAddr := (word (s.arybytMbBuffer 2) (s.arybytMbBuffer 3) + 1) % 65536
  let s := resolveCurrBlock s uintSAddr uintEAddr
  if fn = READ_COILS ∨ fn = READ_STATUS_INPUTS then
    let eType := if fn = READ_COILS then COILS else STATUS_INPUTS
    match packBits s.regs eType s.arybytMbBuffer 3 uintSAddr uintEAddr with
    | none => none
    | some (mem, n) =>
      if n % 256 = 0 then
        some { s with arybytMbBuffer := store mem 2 (n % 256),
                      eMbExceptionCode := ILLEGAL_DATA_ADDRESS }
      else
        some { s with arybytMbBuffer := store mem 2 (n % 256),
                      bytMbIndex := (s.bytMbIndex + n % 256) % 256 }
  else if fn = READ_HOLDING_REGISTERS ∨ fn = READ_INPUT_REGISTERS then
    let eType := if fn = READ_INPUT_REGISTERS then INPUT_REGISTERS else HOLDING_REGISTERS
    match packRegisters s.regs eType s.arybytMbBuffer 3 uintSAddr uintEAddr with
    | none => none
    | some (mem, n) =>
      if n % 256 = 0 then
        some { s with arybytMbBuffer := store mem 2 (n % 256),
                      eMbExceptionCode := ILLEGAL_DATA_ADDRESS }
      else
        some { s with arybytMbBuffer := store mem 2 (n % 256),
                      bytMbIndex := (s.bytMbIndex + n % 256) % 256 }
  else if fn = FORCE_SINGLE_COIL then
    let s :=
      if s.arybytMbBuffer 4 = 0xff ∧ s.arybytMbBuffer 5 = 0x0 then
        let r := coilState s uintSAddr true
        { r.1 with blnState := r.2 }
      else if s.arybytMbBuffer 4 = 0x0 ∧ s.arybytMbBuffer 5 = 0x0 then
        let r := coilState s uintSAddr false
        { r.1 with blnState := r.2 }
      else s
    if s.blnState = false then some { s with eMbExceptionCode := ILLEGAL_DATA_ADDRESS }
    else some { s with bytMbIndex := (s.bytMbIndex + 4) % 256 }
  else if fn = PRESET_SINGLE_REGISTER then
    let r := setRegister s uintSAddr (s.arybytMbBuffer 4) (s.arybytMbBuffer 5)
    if r.2 = false then some { r.1 with eMbExceptionCode := ILLEGAL_DATA_ADDRESS }
    else some { r.1 with bytMbIndex := (r.1.bytMbIndex + 4) % 256 }
  else if fn = FORCE_MULTIPLE_COILS ∧ (uintItemCount > MAX_DISCRETES_IN_FC15
      ∨ uintItemCount > (s.arybytMbBuffer 6 % 256) * 8) then
    some { s with eMbExceptionCode := ILLEGAL_DATA_ADDRESS }
  else if fn = FORCE_MULTIPLE_COILS ∨ fn = PRESET_MULTIPLE_REGISTERS then
    if fn = PRESET_MULTIPLE_REGISTERS ∧ uintItemCount > MAX_REGISTERS_IN_FC16 then
      some { s with eMbExceptionCode := ILLEGAL_DATA_ADDRESS }
    else
      match writeLoop uintEAddr 65536
          { s := s, bytBit := 1, uintOffset := 0, uintAddr := uintSAddr } with
      | none => none
      | some v =>
        if v.s.eMbExceptionCode = NO_EXCEPTION then
          some { v.s with bytMbIndex := (v.s.bytMbIndex + 3) % 256 }
        else some v.s
  else some s

/-- The end of decodePacket for a frame that gets no answer:
`bytMbIndex = 0; bytMbRxphase = 1;`. -/
def noAnswer (s : State) : State := { s with bytMbIndex := 0, bytMbRxphase := 1 }

/-- The body of `if ( bytMbIndex > 0 )` in decodePacket: append the CRC and start the
transmission. `none` when the wait for bit 0 of the phase does not end. After the first
byte is written to TXREG the hardware raises TXIF as soon as the byte has moved on, which
ends the second wait; a write to TXREG clears TXIF. -/
def transmitStart (s : State) : Option State :=
  let s := { s with uintCRC := calcCRC s.arybytMbBuffer s.bytMbIndex }
  let s := { s with arybytMbBuffer := store s.arybytMbBuffer s.bytMbIndex (Lo s.uintCRC),
                    bytMbIndex := (s.bytMbIndex + 1) % 256 }
  let s := { s with arybytMbBuffer := store s.arybytMbBuffer s.bytMbIndex (Hi s.uintCRC),
                    bytMbIndex := (s.bytMbIndex + 1) % 256 }
  if s.bytMbRxphase.testBit 0 = false then none
  else
    let s := { s with CREN_bit := false, RCIE_bit := false, TXEN_bit := true,
                      bytMbRxphase := 128, TXREG := s.TXREG ++ [s.arybytMbBuffer 0] }
    let s := { s with arybytMbBuffer := store s.arybytMbBuffer 0 s.bytMbIndex }
    some { s with TXREG := s.TXREG ++ [s.arybytMbBuffer 1], TXIF_bit := false,
                  bytMbIndex := 2, TXIE_bit := true }

/-- The end of the dispatcher: mark a pending exception in the response
(`arybytMbBuffer[1] |= EXCEPTION_FLAG; arybytMbBuffer[2] = (byte)eMbExceptionCode;`), clear
the holder, and start the transmission when `bytMbIndex > 0`. -/
def respond (s : State) : Option State :=
  let s :=
    if s.eMbExceptionCode ≠ NO_EXCEPTION then
      { s with arybytMbBuffer :=
                 store (store s.arybytMbBuffer 1 (s.arybytMbBuffer 1 ||| EXCEPTION_FLAG)) 2
                   (s.eMbExceptionCode % 256),
               eMbExceptionCode := NO_EXCEPTION }
    else s
  if s.bytMbIndex > 0 then transmitStart s else some (noAnswer s)

/-- The dispatcher proper, entered when the CRC check has passed: `bytMbIndex = 3`, the
function switch, the execution when no exception is pending, and the response. -/
def dispatch (s : State) : Option State :=
  let s := selectTable { s with bytMbIndex := 3 }
  match (if s.eMbExceptionCode = NO_EXCEPTION then execute s else some s) with
  | none => none
  | some s => respond s

/-- The part of decodePacket that runs once the phase is 5: address and length check, CRC
check, and the dispatcher. -/
def frameReady (s : State) : Option State :=
  if s.bytMbSlaveAddress = s.arybytMbBuffer 0 ∧ s.bytMbIndex > 3 then
    let s := { s with pCurrBlock := none, bytMbIndex := s.bytMbIndex - 2 }
    let s := { s with uintCRC := calcCRC s.arybytMbBuffer s.bytMbIndex }
    if Lo s.uintCRC = s.arybytMbBuffer s.bytMbIndex
        ∧ Hi s.uintCRC = s.arybytMbBuffer (s.bytMbIndex + 1) then
      dispatch s
    else some (noAnswer s)
  else some (noAnswer s)

/-- The tail of decodePacket behind the event handling: the step from phase 3 to phase 4,
the return for every phase other than 5, and the dispatcher. -/
def afterEvents (s : State) : Option State :=
  let s := if s.bytMbRxphase = 3 then startTimeout { s with bytMbRxphase := 4 } else s
  if s.bytMbRxphase ≠ 5 then some s
  else frameReady s

/-- The assignments at the head of `if ( TMR0IF_bit )` in decodePacket:
`bytMbRxphase.B0 = 1; TMR0ON_bit = 0; TMR0IF_bit = 0;`. -/
def timerExpiry (s : State) : State :=
  if s.TMR0IF_bit = true then
    { s with bytMbRxphase := s.bytMbRxphase ||| 1, TMR0ON_bit := false, TMR0IF_bit := false }
  else s

/-- The function decodePacket, one call from the interrupt routine; `none` when the call
does not return. Reading RCREG takes the waiting byte (RCIF clears); a write to TXREG
clears TXIF. -/
def decodePacket (s : State) : Option State :=
  let timer := s.TMR0IF_bit
  let s := timerExpiry s
  if timer = true ∧ s.bytMbRxphase.testBit 7 = true then some (restartRx s)
  else if s.RCIF_bit = true then
    if s.OERR_bit = true ∨ s.FERR_bit = true then some (restartRx s)
    else
      let bytTemp := s.RCREG % 256
      let s := { s with RCIF_bit := false }
      if s.bytMbRxphase = 0 ∨ s.bytMbRxphase.testBit 2 = true
          ∨ s.bytMbIndex ≥ MAX_PACKET_LENGTH then
        some (startTimeout { s with bytMbIndex := 0, bytMbRxphase := 0 })
      else
        let s := if s.bytMbIndex = 0 then { s with bytMbRxphase := 2 } else s
        let s := { s with arybytMbBuffer := store s.arybytMbBuffer s.bytMbIndex bytTemp,
                          bytMbIndex := (s.bytMbIndex + 1) % 256 }
        afterEvents (startTimeout s)
  else if s.bytMbRxphase.testBit 7 = true ∧ s.TXIF_bit = true then
    if s.bytMbIndex < s.arybytMbBuffer 0 then
      some { s with TXREG := s.TXREG ++ [s.arybytMbBuffer s.bytMbIndex], TXIF_bit := false,
                    bytMbIndex := (s.bytMbIndex + 1) % 256 }
    else some { startTimeout s with TXIE_bit := false }
  else afterEvents s

/-- A state as modbusSerialInit and restartRx leave it, with the given registry, slave
address, buffer content, fill index and phase; no event is pending. -/
def sessionState (regs : Registry) (bytMbSlaveAddress : Nat) (arybytMbBuffer : Nat → Nat)
    (bytMbIndex bytMbRxphase : Nat) : State :=
  { regs := regs, pCurrBlock := none, eMbExceptionCode := NO_EXCEPTION,
    uintMbRxGapSetPt1 := 0, uintMbRxGapSetPt2 := 0, uintMbRxGapSetPt3 := 0,
    uintMbRxGapSetPt := 0, uintCRC := 0, bytMbSlaveAddress := bytMbSlaveAddress,
    arybytMbBuffer := arybytMbBuffer, bytMbIndex := bytMbIndex, bytMbRxphase := bytMbRxphase,
    blnState := false, TMR0IF_bit := false, TMR0ON_bit := true, TMR0H := 0, TMR0L := 0,
    RCIF_bit := false, RCREG := 0, OERR_bit := false, FERR_bit := false, CREN_bit := true,
    RCIE_bit := true, TXIF_bit := false, TXIE_bit := false, TXEN_bit := false, TXREG := [] }

/-- A block of the given kind, first address and size over the given data array. -/
def blockOf (eType uintAddress uintTotal : Nat) (paryData : Nat → Nat) : modbusBlockDef :=
  { bytSlaveAddress := 1, eType := eType, uintAddress := uintAddress, uintTotal := uintTotal,
    paryData := paryData, blnUpdate := false, pCallback := none }

/-- The response a state holds right after the dispatcher has started a transmission: the
two bytes already written to TXREG, then the buffered bytes from index 2 up to the length
kept in `arybytMbBuffer[0]`, which the transmit events send one by one. -/
def responseFrame (s : State) : List Nat :=
  s.TXREG ++ (List.range (s.arybytMbBuffer 0 - 2)).map (fun i => s.arybytMbBuffer (i + 2))

/-- The address ranges `[a1, a1+t1)` and `[a2, a2+t2)` of two non-empty blocks share an
address. -/
def rangesOverlap (a1 t1 a2 t2 : Nat) : Prop := a1 < a2 + t2 ∧ a2 < a1 + t1

instance (a1 t1 a2 t2 : Nat) : Decidable (rangesOverlap a1 t1 a2 t2) := by
  unfold rangesOverlap; infer_instance

/-- A block as a successful registration leaves it: first address and size are non-zero
16-bit values. -/
def blockOK (b : modbusBlockDef) : Prop :=
  1 ≤ b.uintAddress ∧ b.uintAddress < 65536 ∧ 1 ≤ b.uintTotal ∧ b.uintTotal < 65536

instance (b : modbusBlockDef) : Decidable (blockOK b) := by
  unfold blockOK; infer_instance

/-- The state reaches the dispatcher in this call of decodePacket: no received byte is
waiting, and the phase is 5 once a pending timer expiry has set its bit 0. -/
def FrameReady (s : State) : Prop :=
  s.RCIF_bit = false ∧ (if s.TMR0IF_bit = true then s.bytMbRxphase ||| 1 else s.bytMbRxphase) = 5

instance (s : State) : Decidable (FrameReady s) := by
  unfold FrameReady; infer_instance

/-- Data array used in examples: item `i` holds `base + i`. -/
def rampData (base : Nat) : Nat → Nat := fun i => base + i

/-- Example registry: one coil block, addresses 1 to 8. -/
def regsOneCoilBlock : Registry :=
  { Registry.empty with pCoils := [blockOf COILS 1 8 (rampData 0xA5)] }

/-- Example registry: two holding-register blocks, addresses 1 to 10 and 100 to 109,
registered in this order. -/
def regsTwoHolding : Registry :=
  { Registry.empty with
    pHoldingRegs := [blockOf HOLDING_REGISTERS 1 10 (rampData 0x1100),
                     blockOf HOLDING_REGISTERS 100 10 (rampData 0x2200)] }

/-- Loop invariant of packBits after `j` passes, for a range that starts `off` items into
the block, with output position `p`, first address `start` and memory `mem0` at the call. -/
structure PackBitsInv (data mem0 : Nat → Nat) (p off start j : Nat) (v : PackBitsVars) :
    Prop where
  /-- The next address. -/
  hStart : v.uintStart = start + j
  /-- The output position. -/
  hPtr : v.pBuffer = p + j / 8
  /-- The output bit mask. -/
  hResp : v.respBit = 2 ^ (j % 8)
  /-- The data bit mask. -/
  hData : v.dataBit = 2 ^ ((off + j) % 8)
  /-- The data byte index, kept in 8 bits. -/
  hIdx : v.bytIndex = ((off + j) / 8) % 256
  /-- The byte count. -/
  hBytes : v.uintBytes = (j + 7) / 8
  /-- The bits packed so far. -/
  hBits : ∀ k, k < j →
    (v.mem (p + k / 8)).testBit (k % 8)
      = (data (((off + k) / 8) % 256)).testBit ((off + k) % 8)
  /-- The bits of the current output byte not yet used are clear. -/
  hClear : ∀ b, j % 8 ≤ b → (v.mem (p + j / 8)).testBit b = false
  /-- Memory below the output position is untouched. -/
  hFrame : ∀ i, i < p → v.mem i = mem0 i

/-- Data array used in examples: byte 256 holds 1, every other byte 0. -/
def highByteData : Nat → Nat := fun i => if i = 256 then 1 else 0

/-- Example registry: one coil block of 4096 coils from address 1 on. -/
def regsBigCoilBlock : Registry :=
  { Registry.empty with pCoils := [blockOf COILS 1 4096 highByteData] }

/-! ## Further constants, the dispatcher in two parts, and the service loop (modbus.h,
ModbusSlave.c, modbus.c) -/

/-- The constant MAX_DISCRETES_IN_1_AND_2 of modbus.h; no code refers to it. -/
abbrev MAX_DISCRETES_IN_1_AND_2 : Nat := 2000

/-- The constant MAX_REGISTERS_IN_3_AND_4 of modbus.h; no code refers to it. -/
abbrev MAX_REGISTERS_IN_3_AND_4 : Nat := 125

/-- The dispatcher up to the point where the response is built: `bytMbIndex = 3`, the
function switch, and the execution when no exception is pending. -/
def request (s : State) : Option State :=
  let s := selectTable { s with bytMbIndex := 3 }
  if s.eMbExceptionCode = NO_EXCEPTION then execute s else some s

/-- The state in which decodePacket enters the dispatcher once address and length have
passed: `pCurrBlock = NULL; bytMbIndex -= 2; uintCRC = calcCRC();`. -/
def dispatchEntry (s : State) : State :=
  { s with pCurrBlock := none, bytMbIndex := s.bytMbIndex - 2,
           uintCRC := calcCRC s.arybytMbBuffer (s.bytMbIndex - 2) }

/-- The function serviceIOBlocksPrimitive on the nodes of one list, in link order. A
callback is code outside this program: `effect f b` is the content callback `f` leaves in
the block `b` it is handed. The result is the list afterwards and the calls made, oldest
first, each with the callback and the block as it was handed over. -/
def serviceIOBlocksPrimitive (effect : Nat → modbusBlockDef → modbusBlockDef) :
    List modbusBlockDef → List modbusBlockDef × List (Nat × modbusBlockDef)
  | [] => ([], [])
  | pNode :: rest =>
    if pNode.blnUpdate = true then
      match pNode.pCallback with
      | some f =>
        ({ effect f pNode with blnUpdate := false } :: (serviceIOBlocksPrimitive effect rest).1,
         (f, pNode) :: (serviceIOBlocksPrimitive effect rest).2)
      | none =>
        ({ pNode with blnUpdate := false } :: (serviceIOBlocksPrimitive effect rest).1,
         (serviceIOBlocksPrimitive effect rest).2)
    else (pNode :: (serviceIOBlocksPrimitive effect rest).1,
          (serviceIOBlocksPrimitive effect rest).2)

/-- The function serviceIOBlocks: the four lists in the order of the source, a list whose
head pointer is NULL being skipped. The result is the registry afterwards and the calls
made, oldest first. -/
def serviceIOBlocks (effect : Nat → modbusBlockDef → modbusBlockDef) (regs : Registry) :
    Registry × List (Nat × modbusBlockDef) :=
  let h := if regs.pHoldingRegs.isEmpty = false then
      serviceIOBlocksPrimitive effect regs.pHoldingRegs else (regs.pHoldingRegs, [])
  let s := if regs.pStatusBits.isEmpty = false then
      serviceIOBlocksPrimitive effect regs.pStatusBits else (regs.pStatusBits, [])
  let i := if regs.pInputRegs.isEmpty = false then
      serviceIOBlocksPrimitive effect regs.pInputRegs else (regs.pInputRegs, [])
  let c := if regs.pCoils.isEmpty = false then
      serviceIOBlocksPrimitive effect regs.pCoils else (regs.pCoils, [])
  ({ pCoils := c.1, pStatusBits := s.1, pHoldingRegs := h.1, pInputRegs := i.1 },
   h.2 ++ s.2 ++ i.2 ++ c.2)

/-! ## Relations and specification-side descriptions used in the statements -/

/-- What a call of the dispatcher may do to a block: its description (slave address, kind,
first address, size, callback) stays as it is, and an update flag that is set stays set. -/
def blockStep (b b' : modbusBlockDef) : Prop :=
  b'.bytSlaveAddress = b.bytSlaveAddress ∧ b'.eType = b.eType
  ∧ b'.uintAddress = b.uintAddress ∧ b'.uintTotal = b.uintTotal
  ∧ b'.pCallback = b.pCallback ∧ (b.blnUpdate = true → b'.blnUpdate = true)

/-- Registry `r'` holds the same nodes as `r`, each related to its former content by
blockStep, and every node other than the one at position `p` is unchanged. -/
def regsStep (p : Option (ListHead × Nat)) (r r' : Registry) : Prop :=
  ∀ k, (r'.get k).length = (r.get k).length
    ∧ ∀ j b, (r.get k)[j]? = some b →
        ∃ b', (r'.get k)[j]? = some b' ∧ blockStep b b' ∧ (p ≠ some (k, j) → b' = b)

/-- The calls the specification prescribes for a sequence of blocks: the dirty blocks that
have a callback, in that order, each once with the block itself as argument. -/
def dirtyCallbacks (l : List modbusBlockDef) : List (Nat × modbusBlockDef) :=
  l.filterMap (fun b => if b.blnUpdate = true then b.pCallback.map (fun f => (f, b)) else none)

/-- A block after servicing as the specification prescribes: a dirty block is handed to its
callback when it has one and is cleared; a block that is not dirty is left alone. -/
def servicedBlock (effect : Nat → modbusBlockDef → modbusBlockDef) (b : modbusBlockDef) :
    modbusBlockDef :=
  if b.blnUpdate = true then
    match b.pCallback with
    | some f => { effect f b with blnUpdate := false }
    | none => { b with blnUpdate := false }
  else b

/-! ## Further examples -/

/-- Example registry: one coil block, addresses 1 to 16, and one holding-register block,
addresses 1 to 10. -/
def regsCoilsAndHolding : Registry :=
  { Registry.empty with
    pCoils := [blockOf COILS 1 16 (rampData 0)],
    pHoldingRegs := [blockOf HOLDING_REGISTERS 1 10 (rampData 0x1100)] }

/-- Example callback effect: the callback copies item 0 of the block to item 1. -/
def copyItemEffect (_f : Nat) (b : modbusBlockDef) : modbusBlockDef :=
  { b with paryData := store b.paryData 1 (b.paryData 0) }

/-- Example registry: a dirty holding-register block with callback 7, a dirty coil block
without callback, and a clean input-register block with callback 9. -/
def regsDirty : Registry :=
  { Registry.empty with
    pHoldingRegs := [{ blockOf HOLDING_REGISTERS 1 10 (rampData 0x1100) with
                       blnUpdate := true, pCallback := some 7 }],
    pCoils := [{ blockOf COILS 1 16 (rampData 0) with blnUpdate := true }],
    pInputRegs := [{ blockOf INPUT_REGISTERS 1 27 (rampData 0) with pCallback := some 9 }] }

/-! ## Examples for block ownership, lookup and the top of the address space -/

/-- Example registry: one holding-register block, addresses 1 to 10, registered for slave
address 2. -/
def regsForeignOwner : Registry :=
  { Registry.empty with
    pHoldingRegs :=
      [{ blockOf HOLDING_REGISTERS 1 10 (rampData 0x1100) with bytSlaveAddress := 2 }] }

/-- Example registry: one holding-register block, addresses 65526 to 65535, the last
addresses there are. -/
def regsTopHolding : Registry :=
  { Registry.empty with pHoldingRegs := [blockOf HOLDING_REGISTERS 65526 10 (rampData 0x1100)] }

/-- Example registry: one holding-register block of 1000 registers from address 65000 on,
which leaves the 16-bit address space. -/
def regsBeyondTop : Registry :=
  { Registry.empty with pHoldingRegs := [blockOf HOLDING_REGISTERS 65000 1000 (rampData 0)] }

/-- The candidate of the two-step lookup as the specification words it: the first block in
registration order whose first address is not above the start address. -/
def firstCandidate (uintStart : Nat) (l : List modbusBlockDef) : Option modbusBlockDef :=
  l.find? (fun b => decide (b.uintAddress ≤ uintStart))

/-- Example registry: two adjacent holding-register blocks, addresses 1 to 10 and 11 to 20. -/
def regsAdjacentHolding : Registry :=
  { Registry.empty with
    pHoldingRegs := [blockOf HOLDING_REGISTERS 1 10 (rampData 0x1100),
                     blockOf HOLDING_REGISTERS 11 10 (rampData 0x2200)] }

/-! ## The phase gate and the arrival of bytes (ModbusSlave.c) -/

/-- The value the test `if ( bytMbRxphase != 5 ) return;` of decodePacket finds in
bytMbRxphase in a call from state `s`, that is behind the handling of the timer, receive and
transmit events and the step from phase 3 to phase 4; `none` when the call returns before
it reaches the test. -/
def gatePhase (s : State) : Option Nat :=
  let timer := s.TMR0IF_bit
  let s := timerExpiry s
  if timer = true ∧ s.bytMbRxphase.testBit 7 = true then none
  else if s.RCIF_bit = true then
    if s.OERR_bit = true ∨ s.FERR_bit = true then none
    else if s.bytMbRxphase = 0 ∨ s.bytMbRxphase.testBit 2 = true
        ∨ s.bytMbIndex ≥ MAX_PACKET_LENGTH then none
    else
      let phase := if s.bytMbIndex = 0 then 2 else s.bytMbRxphase
      some (if phase = 3 then 4 else phase)
  else if s.bytMbRxphase.testBit 7 = true ∧ s.TXIF_bit = true then none
  else some (if s.bytMbRxphase = 3 then 4 else s.bytMbRxphase)

/-- The receiver hardware delivers byte `b` without overrun or framing error: the byte
waits in RCREG and RCIF is raised. -/
def byteArrival (s : State) (b : Nat) : State := { s with RCIF_bit := true, RCREG := b }

/-- The bytes of a list arrive one after the other, each followed by the call of
decodePacket the interrupt routine makes for it; `none` when a call does not return. -/
def receiveBytes : State → List Nat → Option State
  | s, [] => some s
  | s, b :: rest => (decodePacket (byteArrival s b)).bind (fun t => receiveBytes t rest)

/-! ## Events and runs of the state machine -/

/-- What the hardware shows at a call of decodePacket: the Timer0, receive and transmit
interrupt flags, the received byte and the receive error flags. -/
structure Event where
  /-- Timer0 has expired. -/
  TMR0IF_bit : Bool
  /-- A byte has arrived. -/
  RCIF_bit : Bool
  /-- The byte that has arrived. -/
  RCREG : Nat
  /-- Overrun error. -/
  OERR_bit : Bool
  /-- Framing error. -/
  FERR_bit : Bool
  /-- The transmit register is empty. -/
  TXIF_bit : Bool

/-- The hardware flags of an event put into the state. -/
def raise (s : State) (e : Event) : State :=
  { s with TMR0IF_bit := e.TMR0IF_bit, RCIF_bit := e.RCIF_bit, RCREG := e.RCREG,
           OERR_bit := e.OERR_bit, FERR_bit := e.FERR_bit, TXIF_bit := e.TXIF_bit }

/-- A run: for every event of the list, in order, the hardware raises its flags and the
interrupt routine calls decodePacket; `none` when a call does not return. -/
def runEvents : State → List Event → Option State
  | s, [] => some s
  | s, e :: rest => (decodePacket (raise s e)).bind (fun t => runEvents t rest)

/-- The phase invariant as the specification words it: the phase is one of 0, 1, 2, 4 and
128, and in phases 0 and 1 the fill index is 0. -/
def phaseInvariant (s : State) : Prop :=
  (s.bytMbRxphase = 0 ∨ s.bytMbRxphase = 1 ∨ s.bytMbRxphase = 2 ∨ s.bytMbRxphase = 4
    ∨ s.bytMbRxphase = 128)
  ∧ (s.bytMbRxphase = 0 ∨ s.bytMbRxphase = 1 → s.bytMbIndex = 0)

instance (s : State) : Decidable (phaseInvariant s) := by
  unfold phaseInvariant; infer_instance

/-- The transmit-ready event with nothing else pending: TXREG is empty, the timer has not
expired and no byte has arrived. -/
def txReady : Event :=
  { TMR0IF_bit := false, RCIF_bit := false, RCREG := 0, OERR_bit := false, FERR_bit := false,
    TXIF_bit := true }

/-- Example registry: one holding-register block of 200 registers, addresses 1 to 200. -/
def regsBigHolding : Registry :=
  { Registry.empty with pHoldingRegs := [blockOf HOLDING_REGISTERS 1 200 (rampData 0x1100)] }

/-- The loop `while( uintAddr <= uintEAddr )` of functions 15 and 16 as in writeLoop,
together with the indices of arybytMbBuffer that its passes read, oldest first: every pass
reads `arybytMbBuffer[1]` and `arybytMbBuffer[7 + uintOffset]`, a pass of function 16 also
`arybytMbBuffer[8 + uintOffset]`. The first component is the result of writeLoop. -/
def writeLoopReads (uintEAddr : Nat) : Nat → WriteVars → Option WriteVars × List Nat
  | 0, v => (if v.uintAddr ≤ uintEAddr then none else some v, [])
  | fuel + 1, v =>
    if v.uintAddr ≤ uintEAddr then
      if v.s.arybytMbBuffer 1 = PRESET_MULTIPLE_REGISTERS then
        let r := setRegister v.s v.uintAddr (v.s.arybytMbBuffer (7 + v.uintOffset))
          (v.s.arybytMbBuffer (8 + v.uintOffset))
        if r.2 = false then
          (some { v with s := { r.1 with eMbExceptionCode := ILLEGAL_DATA_ADDRESS } },
           [1, 7 + v.uintOffset, 8 + v.uintOffset])
        else
          let rest := writeLoopReads uintEAddr fuel
            { v with s := r.1, uintOffset := (v.uintOffset + 2) % 65536,
                     uintAddr := (v.uintAddr + 1) % 65536 }
          (rest.1, 1 :: (7 + v.uintOffset) :: (8 + v.uintOffset) :: rest.2)
      else
        let blnState := decide ((v.s.arybytMbBuffer (7 + v.uintOffset) &&& v.bytBit) > 0)
        let r := coilState { v.s with blnState := blnState } v.uintAddr blnState
        if r.2 = false then
          (some { v with s := { r.1 with eMbExceptionCode := ILLEGAL_DATA_ADDRESS } },
           [1, 7 + v.uintOffset])
        else
          let bytBit := (v.bytBit <<< 1) % 256
          let rest := writeLoopReads uintEAddr fuel
            { s := r.1, bytBit := if bytBit = 0 then 1 else bytBit,
              uintOffset := if bytBit = 0 then (v.uintOffset + 1) % 65536 else v.uintOffset,
              uintAddr := (v.uintAddr + 1) % 65536 }
          (rest.1, 1 :: (7 + v.uintOffset) :: rest.2)
    else (some v, [])

/-! ## Calls that keep inside the session buffer -/

/-- This call of decodePacket hands the buffered frame to the dispatcher: the phase gate is
passed with no byte waiting, the frame is addressed to this slave and longer than three
bytes, and its CRC matches. -/
def entersDispatcher (s : State) : Prop :=
  FrameReady s ∧ s.bytMbSlaveAddress = s.arybytMbBuffer 0 ∧ s.bytMbIndex > 3
  ∧ Lo (calcCRC s.arybytMbBuffer (s.bytMbIndex - 2)) = s.arybytMbBuffer (s.bytMbIndex - 2)
  ∧ Hi (calcCRC s.arybytMbBuffer (s.bytMbIndex - 2)) = s.arybytMbBuffer (s.bytMbIndex - 2 + 1)

instance (s : State) : Decidable (entersDispatcher s) := by
  unfold entersDispatcher; infer_instance

/-- A read request that this call hands to the dispatcher keeps to the ceilings modbus.h
names, MAX_DISCRETES_IN_1_AND_2 for functions 1 and 2 and MAX_REGISTERS_IN_3_AND_4 for
functions 3 and 4. decodePacket makes no such comparison; the packers store the answer from
`arybytMbBuffer[3]` on, and only for such quantities is it certain to end inside the 256
bytes of the array. -/
def readWithinCeiling (s : State) : Prop :=
  entersDispatcher s →
    ((s.arybytMbBuffer 1 = READ_COILS ∨ s.arybytMbBuffer 1 = READ_STATUS_INPUTS) →
      word (s.arybytMbBuffer 4) (s.arybytMbBuffer 5) ≤ MAX_DISCRETES_IN_1_AND_2)
    ∧ ((s.arybytMbBuffer 1 = READ_HOLDING_REGISTERS
          ∨ s.arybytMbBuffer 1 = READ_INPUT_REGISTERS) →
      word (s.arybytMbBuffer 4) (s.arybytMbBuffer 5) ≤ MAX_REGISTERS_IN_3_AND_4)

instance (s : State) : Decidable (readWithinCeiling s) := by
  unfold readWithinCeiling; infer_instance

/-- Every call of a run keeps to the read ceilings: whenever the calls for the first `j`
events have returned, the call for the next event satisfies readWithinCeiling. -/
def runWithinCeiling (s : State) (events : List Event) : Prop :=
  ∀ j, j < events.length → ∀ u ∈ runEvents s (events.take j), ∀ e ∈ events[j]?,
    readWithinCeiling (raise u e)

instance (s : State) (events : List Event) : Decidable (runWithinCeiling s events) := by
  unfold runWithinCeiling; infer_instance

/-! ## Theorems -/

set_option maxRecDepth 100000

/-! ### CRC engine -/

theorem xor_bytes (a b c d : Nat) (hb : b < 256) (hd : d < 256) :
    (a * 256 + b) ^^^ (c * 256 + d) = (a ^^^ c) * 256 + (b ^^^ d) := by
  have hx : b ^^^ d < 2 ^ 8 := Nat.xor_lt_two_pow (n := 8) (by omega) (by omega)
  apply Nat.eq_of_testBit_eq
  intro i
  have e1 : a * 256 + b = 2 ^ 8 * a + b := by omega
  have e2 : c * 256 + d = 2 ^ 8 * c + d := by omega
  have e3 : (a ^^^ c) * 256 + (b ^^^ d) = 2 ^ 8 * (a ^^^ c) + (b ^^^ d) := by omega
  rw [e1, e2, e3, Nat.testBit_xor,
    Nat.testBit_mul_pow_two_add a (i := 8) (by omega) i,
    Nat.testBit_mul_pow_two_add c (i := 8) (by omega) i,
    Nat.testBit_mul_pow_two_add (a ^^^ c) hx i]
  by_cases h : i < 8 <;> simp [h]

theorem MBgetCRC2_pass_spec (r0 r1 : Nat) (h0 : r0 < 256) (h1 : r1 < 256) :
    (MBgetCRC2_pass (r0, r1)).1 < 256 ∧ (MBgetCRC2_pass (r0, r1)).2 < 256 ∧
    (MBgetCRC2_pass (r0, r1)).2 * 256 + (MBgetCRC2_pass (r0, r1)).1
      = crc16ShiftStep (r1 * 256 + r0) := by
  have hA : (r1 / 2) ^^^ 0xA0 < 2 ^ 8 := Nat.xor_lt_two_pow (n := 8) (by omega) (by omega)
  have hv : (r1 * 256 + r0) / 2
      = (r1 / 2) * 256 + ((if r1 % 2 = 1 then 128 else 0) + r0 / 2) := by
    split <;> omega
  have hm : (r1 * 256 + r0) % 2 = r0 % 2 := by omega
  have hlo : (if r1 % 2 = 1 then 128 else 0) + r0 / 2 < 256 := by split <;> omega
  have hB : ((if r1 % 2 = 1 then 128 else 0) + r0 / 2) ^^^ 0x01 < 2 ^ 8 :=
    Nat.xor_lt_two_pow (n := 8) (by omega) (by omega)
  unfold MBgetCRC2_pass crc16ShiftStep rrcf
  simp only [hm, hv]
  by_cases c0 : r0 % 2 = 1
  · simp only [c0, decide_True, if_true, Bool.false_eq_true, if_false, Nat.zero_add]
    have := xor_bytes (r1 / 2) ((if r1 % 2 = 1 then 128 else 0) + r0 / 2) 0xA0 0x01 hlo
      (by omega)
    simp only [decide_eq_true_eq]
    refine ⟨by omega, by omega, ?_⟩
    rw [show (40961 : Nat) = 0xA0 * 256 + 0x01 from rfl, this]
  · simp only [c0, decide_False, if_false, Bool.false_eq_true, Nat.zero_add,
      decide_eq_true_eq]
    exact ⟨hlo, by omega, trivial⟩

theorem MBgetCRC2_spec (n : Nat) : ∀ (r0 r1 : Nat), r0 < 256 → r1 < 256 →
    (MBgetCRC2 n (r0, r1)).1 < 256 ∧ (MBgetCRC2 n (r0, r1)).2 < 256 ∧
    (MBgetCRC2 n (r0, r1)).2 * 256 + (MBgetCRC2 n (r0, r1)).1
      = crc16ShiftStep^[n] (r1 * 256 + r0) := by
  induction n with
  | zero => intro r0 r1 h0 h1; exact ⟨h0, h1, rfl⟩
  | succ n ih =>
    intro r0 r1 h0 h1
    obtain ⟨p0, p1, pe⟩ := MBgetCRC2_pass_spec r0 r1 h0 h1
    have := ih (MBgetCRC2_pass (r0, r1)).1 (MBgetCRC2_pass (r0, r1)).2 p0 p1
    simp only [MBgetCRC2, Function.iterate_succ_apply]
    rw [← pe]
    exact this

theorem MBgetCRC1_spec (buf : Nat → Nat) (n : Nat) :
    ∀ (i r0 r1 : Nat), r0 < 256 → r1 < 256 →
    (MBgetCRC1 buf n i (r0, r1)).2 * 256 + (MBgetCRC1 buf n i (r0, r1)).1
      = ((List.range' i n).map (fun j => buf j % 256)).foldl crc16ByteStep (r1 * 256 + r0) := by
  induction n with
  | zero => intro i r0 r1 _ _; rfl
  | succ n ih =>
    intro i r0 r1 h0 h1
    have hw : buf i % 256 < 256 := Nat.mod_lt _ (by decide)
    have hx : r0 ^^^ (buf i % 256) < 2 ^ 8 := Nat.xor_lt_two_pow (n := 8) (by omega) (by omega)
    obtain ⟨p0, p1, pe⟩ := MBgetCRC2_spec 8 (r0 ^^^ (buf i % 256)) r1 (by omega) h1
    have hb : (r1 * 256 + r0) ^^^ (buf i % 256) = r1 * 256 + (r0 ^^^ (buf i % 256)) := by
      have := xor_bytes r1 r0 0 (buf i % 256) h0 hw
      simpa using this
    have hd : decfszPasses 8 = 8 := by decide
    simp only [MBgetCRC1, List.range'_succ, List.map_cons, List.foldl_cons, hd]
    rw [ih (i + 1) _ _ p0 p1, pe]
    simp only [crc16ByteStep, hb]

theorem decfszPasses_eq (n : Nat) (h1 : 1 ≤ n) (h2 : n ≤ 255) : decfszPasses n = n := by
  unfold decfszPasses
  rw [Nat.mod_eq_of_lt (by omega)]
  simp; omega

theorem calcCRC_eq_crc16 (buf : Nat → Nat) (n : Nat) (h1 : 1 ≤ n) (h2 : n ≤ 255) :
    calcCRC buf n = crc16 (bufferBytes buf n) := by
  unfold calcCRC crc16 bufferBytes
  simp only [decfszPasses_eq n h1 h2]
  rw [MBgetCRC1_spec buf n 0 0xFF 0xFF (by decide) (by decide), List.range_eq_range']

theorem MBgetCRC1_congr (buf1 buf2 : Nat → Nat) (n : Nat) :
    ∀ (i : Nat) (r : Nat × Nat), (∀ j, i ≤ j → j < i + n → buf1 j % 256 = buf2 j % 256) →
    MBgetCRC1 buf1 n i r = MBgetCRC1 buf2 n i r := by
  induction n with
  | zero => intro i r _; rfl
  | succ n ih =>
    intro i r h
    simp only [MBgetCRC1]
    rw [h i (Nat.le_refl i) (by omega)]
    exact ih (i + 1) _ (fun j h1 h2 => h j (by omega) (by omega))

theorem calcCRC_congr (buf1 buf2 : Nat → Nat) (n : Nat)
    (h : ∀ j, j < decfszPasses n → buf1 j % 256 = buf2 j % 256) :
    calcCRC buf1 n = calcCRC buf2 n := by
  unfold calcCRC
  rw [MBgetCRC1_congr buf1 buf2 (decfszPasses n) 0 _ (fun j _ h2 => h j (by omega))]

/-- C1: for every buffer content and every length n with 1 <= n <= 255, calcCRC over the
first n buffer bytes is the CRC-16/Modbus value of those bytes as the specification words
it (seed 0xFFFF, per byte an XOR into the low 8 bits and 8 right shifts, each followed by an
XOR with 0xA001 when the bit shifted out was 1, no final XOR). -/
theorem calcCRC_is_crc16_modbus (arybytMbBuffer : Nat → Nat) (n : Nat)
    (h1 : 1 ≤ n) (h2 : n ≤ 255) :
    calcCRC arybytMbBuffer n = crc16 (bufferBytes arybytMbBuffer n) :=
  calcCRC_eq_crc16 arybytMbBuffer n h1 h2

theorem calcCRC_is_crc16_modbus_witness :
    (1 ≤ 6 ∧ 6 ≤ 255) ∧
    calcCRC (bufferOf [0x01, 0x03, 0x00, 0x00, 0x00, 0x01, 0x84, 0x0A]) 6
      = crc16 (bufferBytes (bufferOf [0x01, 0x03, 0x00, 0x00, 0x00, 0x01, 0x84, 0x0A]) 6) :=
  ⟨by decide, calcCRC_is_crc16_modbus _ 6 (by decide) (by decide)⟩

/-- C2: calcCRC is a function of the length and of the buffer bytes below the length alone
(two buffers that agree on the n bytes used give the same value), and for the 6-byte message
01 03 00 00 00 01 it returns 0x0A84, low byte 0x84 and high byte 0x0A. -/
theorem calcCRC_deterministic_known_vector :
    (∀ (buf1 buf2 : Nat → Nat) (n : Nat), 1 ≤ n → n ≤ 255 →
        (∀ j, j < n → buf1 j % 256 = buf2 j % 256) → calcCRC buf1 n = calcCRC buf2 n)
    ∧ calcCRC (bufferOf [0x01, 0x03, 0x00, 0x00, 0x00, 0x01]) 6 = 0x0A84
    ∧ Lo 0x0A84 = 0x84 ∧ Hi 0x0A84 = 0x0A := by
  refine ⟨?_, by decide, by decide, by decide⟩
  intro buf1 buf2 n h1 h2 h
  exact calcCRC_congr buf1 buf2 n (by rw [decfszPasses_eq n h1 h2]; exact h)

theorem calcCRC_deterministic_known_vector_witness :
    (∀ j, j < 6 → bufferOf [0x01, 0x03, 0x00, 0x00, 0x00, 0x01] j % 256
        = bufferOf [0x01, 0x03, 0x00, 0x00, 0x00, 0x01, 0x84, 0x0A, 0x55] j % 256)
    ∧ calcCRC (bufferOf [0x01, 0x03, 0x00, 0x00, 0x00, 0x01]) 6
        = calcCRC (bufferOf [0x01, 0x03, 0x00, 0x00, 0x00, 0x01, 0x84, 0x0A, 0x55]) 6 :=
  ⟨by decide,
   calcCRC_deterministic_known_vector.1 _ _ 6 (by decide) (by decide) (by decide)⟩

/-! ### Block registry -/

theorem Registry.get_set_same (regs : Registry) (h : ListHead) (l : List modbusBlockDef) :
    (regs.set h l).get h = l := by
  cases h <;> rfl

theorem Registry.get_set_other (regs : Registry) (h k : ListHead) (l : List modbusBlockDef)
    (hk : k ≠ h) : (regs.set h l).get k = regs.get k := by
  cases h <;> cases k <;> first | rfl | exact absurd rfl hk

theorem rangesOverlap_iff_shared (a1 t1 a2 t2 : Nat) (h1 : 1 ≤ t1) (h2 : 1 ≤ t2) :
    rangesOverlap a1 t1 a2 t2 ↔ ∃ x, (a1 ≤ x ∧ x < a1 + t1) ∧ (a2 ≤ x ∧ x < a2 + t2) := by
  unfold rangesOverlap
  constructor
  · intro h
    by_cases hc : a2 ≤ a1
    · exact ⟨a1, ⟨Nat.le_refl _, by omega⟩, ⟨hc, h.1⟩⟩
    · exact ⟨a2, ⟨by omega, h.2⟩, ⟨Nat.le_refl _, by omega⟩⟩
  · rintro ⟨x, ⟨h3, h4⟩, ⟨h5, h6⟩⟩
    exact ⟨by omega, by omega⟩

theorem addressInUse_false (u t : Nat) (hu : u < 65536) (ht : 1 ≤ t) :
    ∀ (l : List modbusBlockDef), (∀ b ∈ l, blockOK b) →
      (∀ b ∈ l, ¬ rangesOverlap u t b.uintAddress b.uintTotal) → addressInUse u l = false
  | [], _, _ => rfl
  | [_], _, _ => rfl
  | b :: c :: rest, hOK, hno => by
    have hb := hOK b (List.mem_cons_self _ _)
    have hn := hno b (List.mem_cons_self _ _)
    unfold blockOK at hb
    unfold rangesOverlap at hn
    have ih := addressInUse_false u t hu ht (c :: rest)
      (fun x hx => hOK x (List.mem_cons_of_mem _ hx))
      (fun x hx => hno x (List.mem_cons_of_mem _ hx))
    unfold addressInUse
    rw [if_neg (by omega)]
    exact ih

theorem addModbusBlock_keeps_blockOK (regs : Registry) (bytSlaveAddress eType : Nat)
    (pBlock : Option modbusBlockDef) (uintAddress uintTotal : Nat)
    (paryData : Option (Nat → Nat)) (pCallback : Option Nat)
    (hu : uintAddress < 65536) (ht : uintTotal < 65536)
    (hOK : ∀ k, ∀ b ∈ regs.get k, blockOK b) :
    ∀ k, ∀ b ∈ (addModbusBlock regs bytSlaveAddress eType pBlock uintAddress uintTotal
      paryData pCallback).regs.get k, blockOK b := by
  intro k b
  unfold addModbusBlock
  split
  · exact hOK k b
  · split
    · rename_i blk data
      split
      · exact hOK k b
      · rename_i hz
        split
        · exact hOK k b
        · rename_i pLL _
          have hnew : ∀ (nb : modbusBlockDef), nb.uintAddress = uintAddress →
              nb.uintTotal = uintTotal → ∀ x, x ∈ regs.get pLL ++ [nb] → blockOK x := by
            intro nb h1 h2 x hx
            rcases List.mem_append.mp hx with h | h
            · exact hOK pLL x h
            · have : x = nb := List.mem_singleton.mp h
              subst this
              unfold blockOK
              omega
          split
          · rename_i hl
            intro hb
            by_cases hk : k = pLL
            · subst hk
              rw [Registry.get_set_same] at hb
              exact hnew _ rfl rfl b (by rw [hl]; simpa using hb)
            · rw [Registry.get_set_other _ _ _ _ hk] at hb
              exact hOK k b hb
          · rename_i first rest hl
            split
            · exact hOK k b
            · intro hb
              by_cases hk : k = pLL
              · subst hk
                rw [Registry.get_set_same] at hb
                exact hnew _ rfl rfl b (by rw [hl]; exact hb)
              · rw [Registry.get_set_other _ _ _ _ hk] at hb
                exact hOK k b hb
    · exact hOK k b
/-- C3 (the code departs from the claim): with one coil block registered at addresses 1 to
8, registering a second coil block at the same addresses 1 to 8 does not return FALSE and
links the second block behind the first, so the coil list then holds two blocks with the
same range. -/
theorem addModbusBlock_accepts_overlap_with_last_block :
    (addModbusBlock regsOneCoilBlock 1 COILS (some (blockOf 0 0 0 (rampData 0))) 1 8
        (some (rampData 0)) none).ret ≠ some false
    ∧ (addModbusBlock regsOneCoilBlock 1 COILS (some (blockOf 0 0 0 (rampData 0))) 1 8
        (some (rampData 0)) none).regs.pCoils.map (fun b => (b.uintAddress, b.uintTotal))
      = [(1, 8), (1, 8)]
    ∧ rangesOverlap 1 8 1 8 := by
  decide

/-- C4: addModbusBlock returns FALSE and leaves the four lists and the passed block as they
were whenever the slave address is outside 1..247, the start address is 0, the total is 0,
the data pointer is NULL, the block pointer is NULL, or the type is none of the four. -/
theorem addModbusBlock_rejects_invalid_arguments (regs : Registry)
    (bytSlaveAddress eType : Nat) (pBlock : Option modbusBlockDef)
    (uintAddress uintTotal : Nat) (paryData : Option (Nat → Nat)) (pCallback : Option Nat)
    (h : bytSlaveAddress < 1 ∨ bytSlaveAddress > 247 ∨ uintAddress = 0 ∨ uintTotal = 0
      ∨ paryData.isNone = true ∨ pBlock.isNone = true
      ∨ (eType ≠ COILS ∧ eType ≠ STATUS_INPUTS ∧ eType ≠ HOLDING_REGISTERS
          ∧ eType ≠ INPUT_REGISTERS)) :
    addModbusBlock regs bytSlaveAddress eType pBlock uintAddress uintTotal paryData pCallback
      = { ret := some false, regs := regs, pBlock := pBlock } := by
  unfold addModbusBlock
  by_cases ha : bytSlaveAddress < 1 ∨ bytSlaveAddress > 247
  · rw [if_pos ha]
  · rw [if_neg ha]
    cases pBlock with
    | none => rfl
    | some blk =>
      cases paryData with
      | none => rfl
      | some data =>
        by_cases hz : uintAddress = 0 ∨ uintTotal = 0
        · simp only [if_pos hz]
        · have hk : selectList eType = none := by
            have : eType ≠ COILS ∧ eType ≠ STATUS_INPUTS ∧ eType ≠ HOLDING_REGISTERS
                ∧ eType ≠ INPUT_REGISTERS := by
              rcases h with h | h | h | h | h | h | h
              · exact absurd (Or.inl h) ha
              · exact absurd (Or.inr h) ha
              · exact absurd (Or.inl h) hz
              · exact absurd (Or.inr h) hz
              · simp at h
              · simp at h
              · exact h
            unfold selectList
            simp [this.1, this.2.1, this.2.2.1, this.2.2.2]
          simp only [if_neg hz, hk]

theorem addModbusBlock_rejects_invalid_arguments_witness :
    (0 < 1 ∨ 0 > 247 ∨ 1 = 0 ∨ 8 = 0
      ∨ (some (rampData 0)).isNone = true ∨ (some (blockOf 0 0 0 (rampData 0))).isNone = true
      ∨ (COILS ≠ COILS ∧ COILS ≠ STATUS_INPUTS ∧ COILS ≠ HOLDING_REGISTERS
          ∧ COILS ≠ INPUT_REGISTERS))
    ∧ addModbusBlock regsOneCoilBlock 0 COILS (some (blockOf 0 0 0 (rampData 0))) 1 8
        (some (rampData 0)) none
      = { ret := some false, regs := regsOneCoilBlock,
          pBlock := some (blockOf 0 0 0 (rampData 0)) } :=
  ⟨by decide,
   addModbusBlock_rejects_invalid_arguments regsOneCoilBlock 0 COILS
     (some (blockOf 0 0 0 (rampData 0))) 1 8 (some (rampData 0)) none (by decide)⟩

/-- C5: for a registry of registered blocks and a valid block whose range shares no address
with a block already in the list of its kind, addModbusBlock links the block at the end of
that list: the earlier blocks stay as they were, in order, and are followed by the new block
holding the given slave address, type, start address, total, data and callback; the other
three lists are unchanged, and the call does not return FALSE. -/
theorem addModbusBlock_appends (regs : Registry) (bytSlaveAddress eType : Nat)
    (blk : modbusBlockDef) (uintAddress uintTotal : Nat) (data : Nat → Nat)
    (pCallback : Option Nat) (pLL : ListHead)
    (ha : 1 ≤ bytSlaveAddress ∧ bytSlaveAddress ≤ 247)
    (hu : 1 ≤ uintAddress ∧ uintAddress < 65536)
    (ht : 1 ≤ uintTotal ∧ uintTotal < 65536)
    (hk : selectList eType = some pLL)
    (hOK : ∀ b ∈ regs.get pLL, blockOK b)
    (hno : ∀ b ∈ regs.get pLL, ¬ rangesOverlap uintAddress uintTotal b.uintAddress b.uintTotal) :
    (addModbusBlock regs bytSlaveAddress eType (some blk) uintAddress uintTotal (some data)
        pCallback).regs.get pLL
      = regs.get pLL ++ [{ bytSlaveAddress := bytSlaveAddress, eType := eType,
                           uintAddress := uintAddress, uintTotal := uintTotal,
                           paryData := data, blnUpdate := blk.blnUpdate,
                           pCallback := pCallback }]
    ∧ (∀ k, k ≠ pLL →
        (addModbusBlock regs bytSlaveAddress eType (some blk) uintAddress uintTotal (some data)
          pCallback).regs.get k = regs.get k)
    ∧ (addModbusBlock regs bytSlaveAddress eType (some blk) uintAddress uintTotal (some data)
        pCallback).ret ≠ some false := by
  have hscan := addressInUse_false uintAddress uintTotal hu.2 ht.1 (regs.get pLL) hOK hno
  unfold addModbusBlock
  rw [if_neg (by omega)]
  simp only [if_neg (show ¬(uintAddress = 0 ∨ uintTotal = 0) by omega), hk]
  cases hl : regs.get pLL with
  | nil =>
    refine ⟨?_, ?_, ?_⟩
    · simp [Registry.get_set_same]
    · intro k hkne
      simp [Registry.get_set_other _ _ _ _ hkne]
    · simp
  | cons first rest =>
    rw [hl] at hscan
    simp only [hscan]
    refine ⟨?_, ?_, ?_⟩
    · simp [Registry.get_set_same]
    · intro k hkne
      simp [Registry.get_set_other _ _ _ _ hkne]
    · simp

theorem addModbusBlock_appends_witness :
    ((1 ≤ 1 ∧ 1 ≤ 247) ∧ (1 ≤ 9 ∧ 9 < 65536) ∧ (1 ≤ 8 ∧ 8 < 65536))
    ∧ (addModbusBlock regsOneCoilBlock 1 COILS (blockOf 0 0 0 (rampData 0)) 9 8
        (rampData 7) none).regs.get .pCoils
      = regsOneCoilBlock.get .pCoils ++ [{ bytSlaveAddress := 1, eType := COILS,
                                           uintAddress := 9, uintTotal := 8,
                                           paryData := rampData 7, blnUpdate := false,
                                           pCallback := none }] :=
  ⟨by decide,
   (addModbusBlock_appends regsOneCoilBlock 1 COILS (blockOf 0 0 0 (rampData 0)) 9 8
      (rampData 7) none .pCoils (by decide) (by decide) (by decide) (by decide)
      (by decide) (by decide)).1⟩

/-- C6 (the code departs from the claim): addModbusBlock has no statement that returns TRUE.
The first registration of the firmware (slave 1, status inputs, addresses 1 to 8) links the
block into the list and then reaches the end of the function without a return value; no
call at all returns TRUE. -/
theorem addModbusBlock_never_returns_TRUE :
    ((addModbusBlock Registry.empty 1 STATUS_INPUTS (some (blockOf 0 0 0 (rampData 0))) 1 8
        (some (rampData 0)) none).ret = none
      ∧ (addModbusBlock Registry.empty 1 STATUS_INPUTS (some (blockOf 0 0 0 (rampData 0))) 1 8
          (some (rampData 0)) none).regs.pStatusBits.length = 1)
    ∧ ∀ (regs : Registry) (bytSlaveAddress eType : Nat) (pBlock : Option modbusBlockDef)
        (uintAddress uintTotal : Nat) (paryData : Option (Nat → Nat))
        (pCallback : Option Nat),
        (addModbusBlock regs bytSlaveAddress eType pBlock uintAddress uintTotal paryData
          pCallback).ret ≠ some true := by
  refine ⟨by decide, ?_⟩
  intro regs a e pBlock u t data cb
  unfold addModbusBlock
  split
  · simp
  · split
    · split
      · simp
      · split
        · simp
        · split
          · simp
          · split <;> simp
    · simp

/-! ### Dispatcher: frames that get no answer -/

theorem timerExpiry_phase (s : State) (hr : FrameReady s) :
    (timerExpiry s).bytMbRxphase = 5 := by
  unfold FrameReady at hr
  unfold timerExpiry
  by_cases ht : s.TMR0IF_bit = true
  · simp only [ht, if_true] at hr ⊢
    exact hr.2
  · simp only [ht, if_false] at hr ⊢
    exact hr.2

theorem timerExpiry_fields (s : State) :
    (timerExpiry s).regs = s.regs ∧ (timerExpiry s).TXREG = s.TXREG
    ∧ (timerExpiry s).TXEN_bit = s.TXEN_bit ∧ (timerExpiry s).TXIE_bit = s.TXIE_bit
    ∧ (timerExpiry s).RCIF_bit = s.RCIF_bit
    ∧ (timerExpiry s).arybytMbBuffer = s.arybytMbBuffer
    ∧ (timerExpiry s).bytMbIndex = s.bytMbIndex
    ∧ (timerExpiry s).bytMbSlaveAddress = s.bytMbSlaveAddress
    ∧ (timerExpiry s).eMbExceptionCode = s.eMbExceptionCode
    ∧ (timerExpiry s).blnState = s.blnState := by
  unfold timerExpiry
  split <;> simp

theorem decodePacket_of_frameReady (s : State) (hr : FrameReady s) :
    decodePacket s = frameReady (timerExpiry s) := by
  have hp := timerExpiry_phase s hr
  have hf := timerExpiry_fields s
  have h7 : (timerExpiry s).bytMbRxphase.testBit 7 = false := by rw [hp]; decide
  have hrc : (timerExpiry s).RCIF_bit = false := by rw [hf.2.2.2.2.1]; exact hr.1
  unfold decodePacket
  simp only [h7, hrc, Bool.false_eq_true, and_false, false_and, if_false]
  unfold afterEvents
  simp [hp]

theorem noAnswer_fields (s : State) :
    (noAnswer s).regs = s.regs ∧ (noAnswer s).TXREG = s.TXREG
    ∧ (noAnswer s).TXEN_bit = s.TXEN_bit ∧ (noAnswer s).TXIE_bit = s.TXIE_bit
    ∧ (noAnswer s).bytMbRxphase.testBit 7 = false := by
  unfold noAnswer
  refine ⟨rfl, rfl, rfl, rfl, ?_⟩
  show Nat.testBit 1 7 = false
  decide

/-- C9: for a buffered frame of more than 3 bytes addressed to this slave whose last two
bytes are not the low byte and then the high byte of crc16 over the bytes before them,
decodePacket in FrameReady returns without writing to TXREG, without enabling the
transmitter or the transmit interrupt, not in the transmitting phase, and with every block
of every list (storage and update flag) as it was. -/
theorem decodePacket_drops_bad_crc (s : State) (hr : FrameReady s)
    (haddr : s.arybytMbBuffer 0 = s.bytMbSlaveAddress)
    (hlen : 3 < s.bytMbIndex ∧ s.bytMbIndex < 256)
    (hcrc : ¬ (s.arybytMbBuffer (s.bytMbIndex - 2)
                = Lo (crc16 (bufferBytes s.arybytMbBuffer (s.bytMbIndex - 2)))
              ∧ s.arybytMbBuffer (s.bytMbIndex - 1)
                = Hi (crc16 (bufferBytes s.arybytMbBuffer (s.bytMbIndex - 2))))) :
    ∃ s', decodePacket s = some s' ∧ s'.TXREG = s.TXREG ∧ s'.TXEN_bit = s.TXEN_bit
      ∧ s'.TXIE_bit = s.TXIE_bit ∧ s'.bytMbRxphase.testBit 7 = false ∧ s'.regs = s.regs := by
  have hf := timerExpiry_fields s
  obtain ⟨f1, f2, f3, f4, -, f6, f7, f8, -, -⟩ := hf
  rw [decodePacket_of_frameReady s hr]
  have hc := calcCRC_eq_crc16 s.arybytMbBuffer (s.bytMbIndex - 2) (by omega) (by omega)
  have h1 : s.bytMbIndex - 2 + 1 = s.bytMbIndex - 1 := by omega
  unfold frameReady
  simp only [f6, f7, f8, haddr, true_and, if_pos hlen.1, hc, h1]
  rw [if_neg (fun h => hcrc ⟨h.1.symm, h.2.symm⟩)]
  refine ⟨_, rfl, ?_⟩
  simp only [noAnswer, f1, f2, f3, f4, true_and]
  decide

theorem decodePacket_drops_bad_crc_witness :
    (FrameReady (sessionState regsTwoHolding 1
        (bufferOf [0x01, 0x06, 0x00, 0x00, 0x00, 0x05, 0x49, 0xC8]) 8 5)
      ∧ (3 < 8 ∧ 8 < 256))
    ∧ ∃ s', decodePacket (sessionState regsTwoHolding 1
          (bufferOf [0x01, 0x06, 0x00, 0x00, 0x00, 0x05, 0x49, 0xC8]) 8 5) = some s'
        ∧ s'.TXREG = [] ∧ s'.TXEN_bit = false ∧ s'.TXIE_bit = false
        ∧ s'.bytMbRxphase.testBit 7 = false ∧ s'.regs = regsTwoHolding :=
  ⟨by decide,
   decodePacket_drops_bad_crc
     (sessionState regsTwoHolding 1 (bufferOf [0x01, 0x06, 0x00, 0x00, 0x00, 0x05, 0x49, 0xC8])
       8 5)
     (by decide) (by decide) (by decide) (by decide)⟩

/-- C10: for a buffered frame whose address byte differs from the slave address, or whose
length is at most 3 bytes, decodePacket in FrameReady returns without writing to TXREG,
without enabling the transmitter or the transmit interrupt, not in the transmitting phase,
and with every block of every list (storage and update flag) as it was, whatever else the
frame holds. -/
theorem decodePacket_ignores_foreign_or_short (s : State) (hr : FrameReady s)
    (h : s.arybytMbBuffer 0 ≠ s.bytMbSlaveAddress ∨ s.bytMbIndex ≤ 3) :
    ∃ s', decodePacket s = some s' ∧ s'.TXREG = s.TXREG ∧ s'.TXEN_bit = s.TXEN_bit
      ∧ s'.TXIE_bit = s.TXIE_bit ∧ s'.bytMbRxphase.testBit 7 = false ∧ s'.regs = s.regs := by
  obtain ⟨f1, f2, f3, f4, -, f6, f7, f8, -, -⟩ := timerExpiry_fields s
  rw [decodePacket_of_frameReady s hr]
  unfold frameReady
  rw [if_neg (by rw [f6, f7, f8]; intro hc; rcases h with h | h
                 · exact h hc.1.symm
                 · omega)]
  refine ⟨_, rfl, ?_⟩
  simp only [noAnswer, f1, f2, f3, f4, true_and]
  decide

theorem decodePacket_ignores_foreign_or_short_witness :
    (FrameReady (sessionState regsTwoHolding 1
        (bufferOf [0x02, 0x06, 0x00, 0x00, 0x00, 0x05, 0x49, 0xFA]) 8 5)
      ∧ (bufferOf [0x02, 0x06, 0x00, 0x00, 0x00, 0x05, 0x49, 0xFA] 0 ≠ 1 ∨ 8 ≤ 3))
    ∧ ∃ s', decodePacket (sessionState regsTwoHolding 1
          (bufferOf [0x02, 0x06, 0x00, 0x00, 0x00, 0x05, 0x49, 0xFA]) 8 5) = some s'
        ∧ s'.TXREG = [] ∧ s'.TXEN_bit = false ∧ s'.TXIE_bit = false
        ∧ s'.bytMbRxphase.testBit 7 = false ∧ s'.regs = regsTwoHolding :=
  ⟨by decide,
   decodePacket_ignores_foreign_or_short
     (sessionState regsTwoHolding 1 (bufferOf [0x02, 0x06, 0x00, 0x00, 0x00, 0x05, 0x49, 0xFA])
       8 5)
     (by decide) (by decide)⟩

/-! ### packBits -/

@[simp] theorem store_same (mem : Nat → Nat) (i v : Nat) : store mem i v i = v := by
  simp [store]

theorem store_other (mem : Nat → Nat) (i v j : Nat) (h : j ≠ i) : store mem i v j = mem j := by
  simp [store, h]

theorem shl_mask (r : Nat) (hr : r < 8) :
    (2 ^ r <<< 1) % 256 = if r = 7 then 0 else 2 ^ (r + 1) := by
  interval_cases r <;> decide

theorem and_mask_ne_zero (x r : Nat) : (x &&& 2 ^ r ≠ 0) ↔ x.testBit r = true := by
  constructor
  · intro h
    by_contra hc
    apply h
    apply Nat.eq_of_testBit_eq
    intro i
    rw [Nat.testBit_and, Nat.testBit_two_pow, Nat.zero_testBit]
    by_cases hi : r = i
    · subst hi; simp [hc]
    · simp [hi]
  · intro h h0
    have : (x &&& 2 ^ r).testBit r = true := by
      rw [Nat.testBit_and, h, Nat.testBit_two_pow_self]; rfl
    rw [h0, Nat.zero_testBit] at this
    exact Bool.false_ne_true this

theorem packBitsPass_mem (data : Nat → Nat) (v : PackBitsVars) (x : Nat) :
    (packBitsPass data v).mem x =
      if (v.respBit <<< 1) % 256 = 0 ∧ x = v.pBuffer + 1 then 0
      else if x = v.pBuffer ∧ data v.bytIndex &&& v.dataBit ≠ 0 then
        v.mem v.pBuffer ||| v.respBit
      else v.mem x := by
  have hs : ∀ (m : Nat → Nat) (i w y : Nat), store m i w y = if y = i then w else m y :=
    fun _ _ _ _ => rfl
  unfold packBitsPass
  by_cases h1 : (v.respBit <<< 1) % 256 = 0 <;> by_cases h2 : x = v.pBuffer + 1 <;>
    by_cases h3 : x = v.pBuffer <;> by_cases h4 : data v.bytIndex &&& v.dataBit ≠ 0 <;>
    simp [hs, h1, h2, h3, h4]

theorem packBitsPass_inv (data mem0 : Nat → Nat) (p off start j : Nat) (v : PackBitsVars)
    (h : PackBitsInv data mem0 p off start j v) (hlt : start + j < 65535) :
    PackBitsInv data mem0 p off start (j + 1) (packBitsPass data v) := by
  obtain ⟨hStart, hPtr, hResp, hData, hIdx, hBytes, hBits, hClear, hFrame⟩ := h
  have hr : j % 8 < 8 := Nat.mod_lt _ (by decide)
  have hd : (off + j) % 8 < 8 := Nat.mod_lt _ (by decide)
  have hcond : (data v.bytIndex &&& v.dataBit ≠ 0)
      ↔ (data (((off + j) / 8) % 256)).testBit ((off + j) % 8) = true := by
    rw [hIdx, hData]; exact and_mask_ne_zero _ _
  have hresp : (v.respBit <<< 1) % 256 = if j % 8 = 7 then 0 else 2 ^ (j % 8 + 1) := by
    rw [hResp, shl_mask _ hr]
  have hdata : (v.dataBit <<< 1) % 256
      = if (off + j) % 8 = 7 then 0 else 2 ^ ((off + j) % 8 + 1) := by
    rw [hData, shl_mask _ hd]
  have hpos : ∀ n : Nat, 2 ^ n ≠ 0 := fun n => Nat.pos_iff_ne_zero.mp (Nat.two_pow_pos n)
  refine ⟨?_, ?_, ?_, ?_, ?_, ?_, ?_, ?_, ?_⟩
  · show (v.uintStart + 1) % 65536 = start + (j + 1)
    rw [hStart]; omega
  · show (if (v.respBit <<< 1) % 256 = 0 then v.pBuffer + 1 else v.pBuffer) = p + (j + 1) / 8
    rw [hresp, hPtr]
    by_cases h7 : j % 8 = 7
    · simp only [h7, if_true]; omega
    · simp only [h7, if_false, hpos]; omega
  · show (if (v.respBit <<< 1) % 256 = 0 then 1 else (v.respBit <<< 1) % 256)
      = 2 ^ ((j + 1) % 8)
    rw [hresp]
    by_cases h7 : j % 8 = 7
    · have : (j + 1) % 8 = 0 := by omega
      simp only [h7, if_true, this, pow_zero]
    · have : (j + 1) % 8 = j % 8 + 1 := by omega
      simp only [h7, if_false, hpos, this]
  · show (if (v.dataBit <<< 1) % 256 = 0 then 1 else (v.dataBit <<< 1) % 256)
      = 2 ^ ((off + (j + 1)) % 8)
    rw [hdata]
    by_cases h7 : (off + j) % 8 = 7
    · have : (off + (j + 1)) % 8 = 0 := by omega
      simp only [h7, if_true, this, pow_zero]
    · have : (off + (j + 1)) % 8 = (off + j) % 8 + 1 := by omega
      simp only [h7, if_false, hpos, this]
  · show (if (v.dataBit <<< 1) % 256 = 0 then (v.bytIndex + 1) % 256 else v.bytIndex)
      = ((off + (j + 1)) / 8) % 256
    rw [hdata, hIdx]
    by_cases h7 : (off + j) % 8 = 7
    · simp only [h7, if_true]; omega
    · simp only [h7, if_false, hpos]; omega
  · show (if v.respBit.testBit 0 = true then (v.uintBytes + 1) % 65536 else v.uintBytes)
      = (j + 1 + 7) / 8
    rw [hResp, hBytes, Nat.testBit_two_pow]
    by_cases h0 : j % 8 = 0
    · simp only [h0, decide_True, if_true]; omega
    · simp only [h0, decide_False, Bool.false_eq_true, if_false]; omega
  · intro k hk
    have hx : p + k / 8 ≠ v.pBuffer + 1 := by rw [hPtr]; omega
    rw [packBitsPass_mem, if_neg (fun hc => hx hc.2)]
    by_cases hq : k / 8 = j / 8
    · have hxp : p + k / 8 = v.pBuffer := by rw [hPtr, hq]
      by_cases hb : (data (((off + j) / 8) % 256)).testBit ((off + j) % 8) = true
      · rw [if_pos ⟨hxp, hcond.mpr hb⟩, Nat.testBit_or, hResp, Nat.testBit_two_pow]
        by_cases hkj : k = j
        · subst hkj; simp [hb]
        · have hne : ¬ (j % 8 = k % 8) := by omega
          have := hBits k (by omega)
          rw [hq, ← hPtr] at this
          simp [hne, this]
      · rw [if_neg (fun hc => hb (hcond.mp hc.2))]
        by_cases hkj : k = j
        · subst hkj
          rw [hClear _ (Nat.le_refl _)]
          simp at hb
          exact hb.symm
        · exact hBits k (by omega)
    · have hxp : p + k / 8 ≠ v.pBuffer := by rw [hPtr]; omega
      rw [if_neg (fun hc => hxp hc.1)]
      exact hBits k (by omega)
  · intro b hb
    rw [packBitsPass_mem, hresp]
    by_cases h7 : j % 8 = 7
    · have hx : p + (j + 1) / 8 = v.pBuffer + 1 := by rw [hPtr]; omega
      simp only [h7, if_true, hx, and_self, Nat.zero_testBit]
    · have hx : p + (j + 1) / 8 = v.pBuffer := by rw [hPtr]; omega
      have hold : (v.mem v.pBuffer).testBit b = false := by
        rw [hPtr]; exact hClear b (by omega)
      have hne : ¬ (j % 8 = b) := by omega
      simp only [h7, if_false, hpos, false_and, hx, true_and]
      split
      · rw [Nat.testBit_or, hold, hResp, Nat.testBit_two_pow]
        simp [hne]
      · exact hold
  · intro i hi
    have h1 : i ≠ v.pBuffer + 1 := by rw [hPtr]; omega
    have h2 : i ≠ v.pBuffer := by rw [hPtr]; omega
    rw [packBitsPass_mem, if_neg (fun hc => h1 hc.2), if_neg (fun hc => h2 hc.1)]
    exact hFrame i hi

theorem packBitsLoop_runs (data mem0 : Nat → Nat) (p off start e N : Nat)
    (hN : start + N = e + 1) (he : e < 65535) :
    ∀ (fuel j : Nat) (v : PackBitsVars), PackBitsInv data mem0 p off start j v → j ≤ N →
      N - j ≤ fuel →
      ∃ w, packBitsLoop data e fuel v = some w ∧ PackBitsInv data mem0 p off start N w := by
  intro fuel
  induction fuel with
  | zero =>
    intro j v hinv hj hf
    have hjN : j = N := by omega
    subst hjN
    refine ⟨v, ?_, hinv⟩
    unfold packBitsLoop
    rw [if_neg (by rw [hinv.hStart]; omega)]
  | succ fuel ih =>
    intro j v hinv hj hf
    unfold packBitsLoop
    by_cases hjN : j = N
    · subst hjN
      refine ⟨v, ?_, hinv⟩
      rw [if_neg (by rw [hinv.hStart]; omega)]
    · rw [if_pos (by rw [hinv.hStart]; omega)]
      exact ih (j + 1) _ (packBitsPass_inv data mem0 p off start j v hinv (by omega))
        (by omega) (by omega)

theorem init_mask (off : Nat) : (1 <<< (Lo off &&& 7)) % 256 = 2 ^ (off % 8) := by
  have h : Lo off &&& 7 = off % 8 := by
    unfold Lo
    have := Nat.and_pow_two_sub_one_eq_mod (off % 256) 3
    simp only [Nat.reducePow, Nat.add_one_sub_one] at this
    omega
  rw [h, Nat.one_shiftLeft]
  have hr : off % 8 < 8 := Nat.mod_lt _ (by decide)
  generalize off % 8 = r at hr
  interval_cases r <;> decide

theorem firstNode_some (uintStart : Nat) :
    ∀ (l : List modbusBlockDef) (b : modbusBlockDef), firstNode uintStart l = some b →
      b ∈ l ∧ b.uintAddress ≤ uintStart := by
  intro l
  induction l with
  | nil => intro b h; simp [firstNode] at h
  | cons a rest ih =>
    intro b h
    unfold firstNode at h
    by_cases ha : uintStart ≥ a.uintAddress
    · rw [if_pos ha] at h
      have : a = b := by simpa using h
      subst this
      exact ⟨List.mem_cons_self _ _, ha⟩
    · rw [if_neg ha] at h
      obtain ⟨h1, h2⟩ := ih b h
      exact ⟨List.mem_cons_of_mem _ h1, h2⟩

theorem packBits_serves (regs : Registry) (eType : Nat) (mem : Nat → Nat)
    (pBuffer uintStart uintEnd : Nat) (pNode : modbusBlockDef)
    (hfirst : (eType = COILS ∧ firstNode uintStart regs.pCoils = some pNode)
      ∨ (eType = STATUS_INPUTS ∧ firstNode uintStart regs.pStatusBits = some pNode))
    (hend : uintEnd < (pNode.uintAddress + pNode.uintTotal) % 65536)
    (hse : uintStart ≤ uintEnd) :
    ∃ out, packBits regs eType mem pBuffer uintStart uintEnd
        = some (out, (uintEnd - uintStart + 1 + 7) / 8)
      ∧ (∀ k, k < uintEnd - uintStart + 1 →
          (out (pBuffer + k / 8)).testBit (k % 8)
            = (pNode.paryData (((uintStart - pNode.uintAddress + k) / 8) % 256)).testBit
                ((uintStart - pNode.uintAddress + k) % 8))
      ∧ (∀ b, (uintEnd - uintStart + 1) % 8 ≠ 0 → (uintEnd - uintStart + 1) % 8 ≤ b →
          (out (pBuffer + (uintEnd - uintStart) / 8)).testBit b = false)
      ∧ (∀ i, i < pBuffer → out i = mem i) := by
  have he : uintEnd < 65535 := by
    have := Nat.mod_lt (pNode.uintAddress + pNode.uintTotal) (show 65536 > 0 by decide)
    omega
  have hhead : (if eType = COILS then some regs.pCoils
      else if eType = STATUS_INPUTS then some regs.pStatusBits else none)
      = some (if eType = COILS then regs.pCoils else regs.pStatusBits) := by
    rcases hfirst with ⟨h, -⟩ | ⟨h, -⟩ <;> simp [h]
  have hnode : firstNode uintStart (if eType = COILS then regs.pCoils else regs.pStatusBits)
      = some pNode := by
    rcases hfirst with ⟨h, h2⟩ | ⟨h, h2⟩ <;> simp [h, h2]
  have hbase := (firstNode_some uintStart _ pNode hnode).2
  have hoff : (uintStart + 65536 - pNode.uintAddress % 65536) % 65536
      = uintStart - pNode.uintAddress := by omega
  have hinit : PackBitsInv pNode.paryData mem pBuffer (uintStart - pNode.uintAddress)
      uintStart 0
      { mem := store mem pBuffer 0, pBuffer := pBuffer,
        bytIndex := ((uintStart - pNode.uintAddress) / 8) % 256,
        dataBit := (1 <<< (Lo (uintStart - pNode.uintAddress) &&& 7)) % 256, respBit := 1,
        uintBytes := 0, uintStart := uintStart } := by
    refine ⟨rfl, rfl, rfl, ?_, rfl, rfl, ?_, ?_, ?_⟩
    · exact init_mask _
    · intro k hk; omega
    · intro b _
      show (store mem pBuffer 0 (pBuffer + 0 / 8)).testBit b = false
      simp [store]
    · intro i hi
      exact store_other mem pBuffer 0 i (by omega)
  obtain ⟨w, hw, hinv⟩ := packBitsLoop_runs pNode.paryData mem pBuffer
    (uintStart - pNode.uintAddress) uintStart uintEnd (uintEnd - uintStart + 1) (by omega) he
    65536 0 _ hinit (by omega) (by omega)
  refine ⟨w.mem, ?_, ?_, ?_, hinv.hFrame⟩
  · unfold packBits
    simp only [hhead, hnode, if_pos hend, hoff, hw, Option.map_some', hinv.hBytes]
  · intro k hk
    exact hinv.hBits k hk
  · intro b hne hb
    have := hinv.hClear b hb
    have hq : (uintEnd - uintStart + 1) / 8 = (uintEnd - uintStart) / 8 := by omega
    rw [hq] at this
    exact this
/-! ### Dispatcher: read requests -/

theorem firstNode_ne_nil (uintStart : Nat) (l : List modbusBlockDef) (b : modbusBlockDef)
    (h : firstNode uintStart l = some b) : l.isEmpty = false := by
  cases l with
  | nil => simp [firstNode] at h
  | cons a rest => rfl

theorem selectTable_read_coils (u : State) (hf : u.arybytMbBuffer 1 = READ_COILS)
    (hne : u.regs.pCoils.isEmpty = false) :
    selectTable u = { u with pCurrBlock := some (.pCoils, 0) } := by
  unfold selectTable
  simp [hf, hne]

theorem selectTable_read_status (u : State) (hf : u.arybytMbBuffer 1 = READ_STATUS_INPUTS)
    (hne : u.regs.pStatusBits.isEmpty = false) :
    selectTable u = { u with pCurrBlock := some (.pStatusBits, 0) } := by
  unfold selectTable
  simp [hf, hne]

theorem resolveCurrBlock_fields (u : State) (a b : Nat) :
    (resolveCurrBlock u a b).regs = u.regs
    ∧ (resolveCurrBlock u a b).arybytMbBuffer = u.arybytMbBuffer
    ∧ (resolveCurrBlock u a b).bytMbIndex = u.bytMbIndex
    ∧ (resolveCurrBlock u a b).eMbExceptionCode = u.eMbExceptionCode
    ∧ (resolveCurrBlock u a b).bytMbRxphase = u.bytMbRxphase
    ∧ (resolveCurrBlock u a b).TXREG = u.TXREG := by
  unfold resolveCurrBlock
  cases u.pCurrBlock with
  | none => simp
  | some hi => simp

theorem execute_read_bits (u : State) (out : Nat → Nat) (n : Nat)
    (hfn : u.arybytMbBuffer 1 = READ_COILS ∨ u.arybytMbBuffer 1 = READ_STATUS_INPUTS)
    (hpack : packBits u.regs (if u.arybytMbBuffer 1 = READ_COILS then COILS else STATUS_INPUTS)
        u.arybytMbBuffer 3
        ((word (u.arybytMbBuffer 2) (u.arybytMbBuffer 3) + 1) % 65536)
        ((word (u.arybytMbBuffer 2) (u.arybytMbBuffer 3)
            + word (u.arybytMbBuffer 4) (u.arybytMbBuffer 5)) % 65536) = some (out, n))
    (hn : n % 256 ≠ 0) :
    ∃ u', execute u = some u' ∧ u'.arybytMbBuffer = store out 2 (n % 256)
      ∧ u'.bytMbIndex = (u.bytMbIndex + n % 256) % 256
      ∧ u'.eMbExceptionCode = u.eMbExceptionCode ∧ u'.bytMbRxphase = u.bytMbRxphase
      ∧ u'.regs = u.regs ∧ u'.TXREG = u.TXREG := by
  have hcount : (if u.arybytMbBuffer 1 = FORCE_SINGLE_COIL
        ∨ u.arybytMbBuffer 1 = PRESET_SINGLE_REGISTER then 1
      else word (u.arybytMbBuffer 4) (u.arybytMbBuffer 5))
      = word (u.arybytMbBuffer 4) (u.arybytMbBuffer 5) := by
    rcases hfn with h | h <;> simp [h]
  obtain ⟨r1, r2, r3, r4, r5, r6⟩ := resolveCurrBlock_fields u
    ((word (u.arybytMbBuffer 2) (u.arybytMbBuffer 3) + 1) % 65536)
    ((word (u.arybytMbBuffer 2) (u.arybytMbBuffer 3)
            + word (u.arybytMbBuffer 4) (u.arybytMbBuffer 5)) % 65536)
  unfold execute
  simp only [hcount, if_pos hfn, r1, r2, r3, hpack, if_neg hn]
  exact ⟨_, rfl, rfl, rfl, r4, r5, rfl, r6⟩

theorem respond_no_exception (u : State) (hexc : u.eMbExceptionCode = NO_EXCEPTION)
    (hidx : u.bytMbIndex > 0) : respond u = transmitStart u := by
  unfold respond
  simp [hexc, hidx]

theorem transmitStart_some (s : State) (h0 : s.bytMbRxphase.testBit 0 = true)
    (hidx : 2 ≤ s.bytMbIndex ∧ s.bytMbIndex ≤ 253) :
    ∃ s', transmitStart s = some s'
      ∧ s'.arybytMbBuffer
          = store (store (store s.arybytMbBuffer s.bytMbIndex
              (Lo (calcCRC s.arybytMbBuffer s.bytMbIndex)))
              (s.bytMbIndex + 1) (Hi (calcCRC s.arybytMbBuffer s.bytMbIndex)))
              0 (s.bytMbIndex + 2)
      ∧ s'.regs = s.regs
      ∧ s'.TXREG = s.TXREG ++ [s.arybytMbBuffer 0, s.arybytMbBuffer 1]
      ∧ s'.bytMbRxphase = 128 ∧ s'.bytMbIndex = 2 ∧ s'.eMbExceptionCode = s.eMbExceptionCode := by
  have e1 : (s.bytMbIndex + 1) % 256 = s.bytMbIndex + 1 := by omega
  have e2 : (s.bytMbIndex + 1 + 1) % 256 = s.bytMbIndex + 2 := by omega
  have hs : ∀ (m : Nat → Nat) (i w y : Nat), store m i w y = if y = i then w else m y :=
    fun _ _ _ _ => rfl
  unfold transmitStart
  simp only [h0, Bool.true_eq_false, if_false, e1, e2]
  refine ⟨_, rfl, rfl, rfl, ?_, rfl, rfl, rfl⟩
  have n0 : (0 : Nat) ≠ s.bytMbIndex := by omega
  have n0' : (0 : Nat) ≠ s.bytMbIndex + 1 := by omega
  have n1 : (1 : Nat) ≠ s.bytMbIndex := by omega
  have n1' : (1 : Nat) ≠ s.bytMbIndex + 1 := by omega
  simp [hs, n0, n0', n1, n1']

theorem dispatch_of_execute (s t u : State)
    (hsel : selectTable { s with bytMbIndex := 3 } = t)
    (hexc : t.eMbExceptionCode = NO_EXCEPTION) (hex : execute t = some u) :
    dispatch s = respond u := by
  unfold dispatch
  simp only [hsel, if_pos hexc, hex]

/-- Read of discretes: the outcome of the dispatcher for functions 1 and 2 when packBits
serves the range. -/
theorem dispatch_read_bits (s : State) (pNode : modbusBlockDef)
    (hexc : s.eMbExceptionCode = NO_EXCEPTION)
    (hphase : s.bytMbRxphase.testBit 0 = true)
    (hfn : (s.arybytMbBuffer 1 = READ_COILS
          ∧ firstNode ((word (s.arybytMbBuffer 2) (s.arybytMbBuffer 3) + 1) % 65536)
              s.regs.pCoils = some pNode)
      ∨ (s.arybytMbBuffer 1 = READ_STATUS_INPUTS
          ∧ firstNode ((word (s.arybytMbBuffer 2) (s.arybytMbBuffer 3) + 1) % 65536)
              s.regs.pStatusBits = some pNode))
    (hend : (word (s.arybytMbBuffer 2) (s.arybytMbBuffer 3)
              + word (s.arybytMbBuffer 4) (s.arybytMbBuffer 5)) % 65536
            < (pNode.uintAddress + pNode.uintTotal) % 65536)
    (hse : (word (s.arybytMbBuffer 2) (s.arybytMbBuffer 3) + 1) % 65536
            ≤ (word (s.arybytMbBuffer 2) (s.arybytMbBuffer 3)
              + word (s.arybytMbBuffer 4) (s.arybytMbBuffer 5)) % 65536)
    (hmax : ((word (s.arybytMbBuffer 2) (s.arybytMbBuffer 3)
              + word (s.arybytMbBuffer 4) (s.arybytMbBuffer 5)) % 65536
            - (word (s.arybytMbBuffer 2) (s.arybytMbBuffer 3) + 1) % 65536 + 1 + 7) / 8 ≤ 250) :
    ∃ s', dispatch s = some s'
      ∧ s'.arybytMbBuffer 2
          = ((word (s.arybytMbBuffer 2) (s.arybytMbBuffer 3)
              + word (s.arybytMbBuffer 4) (s.arybytMbBuffer 5)) % 65536
            - (word (s.arybytMbBuffer 2) (s.arybytMbBuffer 3) + 1) % 65536 + 1 + 7) / 8
      ∧ s'.regs = s.regs
      ∧ s'.TXREG = s.TXREG ++ [s.arybytMbBuffer 0, s.arybytMbBuffer 1] := by
  have hfn' : s.arybytMbBuffer 1 = READ_COILS ∨ s.arybytMbBuffer 1 = READ_STATUS_INPUTS :=
    hfn.elim (fun h => Or.inl h.1) (fun h => Or.inr h.1)
  have hfirst : ((if s.arybytMbBuffer 1 = READ_COILS then COILS else STATUS_INPUTS) = COILS
        ∧ firstNode ((word (s.arybytMbBuffer 2) (s.arybytMbBuffer 3) + 1) % 65536)
              s.regs.pCoils = some pNode)
      ∨ ((if s.arybytMbBuffer 1 = READ_COILS then COILS else STATUS_INPUTS) = STATUS_INPUTS
        ∧ firstNode ((word (s.arybytMbBuffer 2) (s.arybytMbBuffer 3) + 1) % 65536)
              s.regs.pStatusBits = some pNode) := by
    rcases hfn with ⟨h, h2⟩ | ⟨h, h2⟩
    · exact Or.inl ⟨by simp [h], h2⟩
    · exact Or.inr ⟨by simp [h], h2⟩
  obtain ⟨out, hpack, -, -, hframe⟩ := packBits_serves s.regs
    (if s.arybytMbBuffer 1 = READ_COILS then COILS else STATUS_INPUTS) s.arybytMbBuffer 3 _ _
    pNode hfirst hend hse
  generalize hS : (word (s.arybytMbBuffer 2) (s.arybytMbBuffer 3) + 1) % 65536 = uintSAddr at *
  generalize hE : (word (s.arybytMbBuffer 2) (s.arybytMbBuffer 3)
              + word (s.arybytMbBuffer 4) (s.arybytMbBuffer 5)) % 65536 = uintEAddr at *
  generalize hn : (uintEAddr - uintSAddr + 1 + 7) / 8 = n at *
  have hn1 : 1 ≤ n := by omega
  have hsel : ∃ h, selectTable { s with bytMbIndex := 3 }
      = { s with bytMbIndex := 3, pCurrBlock := some (h, 0) } := by
    rcases hfn with ⟨hf, hnode⟩ | ⟨hf, hnode⟩
    · exact ⟨.pCoils, selectTable_read_coils _ hf (firstNode_ne_nil _ _ _ hnode)⟩
    · exact ⟨.pStatusBits, selectTable_read_status _ hf (firstNode_ne_nil _ _ _ hnode)⟩
  obtain ⟨h, hsel⟩ := hsel
  obtain ⟨u', hex, hbuf, hidx, hexc', hph, hregs, htx⟩ :=
    execute_read_bits { s with bytMbIndex := 3, pCurrBlock := some (h, 0) } out n hfn'
      (by simp only [hS, hE]; exact hpack) (by omega)
  have hidx' : u'.bytMbIndex = 3 + n := by rw [hidx]; simp only []; omega
  obtain ⟨s', hts, hb', hr', htx', -, -, -⟩ := transmitStart_some u' (by rw [hph]; exact hphase)
    (by omega)
  refine ⟨s', ?_, ?_, ?_, ?_⟩
  · rw [dispatch_of_execute s _ u' hsel hexc hex,
      respond_no_exception u' (by rw [hexc']; exact hexc) (by omega)]
    exact hts
  · rw [hb', hbuf, hidx']
    have hs : ∀ (m : Nat → Nat) (i w y : Nat), store m i w y = if y = i then w else m y :=
      fun _ _ _ _ => rfl
    have a1 : (2 : Nat) ≠ 3 + n := by omega
    have a2 : (2 : Nat) ≠ 3 + n + 1 := by omega
    simp [hs, a1, a2]
    omega
  · rw [hr', hregs]
  · rw [htx', htx, hbuf]
    have hs : ∀ (m : Nat → Nat) (i w y : Nat), store m i w y = if y = i then w else m y :=
      fun _ _ _ _ => rfl
    simp [hs, hframe 0 (by decide), hframe 1 (by decide)]

theorem frameReady_dispatch (t : State)
    (haddr : t.arybytMbBuffer 0 = t.bytMbSlaveAddress)
    (hlen : 3 < t.bytMbIndex ∧ t.bytMbIndex < 256)
    (hcrc : t.arybytMbBuffer (t.bytMbIndex - 2)
              = Lo (crc16 (bufferBytes t.arybytMbBuffer (t.bytMbIndex - 2)))
            ∧ t.arybytMbBuffer (t.bytMbIndex - 1)
              = Hi (crc16 (bufferBytes t.arybytMbBuffer (t.bytMbIndex - 2)))) :
    frameReady t
      = dispatch { t with pCurrBlock := none, bytMbIndex := t.bytMbIndex - 2,
                          uintCRC := calcCRC t.arybytMbBuffer (t.bytMbIndex - 2) } := by
  have hc := calcCRC_eq_crc16 t.arybytMbBuffer (t.bytMbIndex - 2) (by omega) (by omega)
  have h1 : t.bytMbIndex - 2 + 1 = t.bytMbIndex - 1 := by omega
  unfold frameReady
  simp only [haddr, true_and, if_pos hlen.1, hc, h1]
  rw [if_pos ⟨hcrc.1.symm, hcrc.2.symm⟩]

/-- The hypotheses under which decodePacket hands a buffered frame to the dispatcher: the
phase reaches 5, the frame is addressed to this slave, it is longer than 3 bytes, and its
last two bytes are the low and the high byte of the CRC of the bytes before them. -/
theorem decodePacket_dispatch (s : State) (hr : FrameReady s)
    (haddr : s.arybytMbBuffer 0 = s.bytMbSlaveAddress)
    (hlen : 3 < s.bytMbIndex ∧ s.bytMbIndex < 256)
    (hcrc : s.arybytMbBuffer (s.bytMbIndex - 2)
              = Lo (crc16 (bufferBytes s.arybytMbBuffer (s.bytMbIndex - 2)))
            ∧ s.arybytMbBuffer (s.bytMbIndex - 1)
              = Hi (crc16 (bufferBytes s.arybytMbBuffer (s.bytMbIndex - 2)))) :
    ∃ t, decodePacket s = dispatch t ∧ t.regs = s.regs
      ∧ t.arybytMbBuffer = s.arybytMbBuffer ∧ t.eMbExceptionCode = s.eMbExceptionCode
      ∧ t.bytMbRxphase = 5 ∧ t.TXREG = s.TXREG ∧ t.blnState = s.blnState
      ∧ t.bytMbSlaveAddress = s.bytMbSlaveAddress := by
  obtain ⟨f1, f2, f3, f4, -, f6, f7, f8, f9, f10⟩ := timerExpiry_fields s
  have hp := timerExpiry_phase s hr
  rw [decodePacket_of_frameReady s hr,
    frameReady_dispatch (timerExpiry s) (by rw [f6, f8]; exact haddr) (by rw [f7]; exact hlen)
      (by rw [f6, f7]; exact hcrc)]
  exact ⟨_, rfl, f1, f6, f9, hp, f2, f10, f8⟩

theorem decodePacket_read_bits (s : State) (pNode : modbusBlockDef) (hr : FrameReady s)
    (haddr : s.arybytMbBuffer 0 = s.bytMbSlaveAddress)
    (hlen : 3 < s.bytMbIndex ∧ s.bytMbIndex < 256)
    (hcrc : s.arybytMbBuffer (s.bytMbIndex - 2)
              = Lo (crc16 (bufferBytes s.arybytMbBuffer (s.bytMbIndex - 2)))
            ∧ s.arybytMbBuffer (s.bytMbIndex - 1)
              = Hi (crc16 (bufferBytes s.arybytMbBuffer (s.bytMbIndex - 2))))
    (hexc : s.eMbExceptionCode = NO_EXCEPTION)
    (hfn : (s.arybytMbBuffer 1 = READ_COILS
          ∧ firstNode ((word (s.arybytMbBuffer 2) (s.arybytMbBuffer 3) + 1) % 65536)
              s.regs.pCoils = some pNode)
      ∨ (s.arybytMbBuffer 1 = READ_STATUS_INPUTS
          ∧ firstNode ((word (s.arybytMbBuffer 2) (s.arybytMbBuffer 3) + 1) % 65536)
              s.regs.pStatusBits = some pNode))
    (hend : (word (s.arybytMbBuffer 2) (s.arybytMbBuffer 3)
              + word (s.arybytMbBuffer 4) (s.arybytMbBuffer 5)) % 65536
            < (pNode.uintAddress + pNode.uintTotal) % 65536)
    (hse : (word (s.arybytMbBuffer 2) (s.arybytMbBuffer 3) + 1) % 65536
            ≤ (word (s.arybytMbBuffer 2) (s.arybytMbBuffer 3)
              + word (s.arybytMbBuffer 4) (s.arybytMbBuffer 5)) % 65536)
    (hmax : ((word (s.arybytMbBuffer 2) (s.arybytMbBuffer 3)
              + word (s.arybytMbBuffer 4) (s.arybytMbBuffer 5)) % 65536
            - (word (s.arybytMbBuffer 2) (s.arybytMbBuffer 3) + 1) % 65536 + 1 + 7) / 8 ≤ 250) :
    ∃ s', decodePacket s = some s'
      ∧ s'.arybytMbBuffer 2
          = ((word (s.arybytMbBuffer 2) (s.arybytMbBuffer 3)
              + word (s.arybytMbBuffer 4) (s.arybytMbBuffer 5)) % 65536
            - (word (s.arybytMbBuffer 2) (s.arybytMbBuffer 3) + 1) % 65536 + 1 + 7) / 8
      ∧ s'.regs = s.regs
      ∧ s'.TXREG = s.TXREG ++ [s.arybytMbBuffer 0, s.arybytMbBuffer 1] := by
  obtain ⟨t, ht, tr, tb, te, tp, ttx, -, -⟩ := decodePacket_dispatch s hr haddr hlen hcrc
  have key := dispatch_read_bits t pNode (by rw [te]; exact hexc) (by rw [tp]; decide)
    (by rw [tb, tr]; exact hfn) (by rw [tb]; exact hend) (by rw [tb]; exact hse)
    (by rw [tb]; exact hmax)
  rw [tb, tr, ttx] at key
  rw [ht]
  exact key

theorem execute_read_bits_zero (u : State) (out : Nat → Nat) (n : Nat)
    (hfn : u.arybytMbBuffer 1 = READ_COILS ∨ u.arybytMbBuffer 1 = READ_STATUS_INPUTS)
    (hpack : packBits u.regs (if u.arybytMbBuffer 1 = READ_COILS then COILS else STATUS_INPUTS)
        u.arybytMbBuffer 3
        ((word (u.arybytMbBuffer 2) (u.arybytMbBuffer 3) + 1) % 65536)
        ((word (u.arybytMbBuffer 2) (u.arybytMbBuffer 3)
            + word (u.arybytMbBuffer 4) (u.arybytMbBuffer 5)) % 65536) = some (out, n))
    (hn : n % 256 = 0) :
    ∃ u', execute u = some u' ∧ u'.arybytMbBuffer = store out 2 (n % 256)
      ∧ u'.bytMbIndex = u.bytMbIndex
      ∧ u'.eMbExceptionCode = ILLEGAL_DATA_ADDRESS ∧ u'.bytMbRxphase = u.bytMbRxphase
      ∧ u'.regs = u.regs ∧ u'.TXREG = u.TXREG := by
  have hcount : (if u.arybytMbBuffer 1 = FORCE_SINGLE_COIL
        ∨ u.arybytMbBuffer 1 = PRESET_SINGLE_REGISTER then 1
      else word (u.arybytMbBuffer 4) (u.arybytMbBuffer 5))
      = word (u.arybytMbBuffer 4) (u.arybytMbBuffer 5) := by
    rcases hfn with h | h <;> simp [h]
  obtain ⟨r1, r2, r3, r4, r5, r6⟩ := resolveCurrBlock_fields u
    ((word (u.arybytMbBuffer 2) (u.arybytMbBuffer 3) + 1) % 65536)
    ((word (u.arybytMbBuffer 2) (u.arybytMbBuffer 3)
            + word (u.arybytMbBuffer 4) (u.arybytMbBuffer 5)) % 65536)
  unfold execute
  simp only [hcount, if_pos hfn, r1, r2, r3, hpack, if_pos hn]
  exact ⟨_, rfl, rfl, rfl, rfl, r5, rfl, r6⟩

theorem respond_exception (u : State) (hexc : u.eMbExceptionCode ≠ NO_EXCEPTION)
    (hidx : 3 ≤ u.bytMbIndex ∧ u.bytMbIndex ≤ 253)
    (h0 : u.bytMbRxphase.testBit 0 = true) :
    ∃ s', respond u = some s'
      ∧ s'.arybytMbBuffer 2 = u.eMbExceptionCode % 256
      ∧ s'.regs = u.regs
      ∧ s'.TXREG = u.TXREG ++ [u.arybytMbBuffer 0, u.arybytMbBuffer 1 ||| EXCEPTION_FLAG]
      ∧ s'.eMbExceptionCode = NO_EXCEPTION := by
  have hs : ∀ (m : Nat → Nat) (i w y : Nat), store m i w y = if y = i then w else m y :=
    fun _ _ _ _ => rfl
  obtain ⟨s', hts, hb, hr, htx, -, -, he⟩ := transmitStart_some
    { u with arybytMbBuffer :=
               store (store u.arybytMbBuffer 1 (u.arybytMbBuffer 1 ||| EXCEPTION_FLAG)) 2
                 (u.eMbExceptionCode % 256),
             eMbExceptionCode := NO_EXCEPTION } h0 (by constructor <;> simp only [] <;> omega)
  refine ⟨s', ?_, ?_, hr, ?_, he⟩
  · unfold respond
    rw [if_pos hexc]
    simp only []
    rw [if_pos (by omega)]
    exact hts
  · rw [hb]
    have a1 : (2 : Nat) ≠ u.bytMbIndex := by omega
    have a2 : (2 : Nat) ≠ u.bytMbIndex + 1 := by omega
    simp [hs, a1, a2]
  · rw [htx]
    simp [hs]

theorem dispatch_read_bits_zero (s : State) (pNode : modbusBlockDef)
    (hexc : s.eMbExceptionCode = NO_EXCEPTION)
    (hphase : s.bytMbRxphase.testBit 0 = true)
    (hfn : (s.arybytMbBuffer 1 = READ_COILS
          ∧ firstNode ((word (s.arybytMbBuffer 2) (s.arybytMbBuffer 3) + 1) % 65536)
              s.regs.pCoils = some pNode)
      ∨ (s.arybytMbBuffer 1 = READ_STATUS_INPUTS
          ∧ firstNode ((word (s.arybytMbBuffer 2) (s.arybytMbBuffer 3) + 1) % 65536)
              s.regs.pStatusBits = some pNode))
    (hend : (word (s.arybytMbBuffer 2) (s.arybytMbBuffer 3)
              + word (s.arybytMbBuffer 4) (s.arybytMbBuffer 5)) % 65536
            < (pNode.uintAddress + pNode.uintTotal) % 65536)
    (hse : (word (s.arybytMbBuffer 2) (s.arybytMbBuffer 3) + 1) % 65536
            ≤ (word (s.arybytMbBuffer 2) (s.arybytMbBuffer 3)
              + word (s.arybytMbBuffer 4) (s.arybytMbBuffer 5)) % 65536)
    (hzero : (((word (s.arybytMbBuffer 2) (s.arybytMbBuffer 3)
              + word (s.arybytMbBuffer 4) (s.arybytMbBuffer 5)) % 65536
            - (word (s.arybytMbBuffer 2) (s.arybytMbBuffer 3) + 1) % 65536 + 1 + 7) / 8) % 256
          = 0) :
    ∃ s', dispatch s = some s'
      ∧ s'.arybytMbBuffer 2 = ILLEGAL_DATA_ADDRESS
      ∧ s'.TXREG = s.TXREG ++ [s.arybytMbBuffer 0, s.arybytMbBuffer 1 ||| EXCEPTION_FLAG] := by
  have hfn' : s.arybytMbBuffer 1 = READ_COILS ∨ s.arybytMbBuffer 1 = READ_STATUS_INPUTS :=
    hfn.elim (fun h => Or.inl h.1) (fun h => Or.inr h.1)
  have hfirst : ((if s.arybytMbBuffer 1 = READ_COILS then COILS else STATUS_INPUTS) = COILS
        ∧ firstNode ((word (s.arybytMbBuffer 2) (s.arybytMbBuffer 3) + 1) % 65536)
              s.regs.pCoils = some pNode)
      ∨ ((if s.arybytMbBuffer 1 = READ_COILS then COILS else STATUS_INPUTS) = STATUS_INPUTS
        ∧ firstNode ((word (s.arybytMbBuffer 2) (s.arybytMbBuffer 3) + 1) % 65536)
              s.regs.pStatusBits = some pNode) := by
    rcases hfn with ⟨h, h2⟩ | ⟨h, h2⟩
    · exact Or.inl ⟨by simp [h], h2⟩
    · exact Or.inr ⟨by simp [h], h2⟩
  obtain ⟨out, hpack, -, -, hframe⟩ := packBits_serves s.regs
    (if s.arybytMbBuffer 1 = READ_COILS then COILS else STATUS_INPUTS) s.arybytMbBuffer 3 _ _
    pNode hfirst hend hse
  generalize hS : (word (s.arybytMbBuffer 2) (s.arybytMbBuffer 3) + 1) % 65536 = uintSAddr at *
  generalize hE : (word (s.arybytMbBuffer 2) (s.arybytMbBuffer 3)
              + word (s.arybytMbBuffer 4) (s.arybytMbBuffer 5)) % 65536 = uintEAddr at *
  generalize hn : (uintEAddr - uintSAddr + 1 + 7) / 8 = n at *
  have hsel : ∃ h, selectTable { s with bytMbIndex := 3 }
      = { s with bytMbIndex := 3, pCurrBlock := some (h, 0) } := by
    rcases hfn with ⟨hf, hnode⟩ | ⟨hf, hnode⟩
    · exact ⟨.pCoils, selectTable_read_coils _ hf (firstNode_ne_nil _ _ _ hnode)⟩
    · exact ⟨.pStatusBits, selectTable_read_status _ hf (firstNode_ne_nil _ _ _ hnode)⟩
  obtain ⟨h, hsel⟩ := hsel
  obtain ⟨u', hex, hbuf, hidx, hexc', hph, hregs, htx⟩ :=
    execute_read_bits_zero { s with bytMbIndex := 3, pCurrBlock := some (h, 0) } out n hfn'
      (by simp only [hS, hE]; exact hpack) hzero
  have hidx' : u'.bytMbIndex = 3 := hidx
  obtain ⟨s', hts, hb', -, htx', -⟩ := respond_exception u' (by rw [hexc']; decide)
    (by omega) (by rw [hph]; exact hphase)
  have hs : ∀ (m : Nat → Nat) (i w y : Nat), store m i w y = if y = i then w else m y :=
    fun _ _ _ _ => rfl
  refine ⟨s', ?_, ?_, ?_⟩
  · rw [dispatch_of_execute s _ u' hsel hexc hex]
    exact hts
  · rw [hb', hexc']; rfl
  · rw [htx', htx, hbuf]
    simp [hs, hframe 0 (by decide), hframe 1 (by decide)]

theorem decodePacket_read_bits_zero (s : State) (pNode : modbusBlockDef) (hr : FrameReady s)
    (haddr : s.arybytMbBuffer 0 = s.bytMbSlaveAddress)
    (hlen : 3 < s.bytMbIndex ∧ s.bytMbIndex < 256)
    (hcrc : s.arybytMbBuffer (s.bytMbIndex - 2)
              = Lo (crc16 (bufferBytes s.arybytMbBuffer (s.bytMbIndex - 2)))
            ∧ s.arybytMbBuffer (s.bytMbIndex - 1)
              = Hi (crc16 (bufferBytes s.arybytMbBuffer (s.bytMbIndex - 2))))
    (hexc : s.eMbExceptionCode = NO_EXCEPTION)
    (hfn : (s.arybytMbBuffer 1 = READ_COILS
          ∧ firstNode ((word (s.arybytMbBuffer 2) (s.arybytMbBuffer 3) + 1) % 65536)
              s.regs.pCoils = some pNode)
      ∨ (s.arybytMbBuffer 1 = READ_STATUS_INPUTS
          ∧ firstNode ((word (s.arybytMbBuffer 2) (s.arybytMbBuffer 3) + 1) % 65536)
              s.regs.pStatusBits = some pNode))
    (hend : (word (s.arybytMbBuffer 2) (s.arybytMbBuffer 3)
              + word (s.arybytMbBuffer 4) (s.arybytMbBuffer 5)) % 65536
            < (pNode.uintAddress + pNode.uintTotal) % 65536)
    (hse : (word (s.arybytMbBuffer 2) (s.arybytMbBuffer 3) + 1) % 65536
            ≤ (word (s.arybytMbBuffer 2) (s.arybytMbBuffer 3)
              + word (s.arybytMbBuffer 4) (s.arybytMbBuffer 5)) % 65536)
    (hzero : (((word (s.arybytMbBuffer 2) (s.arybytMbBuffer 3)
              + word (s.arybytMbBuffer 4) (s.arybytMbBuffer 5)) % 65536
            - (word (s.arybytMbBuffer 2) (s.arybytMbBuffer 3) + 1) % 65536 + 1 + 7) / 8) % 256
          = 0) :
    ∃ s', decodePacket s = some s'
      ∧ s'.arybytMbBuffer 2 = ILLEGAL_DATA_ADDRESS
      ∧ s'.TXREG = s.TXREG ++ [s.arybytMbBuffer 0, s.arybytMbBuffer 1 ||| EXCEPTION_FLAG] := by
  obtain ⟨t, ht, tr, tb, te, tp, ttx, -, -⟩ := decodePacket_dispatch s hr haddr hlen hcrc
  have key := dispatch_read_bits_zero t pNode (by rw [te]; exact hexc) (by rw [tp]; decide)
    (by rw [tb, tr]; exact hfn) (by rw [tb]; exact hend) (by rw [tb]; exact hse)
    (by rw [tb]; exact hzero)
  rw [tb, ttx] at key
  rw [ht]
  exact key

/-- C7 (the code departs from the claim): with two holding-register blocks registered in
the order addresses 1 to 10, then 100 to 109, the CRC-valid request 01 03 00 64 00 01 (start
address 100, quantity 1, range 101 to 101 inside the second block) is answered with the
exception frame 01 83 02 C0 F1 and not with the register value: packRegisters stops at the
first block whose start address is not above 101, which is the first block, and serves
nothing. -/
theorem decodePacket_read_holding_second_block :
    (FrameReady (sessionState regsTwoHolding 1
        (bufferOf [0x01, 0x03, 0x00, 0x64, 0x00, 0x01, 0xC5, 0xD5]) 8 5)
      ∧ Lo (crc16 [0x01, 0x03, 0x00, 0x64, 0x00, 0x01]) = 0xC5
      ∧ Hi (crc16 [0x01, 0x03, 0x00, 0x64, 0x00, 0x01]) = 0xD5
      ∧ regsTwoHolding.pHoldingRegs.map (fun b => (b.uintAddress, b.uintTotal))
          = [(1, 10), (100, 10)])
    ∧ (decodePacket (sessionState regsTwoHolding 1
        (bufferOf [0x01, 0x03, 0x00, 0x64, 0x00, 0x01, 0xC5, 0xD5]) 8 5)).map responseFrame
      = some [0x01, 0x83, 0x02, 0xC0, 0xF1]
    ∧ (packRegisters regsTwoHolding HOLDING_REGISTERS (bufferOf []) 3 101 101).map (fun r => r.2)
      = some 0 := by
  decide

/-- C8 (as amended): whenever packBits serves a range of N >= 1 items from the block it
found, it returns ceil(N/8), and for every k < N bit (k mod 8) of output byte (k div 8)
equals bit ((start-base+k) mod 8) of storage byte (((start-base+k) div 8) mod 256), the
byte index being kept in 8 bits; the bits of the last output byte beyond the N items are 0;
memory below the output position is untouched. For a CRC-valid read request (function 1 or
2) addressed to this slave whose range is served with ceil(N/8) <= 250, decodePacket leaves
ceil(N/8) in buffer byte 2, the byte-count field of the response it starts. -/
theorem packBits_packs_lsb_first :
    (∀ (regs : Registry) (eType : Nat) (mem : Nat → Nat) (pBuffer uintStart uintEnd : Nat)
        (pNode : modbusBlockDef),
        ((eType = COILS ∧ firstNode uintStart regs.pCoils = some pNode)
          ∨ (eType = STATUS_INPUTS ∧ firstNode uintStart regs.pStatusBits = some pNode)) →
        uintEnd < (pNode.uintAddress + pNode.uintTotal) % 65536 →
        uintStart ≤ uintEnd →
        ∃ out, packBits regs eType mem pBuffer uintStart uintEnd
            = some (out, (uintEnd - uintStart + 1 + 7) / 8)
          ∧ (∀ k, k < uintEnd - uintStart + 1 →
              (out (pBuffer + k / 8)).testBit (k % 8)
                = (pNode.paryData (((uintStart - pNode.uintAddress + k) / 8) % 256)).testBit
                    ((uintStart - pNode.uintAddress + k) % 8))
          ∧ (∀ b, (uintEnd - uintStart + 1) % 8 ≠ 0 → (uintEnd - uintStart + 1) % 8 ≤ b →
              (out (pBuffer + (uintEnd - uintStart) / 8)).testBit b = false)
          ∧ (∀ i, i < pBuffer → out i = mem i))
    ∧ (∀ (s : State) (pNode : modbusBlockDef), FrameReady s →
        s.arybytMbBuffer 0 = s.bytMbSlaveAddress →
        (3 < s.bytMbIndex ∧ s.bytMbIndex < 256) →
        (s.arybytMbBuffer (s.bytMbIndex - 2)
            = Lo (crc16 (bufferBytes s.arybytMbBuffer (s.bytMbIndex - 2)))
          ∧ s.arybytMbBuffer (s.bytMbIndex - 1)
            = Hi (crc16 (bufferBytes s.arybytMbBuffer (s.bytMbIndex - 2)))) →
        s.eMbExceptionCode = NO_EXCEPTION →
        ((s.arybytMbBuffer 1 = READ_COILS
            ∧ firstNode ((word (s.arybytMbBuffer 2) (s.arybytMbBuffer 3) + 1) % 65536)
                s.regs.pCoils = some pNode)
          ∨ (s.arybytMbBuffer 1 = READ_STATUS_INPUTS
            ∧ firstNode ((word (s.arybytMbBuffer 2) (s.arybytMbBuffer 3) + 1) % 65536)
                s.regs.pStatusBits = some pNode)) →
        (word (s.arybytMbBuffer 2) (s.arybytMbBuffer 3)
            + word (s.arybytMbBuffer 4) (s.arybytMbBuffer 5)) % 65536
          < (pNode.uintAddress + pNode.uintTotal) % 65536 →
        (word (s.arybytMbBuffer 2) (s.arybytMbBuffer 3) + 1) % 65536
          ≤ (word (s.arybytMbBuffer 2) (s.arybytMbBuffer 3)
              + word (s.arybytMbBuffer 4) (s.arybytMbBuffer 5)) % 65536 →
        ((word (s.arybytMbBuffer 2) (s.arybytMbBuffer 3)
              + word (s.arybytMbBuffer 4) (s.arybytMbBuffer 5)) % 65536
            - (word (s.arybytMbBuffer 2) (s.arybytMbBuffer 3) + 1) % 65536 + 1 + 7) / 8
          ≤ 250 →
        ∃ s', decodePacket s = some s'
          ∧ s'.arybytMbBuffer 2
              = ((word (s.arybytMbBuffer 2) (s.arybytMbBuffer 3)
                  + word (s.arybytMbBuffer 4) (s.arybytMbBuffer 5)) % 65536
                - (word (s.arybytMbBuffer 2) (s.arybytMbBuffer 3) + 1) % 65536 + 1 + 7) / 8
          ∧ s'.regs = s.regs
          ∧ s'.TXREG = s.TXREG ++ [s.arybytMbBuffer 0, s.arybytMbBuffer 1]) :=
  ⟨fun regs eType mem pBuffer uintStart uintEnd pNode hfirst hend hse =>
      packBits_serves regs eType mem pBuffer uintStart uintEnd pNode hfirst hend hse,
   fun s pNode hr haddr hlen hcrc hexc hfn hend hse hmax =>
      decodePacket_read_bits s pNode hr haddr hlen hcrc hexc hfn hend hse hmax⟩

theorem packBits_packs_lsb_first_witness :
    (FrameReady (sessionState regsOneCoilBlock 1
        (bufferOf [0x01, 0x01, 0x00, 0x00, 0x00, 0x08, 0x3D, 0xCC]) 8 5)
      ∧ 8 < (1 + 8) % 65536 ∧ 1 ≤ 8)
    ∧ (∃ out, packBits regsOneCoilBlock COILS (bufferOf []) 3 1 8 = some (out, 1)
        ∧ (∀ k, k < 8 → (out (3 + k / 8)).testBit (k % 8) = (0xA5).testBit (k % 8)))
    ∧ (∃ s', decodePacket (sessionState regsOneCoilBlock 1
          (bufferOf [0x01, 0x01, 0x00, 0x00, 0x00, 0x08, 0x3D, 0xCC]) 8 5) = some s'
        ∧ s'.arybytMbBuffer 2 = 1 ∧ s'.TXREG = [0x01, 0x01]) := by
  refine ⟨by decide, ?_, ?_⟩
  · obtain ⟨out, h1, h2, -, -⟩ := packBits_packs_lsb_first.1 regsOneCoilBlock COILS
      (bufferOf []) 3 1 8 (blockOf COILS 1 8 (rampData 0xA5)) (Or.inl ⟨rfl, rfl⟩)
      (by decide) (by decide)
    refine ⟨out, h1, ?_⟩
    intro k hk
    have := h2 k (by omega)
    rw [this]
    have hz : (1 - (blockOf COILS 1 8 (rampData 0xA5)).uintAddress + k) / 8 % 256 = 0 := by
      show (1 - 1 + k) / 8 % 256 = 0
      omega
    have hm : (1 - (blockOf COILS 1 8 (rampData 0xA5)).uintAddress + k) % 8 = k % 8 := by
      show (1 - 1 + k) % 8 = k % 8
      omega
    rw [hz, hm]
    rfl
  · obtain ⟨s', h1, h2, -, h4⟩ := packBits_packs_lsb_first.2
      (sessionState regsOneCoilBlock 1
        (bufferOf [0x01, 0x01, 0x00, 0x00, 0x00, 0x08, 0x3D, 0xCC]) 8 5)
      (blockOf COILS 1 8 (rampData 0xA5)) (by decide) (by decide) (by decide) (by decide)
      (by decide) (Or.inl ⟨by decide, rfl⟩) (by decide) (by decide) (by decide)
    exact ⟨s', h1, h2, h4⟩

/-- C8 (the claim as stated fails): in a coil block of 4096 coils from address 1 on whose
storage byte 256 holds 1, packBits serves the range 2049 to 2049 (N = 1, k = 0) and packs
bit 0 of storage byte 0, which is 0, while bit ((2049-1) mod 8) of storage byte
((2049-1) div 8) = 256 is 1. For the CRC-valid request 01 01 00 00 08 00 for 2048 coils of
that block packBits returns 256, and the dispatcher answers with the exception frame
(function byte 0x81, exception code 2 in buffer byte 2) instead of a byte count. -/
theorem packBits_data_index_wraps_at_2048 :
    ((firstNode 2049 regsBigCoilBlock.pCoils).map (fun b => (b.uintAddress, b.uintTotal))
        = some (1, 4096)
      ∧ 2049 < (1 + 4096) % 65536
      ∧ (packBits regsBigCoilBlock COILS (bufferOf []) 0 2049 2049).map
          (fun r => ((r.1 (0 + 0 / 8)).testBit (0 % 8), r.2)) = some (false, 1)
      ∧ (highByteData ((2049 - 1 + 0) / 8)).testBit ((2049 - 1 + 0) % 8) = true)
    ∧ ((∃ out, packBits regsBigCoilBlock COILS (bufferOf [0x01, 0x01, 0x00, 0x00, 0x08, 0x00])
          3 1 2048 = some (out, 256))
      ∧ ∃ s', decodePacket (sessionState regsBigCoilBlock 1
            (bufferOf [0x01, 0x01, 0x00, 0x00, 0x08, 0x00, 0x3B, 0xCA]) 8 5) = some s'
          ∧ s'.arybytMbBuffer 2 = ILLEGAL_DATA_ADDRESS ∧ s'.TXREG = [0x01, 0x81]) := by
  refine ⟨by decide, ?_, ?_⟩
  · obtain ⟨out, h, -⟩ := packBits_serves regsBigCoilBlock COILS
      (bufferOf [0x01, 0x01, 0x00, 0x00, 0x08, 0x00]) 3 1 2048
      (blockOf COILS 1 4096 highByteData) (Or.inl ⟨rfl, rfl⟩) (by decide) (by decide)
    exact ⟨out, h⟩
  · exact decodePacket_read_bits_zero
      (sessionState regsBigCoilBlock 1
        (bufferOf [0x01, 0x01, 0x00, 0x00, 0x08, 0x00, 0x3B, 0xCA]) 8 5)
      (blockOf COILS 1 4096 highByteData) (by decide) (by decide) (by decide) (by decide)
      (by decide) (Or.inl ⟨by decide, rfl⟩) (by decide) (by decide) (by decide)

/-! ### Dispatcher: exception responses -/

theorem store_apply (m : Nat → Nat) (i w y : Nat) : store m i w y = if y = i then w else m y :=
  rfl

theorem bufferBytes_three (buf : Nat → Nat) :
    bufferBytes buf 3 = [buf 0 % 256, buf 1 % 256, buf 2 % 256] := rfl

theorem respond_exception_frame (u : State) (hexc : u.eMbExceptionCode ≠ NO_EXCEPTION)
    (hidx : u.bytMbIndex = 3) (h0 : u.bytMbRxphase.testBit 0 = true)
    (hb0 : u.arybytMbBuffer 0 < 256) (hb1 : u.arybytMbBuffer 1 < 256)
    (hcode : u.eMbExceptionCode < 256) :
    ∃ s', respond u = some s'
      ∧ responseFrame s' = u.TXREG ++
          [u.arybytMbBuffer 0, u.arybytMbBuffer 1 ||| EXCEPTION_FLAG, u.eMbExceptionCode,
           Lo (crc16 [u.arybytMbBuffer 0, u.arybytMbBuffer 1 ||| EXCEPTION_FLAG,
                      u.eMbExceptionCode]),
           Hi (crc16 [u.arybytMbBuffer 0, u.arybytMbBuffer 1 ||| EXCEPTION_FLAG,
                      u.eMbExceptionCode])]
      ∧ s'.regs = u.regs ∧ s'.eMbExceptionCode = NO_EXCEPTION := by
  have hor : u.arybytMbBuffer 1 ||| EXCEPTION_FLAG < 256 :=
    @Nat.or_lt_two_pow _ _ 8 hb1 (by decide)
  obtain ⟨s', hts, hb, hr, htx, -, -, he⟩ := transmitStart_some
    { u with arybytMbBuffer :=
               store (store u.arybytMbBuffer 1 (u.arybytMbBuffer 1 ||| EXCEPTION_FLAG)) 2
                 (u.eMbExceptionCode % 256),
             eMbExceptionCode := NO_EXCEPTION } h0 (by constructor <;> simp only [] <;> omega)
  have hcrc : calcCRC (store (store u.arybytMbBuffer 1 (u.arybytMbBuffer 1 ||| EXCEPTION_FLAG)) 2
      (u.eMbExceptionCode % 256)) 3
      = crc16 [u.arybytMbBuffer 0, u.arybytMbBuffer 1 ||| EXCEPTION_FLAG,
               u.eMbExceptionCode] := by
    rw [calcCRC_eq_crc16 _ 3 (by decide) (by decide), bufferBytes_three]
    simp only [store_apply]
    simp [Nat.mod_eq_of_lt hb0, Nat.mod_eq_of_lt hor, Nat.mod_eq_of_lt hcode]
  refine ⟨s', ?_, ?_, hr, he⟩
  · unfold respond
    rw [if_pos hexc]
    simp only []
    rw [if_pos (by omega)]
    exact hts
  · unfold responseFrame
    rw [htx, hb]
    simp only [hidx, hcrc]
    simp [store_apply, List.range_succ, Nat.mod_eq_of_lt hcode]

theorem dispatch_of_exception (s t : State)
    (hsel : selectTable { s with bytMbIndex := 3 } = t)
    (hexc : t.eMbExceptionCode ≠ NO_EXCEPTION) : dispatch s = respond t := by
  unfold dispatch
  simp only [hsel, if_neg hexc]

theorem selectTable_unsupported (u : State)
    (h : u.arybytMbBuffer 1 ≠ READ_COILS ∧ u.arybytMbBuffer 1 ≠ READ_STATUS_INPUTS
      ∧ u.arybytMbBuffer 1 ≠ READ_HOLDING_REGISTERS ∧ u.arybytMbBuffer 1 ≠ READ_INPUT_REGISTERS
      ∧ u.arybytMbBuffer 1 ≠ FORCE_SINGLE_COIL ∧ u.arybytMbBuffer 1 ≠ PRESET_SINGLE_REGISTER
      ∧ u.arybytMbBuffer 1 ≠ FORCE_MULTIPLE_COILS
      ∧ u.arybytMbBuffer 1 ≠ PRESET_MULTIPLE_REGISTERS) :
    selectTable u = { u with eMbExceptionCode := ILLEGAL_FUNCTION } := by
  obtain ⟨h1, h2, h3, h4, h5, h6, h7, h8⟩ := h
  unfold selectTable
  simp [h1, h2, h3, h4, h5, h6, h7, h8]

/-- C11: for every CRC-valid frame addressed to this slave whose function code is none of
1, 2, 3, 4, 5, 6, 15, 16, decodePacket in FrameReady starts the exception response made of
the address, the function code with bit 0x80 set, the code ILLEGAL_FUNCTION (1) and the CRC
of these three bytes (low byte first), whatever blocks are registered, and leaves every
block of every list as it was. -/
theorem decodePacket_illegal_function (s : State) (hr : FrameReady s)
    (haddr : s.arybytMbBuffer 0 = s.bytMbSlaveAddress)
    (hlen : 3 < s.bytMbIndex ∧ s.bytMbIndex < 256)
    (hcrc : s.arybytMbBuffer (s.bytMbIndex - 2)
              = Lo (crc16 (bufferBytes s.arybytMbBuffer (s.bytMbIndex - 2)))
            ∧ s.arybytMbBuffer (s.bytMbIndex - 1)
              = Hi (crc16 (bufferBytes s.arybytMbBuffer (s.bytMbIndex - 2))))
    (hbytes : s.arybytMbBuffer 0 < 256 ∧ s.arybytMbBuffer 1 < 256)
    (hfn : s.arybytMbBuffer 1 ≠ READ_COILS ∧ s.arybytMbBuffer 1 ≠ READ_STATUS_INPUTS
      ∧ s.arybytMbBuffer 1 ≠ READ_HOLDING_REGISTERS ∧ s.arybytMbBuffer 1 ≠ READ_INPUT_REGISTERS
      ∧ s.arybytMbBuffer 1 ≠ FORCE_SINGLE_COIL ∧ s.arybytMbBuffer 1 ≠ PRESET_SINGLE_REGISTER
      ∧ s.arybytMbBuffer 1 ≠ FORCE_MULTIPLE_COILS
      ∧ s.arybytMbBuffer 1 ≠ PRESET_MULTIPLE_REGISTERS) :
    ∃ s', decodePacket s = some s'
      ∧ responseFrame s' = s.TXREG ++
          [s.arybytMbBuffer 0, s.arybytMbBuffer 1 ||| EXCEPTION_FLAG, ILLEGAL_FUNCTION,
           Lo (crc16 [s.arybytMbBuffer 0, s.arybytMbBuffer 1 ||| EXCEPTION_FLAG,
                      ILLEGAL_FUNCTION]),
           Hi (crc16 [s.arybytMbBuffer 0, s.arybytMbBuffer 1 ||| EXCEPTION_FLAG,
                      ILLEGAL_FUNCTION])]
      ∧ s'.regs = s.regs := by
  obtain ⟨t, ht, tr, tb, -, tp, ttx, -, -⟩ := decodePacket_dispatch s hr haddr hlen hcrc
  have hsel := selectTable_unsupported { t with bytMbIndex := 3 } (by rw [tb]; exact hfn)
  have e1 : ILLEGAL_FUNCTION ≠ NO_EXCEPTION := by decide
  have e2 : ILLEGAL_FUNCTION < 256 := by decide
  have e3 : Nat.testBit 5 0 = true := by decide
  obtain ⟨s', h1, h2, h3, -⟩ := respond_exception_frame
    { t with bytMbIndex := 3, eMbExceptionCode := ILLEGAL_FUNCTION } e1 rfl
    (by rw [← tp] at e3; exact e3) (by rw [← tb] at hbytes; exact hbytes.1)
    (by rw [← tb] at hbytes; exact hbytes.2) e2
  refine ⟨s', ?_, ?_, ?_⟩
  · rw [ht, dispatch_of_exception t _ hsel e1]
    exact h1
  · rw [h2]
    simp only [tb, ttx]
  · rw [h3]
    exact tr

theorem decodePacket_illegal_function_witness :
    (FrameReady (sessionState regsTwoHolding 1
        (bufferOf [0x01, 0x2B, 0x00, 0x00, 0x00, 0x00, 0x25, 0xCC]) 8 5)
      ∧ (3 < 8 ∧ 8 < 256))
    ∧ ∃ s', decodePacket (sessionState regsTwoHolding 1
          (bufferOf [0x01, 0x2B, 0x00, 0x00, 0x00, 0x00, 0x25, 0xCC]) 8 5) = some s'
        ∧ responseFrame s' = [0x01, 0xAB, 0x01, 0x9E, 0xF0] ∧ s'.regs = regsTwoHolding :=
  ⟨by decide,
   decodePacket_illegal_function
     (sessionState regsTwoHolding 1 (bufferOf [0x01, 0x2B, 0x00, 0x00, 0x00, 0x00, 0x25, 0xCC])
       8 5)
     (by decide) (by decide) (by decide) (by decide) (by decide) (by decide)⟩

theorem dispatch_eq_request (s : State) : dispatch s = (request s).bind respond := by
  unfold dispatch request
  simp only []
  split <;> rename_i h <;> simp [h]

theorem selectTable_force_multiple_coils (u : State)
    (hf : u.arybytMbBuffer 1 = FORCE_MULTIPLE_COILS) :
    selectTable u = (if u.regs.pCoils.isEmpty then
        { u with eMbExceptionCode := ILLEGAL_DATA_ADDRESS }
      else { u with pCurrBlock := some (.pCoils, 0) }) := by
  unfold selectTable
  simp [hf]

theorem selectTable_preset_multiple_registers (u : State)
    (hf : u.arybytMbBuffer 1 = PRESET_MULTIPLE_REGISTERS) :
    selectTable u = (if u.regs.pHoldingRegs.isEmpty then
        { u with eMbExceptionCode := ILLEGAL_DATA_ADDRESS }
      else { u with pCurrBlock := some (.pHoldingRegs, 0) }) := by
  unfold selectTable
  simp [hf]

theorem execute_over_ceiling (u : State)
    (h : (u.arybytMbBuffer 1 = FORCE_MULTIPLE_COILS
          ∧ (word (u.arybytMbBuffer 4) (u.arybytMbBuffer 5) > MAX_DISCRETES_IN_FC15
            ∨ word (u.arybytMbBuffer 4) (u.arybytMbBuffer 5) > (u.arybytMbBuffer 6 % 256) * 8))
      ∨ (u.arybytMbBuffer 1 = PRESET_MULTIPLE_REGISTERS
          ∧ word (u.arybytMbBuffer 4) (u.arybytMbBuffer 5) > MAX_REGISTERS_IN_FC16)) :
    ∃ v, execute u = some v ∧ v.eMbExceptionCode = ILLEGAL_DATA_ADDRESS
      ∧ v.bytMbIndex = u.bytMbIndex ∧ v.arybytMbBuffer = u.arybytMbBuffer
      ∧ v.bytMbRxphase = u.bytMbRxphase ∧ v.TXREG = u.TXREG ∧ v.regs = u.regs := by
  obtain ⟨r1, r2, r3, r4, r5, r6⟩ := resolveCurrBlock_fields u
    ((word (u.arybytMbBuffer 2) (u.arybytMbBuffer 3) + 1) % 65536)
    ((word (u.arybytMbBuffer 2) (u.arybytMbBuffer 3)
            + word (u.arybytMbBuffer 4) (u.arybytMbBuffer 5)) % 65536)
  rcases h with ⟨hf, hc⟩ | ⟨hf, hc⟩
  · unfold execute
    simp +decide only [hf, r1, r2, r3, or_self, or_false, false_or, if_false,
      true_and, false_and]
    rw [if_pos hc]
    refine ⟨_, rfl, ?_, ?_, ?_, ?_, ?_, ?_⟩ <;> first | rfl | assumption
  · unfold execute
    simp +decide only [hf, r1, r2, r3, or_self, or_false, false_or, if_false,
      true_and, false_and, or_true, if_true]
    rw [if_pos hc]
    refine ⟨_, rfl, ?_, ?_, ?_, ?_, ?_, ?_⟩ <;> first | rfl | assumption

theorem request_over_ceiling (t : State) (hexc : t.eMbExceptionCode = NO_EXCEPTION)
    (h : (t.arybytMbBuffer 1 = FORCE_MULTIPLE_COILS
          ∧ (word (t.arybytMbBuffer 4) (t.arybytMbBuffer 5) > MAX_DISCRETES_IN_FC15
            ∨ word (t.arybytMbBuffer 4) (t.arybytMbBuffer 5) > (t.arybytMbBuffer 6 % 256) * 8))
      ∨ (t.arybytMbBuffer 1 = PRESET_MULTIPLE_REGISTERS
          ∧ word (t.arybytMbBuffer 4) (t.arybytMbBuffer 5) > MAX_REGISTERS_IN_FC16)) :
    ∃ v, request t = some v ∧ v.eMbExceptionCode = ILLEGAL_DATA_ADDRESS
      ∧ v.bytMbIndex = 3 ∧ v.arybytMbBuffer = t.arybytMbBuffer
      ∧ v.bytMbRxphase = t.bytMbRxphase ∧ v.TXREG = t.TXREG ∧ v.regs = t.regs := by
  have hsel : selectTable { t with bytMbIndex := 3 }
        = { t with bytMbIndex := 3, eMbExceptionCode := ILLEGAL_DATA_ADDRESS }
      ∨ ∃ p, selectTable { t with bytMbIndex := 3 }
        = { t with bytMbIndex := 3, pCurrBlock := some p } := by
    rcases h with ⟨hf, -⟩ | ⟨hf, -⟩
    · rw [selectTable_force_multiple_coils { t with bytMbIndex := 3 } hf]
      by_cases he : t.regs.pCoils.isEmpty = true
      · left; simp only [he, if_true]
      · right; exact ⟨_, by simp only [he]; rfl⟩
    · rw [selectTable_preset_multiple_registers { t with bytMbIndex := 3 } hf]
      by_cases he : t.regs.pHoldingRegs.isEmpty = true
      · left; simp only [he, if_true]
      · right; exact ⟨_, by simp only [he]; rfl⟩
  have e1 : ILLEGAL_DATA_ADDRESS ≠ NO_EXCEPTION := by decide
  rcases hsel with hsel | ⟨p, hsel⟩
  · refine ⟨{ t with bytMbIndex := 3, eMbExceptionCode := ILLEGAL_DATA_ADDRESS }, ?_,
      rfl, rfl, rfl, rfl, rfl, rfl⟩
    unfold request
    simp only [hsel]
    rw [if_neg e1]
  · obtain ⟨v, hv, h1, h2, h3, h4, h5, h6⟩ := execute_over_ceiling
      { t with bytMbIndex := 3, pCurrBlock := some p } h
    refine ⟨v, ?_, h1, h2, h3, h4, h5, h6⟩
    unfold request
    simp only [hsel]
    rw [if_pos hexc]
    exact hv

/-- C14: for every CRC-valid force-multiple-coils request addressed to this slave whose item
count exceeds 1968 or exceeds 8 times request byte 6, and for every CRC-valid
preset-multiple-registers request whose item count exceeds 123, decodePacket in FrameReady
starts the exception response made of the address, the function code with bit 0x80 set,
the code ILLEGAL_DATA_ADDRESS (2) and the CRC of these three bytes, and leaves every block
of every list (storage and update flag) as it was. -/
theorem decodePacket_multiple_write_over_ceiling (s : State) (hr : FrameReady s)
    (haddr : s.arybytMbBuffer 0 = s.bytMbSlaveAddress)
    (hlen : 3 < s.bytMbIndex ∧ s.bytMbIndex < 256)
    (hcrc : s.arybytMbBuffer (s.bytMbIndex - 2)
              = Lo (crc16 (bufferBytes s.arybytMbBuffer (s.bytMbIndex - 2)))
            ∧ s.arybytMbBuffer (s.bytMbIndex - 1)
              = Hi (crc16 (bufferBytes s.arybytMbBuffer (s.bytMbIndex - 2))))
    (hbytes : s.arybytMbBuffer 0 < 256 ∧ s.arybytMbBuffer 1 < 256 ∧ s.arybytMbBuffer 6 < 256)
    (hexc : s.eMbExceptionCode = NO_EXCEPTION)
    (h : (s.arybytMbBuffer 1 = FORCE_MULTIPLE_COILS
          ∧ (word (s.arybytMbBuffer 4) (s.arybytMbBuffer 5) > MAX_DISCRETES_IN_FC15
            ∨ word (s.arybytMbBuffer 4) (s.arybytMbBuffer 5) > s.arybytMbBuffer 6 * 8))
      ∨ (s.arybytMbBuffer 1 = PRESET_MULTIPLE_REGISTERS
          ∧ word (s.arybytMbBuffer 4) (s.arybytMbBuffer 5) > MAX_REGISTERS_IN_FC16)) :
    ∃ s', decodePacket s = some s'
      ∧ responseFrame s' = s.TXREG ++
          [s.arybytMbBuffer 0, s.arybytMbBuffer 1 ||| EXCEPTION_FLAG, ILLEGAL_DATA_ADDRESS,
           Lo (crc16 [s.arybytMbBuffer 0, s.arybytMbBuffer 1 ||| EXCEPTION_FLAG,
                      ILLEGAL_DATA_ADDRESS]),
           Hi (crc16 [s.arybytMbBuffer 0, s.arybytMbBuffer 1 ||| EXCEPTION_FLAG,
                      ILLEGAL_DATA_ADDRESS])]
      ∧ s'.regs = s.regs := by
  obtain ⟨t, ht, tr, tb, te, tp, ttx, -, -⟩ := decodePacket_dispatch s hr haddr hlen hcrc
  have h' : (t.arybytMbBuffer 1 = FORCE_MULTIPLE_COILS
          ∧ (word (t.arybytMbBuffer 4) (t.arybytMbBuffer 5) > MAX_DISCRETES_IN_FC15
            ∨ word (t.arybytMbBuffer 4) (t.arybytMbBuffer 5) > (t.arybytMbBuffer 6 % 256) * 8))
      ∨ (t.arybytMbBuffer 1 = PRESET_MULTIPLE_REGISTERS
          ∧ word (t.arybytMbBuffer 4) (t.arybytMbBuffer 5) > MAX_REGISTERS_IN_FC16) := by
    rw [tb, Nat.mod_eq_of_lt hbytes.2.2]
    exact h
  obtain ⟨v, hv, v1, v2, v3, v4, v5, v6⟩ := request_over_ceiling t (by rw [te]; exact hexc) h'
  have e3 : Nat.testBit 5 0 = true := by decide
  obtain ⟨s', h1, h2, h3, -⟩ := respond_exception_frame v (by rw [v1]; decide) v2
    (by rw [v4, tp]; exact e3) (by rw [v3, tb]; exact hbytes.1)
    (by rw [v3, tb]; exact hbytes.2.1) (by rw [v1]; decide)
  refine ⟨s', ?_, ?_, ?_⟩
  · rw [ht, dispatch_eq_request, hv]
    exact h1
  · rw [h2, v5, v3, v1, tb, ttx]
  · rw [h3, v6, tr]

theorem decodePacket_multiple_write_over_ceiling_witness :
    (FrameReady (sessionState regsTwoHolding 1
        (bufferOf [0x01, 0x10, 0x00, 0x00, 0x00, 0x7C, 0xF8, 0x28, 0x12]) 9 5)
      ∧ word 0x00 0x7C > MAX_REGISTERS_IN_FC16)
    ∧ ∃ s', decodePacket (sessionState regsTwoHolding 1
          (bufferOf [0x01, 0x10, 0x00, 0x00, 0x00, 0x7C, 0xF8, 0x28, 0x12]) 9 5) = some s'
        ∧ responseFrame s' = [0x01, 0x90, 0x02, 0xCD, 0xC1] ∧ s'.regs = regsTwoHolding :=
  ⟨by decide,
   decodePacket_multiple_write_over_ceiling
     (sessionState regsTwoHolding 1
       (bufferOf [0x01, 0x10, 0x00, 0x00, 0x00, 0x7C, 0xF8, 0x28, 0x12]) 9 5)
     (by decide) (by decide) (by decide) (by decide) (by decide) (by decide) (by decide)⟩

/-! ### Dispatcher: single writes -/

/-- C16 (the code departs from the claim): on a registry with a coil block 1 to 16 and a
holding-register block 1 to 10, the successful preset-single-register request
01 06 00 00 00 05 49 C9 and the successful force-single-coil request 01 05 00 00 FF 00 8C 3A
are each answered with nine bytes, the eight bytes of the request followed by 00, not with
the eight-byte echo: the index goes from 3 to 7, so the response CRC is taken over seven
bytes, the seventh being the low CRC byte of the request. The register and the coil are
written and their blocks flagged. -/
theorem decodePacket_single_write_response_has_nine_bytes :
    (FrameReady (sessionState regsCoilsAndHolding 1
        (bufferOf [0x01, 0x06, 0x00, 0x00, 0x00, 0x05, 0x49, 0xC9]) 8 5)
      ∧ Lo (crc16 [0x01, 0x06, 0x00, 0x00, 0x00, 0x05]) = 0x49
      ∧ Hi (crc16 [0x01, 0x06, 0x00, 0x00, 0x00, 0x05]) = 0xC9
      ∧ FrameReady (sessionState regsCoilsAndHolding 1
        (bufferOf [0x01, 0x05, 0x00, 0x00, 0xFF, 0x00, 0x8C, 0x3A]) 8 5)
      ∧ Lo (crc16 [0x01, 0x05, 0x00, 0x00, 0xFF, 0x00]) = 0x8C
      ∧ Hi (crc16 [0x01, 0x05, 0x00, 0x00, 0xFF, 0x00]) = 0x3A)
    ∧ (decodePacket (sessionState regsCoilsAndHolding 1
        (bufferOf [0x01, 0x06, 0x00, 0x00, 0x00, 0x05, 0x49, 0xC9]) 8 5)).map
          (fun s => (responseFrame s,
            s.regs.pHoldingRegs.map (fun b => (b.paryData 0, b.blnUpdate))))
      = some ([0x01, 0x06, 0x00, 0x00, 0x00, 0x05, 0x49, 0xC9, 0x00], [(5, true)])
    ∧ (decodePacket (sessionState regsCoilsAndHolding 1
        (bufferOf [0x01, 0x05, 0x00, 0x00, 0xFF, 0x00, 0x8C, 0x3A]) 8 5)).map
          (fun s => (responseFrame s, s.regs.pCoils.map (fun b => (b.paryData 0, b.blnUpdate))))
      = some ([0x01, 0x05, 0x00, 0x00, 0xFF, 0x00, 0x8C, 0x3A, 0x00], [(1, true)]) := by
  decide

/-- C17 (the code departs from the claim): the force-single-coil request
01 05 00 00 12 34 C0 BD, whose value field 0x1234 is neither 0xFF00 nor 0x0000, assigns
nothing to the local blnState before it is tested. When the location holds TRUE, as a
successful force-single-coil request leaves it, the request gets a normal response (function
byte 05, nine bytes) and no exception response; when it holds FALSE the exception response
01 85 02 C3 51 is sent. No coil and no update flag changes either way. -/
theorem decodePacket_force_single_coil_bad_value_accepted :
    (FrameReady (sessionState regsCoilsAndHolding 1
        (bufferOf [0x01, 0x05, 0x00, 0x00, 0x12, 0x34, 0xC0, 0xBD]) 8 5)
      ∧ Lo (crc16 [0x01, 0x05, 0x00, 0x00, 0x12, 0x34]) = 0xC0
      ∧ Hi (crc16 [0x01, 0x05, 0x00, 0x00, 0x12, 0x34]) = 0xBD)
    ∧ (decodePacket (sessionState regsCoilsAndHolding 1
        (bufferOf [0x01, 0x05, 0x00, 0x00, 0xFF, 0x00, 0x8C, 0x3A]) 8 5)).map
          (fun s => s.blnState) = some true
    ∧ (decodePacket { sessionState regsCoilsAndHolding 1
          (bufferOf [0x01, 0x05, 0x00, 0x00, 0x12, 0x34, 0xC0, 0xBD]) 8 5 with
          blnState := true }).map
          (fun s => (responseFrame s, s.regs.pCoils.map (fun b => (b.paryData 0, b.blnUpdate))))
      = some ([0x01, 0x05, 0x00, 0x00, 0x12, 0x34, 0xC0, 0xBD, 0x00], [(0, false)])
    ∧ (decodePacket { sessionState regsCoilsAndHolding 1
          (bufferOf [0x01, 0x05, 0x00, 0x00, 0x12, 0x34, 0xC0, 0xBD]) 8 5 with
          blnState := false }).map
          (fun s => (responseFrame s, s.regs.pCoils.map (fun b => (b.paryData 0, b.blnUpdate))))
      = some ([0x01, 0x85, 0x02, 0xC3, 0x51], [(0, false)]) := by
  decide

/-- C12 (the code departs from the claim): with one coil block, addresses 1 to 16, the
force-single-coil request 01 05 00 63 12 34 30 A3 addresses coil 100, which lies in no
block, and its value field is neither 0xFF00 nor 0x0000, so nothing is assigned to the local
blnState before it is tested. When the location holds TRUE, as the successful request
01 05 00 00 FF 00 8C 3A leaves it, the request gets a normal response (function byte 05)
and not the exception response with code 2; no block is changed. -/
theorem decodePacket_force_single_coil_outside_block_accepted :
    (FrameReady (sessionState regsCoilsAndHolding 1
        (bufferOf [0x01, 0x05, 0x00, 0x63, 0x12, 0x34, 0x30, 0xA3]) 8 5)
      ∧ Lo (crc16 [0x01, 0x05, 0x00, 0x63, 0x12, 0x34]) = 0x30
      ∧ Hi (crc16 [0x01, 0x05, 0x00, 0x63, 0x12, 0x34]) = 0xA3
      ∧ regsCoilsAndHolding.pCoils.map (fun b => (b.uintAddress, b.uintTotal)) = [(1, 16)])
    ∧ (decodePacket (sessionState regsCoilsAndHolding 1
        (bufferOf [0x01, 0x05, 0x00, 0x00, 0xFF, 0x00, 0x8C, 0x3A]) 8 5)).map
          (fun s => s.blnState) = some true
    ∧ (decodePacket { sessionState regsCoilsAndHolding 1
          (bufferOf [0x01, 0x05, 0x00, 0x63, 0x12, 0x34, 0x30, 0xA3]) 8 5 with
          blnState := true }).map
          (fun s => (responseFrame s, s.regs.pCoils.map (fun b => (b.paryData 0, b.blnUpdate))))
      = some ([0x01, 0x05, 0x00, 0x63, 0x12, 0x34, 0x30, 0xA3, 0x00], [(0, false)]) := by
  decide

/-! ### Dispatcher: the response frame -/

theorem transmitStart_index_254 (s : State) (h0 : s.bytMbRxphase.testBit 0 = true)
    (hidx : s.bytMbIndex = 254) :
    ∃ s', transmitStart s = some s' ∧ s'.arybytMbBuffer 0 = 0
      ∧ s'.TXREG = s.TXREG ++ [s.arybytMbBuffer 0, s.arybytMbBuffer 1]
      ∧ s'.regs = s.regs := by
  unfold transmitStart
  simp only [h0, Bool.true_eq_false, if_false, hidx]
  refine ⟨_, rfl, ?_, ?_, rfl⟩
  · rfl
  · have hs : ∀ (m : Nat → Nat) (i w y : Nat), store m i w y = if y = i then w else m y :=
      fun _ _ _ _ => rfl
    simp [hs]

/-- C15 (the code departs from the claim): with one coil block of 4096 coils from address 1
on, the CRC-valid request 01 01 00 00 07 D1 (read coils, start 0, quantity 2001, above
MAX_DISCRETES_IN_1_AND_2) is served: the byte count is 251, the index goes from 3 to 254,
the two CRC bytes land in buffer bytes 254 and 255 and the 8-bit index wraps to 0, which is
stored as the response length. The response sent is the two bytes 01 01 and nothing else:
it does not end with the CRC of what precedes. -/
theorem decodePacket_read_2001_coils_response_truncated :
    (FrameReady (sessionState regsBigCoilBlock 1
        (bufferOf [0x01, 0x01, 0x00, 0x00, 0x07, 0xD1, 0xFE, 0x66]) 8 5)
      ∧ Lo (crc16 [0x01, 0x01, 0x00, 0x00, 0x07, 0xD1]) = 0xFE
      ∧ Hi (crc16 [0x01, 0x01, 0x00, 0x00, 0x07, 0xD1]) = 0x66
      ∧ word 0x07 0xD1 = 2001 ∧ 2001 > MAX_DISCRETES_IN_1_AND_2
      ∧ regsBigCoilBlock.pCoils.map (fun b => (b.uintAddress, b.uintTotal)) = [(1, 4096)])
    ∧ (decodePacket (sessionState regsBigCoilBlock 1
        (bufferOf [0x01, 0x01, 0x00, 0x00, 0x07, 0xD1, 0xFE, 0x66]) 8 5)).map responseFrame
      = some [0x01, 0x01] := by
  refine ⟨by decide, ?_⟩
  obtain ⟨t, ht, tr, tb, te, tp, ttx, -, -⟩ := decodePacket_dispatch
    (sessionState regsBigCoilBlock 1
        (bufferOf [0x01, 0x01, 0x00, 0x00, 0x07, 0xD1, 0xFE, 0x66]) 8 5)
    (by decide) (by decide) (by decide) (by decide)
  have hfirst : ((if (bufferOf [0x01, 0x01, 0x00, 0x00, 0x07, 0xD1, 0xFE, 0x66]) 1 = READ_COILS
        then COILS else STATUS_INPUTS) = COILS
        ∧ firstNode 1 regsBigCoilBlock.pCoils = some (blockOf COILS 1 4096 highByteData))
      ∨ ((if (bufferOf [0x01, 0x01, 0x00, 0x00, 0x07, 0xD1, 0xFE, 0x66]) 1 = READ_COILS
        then COILS else STATUS_INPUTS) = STATUS_INPUTS
        ∧ firstNode 1 regsBigCoilBlock.pStatusBits = some (blockOf COILS 1 4096 highByteData)) :=
    Or.inl ⟨by decide, rfl⟩
  obtain ⟨out, hpack, -, -, hframe⟩ := packBits_serves regsBigCoilBlock _
    (bufferOf [0x01, 0x01, 0x00, 0x00, 0x07, 0xD1, 0xFE, 0x66]) 3 1 2001 _ hfirst
    (by decide) (by decide)
  have hsel : selectTable { t with bytMbIndex := 3 }
      = { t with bytMbIndex := 3, pCurrBlock := some (.pCoils, 0) } :=
    selectTable_read_coils _ (by rw [tb]; decide) (by rw [tr]; decide)
  have hb : ({ t with bytMbIndex := 3, pCurrBlock := some (.pCoils, 0) } : State).arybytMbBuffer
      = bufferOf [0x01, 0x01, 0x00, 0x00, 0x07, 0xD1, 0xFE, 0x66] := tb
  obtain ⟨u', hex, hbuf, hidx, hexc', hph, hregs, htx⟩ :=
    execute_read_bits { t with bytMbIndex := 3, pCurrBlock := some (.pCoils, 0) } out 251
      (Or.inl (by rw [hb]; decide))
      (by rw [hb]
          rw [show ({ t with bytMbIndex := 3, pCurrBlock := some (.pCoils, 0) } : State).regs
            = regsBigCoilBlock from tr]
          exact hpack) (by decide)
  have hidx' : u'.bytMbIndex = 254 := hidx
  obtain ⟨s', hts, hb0, htx', -⟩ := transmitStart_index_254 u'
    (by rw [hph]; show t.bytMbRxphase.testBit 0 = true; rw [tp]; decide) hidx'
  have hd : decodePacket (sessionState regsBigCoilBlock 1
        (bufferOf [0x01, 0x01, 0x00, 0x00, 0x07, 0xD1, 0xFE, 0x66]) 8 5) = some s' := by
    rw [ht, dispatch_of_execute t _ u' hsel te hex,
      respond_no_exception u' (by rw [hexc']; exact te) (by rw [hidx']; decide)]
    exact hts
  rw [hd]
  simp only [Option.map_some', responseFrame, hb0, htx', htx, hbuf]
  have hs : ∀ (m : Nat → Nat) (i w y : Nat), store m i w y = if y = i then w else m y :=
    fun _ _ _ _ => rfl
  simp [hs, hframe 0 (by decide), hframe 1 (by decide)]
  rw [ttx]
  rfl

/-! ### What the dispatcher may change -/

theorem blockStep_refl (b : modbusBlockDef) : blockStep b b :=
  ⟨rfl, rfl, rfl, rfl, rfl, fun h => h⟩

theorem blockStep_trans (a b c : modbusBlockDef) (hab : blockStep a b)
    (hbc : blockStep b c) : blockStep a c := by
  unfold blockStep at hab hbc ⊢
  have hflag : a.blnUpdate = true → c.blnUpdate = true :=
    fun hset => hbc.2.2.2.2.2 (hab.2.2.2.2.2 hset)
  rw [hbc.1, hbc.2.1, hbc.2.2.1, hbc.2.2.2.1, hbc.2.2.2.2.1]
  exact ⟨hab.1, hab.2.1, hab.2.2.1, hab.2.2.2.1, hab.2.2.2.2.1, hflag⟩

theorem regsStep_refl (p : Option (ListHead × Nat)) (r : Registry) : regsStep p r r :=
  fun _ => ⟨rfl, fun _ b hb => ⟨b, hb, blockStep_refl b, fun _ => rfl⟩⟩

theorem regsStep_trans (p : Option (ListHead × Nat)) (r1 r2 r3 : Registry)
    (h1 : regsStep p r1 r2) (h2 : regsStep p r2 r3) : regsStep p r1 r3 := by
  intro k
  refine ⟨(h2 k).1.trans (h1 k).1, ?_⟩
  intro j b hb
  obtain ⟨b', hb', s1, e1⟩ := (h1 k).2 j b hb
  obtain ⟨b'', hb'', s2, e2⟩ := (h2 k).2 j b' hb'
  exact ⟨b'', hb'', blockStep_trans _ _ _ s1 s2, fun hp => (e2 hp).trans (e1 hp)⟩

theorem regsStep_list_eq (p : Option (ListHead × Nat)) (r r' : Registry)
    (h : regsStep p r r') (k : ListHead) (hk : ∀ j, p ≠ some (k, j)) : r'.get k = r.get k := by
  apply List.ext_getElem?
  intro n
  cases hn : (r.get k)[n]? with
  | none =>
    have hlen : (r.get k).length ≤ n := List.getElem?_eq_none_iff.mp hn
    exact List.getElem?_eq_none (by rw [(h k).1]; exact hlen)
  | some b =>
    obtain ⟨b', hb', -, e⟩ := (h k).2 n b hn
    rw [hb', e (hk n)]

theorem regsStep_none (r r' : Registry) (h : regsStep none r r') : r' = r := by
  have h1 := regsStep_list_eq none r r' h .pCoils (fun _ hc => by cases hc)
  have h2 := regsStep_list_eq none r r' h .pStatusBits (fun _ hc => by cases hc)
  have h3 := regsStep_list_eq none r r' h .pHoldingRegs (fun _ hc => by cases hc)
  have h4 := regsStep_list_eq none r r' h .pInputRegs (fun _ hc => by cases hc)
  cases r
  cases r'
  simp only [Registry.get] at h1 h2 h3 h4
  subst h1 h2 h3 h4
  rfl

theorem regsStep_set (r : Registry) (k : ListHead) (j : Nat) (blk b' : modbusBlockDef)
    (hb : (r.get k)[j]? = some blk) (hs : blockStep blk b') :
    regsStep (some (k, j)) r (r.set k ((r.get k).set j b'))
      ∧ ((r.set k ((r.get k).set j b')).get k)[j]? = some b' := by
  have hj : j < (r.get k).length := (List.getElem?_eq_some.mp hb).1
  constructor
  · intro k'
    by_cases hk : k' = k
    · subst hk
      rw [Registry.get_set_same]
      refine ⟨List.length_set _ _ _, ?_⟩
      intro i b hi
      by_cases hij : i = j
      · subst hij
        refine ⟨b', ?_, ?_, fun hp => absurd rfl hp⟩
        · rw [List.getElem?_set_self hj]
        · rw [hb] at hi
          cases hi
          exact hs
      · refine ⟨b, ?_, blockStep_refl b, fun _ => rfl⟩
        rw [List.getElem?_set_ne (fun h => hij h.symm)]
        exact hi
    · rw [Registry.get_set_other r k k' _ hk]
      exact ⟨rfl, fun i b hi => ⟨b, hi, blockStep_refl b, fun _ => rfl⟩⟩
  · rw [Registry.get_set_same, List.getElem?_set_self hj]

theorem coilState_spec (s : State) (a : Nat) (v : Bool) :
    ∃ r, (coilState s a v).1 = { s with regs := r } ∧ regsStep s.pCurrBlock s.regs r
      ∧ ((coilState s a v).2 = false → r = s.regs ∧ currBlock s = none)
      ∧ ((coilState s a v).2 = true →
          ∃ b, currBlock { s with regs := r } = some b ∧ b.blnUpdate = true) := by
  unfold coilState
  cases hc : currBlock s with
  | none =>
    exact ⟨s.regs, rfl, regsStep_refl _ _, fun _ => ⟨rfl, rfl⟩, fun h => (by cases h)⟩
  | some blk =>
    unfold currBlock at hc
    cases hp : s.pCurrBlock with
    | none => rw [hp] at hc; cases hc
    | some p =>
      obtain ⟨k, j⟩ := p
      rw [hp] at hc
      simp only [] at hc
      simp only []
      generalize hb' : ({ blk with
        paryData := if v = true then
            store blk.paryData ((a + 65536 - blk.uintAddress % 65536) % 65536 / 8 % 256)
              (blk.paryData ((a + 65536 - blk.uintAddress % 65536) % 65536 / 8 % 256)
                ||| 1 <<< ((a + 65536 - blk.uintAddress % 65536) % 65536 % 8) % 256)
          else
            store blk.paryData ((a + 65536 - blk.uintAddress % 65536) % 65536 / 8 % 256)
              (blk.paryData ((a + 65536 - blk.uintAddress % 65536) % 65536 / 8 % 256)
                &&& (255 ^^^ 1 <<< ((a + 65536 - blk.uintAddress % 65536) % 65536 % 8) % 256)),
        blnUpdate := true } : modbusBlockDef) = b'
      have hs : blockStep blk b' := by
        subst hb'
        exact ⟨rfl, rfl, rfl, rfl, rfl, fun _ => rfl⟩
      have hu : b'.blnUpdate = true := by subst hb'; rfl
      obtain ⟨h1, h2⟩ := regsStep_set s.regs k j blk b' hc hs
      refine ⟨s.regs.set k ((s.regs.get k).set j b'), ?_, h1, fun h => (by cases h), fun _ => ?_⟩
      · unfold setCurrBlock
        rw [hp]
      · refine ⟨b', ?_, hu⟩
        unfold currBlock
        simp only [hp]
        exact h2

theorem setRegister_spec (s : State) (a hi lo : Nat) :
    ∃ r, (setRegister s a hi lo).1 = { s with regs := r } ∧ regsStep s.pCurrBlock s.regs r
      ∧ ((setRegister s a hi lo).2 = false → r = s.regs ∧ currBlock s = none)
      ∧ ((setRegister s a hi lo).2 = true →
          ∃ b, currBlock { s with regs := r } = some b ∧ b.blnUpdate = true) := by
  unfold setRegister
  cases hc : currBlock s with
  | none =>
    exact ⟨s.regs, rfl, regsStep_refl _ _, fun _ => ⟨rfl, rfl⟩, fun h => (by cases h)⟩
  | some blk =>
    unfold currBlock at hc
    cases hp : s.pCurrBlock with
    | none => rw [hp] at hc; cases hc
    | some p =>
      obtain ⟨k, j⟩ := p
      rw [hp] at hc
      simp only [] at hc
      simp only []
      generalize hb' : ({ blk with
        paryData := store blk.paryData ((a + 65536 - blk.uintAddress % 65536) % 65536)
          (word hi lo),
        blnUpdate := true } : modbusBlockDef) = b'
      have hs : blockStep blk b' := by
        subst hb'
        exact ⟨rfl, rfl, rfl, rfl, rfl, fun _ => rfl⟩
      have hu : b'.blnUpdate = true := by subst hb'; rfl
      obtain ⟨h1, h2⟩ := regsStep_set s.regs k j blk b' hc hs
      refine ⟨s.regs.set k ((s.regs.get k).set j b'), ?_, h1, fun h => (by cases h), fun _ => ?_⟩
      · unfold setCurrBlock
        rw [hp]
      · refine ⟨b', ?_, hu⟩
        unfold currBlock
        simp only [hp]
        exact h2

theorem writeLoop_spec (uintEAddr : Nat) :
    ∀ (fuel : Nat) (w w' : WriteVars), writeLoop uintEAddr fuel w = some w' →
      ∃ r e bs, w'.s = { w.s with regs := r, eMbExceptionCode := e, blnState := bs }
        ∧ regsStep w.s.pCurrBlock w.s.regs r
        ∧ (e = w.s.eMbExceptionCode ∨ e = ILLEGAL_DATA_ADDRESS) := by
  intro fuel
  induction fuel with
  | zero =>
    intro w w' h
    unfold writeLoop at h
    by_cases hc : w.uintAddr ≤ uintEAddr
    · rw [if_pos hc] at h; cases h
    · rw [if_neg hc] at h
      cases h
      exact ⟨_, _, _, rfl, regsStep_refl _ _, Or.inl rfl⟩
  | succ fuel ih =>
    intro w w' h
    unfold writeLoop at h
    by_cases hc : w.uintAddr ≤ uintEAddr
    · rw [if_pos hc] at h
      by_cases hf : w.s.arybytMbBuffer 1 = PRESET_MULTIPLE_REGISTERS
      · rw [if_pos hf] at h
        simp only [] at h
        obtain ⟨r, h1, h2, -, -⟩ := setRegister_spec w.s w.uintAddr
          (w.s.arybytMbBuffer (7 + w.uintOffset)) (w.s.arybytMbBuffer (8 + w.uintOffset))
        rw [h1] at h
        split at h
        · cases h
          exact ⟨r, _, _, rfl, h2, Or.inr rfl⟩
        · obtain ⟨r', e, bs, g1, g2, g3⟩ := ih _ _ h
          exact ⟨r', e, bs, g1, regsStep_trans _ _ _ _ h2 g2, g3⟩
      · rw [if_neg hf] at h
        simp only [] at h
        obtain ⟨r, h1, h2, -, -⟩ := coilState_spec
          { w.s with
            blnState := decide ((w.s.arybytMbBuffer (7 + w.uintOffset) &&& w.bytBit) > 0) }
          w.uintAddr
          (decide ((w.s.arybytMbBuffer (7 + w.uintOffset) &&& w.bytBit) > 0))
        rw [h1] at h
        split at h
        · cases h
          exact ⟨r, _, _, rfl, h2, Or.inr rfl⟩
        · obtain ⟨r', e, bs, g1, g2, g3⟩ := ih _ _ h
          exact ⟨r', e, bs, g1, regsStep_trans _ _ _ _ h2 g2, g3⟩
    · rw [if_neg hc] at h
      cases h
      exact ⟨_, _, _, rfl, regsStep_refl _ _, Or.inl rfl⟩

theorem packBitsLoop_frame (data : Nat → Nat) (uintEnd p : Nat) :
    ∀ (fuel : Nat) (v w : PackBitsVars), packBitsLoop data uintEnd fuel v = some w →
      p ≤ v.pBuffer → ∀ i, i < p → w.mem i = v.mem i := by
  intro fuel
  induction fuel with
  | zero =>
    intro v w h _ i _
    unfold packBitsLoop at h
    split at h
    · cases h
    · cases h; rfl
  | succ fuel ih =>
    intro v w h hp i hi
    unfold packBitsLoop at h
    split at h
    · have hp' : p ≤ (packBitsPass data v).pBuffer := by
        unfold packBitsPass
        simp only []
        split <;> omega
      rw [ih _ _ h hp' i hi, packBitsPass_mem]
      rw [if_neg (by omega), if_neg (by omega)]
    · cases h; rfl

theorem packBits_frame (regs : Registry) (eType : Nat) (mem : Nat → Nat)
    (pBuffer uintStart uintEnd : Nat) (out : Nat → Nat) (n : Nat)
    (h : packBits regs eType mem pBuffer uintStart uintEnd = some (out, n)) :
    ∀ i, i < pBuffer → out i = mem i := by
  intro i hi
  unfold packBits at h
  simp only [] at h
  split at h
  · cases h; rfl
  · split at h
    · cases h; rfl
    · split at h
      · cases hl : packBitsLoop _ uintEnd 65536 _ with
        | none => rw [hl] at h; cases h
        | some w =>
          rw [hl] at h
          cases h
          rw [packBitsLoop_frame _ _ pBuffer _ _ _ hl (Nat.le_refl _) i hi]
          exact store_other mem pBuffer 0 i (by omega)
      · cases h; rfl

theorem packRegistersLoop_frame (data : Nat → Nat) (pBuffer uintEnd : Nat) :
    ∀ (fuel : Nat) (v w : PackRegistersVars),
      packRegistersLoop data pBuffer uintEnd fuel v = some w →
      ∀ i, i < pBuffer → w.mem i = v.mem i := by
  intro fuel
  induction fuel with
  | zero =>
    intro v w h i _
    unfold packRegistersLoop at h
    split at h
    · cases h
    · cases h; rfl
  | succ fuel ih =>
    intro v w h i hi
    unfold packRegistersLoop at h
    split at h
    · rw [ih _ _ h i hi]
      unfold packRegistersPass
      simp only []
      rw [store_other _ _ _ _ (by omega), store_other _ _ _ _ (by omega)]
    · cases h; rfl

theorem packRegisters_frame (regs : Registry) (eType : Nat) (mem : Nat → Nat)
    (pBuffer uintStart uintEnd : Nat) (out : Nat → Nat) (n : Nat)
    (h : packRegisters regs eType mem pBuffer uintStart uintEnd = some (out, n)) :
    ∀ i, i < pBuffer → out i = mem i := by
  intro i hi
  unfold packRegisters at h
  simp only [] at h
  split at h
  · cases h; rfl
  · split at h
    · cases h; rfl
    · split at h
      · cases hl : packRegistersLoop _ pBuffer uintEnd 65536 _ with
        | none => rw [hl] at h; cases h
        | some w =>
          rw [hl] at h
          cases h
          exact packRegistersLoop_frame _ _ _ _ _ _ hl i hi
      · cases h; rfl

theorem resolveCurrBlock_eq (u : State) (a b : Nat) :
    resolveCurrBlock u a b = { u with pCurrBlock := (resolveCurrBlock u a b).pCurrBlock } := by
  unfold resolveCurrBlock
  cases u.pCurrBlock <;> rfl

theorem resolveCurrBlock_list (u : State) (a b : Nat) :
    (u.pCurrBlock = none → (resolveCurrBlock u a b).pCurrBlock = none)
    ∧ ∀ k i, u.pCurrBlock = some (k, i) →
        (resolveCurrBlock u a b).pCurrBlock
          = (findBlock a b ((u.regs.get k).drop i) i).map (fun j => (k, j)) := by
  unfold resolveCurrBlock
  constructor
  · intro h; rw [h]; exact h
  · intro k i h; rw [h]

/-- What the execution of a request may change: the block `pCurrBlock` is left pointing
to, the exception holder, the local blnState, the buffer from byte 2 on and the index. -/
theorem execute_spec (u v : State) (h : execute u = some v) :
    ∃ pc r e bs buf idx,
      v = { u with pCurrBlock := pc, regs := r, eMbExceptionCode := e, blnState := bs,
                   arybytMbBuffer := buf, bytMbIndex := idx }
      ∧ pc = (resolveCurrBlock u ((word (u.arybytMbBuffer 2) (u.arybytMbBuffer 3) + 1) % 65536)
          ((word (u.arybytMbBuffer 2) (u.arybytMbBuffer 3)
            + (if u.arybytMbBuffer 1 = FORCE_SINGLE_COIL
                  ∨ u.arybytMbBuffer 1 = PRESET_SINGLE_REGISTER then 1
               else word (u.arybytMbBuffer 4) (u.arybytMbBuffer 5))) % 65536)).pCurrBlock
      ∧ regsStep pc u.regs r
      ∧ buf 0 = u.arybytMbBuffer 0 ∧ buf 1 = u.arybytMbBuffer 1
      ∧ (e = u.eMbExceptionCode ∨ (e = ILLEGAL_DATA_ADDRESS ∧ idx = u.bytMbIndex))
      ∧ (¬ (u.arybytMbBuffer 1 = FORCE_SINGLE_COIL ∨ u.arybytMbBuffer 1 = PRESET_SINGLE_REGISTER
            ∨ u.arybytMbBuffer 1 = FORCE_MULTIPLE_COILS
            ∨ u.arybytMbBuffer 1 = PRESET_MULTIPLE_REGISTERS) → r = u.regs) := by
  unfold execute at h
  simp only [] at h
  generalize hS : (word (u.arybytMbBuffer 2) (u.arybytMbBuffer 3) + 1) % 65536 = S at h ⊢
  generalize hE : (word (u.arybytMbBuffer 2) (u.arybytMbBuffer 3)
            + (if u.arybytMbBuffer 1 = FORCE_SINGLE_COIL
                  ∨ u.arybytMbBuffer 1 = PRESET_SINGLE_REGISTER then 1
               else word (u.arybytMbBuffer 4) (u.arybytMbBuffer 5))) % 65536 = E at h ⊢
  have hR := resolveCurrBlock_eq u S E
  generalize hpc : (resolveCurrBlock u S E).pCurrBlock = pc at hR ⊢
  generalize resolveCurrBlock u S E = R at h hR
  by_cases h1 : u.arybytMbBuffer 1 = READ_COILS ∨ u.arybytMbBuffer 1 = READ_STATUS_INPUTS
  · rw [if_pos h1] at h
    subst hR
    split at h
    · cases h
    · rename_i mem n heq
      have f0 := packBits_frame _ _ _ _ _ _ _ _ heq 0 (by decide)
      have f1 := packBits_frame _ _ _ _ _ _ _ _ heq 1 (by decide)
      split at h
      · cases h
        exact ⟨pc, u.regs, _, _, _, _, rfl, rfl, regsStep_refl _ _,
          (store_other _ _ _ _ (by decide)).trans f0, (store_other _ _ _ _ (by decide)).trans f1,
          Or.inr ⟨rfl, rfl⟩, fun _ => rfl⟩
      · cases h
        exact ⟨pc, u.regs, _, _, _, _, rfl, rfl, regsStep_refl _ _,
          (store_other _ _ _ _ (by decide)).trans f0, (store_other _ _ _ _ (by decide)).trans f1,
          Or.inl rfl, fun _ => rfl⟩
  · rw [if_neg h1] at h
    by_cases h2 : u.arybytMbBuffer 1 = READ_HOLDING_REGISTERS
        ∨ u.arybytMbBuffer 1 = READ_INPUT_REGISTERS
    · rw [if_pos h2] at h
      subst hR
      split at h
      · cases h
      · rename_i mem n heq
        have f0 := packRegisters_frame _ _ _ _ _ _ _ _ heq 0 (by decide)
        have f1 := packRegisters_frame _ _ _ _ _ _ _ _ heq 1 (by decide)
        split at h
        · cases h
          exact ⟨pc, u.regs, _, _, _, _, rfl, rfl, regsStep_refl _ _,
            (store_other _ _ _ _ (by decide)).trans f0,
            (store_other _ _ _ _ (by decide)).trans f1, Or.inr ⟨rfl, rfl⟩, fun _ => rfl⟩
        · cases h
          exact ⟨pc, u.regs, _, _, _, _, rfl, rfl, regsStep_refl _ _,
            (store_other _ _ _ _ (by decide)).trans f0,
            (store_other _ _ _ _ (by decide)).trans f1, Or.inl rfl, fun _ => rfl⟩
    · rw [if_neg h2] at h
      by_cases h3 : u.arybytMbBuffer 1 = FORCE_SINGLE_COIL
      · rw [if_pos h3] at h
        generalize hs1 : (if R.arybytMbBuffer 4 = 0xff ∧ R.arybytMbBuffer 5 = 0x0 then
            { (coilState R S true).1 with blnState := (coilState R S true).2 }
          else if R.arybytMbBuffer 4 = 0x0 ∧ R.arybytMbBuffer 5 = 0x0 then
            { (coilState R S false).1 with blnState := (coilState R S false).2 }
          else R) = s1 at h
        have hs1' : ∃ r bs, s1 = { R with regs := r, blnState := bs }
            ∧ regsStep R.pCurrBlock R.regs r := by
          subst hs1
          obtain ⟨r1, e1, g1, -, -⟩ := coilState_spec R S true
          obtain ⟨r2, e2, g2, -, -⟩ := coilState_spec R S false
          by_cases c1 : R.arybytMbBuffer 4 = 0xff ∧ R.arybytMbBuffer 5 = 0x0
          · rw [if_pos c1, e1]; exact ⟨r1, _, rfl, g1⟩
          · rw [if_neg c1]
            by_cases c2 : R.arybytMbBuffer 4 = 0x0 ∧ R.arybytMbBuffer 5 = 0x0
            · rw [if_pos c2, e2]; exact ⟨r2, _, rfl, g2⟩
            · rw [if_neg c2]; exact ⟨R.regs, R.blnState, rfl, regsStep_refl _ _⟩
        obtain ⟨r, bs, e1, g1⟩ := hs1'
        subst e1
        subst hR
        split at h
        · cases h
          exact ⟨pc, r, _, _, _, _, rfl, rfl, g1, rfl, rfl, Or.inr ⟨rfl, rfl⟩,
            fun hn => absurd (Or.inl h3) hn⟩
        · cases h
          exact ⟨pc, r, _, _, _, _, rfl, rfl, g1, rfl, rfl, Or.inl rfl,
            fun hn => absurd (Or.inl h3) hn⟩
      · rw [if_neg h3] at h
        by_cases h4 : u.arybytMbBuffer 1 = PRESET_SINGLE_REGISTER
        · rw [if_pos h4] at h
          obtain ⟨r, e1, g1, -, -⟩ := setRegister_spec R S (R.arybytMbBuffer 4)
            (R.arybytMbBuffer 5)
          rw [e1] at h
          subst hR
          split at h
          · cases h
            exact ⟨pc, r, _, _, _, _, rfl, rfl, g1, rfl, rfl, Or.inr ⟨rfl, rfl⟩,
              fun hn => absurd (Or.inr (Or.inl h4)) hn⟩
          · cases h
            exact ⟨pc, r, _, _, _, _, rfl, rfl, g1, rfl, rfl, Or.inl rfl,
              fun hn => absurd (Or.inr (Or.inl h4)) hn⟩
        · rw [if_neg h4] at h
          generalize (if u.arybytMbBuffer 1 = FORCE_SINGLE_COIL
              ∨ u.arybytMbBuffer 1 = PRESET_SINGLE_REGISTER then 1
            else word (u.arybytMbBuffer 4) (u.arybytMbBuffer 5)) = cnt at h
          by_cases h5 : u.arybytMbBuffer 1 = FORCE_MULTIPLE_COILS
              ∧ (cnt > MAX_DISCRETES_IN_FC15 ∨ cnt > (R.arybytMbBuffer 6 % 256) * 8)
          · rw [if_pos h5] at h
            subst hR
            cases h
            exact ⟨pc, u.regs, _, _, _, _, rfl, rfl, regsStep_refl _ _, rfl, rfl,
              Or.inr ⟨rfl, rfl⟩, fun hn => absurd (Or.inr (Or.inr (Or.inl h5.1))) hn⟩
          · rw [if_neg h5] at h
            by_cases h6 : u.arybytMbBuffer 1 = FORCE_MULTIPLE_COILS
                ∨ u.arybytMbBuffer 1 = PRESET_MULTIPLE_REGISTERS
            · rw [if_pos h6] at h
              by_cases h7 : u.arybytMbBuffer 1 = PRESET_MULTIPLE_REGISTERS
                  ∧ cnt > MAX_REGISTERS_IN_FC16
              · rw [if_pos h7] at h
                subst hR
                cases h
                exact ⟨pc, u.regs, _, _, _, _, rfl, rfl, regsStep_refl _ _, rfl, rfl,
                  Or.inr ⟨rfl, rfl⟩, fun _ => rfl⟩
              · rw [if_neg h7] at h
                have hw6 : ¬ ¬ (u.arybytMbBuffer 1 = FORCE_SINGLE_COIL
                    ∨ u.arybytMbBuffer 1 = PRESET_SINGLE_REGISTER
                    ∨ u.arybytMbBuffer 1 = FORCE_MULTIPLE_COILS
                    ∨ u.arybytMbBuffer 1 = PRESET_MULTIPLE_REGISTERS) :=
                  fun hn => hn (h6.elim (fun a => Or.inr (Or.inr (Or.inl a)))
                    (fun a => Or.inr (Or.inr (Or.inr a))))
                split at h
                · cases h
                · rename_i w hw
                  obtain ⟨r, e, bs, e1, g1, g2⟩ := writeLoop_spec _ _ _ _ hw
                  simp only [] at e1 g1 g2
                  rw [e1] at h
                  subst hR
                  simp only [] at h
                  by_cases h8 : e = NO_EXCEPTION
                  · rw [if_pos h8] at h
                    cases h
                    refine ⟨pc, r, _, _, _, _, rfl, rfl, g1, rfl, rfl, ?_,
                      fun hn => absurd hn hw6⟩
                    rcases g2 with g2 | g2
                    · exact Or.inl g2
                    · rw [g2] at h8; cases h8
                  · rw [if_neg h8] at h
                    cases h
                    refine ⟨pc, r, _, _, _, _, rfl, rfl, g1, rfl, rfl, ?_,
                      fun hn => absurd hn hw6⟩
                    rcases g2 with g2 | g2
                    · exact Or.inl g2
                    · exact Or.inr ⟨g2, rfl⟩
            · rw [if_neg h6] at h
              subst hR
              cases h
              exact ⟨pc, u.regs, _, _, _, _, rfl, rfl, regsStep_refl _ _, rfl, rfl,
                Or.inl rfl, fun _ => rfl⟩

theorem selectTable_spec (u : State) :
    (selectTable u = { u with eMbExceptionCode := ILLEGAL_FUNCTION }
      ∧ ¬ (u.arybytMbBuffer 1 = FORCE_SINGLE_COIL ∨ u.arybytMbBuffer 1 = PRESET_SINGLE_REGISTER
            ∨ u.arybytMbBuffer 1 = FORCE_MULTIPLE_COILS
            ∨ u.arybytMbBuffer 1 = PRESET_MULTIPLE_REGISTERS))
    ∨ selectTable u = { u with eMbExceptionCode := ILLEGAL_DATA_ADDRESS }
    ∨ ∃ k, selectTable u = { u with pCurrBlock := some (k, 0) }
        ∧ ((u.arybytMbBuffer 1 = FORCE_SINGLE_COIL ∨ u.arybytMbBuffer 1 = FORCE_MULTIPLE_COILS)
            → k = .pCoils)
        ∧ ((u.arybytMbBuffer 1 = PRESET_SINGLE_REGISTER
            ∨ u.arybytMbBuffer 1 = PRESET_MULTIPLE_REGISTERS) → k = .pHoldingRegs) := by
  unfold selectTable
  simp only []
  by_cases h1 : u.arybytMbBuffer 1 = READ_COILS ∨ u.arybytMbBuffer 1 = FORCE_SINGLE_COIL
      ∨ u.arybytMbBuffer 1 = FORCE_MULTIPLE_COILS
  · rw [if_pos h1]
    by_cases e : u.regs.pCoils.isEmpty = true
    · rw [if_pos e]; exact Or.inr (Or.inl rfl)
    · rw [if_neg e]
      refine Or.inr (Or.inr ⟨.pCoils, rfl, fun _ => rfl, fun h => ?_⟩)
      rcases h1 with h1 | h1 | h1 <;> rcases h with h | h <;> rw [h1] at h <;> cases h
  · rw [if_neg h1]
    by_cases h2 : u.arybytMbBuffer 1 = READ_STATUS_INPUTS
    · rw [if_pos h2]
      by_cases e : u.regs.pStatusBits.isEmpty = true
      · rw [if_pos e]; exact Or.inr (Or.inl rfl)
      · rw [if_neg e]
        refine Or.inr (Or.inr ⟨.pStatusBits, rfl, fun h => ?_, fun h => ?_⟩)
        · rcases h with h | h <;> rw [h2] at h <;> cases h
        · rcases h with h | h <;> rw [h2] at h <;> cases h
    · rw [if_neg h2]
      by_cases h3 : u.arybytMbBuffer 1 = READ_HOLDING_REGISTERS
          ∨ u.arybytMbBuffer 1 = PRESET_SINGLE_REGISTER
          ∨ u.arybytMbBuffer 1 = PRESET_MULTIPLE_REGISTERS
      · rw [if_pos h3]
        by_cases e : u.regs.pHoldingRegs.isEmpty = true
        · rw [if_pos e]; exact Or.inr (Or.inl rfl)
        · rw [if_neg e]
          refine Or.inr (Or.inr ⟨.pHoldingRegs, rfl, fun h => ?_, fun _ => rfl⟩)
          rcases h3 with h3 | h3 | h3 <;> rcases h with h | h <;> rw [h3] at h <;> cases h
      · rw [if_neg h3]
        by_cases h4 : u.arybytMbBuffer 1 = READ_INPUT_REGISTERS
        · rw [if_pos h4]
          by_cases e : u.regs.pInputRegs.isEmpty = true
          · rw [if_pos e]; exact Or.inr (Or.inl rfl)
          · rw [if_neg e]
            refine Or.inr (Or.inr ⟨.pInputRegs, rfl, fun h => ?_, fun h => ?_⟩)
            · rcases h with h | h <;> rw [h4] at h <;> cases h
            · rcases h with h | h <;> rw [h4] at h <;> cases h
        · rw [if_neg h4]
          refine Or.inl ⟨rfl, fun h => ?_⟩
          rcases h with h | h | h | h
          · exact h1 (Or.inr (Or.inl h))
          · exact h3 (Or.inr (Or.inl h))
          · exact h1 (Or.inr (Or.inr h))
          · exact h3 (Or.inr (Or.inr h))

theorem findBlock_lt (a b : Nat) :
    ∀ (l : List modbusBlockDef) (i j : Nat), findBlock a b l i = some j →
      i ≤ j ∧ j < i + l.length := by
  intro l
  induction l with
  | nil => intro i j h; simp [findBlock] at h
  | cons blk rest ih =>
    intro i j h
    unfold findBlock at h
    by_cases hc : a ≥ blk.uintAddress ∧ b ≤ (blk.uintAddress + blk.uintTotal + 65535) % 65536
    · rw [if_pos hc] at h
      cases h
      simp
    · rw [if_neg hc] at h
      have := ih _ _ h
      simp only [List.length_cons]
      omega

/-- The dispatcher from its entry to the point where the response is built: what it may
have changed. -/
theorem request_spec (t v : State) (h : request t = some v) :
    ∃ pc r e bs buf idx,
      v = { t with pCurrBlock := pc, regs := r, eMbExceptionCode := e, blnState := bs,
                   arybytMbBuffer := buf, bytMbIndex := idx }
      ∧ regsStep pc t.regs r
      ∧ buf 0 = t.arybytMbBuffer 0 ∧ buf 1 = t.arybytMbBuffer 1
      ∧ (e = t.eMbExceptionCode
          ∨ ((e = ILLEGAL_FUNCTION ∨ e = ILLEGAL_DATA_ADDRESS) ∧ idx = 3))
      ∧ (r ≠ t.regs →
          ∃ k j, pc = some (k, j)
            ∧ findBlock ((word (t.arybytMbBuffer 2) (t.arybytMbBuffer 3) + 1) % 65536)
                ((word (t.arybytMbBuffer 2) (t.arybytMbBuffer 3)
                  + (if t.arybytMbBuffer 1 = FORCE_SINGLE_COIL
                        ∨ t.arybytMbBuffer 1 = PRESET_SINGLE_REGISTER then 1
                     else word (t.arybytMbBuffer 4) (t.arybytMbBuffer 5))) % 65536)
                (t.regs.get k) 0 = some j
            ∧ (((t.arybytMbBuffer 1 = FORCE_SINGLE_COIL
                  ∨ t.arybytMbBuffer 1 = FORCE_MULTIPLE_COILS) ∧ k = .pCoils)
              ∨ ((t.arybytMbBuffer 1 = PRESET_SINGLE_REGISTER
                  ∨ t.arybytMbBuffer 1 = PRESET_MULTIPLE_REGISTERS) ∧ k = .pHoldingRegs))) := by
  unfold request at h
  simp only [] at h
  rcases selectTable_spec { t with bytMbIndex := 3 } with ⟨hs, -⟩ | hs | ⟨k, hs, hk1, hk2⟩
  · rw [hs] at h
    by_cases he : ILLEGAL_FUNCTION = NO_EXCEPTION
    · cases he
    · rw [if_neg he] at h
      cases h
      exact ⟨_, t.regs, _, _, _, _, rfl, regsStep_refl _ _, rfl, rfl,
        Or.inr ⟨Or.inl rfl, rfl⟩, fun hn => absurd rfl hn⟩
  · rw [hs] at h
    by_cases he : ILLEGAL_DATA_ADDRESS = NO_EXCEPTION
    · cases he
    · rw [if_neg he] at h
      cases h
      exact ⟨_, t.regs, _, _, _, _, rfl, regsStep_refl _ _, rfl, rfl,
        Or.inr ⟨Or.inr rfl, rfl⟩, fun hn => absurd rfl hn⟩
  · rw [hs] at h
    by_cases he : t.eMbExceptionCode = NO_EXCEPTION
    · rw [if_pos he] at h
      obtain ⟨pc, r, e, bs, buf, idx, e1, e2, g1, g2, g3, g4, g5⟩ := execute_spec _ _ h
      have hl := (resolveCurrBlock_list { t with bytMbIndex := 3, pCurrBlock := some (k, 0) }
        ((word (t.arybytMbBuffer 2) (t.arybytMbBuffer 3) + 1) % 65536)
        ((word (t.arybytMbBuffer 2) (t.arybytMbBuffer 3)
            + (if t.arybytMbBuffer 1 = FORCE_SINGLE_COIL
                  ∨ t.arybytMbBuffer 1 = PRESET_SINGLE_REGISTER then 1
               else word (t.arybytMbBuffer 4) (t.arybytMbBuffer 5))) % 65536)).2 k 0 rfl
      refine ⟨pc, r, e, bs, buf, idx, e1, g1, g2, g3, ?_, ?_⟩
      · rcases g4 with g4 | ⟨g4, g4'⟩
        · exact Or.inl g4
        · exact Or.inr ⟨Or.inr g4, g4'⟩
      · intro hne
        have hw : t.arybytMbBuffer 1 = FORCE_SINGLE_COIL
            ∨ t.arybytMbBuffer 1 = PRESET_SINGLE_REGISTER
            ∨ t.arybytMbBuffer 1 = FORCE_MULTIPLE_COILS
            ∨ t.arybytMbBuffer 1 = PRESET_MULTIPLE_REGISTERS := by
          by_contra hc
          exact hne (g5 hc)
        have hpc : ∃ j, pc = some (k, j)
            ∧ findBlock ((word (t.arybytMbBuffer 2) (t.arybytMbBuffer 3) + 1) % 65536)
                ((word (t.arybytMbBuffer 2) (t.arybytMbBuffer 3)
                  + (if t.arybytMbBuffer 1 = FORCE_SINGLE_COIL
                        ∨ t.arybytMbBuffer 1 = PRESET_SINGLE_REGISTER then 1
                     else word (t.arybytMbBuffer 4) (t.arybytMbBuffer 5))) % 65536)
                (t.regs.get k) 0 = some j := by
          cases hpc : pc with
          | none =>
            rw [hpc] at g1
            exact absurd (regsStep_none _ _ g1) hne
          | some p =>
            rw [e2, hl] at hpc
            cases hf : findBlock ((word (t.arybytMbBuffer 2) (t.arybytMbBuffer 3) + 1) % 65536)
              ((word (t.arybytMbBuffer 2) (t.arybytMbBuffer 3)
                + (if t.arybytMbBuffer 1 = FORCE_SINGLE_COIL
                      ∨ t.arybytMbBuffer 1 = PRESET_SINGLE_REGISTER then 1
                   else word (t.arybytMbBuffer 4) (t.arybytMbBuffer 5))) % 65536)
              (List.drop 0 (t.regs.get k)) 0 with
            | none =>
              simp only [] at hpc
              rw [hf] at hpc
              cases hpc
            | some j =>
              simp only [] at hpc
              rw [hf] at hpc
              cases hpc
              exact ⟨j, rfl, hf⟩
        obtain ⟨j, hj1, hj2⟩ := hpc
        refine ⟨k, j, hj1, hj2, ?_⟩
        rcases hw with hw | hw | hw | hw
        · exact Or.inl ⟨Or.inl hw, hk1 (Or.inl hw)⟩
        · exact Or.inr ⟨Or.inl hw, hk2 (Or.inl hw)⟩
        · exact Or.inl ⟨Or.inr hw, hk1 (Or.inr hw)⟩
        · exact Or.inr ⟨Or.inr hw, hk2 (Or.inr hw)⟩
    · rw [if_neg he] at h
      cases h
      exact ⟨_, t.regs, _, _, _, _, rfl, regsStep_refl _ _, rfl, rfl, Or.inl rfl,
        fun hn => absurd rfl hn⟩

theorem transmitStart_fields (s s' : State) (h : transmitStart s = some s') :
    s'.regs = s.regs ∧ s'.pCurrBlock = s.pCurrBlock
      ∧ s'.eMbExceptionCode = s.eMbExceptionCode := by
  unfold transmitStart at h
  simp only [] at h
  by_cases h0 : s.bytMbRxphase.testBit 0 = false
  · rw [if_pos h0] at h; cases h
  · rw [if_neg h0] at h
    cases h
    exact ⟨rfl, rfl, rfl⟩

theorem respond_fields (v s' : State) (h : respond v = some s') :
    s'.regs = v.regs ∧ s'.pCurrBlock = v.pCurrBlock ∧ s'.eMbExceptionCode = NO_EXCEPTION := by
  unfold respond at h
  simp only [] at h
  by_cases he : v.eMbExceptionCode ≠ NO_EXCEPTION
  · rw [if_pos he] at h
    simp only [] at h
    by_cases hi : v.bytMbIndex > 0
    · rw [if_pos hi] at h
      obtain ⟨h1, h2, h3⟩ := transmitStart_fields _ _ h
      exact ⟨h1, h2, h3⟩
    · rw [if_neg hi] at h
      cases h
      exact ⟨rfl, rfl, rfl⟩
  · rw [if_neg he] at h
    have he' : v.eMbExceptionCode = NO_EXCEPTION := not_not.mp he
    by_cases hi : v.bytMbIndex > 0
    · rw [if_pos hi] at h
      obtain ⟨h1, h2, h3⟩ := transmitStart_fields _ _ h
      exact ⟨h1, h2, h3.trans he'⟩
    · rw [if_neg hi] at h
      cases h
      exact ⟨rfl, rfl, he'⟩

theorem dispatch_some (t s' : State) (h : dispatch t = some s') :
    ∃ v, request t = some v ∧ respond v = some s' := by
  rw [dispatch_eq_request] at h
  exact Option.bind_eq_some.mp h

theorem startTimeout_fields (s : State) :
    (startTimeout s).regs = s.regs ∧ (startTimeout s).eMbExceptionCode = s.eMbExceptionCode
      ∧ (startTimeout s).bytMbRxphase = s.bytMbRxphase :=
  ⟨rfl, rfl, rfl⟩

theorem restartRx_fields (s : State) :
    (restartRx s).regs = s.regs ∧ (restartRx s).eMbExceptionCode = s.eMbExceptionCode :=
  ⟨rfl, rfl⟩

theorem frameReady_cases (x s' : State) (h : frameReady x = some s') :
    (s'.regs = x.regs ∧ s'.eMbExceptionCode = x.eMbExceptionCode)
      ∨ dispatch (dispatchEntry x) = some s' := by
  unfold frameReady at h
  simp only [] at h
  by_cases h1 : x.bytMbSlaveAddress = x.arybytMbBuffer 0 ∧ x.bytMbIndex > 3
  · rw [if_pos h1] at h
    by_cases h2 : Lo (calcCRC x.arybytMbBuffer (x.bytMbIndex - 2))
          = x.arybytMbBuffer (x.bytMbIndex - 2)
        ∧ Hi (calcCRC x.arybytMbBuffer (x.bytMbIndex - 2))
          = x.arybytMbBuffer (x.bytMbIndex - 2 + 1)
    · rw [if_pos h2] at h
      exact Or.inr h
    · rw [if_neg h2] at h
      cases h
      exact Or.inl ⟨rfl, rfl⟩
  · rw [if_neg h1] at h
    cases h
    exact Or.inl ⟨rfl, rfl⟩

theorem afterEvents_cases (x s' : State) (h : afterEvents x = some s') :
    (s'.regs = x.regs ∧ s'.eMbExceptionCode = x.eMbExceptionCode)
      ∨ (x.bytMbRxphase = 5 ∧ frameReady x = some s') := by
  unfold afterEvents at h
  simp only [] at h
  by_cases h3 : x.bytMbRxphase = 3
  · rw [if_pos h3] at h
    have h4 : (startTimeout { x with bytMbRxphase := 4 }).bytMbRxphase ≠ 5 := by
      show (4 : Nat) ≠ 5
      decide
    rw [if_pos h4] at h
    cases h
    exact Or.inl ⟨rfl, rfl⟩
  · rw [if_neg h3] at h
    by_cases h5 : x.bytMbRxphase ≠ 5
    · rw [if_pos h5] at h
      cases h
      exact Or.inl ⟨rfl, rfl⟩
    · rw [if_neg h5] at h
      exact Or.inr ⟨not_not.mp h5, h⟩

theorem decodePacket_cases (s s' : State) (h : decodePacket s = some s') :
    (s'.regs = s.regs ∧ s'.eMbExceptionCode = s.eMbExceptionCode)
      ∨ (FrameReady s ∧ dispatch (dispatchEntry (timerExpiry s)) = some s') := by
  obtain ⟨f1, -, -, -, f5, -, -, -, f9, -⟩ := timerExpiry_fields s
  unfold decodePacket at h
  simp only [] at h
  by_cases c1 : s.TMR0IF_bit = true ∧ (timerExpiry s).bytMbRxphase.testBit 7 = true
  · rw [if_pos c1] at h
    cases h
    exact Or.inl ⟨f1, f9⟩
  · rw [if_neg c1] at h
    by_cases c2 : (timerExpiry s).RCIF_bit = true
    · rw [if_pos c2] at h
      by_cases c3 : (timerExpiry s).OERR_bit = true ∨ (timerExpiry s).FERR_bit = true
      · rw [if_pos c3] at h
        cases h
        exact Or.inl ⟨f1, f9⟩
      · rw [if_neg c3] at h
        by_cases c4 : (timerExpiry s).bytMbRxphase = 0
            ∨ (timerExpiry s).bytMbRxphase.testBit 2 = true
            ∨ (timerExpiry s).bytMbIndex ≥ MAX_PACKET_LENGTH
        · rw [if_pos c4] at h
          cases h
          exact Or.inl ⟨f1, f9⟩
        · rw [if_neg c4] at h
          rcases afterEvents_cases _ _ h with ⟨g1, g2⟩ | ⟨g1, -⟩
          · refine Or.inl ⟨g1.trans ?_, g2.trans ?_⟩
            · show (if (timerExpiry s).bytMbIndex = 0 then
                  { (timerExpiry s) with RCIF_bit := false, bytMbRxphase := 2 }
                else { (timerExpiry s) with RCIF_bit := false }).regs = s.regs
              split <;> exact f1
            · show (if (timerExpiry s).bytMbIndex = 0 then
                  { (timerExpiry s) with RCIF_bit := false, bytMbRxphase := 2 }
                else { (timerExpiry s) with RCIF_bit := false }).eMbExceptionCode
                  = s.eMbExceptionCode
              split <;> exact f9
          · exfalso
            have g1' : (if (timerExpiry s).bytMbIndex = 0 then
                  { (timerExpiry s) with RCIF_bit := false, bytMbRxphase := 2 }
                else { (timerExpiry s) with RCIF_bit := false }).bytMbRxphase = 5 := g1
            by_cases c5 : (timerExpiry s).bytMbIndex = 0
            · rw [if_pos c5] at g1'
              cases g1'
            · rw [if_neg c5] at g1'
              have g2 : (timerExpiry s).bytMbRxphase = 5 := g1'
              apply c4
              right; left
              rw [g2]
              decide
    · rw [if_neg c2] at h
      by_cases c6 : (timerExpiry s).bytMbRxphase.testBit 7 = true
          ∧ (timerExpiry s).TXIF_bit = true
      · rw [if_pos c6] at h
        by_cases c7 : (timerExpiry s).bytMbIndex < (timerExpiry s).arybytMbBuffer 0
        · rw [if_pos c7] at h
          cases h
          exact Or.inl ⟨f1, f9⟩
        · rw [if_neg c7] at h
          cases h
          exact Or.inl ⟨f1, f9⟩
      · rw [if_neg c6] at h
        rcases afterEvents_cases _ _ h with ⟨g1, g2⟩ | ⟨g1, g2⟩
        · exact Or.inl ⟨g1.trans f1, g2.trans f9⟩
        · rcases frameReady_cases _ _ g2 with ⟨k1, k2⟩ | k
          · exact Or.inl ⟨k1.trans f1, k2.trans f9⟩
          · refine Or.inr ⟨⟨?_, ?_⟩, k⟩
            · rw [f5] at c2
              cases hb : s.RCIF_bit with
              | true => exact absurd hb c2
              | false => rfl
            · unfold timerExpiry at g1
              by_cases ht : s.TMR0IF_bit = true
              · rw [if_pos ht] at g1 ⊢
                exact g1
              · rw [if_neg ht] at g1 ⊢
                exact g1

theorem findBlock_some (a b : Nat) :
    ∀ (l : List modbusBlockDef) (i j : Nat), findBlock a b l i = some j →
      ∃ blk, l[j - i]? = some blk ∧ i ≤ j ∧ a ≥ blk.uintAddress
        ∧ b ≤ (blk.uintAddress + blk.uintTotal + 65535) % 65536 := by
  intro l
  induction l with
  | nil => intro i j h; simp [findBlock] at h
  | cons blk rest ih =>
    intro i j h
    unfold findBlock at h
    by_cases hc : a ≥ blk.uintAddress ∧ b ≤ (blk.uintAddress + blk.uintTotal + 65535) % 65536
    · rw [if_pos hc] at h
      cases h
      exact ⟨blk, by simp, Nat.le_refl _, hc.1, hc.2⟩
    · rw [if_neg hc] at h
      obtain ⟨b', h1, h2, h3, h4⟩ := ih _ _ h
      refine ⟨b', ?_, by omega, h3, h4⟩
      have e : j - i = (j - (i + 1)) + 1 := by omega
      rw [e, List.getElem?_cons_succ]
      exact h1

/-- What one call of decodePacket may do to the registered blocks. -/
theorem decodePacket_blocks (s s' : State) (h : decodePacket s = some s') :
    regsStep s'.pCurrBlock s.regs s'.regs
    ∧ (s'.regs ≠ s.regs →
        FrameReady s ∧ ∃ k j, s'.pCurrBlock = some (k, j)
          ∧ findBlock ((word (s.arybytMbBuffer 2) (s.arybytMbBuffer 3) + 1) % 65536)
              ((word (s.arybytMbBuffer 2) (s.arybytMbBuffer 3)
                + (if s.arybytMbBuffer 1 = FORCE_SINGLE_COIL
                      ∨ s.arybytMbBuffer 1 = PRESET_SINGLE_REGISTER then 1
                   else word (s.arybytMbBuffer 4) (s.arybytMbBuffer 5))) % 65536)
              (s.regs.get k) 0 = some j
          ∧ (((s.arybytMbBuffer 1 = FORCE_SINGLE_COIL
                ∨ s.arybytMbBuffer 1 = FORCE_MULTIPLE_COILS) ∧ k = .pCoils)
            ∨ ((s.arybytMbBuffer 1 = PRESET_SINGLE_REGISTER
                ∨ s.arybytMbBuffer 1 = PRESET_MULTIPLE_REGISTERS) ∧ k = .pHoldingRegs))) := by
  rcases decodePacket_cases s s' h with ⟨h1, -⟩ | ⟨hr, hd⟩
  · rw [h1]
    exact ⟨regsStep_refl _ _, fun hn => absurd rfl hn⟩
  · obtain ⟨f1, -, -, -, -, f6, -, -, -, -⟩ := timerExpiry_fields s
    obtain ⟨v, hv, hresp⟩ := dispatch_some _ _ hd
    obtain ⟨pc, r, e, bs, buf, idx, e1, g1, -, -, -, g5⟩ := request_spec _ _ hv
    obtain ⟨r1, r2, -⟩ := respond_fields _ _ hresp
    have tr : (dispatchEntry (timerExpiry s)).regs = s.regs := f1
    have tb : (dispatchEntry (timerExpiry s)).arybytMbBuffer = s.arybytMbBuffer := f6
    have vr : v.regs = r := by rw [e1]
    have vp : v.pCurrBlock = pc := by rw [e1]
    rw [tr] at g1 g5
    rw [tb] at g5
    rw [r1, r2, vr, vp]
    exact ⟨g1, fun hn => ⟨hr, g5 hn⟩⟩

/-! ### serviceIOBlocks and the update flag -/

theorem serviceIOBlocksPrimitive_spec (effect : Nat → modbusBlockDef → modbusBlockDef) :
    ∀ l : List modbusBlockDef,
      serviceIOBlocksPrimitive effect l = (l.map (servicedBlock effect), dirtyCallbacks l) := by
  intro l
  induction l with
  | nil => rfl
  | cons b rest ih =>
    unfold serviceIOBlocksPrimitive
    rw [ih]
    unfold dirtyCallbacks
    by_cases hd : b.blnUpdate = true
    · cases hc : b.pCallback with
      | none => simp [servicedBlock, hd, hc, List.filterMap_cons]
      | some f => simp [servicedBlock, hd, hc, List.filterMap_cons]
    · simp [servicedBlock, hd, List.filterMap_cons]

theorem serviceIOBlocksPrimitive_guard (effect : Nat → modbusBlockDef → modbusBlockDef)
    (l : List modbusBlockDef) :
    (if l.isEmpty = false then serviceIOBlocksPrimitive effect l else (l, []))
      = (l.map (servicedBlock effect), dirtyCallbacks l) := by
  cases l with
  | nil => rfl
  | cons b rest =>
    rw [if_pos (show (b :: rest).isEmpty = false from rfl)]
    exact serviceIOBlocksPrimitive_spec effect _

theorem serviceIOBlocks_spec (effect : Nat → modbusBlockDef → modbusBlockDef)
    (regs : Registry) :
    serviceIOBlocks effect regs
      = ({ pCoils := regs.pCoils.map (servicedBlock effect),
           pStatusBits := regs.pStatusBits.map (servicedBlock effect),
           pHoldingRegs := regs.pHoldingRegs.map (servicedBlock effect),
           pInputRegs := regs.pInputRegs.map (servicedBlock effect) },
         dirtyCallbacks regs.pHoldingRegs ++ dirtyCallbacks regs.pStatusBits
           ++ dirtyCallbacks regs.pInputRegs ++ dirtyCallbacks regs.pCoils) := by
  unfold serviceIOBlocks
  simp only [serviceIOBlocksPrimitive_guard]

theorem dirtyCallbacks_append (l1 l2 : List modbusBlockDef) :
    dirtyCallbacks (l1 ++ l2) = dirtyCallbacks l1 ++ dirtyCallbacks l2 := by
  unfold dirtyCallbacks
  exact List.filterMap_append _ _ _

theorem servicedBlock_clean (effect : Nat → modbusBlockDef → modbusBlockDef)
    (b : modbusBlockDef) : (servicedBlock effect b).blnUpdate = false := by
  unfold servicedBlock
  by_cases hd : b.blnUpdate = true
  · rw [if_pos hd]
    cases b.pCallback <;> rfl
  · rw [if_neg hd]
    cases hb : b.blnUpdate with
    | true => exact absurd hb hd
    | false => rfl

theorem dirtyCallbacks_clean (l : List modbusBlockDef) (h : ∀ b, b ∈ l → b.blnUpdate = false) :
    dirtyCallbacks l = [] := by
  unfold dirtyCallbacks
  rw [List.filterMap_eq_nil_iff]
  intro b hb
  rw [if_neg (by rw [h b hb]; decide)]

theorem serviceIOBlocks_get (effect : Nat → modbusBlockDef → modbusBlockDef)
    (regs : Registry) (k : ListHead) :
    (serviceIOBlocks effect regs).1.get k = (regs.get k).map (servicedBlock effect) := by
  rw [serviceIOBlocks_spec]
  cases k <;> rfl

/-- C20: serviceIOBlocks makes exactly the calls the specification prescribes, the dirty
blocks that have a callback, each once with the block itself as argument, taken over the
holding-register list, then the discrete-input list, then the input-register list, then the
coil list, each in link order; every list afterwards holds its blocks serviced in place (a
dirty block handed to its callback when it has one and cleared, a dirty block without
callback only cleared, a block that is not dirty left as it is and never handed over), and
no block of any list is dirty afterwards. -/
theorem serviceIOBlocks_calls_dirty_blocks_in_order
    (effect : Nat → modbusBlockDef → modbusBlockDef) (regs : Registry) :
    (serviceIOBlocks effect regs).2
        = dirtyCallbacks (regs.pHoldingRegs ++ regs.pStatusBits ++ regs.pInputRegs
            ++ regs.pCoils)
    ∧ (∀ k, (serviceIOBlocks effect regs).1.get k = (regs.get k).map (servicedBlock effect))
    ∧ (∀ k b, b ∈ (serviceIOBlocks effect regs).1.get k → b.blnUpdate = false)
    ∧ (∀ b, b.blnUpdate = true → b.pCallback = none →
        servicedBlock effect b = { b with blnUpdate := false } ∧ dirtyCallbacks [b] = [])
    ∧ (∀ b f, b.blnUpdate = true → b.pCallback = some f →
        servicedBlock effect b = { effect f b with blnUpdate := false }
          ∧ dirtyCallbacks [b] = [(f, b)])
    ∧ (∀ b, b.blnUpdate = false → servicedBlock effect b = b ∧ dirtyCallbacks [b] = []) := by
  have hget := serviceIOBlocks_get effect regs
  refine ⟨?_, hget, ?_, ?_, ?_, ?_⟩
  · rw [serviceIOBlocks_spec, dirtyCallbacks_append, dirtyCallbacks_append,
      dirtyCallbacks_append]
  · intro k b hb
    rw [hget k, List.mem_map] at hb
    obtain ⟨a, -, rfl⟩ := hb
    exact servicedBlock_clean effect a
  · intro b hd hc
    simp [servicedBlock, dirtyCallbacks, hd, hc]
  · intro b f hd hc
    simp [servicedBlock, dirtyCallbacks, hd, hc]
  · intro b hd
    simp [servicedBlock, dirtyCallbacks, hd]

theorem serviceIOBlocks_calls_dirty_blocks_in_order_witness :
    (serviceIOBlocks copyItemEffect regsDirty).2
        = dirtyCallbacks (regsDirty.pHoldingRegs ++ regsDirty.pStatusBits
            ++ regsDirty.pInputRegs ++ regsDirty.pCoils)
    ∧ (serviceIOBlocks copyItemEffect regsDirty).2.map
          (fun c => (c.1, c.2.eType, c.2.uintAddress, c.2.uintTotal))
        = [(7, HOLDING_REGISTERS, 1, 10)]
    ∧ (∀ k b, b ∈ (serviceIOBlocks copyItemEffect regsDirty).1.get k → b.blnUpdate = false)
    ∧ dirtyCallbacks regsDirty.pCoils = [] :=
  ⟨(serviceIOBlocks_calls_dirty_blocks_in_order copyItemEffect regsDirty).1, by decide,
   (serviceIOBlocks_calls_dirty_blocks_in_order copyItemEffect regsDirty).2.2.1,
   ((serviceIOBlocks_calls_dirty_blocks_in_order copyItemEffect regsDirty).2.2.2.1
      { blockOf COILS 1 16 (rampData 0) with blnUpdate := true } rfl rfl).2⟩

theorem dirtyCallbacks_split (l : List modbusBlockDef) (j : Nat) (b : modbusBlockDef)
    (hb : l[j]? = some b) :
    dirtyCallbacks l
      = dirtyCallbacks (l.take j) ++ dirtyCallbacks [b] ++ dirtyCallbacks (l.drop (j + 1)) := by
  obtain ⟨hj, hbj⟩ := List.getElem?_eq_some.mp hb
  have hl : l = l.take j ++ ([b] ++ l.drop (j + 1)) := by
    rw [List.singleton_append, ← hbj, ← List.drop_eq_getElem_cons hj, List.take_append_drop]
  rw [← dirtyCallbacks_append, ← dirtyCallbacks_append, List.append_assoc, ← hl]

theorem decodePacket_keeps_flag (s s' : State) (h : decodePacket s = some s')
    (k : ListHead) (j : Nat) (b : modbusBlockDef)
    (hb : (s.regs.get k)[j]? = some b) (hd : b.blnUpdate = true) :
    ∃ b', (s'.regs.get k)[j]? = some b' ∧ b'.blnUpdate = true
      ∧ b'.pCallback = b.pCallback := by
  obtain ⟨hstep, -⟩ := decodePacket_blocks s s' h
  obtain ⟨b', h1, h2, -⟩ := (hstep k).2 j b hb
  exact ⟨b', h1, h2.2.2.2.2.2 hd, h2.2.2.2.2.1⟩

/-! ### Dispatcher: requests outside every block, and force single coil with a bad value -/

theorem findBlock_none (a b : Nat) :
    ∀ (l : List modbusBlockDef) (i : Nat),
      (∀ blk, blk ∈ l → 1 ≤ blk.uintAddress + blk.uintTotal
        ∧ ¬ (blk.uintAddress ≤ a ∧ b ≤ blk.uintAddress + blk.uintTotal - 1)) →
      findBlock a b l i = none := by
  intro l
  induction l with
  | nil => intro i _; rfl
  | cons blk rest ih =>
    intro i h
    unfold findBlock
    obtain ⟨h1, h2⟩ := h blk (List.mem_cons_self _ _)
    rw [if_neg]
    · exact ih _ (fun b' hb' => h b' (List.mem_cons_of_mem _ hb'))
    · intro hc
      apply h2
      refine ⟨hc.1, ?_⟩
      have := hc.2
      omega

theorem packBits_outside (regs : Registry) (eType : Nat) (mem : Nat → Nat)
    (pBuffer uintStart uintEnd : Nat)
    (h : ∀ blk, blk ∈ (if eType = COILS then regs.pCoils else regs.pStatusBits) →
        ¬ (blk.uintAddress ≤ uintStart ∧ uintEnd ≤ blk.uintAddress + blk.uintTotal - 1)) :
    packBits regs eType mem pBuffer uintStart uintEnd = some (mem, 0) := by
  unfold packBits
  simp only []
  by_cases h1 : eType = COILS
  · simp only [h1, if_true] at h ⊢
    cases hf : firstNode uintStart regs.pCoils with
    | none => rfl
    | some pNode =>
      obtain ⟨hm, ha⟩ := firstNode_some _ _ _ hf
      simp only []
      rw [if_neg]
      intro hc
      apply h pNode hm
      have := Nat.mod_le (pNode.uintAddress + pNode.uintTotal) 65536
      exact ⟨ha, by omega⟩
  · rw [if_neg h1]
    by_cases h2 : eType = STATUS_INPUTS
    · simp only [h1, if_false] at h
      rw [if_pos h2]
      simp only []
      cases hf : firstNode uintStart regs.pStatusBits with
      | none => rfl
      | some pNode =>
        obtain ⟨hm, ha⟩ := firstNode_some _ _ _ hf
        simp only []
        rw [if_neg]
        intro hc
        apply h pNode hm
        have := Nat.mod_le (pNode.uintAddress + pNode.uintTotal) 65536
        exact ⟨ha, by omega⟩
    · rw [if_neg h2]

theorem packRegisters_outside (regs : Registry) (eType : Nat) (mem : Nat → Nat)
    (pBuffer uintStart uintEnd : Nat)
    (h : ∀ blk, blk ∈ (if eType = HOLDING_REGISTERS then regs.pHoldingRegs
          else regs.pInputRegs) →
        ¬ (blk.uintAddress ≤ uintStart ∧ uintEnd ≤ blk.uintAddress + blk.uintTotal - 1)) :
    packRegisters regs eType mem pBuffer uintStart uintEnd = some (mem, 0) := by
  unfold packRegisters
  simp only []
  by_cases h1 : eType = HOLDING_REGISTERS
  · simp only [h1, if_true] at h ⊢
    cases hf : firstNode uintStart regs.pHoldingRegs with
    | none => rfl
    | some pNode =>
      obtain ⟨hm, ha⟩ := firstNode_some _ _ _ hf
      simp only []
      rw [if_neg]
      intro hc
      apply h pNode hm
      have := Nat.mod_le (pNode.uintAddress + pNode.uintTotal) 65536
      exact ⟨ha, by omega⟩
  · rw [if_neg h1]
    by_cases h2 : eType = INPUT_REGISTERS
    · simp only [h1, if_false] at h
      rw [if_pos h2]
      simp only []
      cases hf : firstNode uintStart regs.pInputRegs with
      | none => rfl
      | some pNode =>
        obtain ⟨hm, ha⟩ := firstNode_some _ _ _ hf
        simp only []
        rw [if_neg]
        intro hc
        apply h pNode hm
        have := Nat.mod_le (pNode.uintAddress + pNode.uintTotal) 65536
        exact ⟨ha, by omega⟩
    · rw [if_neg h2]

theorem coilState_null (s : State) (a : Nat) (v : Bool) (h : s.pCurrBlock = none) :
    coilState s a v = (s, false) := by
  unfold coilState currBlock
  rw [h]

theorem setRegister_null (s : State) (a hi lo : Nat) (h : s.pCurrBlock = none) :
    setRegister s a hi lo = (s, false) := by
  unfold setRegister currBlock
  rw [h]

theorem writeLoop_null (uintEAddr fuel : Nat) (w : WriteVars) (h : w.s.pCurrBlock = none)
    (ha : w.uintAddr ≤ uintEAddr) :
    ∃ w', writeLoop uintEAddr (fuel + 1) w = some w'
      ∧ ∃ bs, w'.s = { w.s with eMbExceptionCode := ILLEGAL_DATA_ADDRESS, blnState := bs } := by
  unfold writeLoop
  rw [if_pos ha]
  by_cases hf : w.s.arybytMbBuffer 1 = PRESET_MULTIPLE_REGISTERS
  · rw [if_pos hf]
    simp only [setRegister_null _ _ _ _ h, if_true]
    exact ⟨_, rfl, _, rfl⟩
  · rw [if_neg hf]
    simp only []
    rw [coilState_null _ _ _ (show ({ w.s with
      blnState := decide ((w.s.arybytMbBuffer (7 + w.uintOffset) &&& w.bytBit) > 0) }
        : State).pCurrBlock = none from h)]
    simp only [if_true]
    exact ⟨_, rfl, _, rfl⟩

/-- The execution of a request whose range lies in no block of the list the function maps
to: the exception is set and nothing else of note changes. -/
theorem execute_outside (u : State) (k : ListHead)
    (hk : u.pCurrBlock = some (k, 0))
    (hkind : ((u.arybytMbBuffer 1 = READ_COILS ∨ u.arybytMbBuffer 1 = FORCE_SINGLE_COIL
            ∨ u.arybytMbBuffer 1 = FORCE_MULTIPLE_COILS) ∧ k = .pCoils)
      ∨ (u.arybytMbBuffer 1 = READ_STATUS_INPUTS ∧ k = .pStatusBits)
      ∨ ((u.arybytMbBuffer 1 = READ_HOLDING_REGISTERS
            ∨ u.arybytMbBuffer 1 = PRESET_SINGLE_REGISTER
            ∨ u.arybytMbBuffer 1 = PRESET_MULTIPLE_REGISTERS) ∧ k = .pHoldingRegs)
      ∨ (u.arybytMbBuffer 1 = READ_INPUT_REGISTERS ∧ k = .pInputRegs))
    (hout : ∀ blk, blk ∈ u.regs.get k → 1 ≤ blk.uintAddress + blk.uintTotal
      ∧ ¬ (blk.uintAddress ≤ (word (u.arybytMbBuffer 2) (u.arybytMbBuffer 3) + 1) % 65536
          ∧ (word (u.arybytMbBuffer 2) (u.arybytMbBuffer 3)
              + (if u.arybytMbBuffer 1 = FORCE_SINGLE_COIL
                    ∨ u.arybytMbBuffer 1 = PRESET_SINGLE_REGISTER then 1
                 else word (u.arybytMbBuffer 4) (u.arybytMbBuffer 5))) % 65536
            ≤ blk.uintAddress + blk.uintTotal - 1))
    (hse : (word (u.arybytMbBuffer 2) (u.arybytMbBuffer 3) + 1) % 65536
        ≤ (word (u.arybytMbBuffer 2) (u.arybytMbBuffer 3)
              + (if u.arybytMbBuffer 1 = FORCE_SINGLE_COIL
                    ∨ u.arybytMbBuffer 1 = PRESET_SINGLE_REGISTER then 1
                 else word (u.arybytMbBuffer 4) (u.arybytMbBuffer 5))) % 65536)
    (hval : u.arybytMbBuffer 1 = FORCE_SINGLE_COIL →
      (u.arybytMbBuffer 4 = 0xff ∧ u.arybytMbBuffer 5 = 0x0)
        ∨ (u.arybytMbBuffer 4 = 0x0 ∧ u.arybytMbBuffer 5 = 0x0) ∨ u.blnState = false) :
    ∃ v, execute u = some v ∧ v.eMbExceptionCode = ILLEGAL_DATA_ADDRESS
      ∧ v.bytMbIndex = u.bytMbIndex ∧ v.regs = u.regs
      ∧ v.arybytMbBuffer 0 = u.arybytMbBuffer 0 ∧ v.arybytMbBuffer 1 = u.arybytMbBuffer 1
      ∧ v.bytMbRxphase = u.bytMbRxphase ∧ v.TXREG = u.TXREG := by
  have hpc := (resolveCurrBlock_list u
    ((word (u.arybytMbBuffer 2) (u.arybytMbBuffer 3) + 1) % 65536)
    ((word (u.arybytMbBuffer 2) (u.arybytMbBuffer 3)
              + (if u.arybytMbBuffer 1 = FORCE_SINGLE_COIL
                    ∨ u.arybytMbBuffer 1 = PRESET_SINGLE_REGISTER then 1
                 else word (u.arybytMbBuffer 4) (u.arybytMbBuffer 5))) % 65536)).2 k 0 hk
  rw [List.drop_zero, findBlock_none _ _ _ _ hout] at hpc
  have hR := resolveCurrBlock_eq u
    ((word (u.arybytMbBuffer 2) (u.arybytMbBuffer 3) + 1) % 65536)
    ((word (u.arybytMbBuffer 2) (u.arybytMbBuffer 3)
              + (if u.arybytMbBuffer 1 = FORCE_SINGLE_COIL
                    ∨ u.arybytMbBuffer 1 = PRESET_SINGLE_REGISTER then 1
                 else word (u.arybytMbBuffer 4) (u.arybytMbBuffer 5))) % 65536)
  rw [hpc] at hR
  simp only [Option.map_none'] at hR
  have hout' : ∀ blk, blk ∈ u.regs.get k →
      ¬ (blk.uintAddress ≤ (word (u.arybytMbBuffer 2) (u.arybytMbBuffer 3) + 1) % 65536
          ∧ (word (u.arybytMbBuffer 2) (u.arybytMbBuffer 3)
              + (if u.arybytMbBuffer 1 = FORCE_SINGLE_COIL
                    ∨ u.arybytMbBuffer 1 = PRESET_SINGLE_REGISTER then 1
                 else word (u.arybytMbBuffer 4) (u.arybytMbBuffer 5))) % 65536
            ≤ blk.uintAddress + blk.uintTotal - 1) := fun blk hb => (hout blk hb).2
  unfold execute
  simp only []
  generalize hS : (word (u.arybytMbBuffer 2) (u.arybytMbBuffer 3) + 1) % 65536 = S
    at hR hse hout' ⊢
  generalize hE : (word (u.arybytMbBuffer 2) (u.arybytMbBuffer 3)
            + (if u.arybytMbBuffer 1 = FORCE_SINGLE_COIL
                  ∨ u.arybytMbBuffer 1 = PRESET_SINGLE_REGISTER then 1
               else word (u.arybytMbBuffer 4) (u.arybytMbBuffer 5))) % 65536 = E
    at hR hse hout' ⊢
  generalize resolveCurrBlock u S E = R at hR ⊢
  have hRp : R.pCurrBlock = none := by rw [hR]
  have hRr : R.regs = u.regs := by rw [hR]
  have hRb : R.arybytMbBuffer = u.arybytMbBuffer := by rw [hR]
  by_cases h1 : u.arybytMbBuffer 1 = READ_COILS ∨ u.arybytMbBuffer 1 = READ_STATUS_INPUTS
  · rw [if_pos h1]
    have hl : (if (if u.arybytMbBuffer 1 = READ_COILS then COILS else STATUS_INPUTS) = COILS
        then R.regs.pCoils else R.regs.pStatusBits) = u.regs.get k := by
      rw [hRr]
      rcases h1 with h1 | h1
      · rcases hkind with ⟨-, hk'⟩ | ⟨hf, -⟩ | ⟨hf, -⟩ | ⟨hf, -⟩
        · rw [hk', if_pos h1, if_pos rfl]; rfl
        · rw [h1] at hf; cases hf
        · rw [h1] at hf; rcases hf with hf | hf | hf <;> cases hf
        · rw [h1] at hf; cases hf
      · rcases hkind with ⟨hf, -⟩ | ⟨-, hk'⟩ | ⟨hf, -⟩ | ⟨hf, -⟩
        · rw [h1] at hf; rcases hf with hf | hf | hf <;> cases hf
        · rw [hk', h1]; rfl
        · rw [h1] at hf; rcases hf with hf | hf | hf <;> cases hf
        · rw [h1] at hf; cases hf
    rw [packBits_outside R.regs _ R.arybytMbBuffer 3 S E (by rw [hl]; exact hout')]
    simp only []
    rw [if_pos (by decide)]
    subst hR
    exact ⟨_, rfl, rfl, rfl, rfl, rfl, rfl, rfl, rfl⟩
  · rw [if_neg h1]
    by_cases h2 : u.arybytMbBuffer 1 = READ_HOLDING_REGISTERS
        ∨ u.arybytMbBuffer 1 = READ_INPUT_REGISTERS
    · rw [if_pos h2]
      have hl : (if (if u.arybytMbBuffer 1 = READ_INPUT_REGISTERS then INPUT_REGISTERS
            else HOLDING_REGISTERS) = HOLDING_REGISTERS
          then R.regs.pHoldingRegs else R.regs.pInputRegs) = u.regs.get k := by
        rw [hRr]
        rcases h2 with h2 | h2
        · rcases hkind with ⟨hf, -⟩ | ⟨hf, -⟩ | ⟨-, hk'⟩ | ⟨hf, -⟩
          · rw [h2] at hf; rcases hf with hf | hf | hf <;> cases hf
          · rw [h2] at hf; cases hf
          · rw [hk', h2]; rfl
          · rw [h2] at hf; cases hf
        · rcases hkind with ⟨hf, -⟩ | ⟨hf, -⟩ | ⟨hf, -⟩ | ⟨-, hk'⟩
          · rw [h2] at hf; rcases hf with hf | hf | hf <;> cases hf
          · rw [h2] at hf; cases hf
          · rw [h2] at hf; rcases hf with hf | hf | hf <;> cases hf
          · rw [hk', h2]; rfl
      rw [packRegisters_outside R.regs _ R.arybytMbBuffer 3 S E (by rw [hl]; exact hout')]
      simp only []
      rw [if_pos (by decide)]
      subst hR
      exact ⟨_, rfl, rfl, rfl, rfl, rfl, rfl, rfl, rfl⟩
    · rw [if_neg h2]
      by_cases h3 : u.arybytMbBuffer 1 = FORCE_SINGLE_COIL
      · rw [if_pos h3]
        rw [coilState_null R S true hRp, coilState_null R S false hRp]
        have hs1 : (if R.arybytMbBuffer 4 = 0xff ∧ R.arybytMbBuffer 5 = 0x0 then
              { R with blnState := false }
            else if R.arybytMbBuffer 4 = 0x0 ∧ R.arybytMbBuffer 5 = 0x0 then
              { R with blnState := false }
            else R) = { R with blnState := false } := by
          by_cases c1 : R.arybytMbBuffer 4 = 0xff ∧ R.arybytMbBuffer 5 = 0x0
          · rw [if_pos c1]
          · rw [if_neg c1]
            by_cases c2 : R.arybytMbBuffer 4 = 0x0 ∧ R.arybytMbBuffer 5 = 0x0
            · rw [if_pos c2]
            · rw [if_neg c2]
              rw [hRb] at c1 c2
              rcases hval h3 with hv | hv | hv
              · exact absurd hv c1
              · exact absurd hv c2
              · rw [hR]
                simp only [hv]
        simp only [] at hs1 ⊢
        rw [hs1]
        simp only [if_true]
        subst hR
        exact ⟨_, rfl, rfl, rfl, rfl, rfl, rfl, rfl, rfl⟩
      · rw [if_neg h3]
        by_cases h4 : u.arybytMbBuffer 1 = PRESET_SINGLE_REGISTER
        · rw [if_pos h4, setRegister_null R S _ _ hRp]
          simp only [if_true]
          subst hR
          exact ⟨_, rfl, rfl, rfl, rfl, rfl, rfl, rfl, rfl⟩
        · rw [if_neg h4]
          generalize (if u.arybytMbBuffer 1 = FORCE_SINGLE_COIL
              ∨ u.arybytMbBuffer 1 = PRESET_SINGLE_REGISTER then 1
            else word (u.arybytMbBuffer 4) (u.arybytMbBuffer 5)) = cnt
          by_cases h5 : u.arybytMbBuffer 1 = FORCE_MULTIPLE_COILS
              ∧ (cnt > MAX_DISCRETES_IN_FC15 ∨ cnt > (R.arybytMbBuffer 6 % 256) * 8)
          · rw [if_pos h5]
            subst hR
            exact ⟨_, rfl, rfl, rfl, rfl, rfl, rfl, rfl, rfl⟩
          · rw [if_neg h5]
            by_cases h6 : u.arybytMbBuffer 1 = FORCE_MULTIPLE_COILS
                ∨ u.arybytMbBuffer 1 = PRESET_MULTIPLE_REGISTERS
            · rw [if_pos h6]
              by_cases h7 : u.arybytMbBuffer 1 = PRESET_MULTIPLE_REGISTERS
                  ∧ cnt > MAX_REGISTERS_IN_FC16
              · rw [if_pos h7]
                subst hR
                exact ⟨_, rfl, rfl, rfl, rfl, rfl, rfl, rfl, rfl⟩
              · rw [if_neg h7]
                obtain ⟨w', hw', bs, hws⟩ := writeLoop_null E 65535
                  { s := R, bytBit := 1, uintOffset := 0, uintAddr := S } hRp hse
                rw [show (65536 : Nat) = 65535 + 1 from rfl, hw']
                simp only []
                rw [hws]
                simp only []
                rw [if_neg (by decide)]
                subst hR
                exact ⟨_, rfl, rfl, rfl, rfl, rfl, rfl, rfl, rfl⟩
            · exfalso
              rcases hkind with ⟨hf, -⟩ | ⟨hf, -⟩ | ⟨hf, -⟩ | ⟨hf, -⟩
              · rcases hf with hf | hf | hf
                · exact h1 (Or.inl hf)
                · exact h3 hf
                · exact h6 (Or.inl hf)
              · exact h1 (Or.inr hf)
              · rcases hf with hf | hf | hf
                · exact h2 (Or.inl hf)
                · exact h4 hf
                · exact h6 (Or.inr hf)
              · exact h2 (Or.inr hf)

theorem selectTable_supported (u : State) (k : ListHead)
    (hkind : ((u.arybytMbBuffer 1 = READ_COILS ∨ u.arybytMbBuffer 1 = FORCE_SINGLE_COIL
            ∨ u.arybytMbBuffer 1 = FORCE_MULTIPLE_COILS) ∧ k = .pCoils)
      ∨ (u.arybytMbBuffer 1 = READ_STATUS_INPUTS ∧ k = .pStatusBits)
      ∨ ((u.arybytMbBuffer 1 = READ_HOLDING_REGISTERS
            ∨ u.arybytMbBuffer 1 = PRESET_SINGLE_REGISTER
            ∨ u.arybytMbBuffer 1 = PRESET_MULTIPLE_REGISTERS) ∧ k = .pHoldingRegs)
      ∨ (u.arybytMbBuffer 1 = READ_INPUT_REGISTERS ∧ k = .pInputRegs)) :
    selectTable u = (if (u.regs.get k).isEmpty then
        { u with eMbExceptionCode := ILLEGAL_DATA_ADDRESS }
      else { u with pCurrBlock := some (k, 0) }) := by
  unfold selectTable
  rcases hkind with ⟨hf, hk⟩ | ⟨hf, hk⟩ | ⟨hf, hk⟩ | ⟨hf, hk⟩
  · subst hk
    rcases hf with hf | hf | hf <;> simp +decide [hf, Registry.get]
  · subst hk
    simp +decide [hf, Registry.get]
  · subst hk
    rcases hf with hf | hf | hf <;> simp +decide [hf, Registry.get]
  · subst hk
    simp +decide [hf, Registry.get]

/-- A CRC-valid request addressed to this slave with a supported function whose range
(start not above end) lies within no block of the list the function maps to is answered
with the exception response carrying ILLEGAL_DATA_ADDRESS and changes no block, provided
that for function 5 the value field is 0xFF00 or 0x0000 or the location of blnState holds
FALSE. -/
theorem decodePacket_outside_blocks (s : State) (k : ListHead) (hr : FrameReady s)
    (haddr : s.arybytMbBuffer 0 = s.bytMbSlaveAddress)
    (hlen : 3 < s.bytMbIndex ∧ s.bytMbIndex < 256)
    (hcrc : s.arybytMbBuffer (s.bytMbIndex - 2)
              = Lo (crc16 (bufferBytes s.arybytMbBuffer (s.bytMbIndex - 2)))
            ∧ s.arybytMbBuffer (s.bytMbIndex - 1)
              = Hi (crc16 (bufferBytes s.arybytMbBuffer (s.bytMbIndex - 2))))
    (hbytes : s.arybytMbBuffer 0 < 256 ∧ s.arybytMbBuffer 1 < 256)
    (hexc : s.eMbExceptionCode = NO_EXCEPTION)
    (hkind : ((s.arybytMbBuffer 1 = READ_COILS ∨ s.arybytMbBuffer 1 = FORCE_SINGLE_COIL
            ∨ s.arybytMbBuffer 1 = FORCE_MULTIPLE_COILS) ∧ k = .pCoils)
      ∨ (s.arybytMbBuffer 1 = READ_STATUS_INPUTS ∧ k = .pStatusBits)
      ∨ ((s.arybytMbBuffer 1 = READ_HOLDING_REGISTERS
            ∨ s.arybytMbBuffer 1 = PRESET_SINGLE_REGISTER
            ∨ s.arybytMbBuffer 1 = PRESET_MULTIPLE_REGISTERS) ∧ k = .pHoldingRegs)
      ∨ (s.arybytMbBuffer 1 = READ_INPUT_REGISTERS ∧ k = .pInputRegs))
    (hout : ∀ blk, blk ∈ s.regs.get k → 1 ≤ blk.uintAddress + blk.uintTotal
      ∧ ¬ (blk.uintAddress ≤ (word (s.arybytMbBuffer 2) (s.arybytMbBuffer 3) + 1) % 65536
          ∧ (word (s.arybytMbBuffer 2) (s.arybytMbBuffer 3)
              + (if s.arybytMbBuffer 1 = FORCE_SINGLE_COIL
                    ∨ s.arybytMbBuffer 1 = PRESET_SINGLE_REGISTER then 1
                 else word (s.arybytMbBuffer 4) (s.arybytMbBuffer 5))) % 65536
            ≤ blk.uintAddress + blk.uintTotal - 1))
    (hse : (word (s.arybytMbBuffer 2) (s.arybytMbBuffer 3) + 1) % 65536
        ≤ (word (s.arybytMbBuffer 2) (s.arybytMbBuffer 3)
              + (if s.arybytMbBuffer 1 = FORCE_SINGLE_COIL
                    ∨ s.arybytMbBuffer 1 = PRESET_SINGLE_REGISTER then 1
                 else word (s.arybytMbBuffer 4) (s.arybytMbBuffer 5))) % 65536)
    (hval : s.arybytMbBuffer 1 = FORCE_SINGLE_COIL →
      (s.arybytMbBuffer 4 = 0xff ∧ s.arybytMbBuffer 5 = 0x0)
        ∨ (s.arybytMbBuffer 4 = 0x0 ∧ s.arybytMbBuffer 5 = 0x0) ∨ s.blnState = false) :
    ∃ s', decodePacket s = some s'
      ∧ responseFrame s' = s.TXREG ++
          [s.arybytMbBuffer 0, s.arybytMbBuffer 1 ||| EXCEPTION_FLAG, ILLEGAL_DATA_ADDRESS,
           Lo (crc16 [s.arybytMbBuffer 0, s.arybytMbBuffer 1 ||| EXCEPTION_FLAG,
                      ILLEGAL_DATA_ADDRESS]),
           Hi (crc16 [s.arybytMbBuffer 0, s.arybytMbBuffer 1 ||| EXCEPTION_FLAG,
                      ILLEGAL_DATA_ADDRESS])]
      ∧ s'.regs = s.regs := by
  obtain ⟨t, ht, tr, tb, te, tp, ttx, tbs, -⟩ := decodePacket_dispatch s hr haddr hlen hcrc
  have e3 : Nat.testBit 5 0 = true := by decide
  have e1 : ILLEGAL_DATA_ADDRESS ≠ NO_EXCEPTION := by decide
  have e2 : ILLEGAL_DATA_ADDRESS < 256 := by decide
  have hv : ∃ v, request t = some v ∧ v.eMbExceptionCode = ILLEGAL_DATA_ADDRESS
      ∧ v.bytMbIndex = 3 ∧ v.regs = t.regs
      ∧ v.arybytMbBuffer 0 = t.arybytMbBuffer 0 ∧ v.arybytMbBuffer 1 = t.arybytMbBuffer 1
      ∧ v.bytMbRxphase = t.bytMbRxphase ∧ v.TXREG = t.TXREG := by
    unfold request
    simp only []
    rw [selectTable_supported { t with bytMbIndex := 3 } k (by rw [tb]; exact hkind)]
    by_cases hem : (t.regs.get k).isEmpty = true
    · rw [if_pos hem]
      simp only []
      rw [if_neg e1]
      exact ⟨_, rfl, rfl, rfl, rfl, rfl, rfl, rfl, rfl⟩
    · rw [if_neg hem]
      simp only []
      rw [if_pos (te.trans hexc)]
      exact execute_outside { t with bytMbIndex := 3, pCurrBlock := some (k, 0) } k rfl
        (by rw [tb]; exact hkind) (by rw [tb, tr]; exact hout) (by rw [tb]; exact hse)
        (by rw [tb, tbs]; exact hval)
  obtain ⟨v, hv, v1, v2, v3, v4, v5, v6, v7⟩ := hv
  obtain ⟨s', h1, h2, h3, -⟩ := respond_exception_frame v (by rw [v1]; exact e1) v2
    (by rw [v6, tp]; exact e3) (by rw [v4, tb]; exact hbytes.1)
    (by rw [v5, tb]; exact hbytes.2) (by rw [v1]; exact e2)
  refine ⟨s', ?_, ?_, ?_⟩
  · rw [ht, dispatch_eq_request, hv]
    exact h1
  · rw [h2, v7, v4, v5, v1, tb, ttx]
  · rw [h3, v3, tr]

theorem execute_force_single_coil_bad_value (u : State)
    (hfn : u.arybytMbBuffer 1 = FORCE_SINGLE_COIL)
    (hbad : ¬ (u.arybytMbBuffer 4 = 0xff ∧ u.arybytMbBuffer 5 = 0x0)
      ∧ ¬ (u.arybytMbBuffer 4 = 0x0 ∧ u.arybytMbBuffer 5 = 0x0)) :
    ∃ v, execute u = some v ∧ v.regs = u.regs ∧ v.arybytMbBuffer = u.arybytMbBuffer
      ∧ v.bytMbRxphase = u.bytMbRxphase ∧ v.TXREG = u.TXREG
      ∧ (u.blnState = false →
          v.eMbExceptionCode = ILLEGAL_DATA_ADDRESS ∧ v.bytMbIndex = u.bytMbIndex)
      ∧ (u.blnState = true →
          v.eMbExceptionCode = u.eMbExceptionCode
            ∧ v.bytMbIndex = (u.bytMbIndex + 4) % 256) := by
  have hR := resolveCurrBlock_eq u
    ((word (u.arybytMbBuffer 2) (u.arybytMbBuffer 3) + 1) % 65536)
    ((word (u.arybytMbBuffer 2) (u.arybytMbBuffer 3)
              + (if u.arybytMbBuffer 1 = FORCE_SINGLE_COIL
                    ∨ u.arybytMbBuffer 1 = PRESET_SINGLE_REGISTER then 1
                 else word (u.arybytMbBuffer 4) (u.arybytMbBuffer 5))) % 65536)
  unfold execute
  simp only []
  generalize hS : (word (u.arybytMbBuffer 2) (u.arybytMbBuffer 3) + 1) % 65536 = S at hR ⊢
  generalize hE : (word (u.arybytMbBuffer 2) (u.arybytMbBuffer 3)
            + (if u.arybytMbBuffer 1 = FORCE_SINGLE_COIL
                  ∨ u.arybytMbBuffer 1 = PRESET_SINGLE_REGISTER then 1
               else word (u.arybytMbBuffer 4) (u.arybytMbBuffer 5))) % 65536 = E at hR ⊢
  generalize (resolveCurrBlock u S E).pCurrBlock = pc at hR
  generalize resolveCurrBlock u S E = R at hR ⊢
  have hRb : R.arybytMbBuffer = u.arybytMbBuffer := by rw [hR]
  have h1 : ¬ (u.arybytMbBuffer 1 = READ_COILS ∨ u.arybytMbBuffer 1 = READ_STATUS_INPUTS) := by
    rw [hfn]; decide
  have h2 : ¬ (u.arybytMbBuffer 1 = READ_HOLDING_REGISTERS
      ∨ u.arybytMbBuffer 1 = READ_INPUT_REGISTERS) := by
    rw [hfn]; decide
  rw [if_neg h1, if_neg h2, if_pos hfn]
  have hs1 : (if R.arybytMbBuffer 4 = 0xff ∧ R.arybytMbBuffer 5 = 0x0 then
        { (coilState R S true).1 with blnState := (coilState R S true).2 }
      else if R.arybytMbBuffer 4 = 0x0 ∧ R.arybytMbBuffer 5 = 0x0 then
        { (coilState R S false).1 with blnState := (coilState R S false).2 }
      else R) = R := by
    rw [hRb, if_neg hbad.1, if_neg hbad.2]
  simp only [] at hs1
  rw [hs1]
  subst hR
  simp only []
  cases hb : u.blnState with
  | false =>
    rw [if_pos rfl]
    exact ⟨_, rfl, rfl, rfl, rfl, rfl, fun _ => ⟨rfl, rfl⟩, fun h => (by cases h)⟩
  | true =>
    rw [if_neg (by decide)]
    exact ⟨_, rfl, rfl, rfl, rfl, rfl, fun h => (by cases h), fun _ => ⟨rfl, rfl⟩⟩

/-- Force single coil with a value field that is neither 0xFF00 nor 0x0000: no block
changes; the response is the exception response when the location of blnState holds FALSE,
and a normal response (function byte unchanged) when it holds TRUE and a coil block is
registered. -/
theorem decodePacket_force_single_coil_bad_value (s : State) (hr : FrameReady s)
    (haddr : s.arybytMbBuffer 0 = s.bytMbSlaveAddress)
    (hlen : 3 < s.bytMbIndex ∧ s.bytMbIndex < 256)
    (hcrc : s.arybytMbBuffer (s.bytMbIndex - 2)
              = Lo (crc16 (bufferBytes s.arybytMbBuffer (s.bytMbIndex - 2)))
            ∧ s.arybytMbBuffer (s.bytMbIndex - 1)
              = Hi (crc16 (bufferBytes s.arybytMbBuffer (s.bytMbIndex - 2))))
    (hbytes : s.arybytMbBuffer 0 < 256)
    (hexc : s.eMbExceptionCode = NO_EXCEPTION)
    (hfn : s.arybytMbBuffer 1 = FORCE_SINGLE_COIL)
    (hbad : ¬ (s.arybytMbBuffer 4 = 0xff ∧ s.arybytMbBuffer 5 = 0x0)
      ∧ ¬ (s.arybytMbBuffer 4 = 0x0 ∧ s.arybytMbBuffer 5 = 0x0)) :
    ∃ s', decodePacket s = some s' ∧ s'.regs = s.regs
      ∧ (s.blnState = false →
          responseFrame s' = s.TXREG ++
            [s.arybytMbBuffer 0, FORCE_SINGLE_COIL ||| EXCEPTION_FLAG, ILLEGAL_DATA_ADDRESS,
             Lo (crc16 [s.arybytMbBuffer 0, FORCE_SINGLE_COIL ||| EXCEPTION_FLAG,
                        ILLEGAL_DATA_ADDRESS]),
             Hi (crc16 [s.arybytMbBuffer 0, FORCE_SINGLE_COIL ||| EXCEPTION_FLAG,
                        ILLEGAL_DATA_ADDRESS])])
      ∧ (s.blnState = true → s.regs.pCoils.isEmpty = false →
          s'.TXREG = s.TXREG ++ [s.arybytMbBuffer 0, FORCE_SINGLE_COIL]
            ∧ s'.arybytMbBuffer 0 = 9) := by
  obtain ⟨t, ht, tr, tb, te, tp, ttx, tbs, -⟩ := decodePacket_dispatch s hr haddr hlen hcrc
  have e3 : Nat.testBit 5 0 = true := by decide
  have e1 : ILLEGAL_DATA_ADDRESS ≠ NO_EXCEPTION := by decide
  have e2 : ILLEGAL_DATA_ADDRESS < 256 := by decide
  have e5 : FORCE_SINGLE_COIL < 256 := by decide
  have hsel := selectTable_supported { t with bytMbIndex := 3 } .pCoils
    (Or.inl ⟨Or.inr (Or.inl (by rw [tb]; exact hfn)), rfl⟩)
  have hreq : ∃ v, request t = some v ∧ v.regs = t.regs
      ∧ v.arybytMbBuffer = t.arybytMbBuffer
      ∧ v.bytMbRxphase = t.bytMbRxphase ∧ v.TXREG = t.TXREG
      ∧ (t.blnState = false →
          v.eMbExceptionCode = ILLEGAL_DATA_ADDRESS ∧ v.bytMbIndex = 3)
      ∧ (t.blnState = true → t.regs.pCoils.isEmpty = false →
          v.eMbExceptionCode = NO_EXCEPTION ∧ v.bytMbIndex = 7)
      ∧ (v.eMbExceptionCode = NO_EXCEPTION ∨ v.eMbExceptionCode = ILLEGAL_DATA_ADDRESS)
      ∧ (v.bytMbIndex = 3 ∨ v.bytMbIndex = 7) := by
    unfold request
    simp only []
    rw [hsel]
    by_cases hem : (t.regs.get .pCoils).isEmpty = true
    · rw [if_pos hem]
      simp only []
      rw [if_neg e1]
      refine ⟨_, rfl, rfl, rfl, rfl, rfl, fun _ => ⟨rfl, rfl⟩, fun _ h => ?_, Or.inr rfl,
        Or.inl rfl⟩
      rw [show t.regs.pCoils = t.regs.get .pCoils from rfl, hem] at h
      cases h
    · rw [if_neg hem]
      simp only []
      rw [if_pos (te.trans hexc)]
      obtain ⟨v, hv, v1, v2, v3, v4, v5, v6⟩ := execute_force_single_coil_bad_value
        { t with bytMbIndex := 3, pCurrBlock := some (.pCoils, 0) }
        (by rw [tb]; exact hfn) (by rw [tb]; exact hbad)
      refine ⟨v, hv, v1, v2, v3, v4, v5, fun hb _ => ?_, ?_, ?_⟩
      · obtain ⟨a, b⟩ := v6 hb
        exact ⟨a.trans (te.trans hexc), b⟩
      · cases hb : t.blnState with
        | false => exact Or.inr (v5 hb).1
        | true => exact Or.inl ((v6 hb).1.trans (te.trans hexc))
      · cases hb : t.blnState with
        | false => exact Or.inl (v5 hb).2
        | true => exact Or.inr (v6 hb).2
  obtain ⟨v, hv, v1, v2, v3, v4, v5, v6, v7, v8⟩ := hreq
  have hresp : ∃ s', respond v = some s' ∧ s'.regs = v.regs := by
    rcases v7 with v7 | v7
    · obtain ⟨s', a, -, c, -⟩ := transmitStart_some v (by rw [v3, tp]; exact e3)
        (by rcases v8 with v8 | v8 <;> rw [v8] <;> decide)
      exact ⟨s', by rw [respond_no_exception v v7
        (by rcases v8 with v8 | v8 <;> rw [v8] <;> decide)]; exact a, c⟩
    · obtain ⟨s', a, -, c, -⟩ := respond_exception v (by rw [v7]; exact e1)
        (by rcases v8 with v8 | v8 <;> rw [v8] <;> decide) (by rw [v3, tp]; exact e3)
      exact ⟨s', a, c⟩
  obtain ⟨s', hs', hs'r⟩ := hresp
  refine ⟨s', ?_, ?_, ?_, ?_⟩
  · rw [ht, dispatch_eq_request, hv]
    exact hs'
  · rw [hs'r, v1, tr]
  · intro hb
    obtain ⟨a, b⟩ := v5 (tbs.trans hb)
    obtain ⟨s'', h1, h2, -, -⟩ := respond_exception_frame v (by rw [a]; exact e1) b
      (by rw [v3, tp]; exact e3) (by rw [v2, tb]; exact hbytes)
      (by rw [v2, tb, hfn]; exact e5) (by rw [a]; exact e2)
    rw [hs'] at h1
    cases h1
    rw [h2, v4, v2, a, tb, ttx, hfn]
  · intro hb hne
    obtain ⟨a, b⟩ := v6 (tbs.trans hb) (by rw [tr]; exact hne)
    obtain ⟨s'', h1, h2, -, h4, -, -, -⟩ := transmitStart_some v (by rw [v3, tp]; exact e3)
      (by rw [b]; decide)
    rw [respond_no_exception v a (by rw [b]; decide), h1] at hs'
    cases hs'
    refine ⟨?_, ?_⟩
    · rw [h4, v4, v2, tb, ttx, hfn]
    · rw [h2, b]
      rfl

/-! ### Dispatcher: successful single writes in general -/

theorem currBlock_found (R : State) (k : ListHead) (j : Nat) (a b : Nat)
    (hp : R.pCurrBlock = some (k, j)) (hf : findBlock a b (R.regs.get k) 0 = some j) :
    ∃ blk, currBlock R = some blk := by
  obtain ⟨blk, h1, -, -, -⟩ := findBlock_some _ _ _ _ _ hf
  refine ⟨blk, ?_⟩
  unfold currBlock
  rw [hp]
  exact h1

/-- A preset-single-register request, or a force-single-coil request with value field
0xFF00 or 0x0000, whose address the block search resolves: the execution succeeds and
advances the index by 4. -/
theorem execute_single_write_found (u : State) (k : ListHead) (j : Nat)
    (hfn : u.arybytMbBuffer 1 = PRESET_SINGLE_REGISTER
      ∨ (u.arybytMbBuffer 1 = FORCE_SINGLE_COIL
        ∧ ((u.arybytMbBuffer 4 = 0xff ∧ u.arybytMbBuffer 5 = 0x0)
          ∨ (u.arybytMbBuffer 4 = 0x0 ∧ u.arybytMbBuffer 5 = 0x0))))
    (hk : u.pCurrBlock = some (k, 0))
    (hfound : findBlock ((word (u.arybytMbBuffer 2) (u.arybytMbBuffer 3) + 1) % 65536)
        ((word (u.arybytMbBuffer 2) (u.arybytMbBuffer 3) + 1) % 65536)
        (u.regs.get k) 0 = some j) :
    ∃ v, execute u = some v ∧ v.bytMbIndex = (u.bytMbIndex + 4) % 256
      ∧ v.eMbExceptionCode = u.eMbExceptionCode ∧ v.arybytMbBuffer = u.arybytMbBuffer
      ∧ v.bytMbRxphase = u.bytMbRxphase ∧ v.TXREG = u.TXREG
      ∧ regsStep (some (k, j)) u.regs v.regs := by
  have hcnt : (if u.arybytMbBuffer 1 = FORCE_SINGLE_COIL
        ∨ u.arybytMbBuffer 1 = PRESET_SINGLE_REGISTER then 1
      else word (u.arybytMbBuffer 4) (u.arybytMbBuffer 5)) = 1 := by
    rcases hfn with h | ⟨h, -⟩
    · rw [if_pos (Or.inr h)]
    · rw [if_pos (Or.inl h)]
  have hpc := (resolveCurrBlock_list u
    ((word (u.arybytMbBuffer 2) (u.arybytMbBuffer 3) + 1) % 65536)
    ((word (u.arybytMbBuffer 2) (u.arybytMbBuffer 3) + 1) % 65536)).2 k 0 hk
  rw [List.drop_zero, hfound] at hpc
  have hR := resolveCurrBlock_eq u
    ((word (u.arybytMbBuffer 2) (u.arybytMbBuffer 3) + 1) % 65536)
    ((word (u.arybytMbBuffer 2) (u.arybytMbBuffer 3) + 1) % 65536)
  rw [hpc] at hR
  simp only [Option.map_some'] at hR
  unfold execute
  simp only [hcnt]
  generalize (word (u.arybytMbBuffer 2) (u.arybytMbBuffer 3) + 1) % 65536 = S at hR hfound ⊢
  generalize resolveCurrBlock u S S = R at hR ⊢
  have hRp : R.pCurrBlock = some (k, j) := by rw [hR]
  have hRr : R.regs = u.regs := by rw [hR]
  have hRb : R.arybytMbBuffer = u.arybytMbBuffer := by rw [hR]
  obtain ⟨blk, hblk⟩ := currBlock_found R k j S S hRp (by rw [hRr]; exact hfound)
  rcases hfn with hf | ⟨hf, hv⟩
  · have h1 : ¬ (u.arybytMbBuffer 1 = READ_COILS ∨ u.arybytMbBuffer 1 = READ_STATUS_INPUTS) := by
      rw [hf]; decide
    have h2 : ¬ (u.arybytMbBuffer 1 = READ_HOLDING_REGISTERS
        ∨ u.arybytMbBuffer 1 = READ_INPUT_REGISTERS) := by
      rw [hf]; decide
    have h3 : ¬ u.arybytMbBuffer 1 = FORCE_SINGLE_COIL := by rw [hf]; decide
    rw [if_neg h1, if_neg h2, if_neg h3, if_pos hf]
    obtain ⟨r, e1, g1, g2, -⟩ := setRegister_spec R S (R.arybytMbBuffer 4)
      (R.arybytMbBuffer 5)
    have hret : (setRegister R S (R.arybytMbBuffer 4) (R.arybytMbBuffer 5)).2 = true := by
      cases hc : (setRegister R S (R.arybytMbBuffer 4) (R.arybytMbBuffer 5)).2 with
      | true => rfl
      | false =>
        have := (g2 hc).2
        rw [hblk] at this
        cases this
    rw [if_neg (by rw [hret]; decide), e1]
    rw [hRp, hRr] at g1
    subst hR
    exact ⟨_, rfl, rfl, rfl, rfl, rfl, rfl, g1⟩
  · have h1 : ¬ (u.arybytMbBuffer 1 = READ_COILS ∨ u.arybytMbBuffer 1 = READ_STATUS_INPUTS) := by
      rw [hf]; decide
    have h2 : ¬ (u.arybytMbBuffer 1 = READ_HOLDING_REGISTERS
        ∨ u.arybytMbBuffer 1 = READ_INPUT_REGISTERS) := by
      rw [hf]; decide
    rw [if_neg h1, if_neg h2, if_pos hf]
    have hs1 : ∃ r, (if R.arybytMbBuffer 4 = 0xff ∧ R.arybytMbBuffer 5 = 0x0 then
          { (coilState R S true).1 with blnState := (coilState R S true).2 }
        else if R.arybytMbBuffer 4 = 0x0 ∧ R.arybytMbBuffer 5 = 0x0 then
          { (coilState R S false).1 with blnState := (coilState R S false).2 }
        else R) = { R with regs := r, blnState := true }
        ∧ regsStep R.pCurrBlock R.regs r := by
      obtain ⟨r1, e1, g1, k1, -⟩ := coilState_spec R S true
      obtain ⟨r2, e2, g2, k2, -⟩ := coilState_spec R S false
      have t1 : (coilState R S true).2 = true := by
        cases hc : (coilState R S true).2 with
        | true => rfl
        | false =>
          have := (k1 hc).2
          rw [hblk] at this
          cases this
      have t2 : (coilState R S false).2 = true := by
        cases hc : (coilState R S false).2 with
        | true => rfl
        | false =>
          have := (k2 hc).2
          rw [hblk] at this
          cases this
      have hv' : (R.arybytMbBuffer 4 = 0xff ∧ R.arybytMbBuffer 5 = 0x0)
          ∨ (R.arybytMbBuffer 4 = 0x0 ∧ R.arybytMbBuffer 5 = 0x0) := by
        rw [hRb]; exact hv
      rcases hv' with hv' | hv'
      · rw [if_pos hv', e1, t1]
        refine ⟨r1, ?_, g1⟩
        rfl
      · by_cases c1 : R.arybytMbBuffer 4 = 0xff ∧ R.arybytMbBuffer 5 = 0x0
        · rw [if_pos c1, e1, t1]
          refine ⟨r1, ?_, g1⟩
          rfl
        · rw [if_neg c1, if_pos hv', e2, t2]
          refine ⟨r2, ?_, g2⟩
          rfl
    obtain ⟨r, hs1, g1⟩ := hs1
    simp only [] at hs1 ⊢
    rw [hs1]
    simp only []
    rw [if_neg (by decide)]
    rw [hRp, hRr] at g1
    subst hR
    exact ⟨_, rfl, rfl, rfl, rfl, rfl, rfl, g1⟩

theorem findBlock_ne_nil (a b : Nat) (l : List modbusBlockDef) (i j : Nat)
    (h : findBlock a b l i = some j) : l.isEmpty = false := by
  cases l with
  | nil => simp [findBlock] at h
  | cons x rest => rfl

/-- A preset-single-register request, or a force-single-coil request with value field
0xFF00 or 0x0000, whose address the block search resolves, is answered with a response of
nine bytes: the first seven bytes of the buffered request, the seventh being the low CRC
byte the master sent, and the CRC of these seven. Only the resolved block may change. -/
theorem decodePacket_single_write_length (s : State) (k : ListHead) (j : Nat)
    (hr : FrameReady s)
    (haddr : s.arybytMbBuffer 0 = s.bytMbSlaveAddress)
    (hlen : 3 < s.bytMbIndex ∧ s.bytMbIndex < 256)
    (hcrc : s.arybytMbBuffer (s.bytMbIndex - 2)
              = Lo (crc16 (bufferBytes s.arybytMbBuffer (s.bytMbIndex - 2)))
            ∧ s.arybytMbBuffer (s.bytMbIndex - 1)
              = Hi (crc16 (bufferBytes s.arybytMbBuffer (s.bytMbIndex - 2))))
    (hexc : s.eMbExceptionCode = NO_EXCEPTION)
    (hkind : (s.arybytMbBuffer 1 = PRESET_SINGLE_REGISTER ∧ k = .pHoldingRegs)
      ∨ (s.arybytMbBuffer 1 = FORCE_SINGLE_COIL
        ∧ ((s.arybytMbBuffer 4 = 0xff ∧ s.arybytMbBuffer 5 = 0x0)
          ∨ (s.arybytMbBuffer 4 = 0x0 ∧ s.arybytMbBuffer 5 = 0x0)) ∧ k = .pCoils))
    (hfound : findBlock ((word (s.arybytMbBuffer 2) (s.arybytMbBuffer 3) + 1) % 65536)
        ((word (s.arybytMbBuffer 2) (s.arybytMbBuffer 3) + 1) % 65536)
        (s.regs.get k) 0 = some j) :
    ∃ s', decodePacket s = some s' ∧ s'.arybytMbBuffer 0 = 9
      ∧ s'.TXREG = s.TXREG ++ [s.arybytMbBuffer 0, s.arybytMbBuffer 1]
      ∧ (responseFrame s').length = s.TXREG.length + 9
      ∧ (∀ i, 2 ≤ i → i < 7 → s'.arybytMbBuffer i = s.arybytMbBuffer i)
      ∧ regsStep (some (k, j)) s.regs s'.regs := by
  obtain ⟨t, ht, tr, tb, te, tp, ttx, -, -⟩ := decodePacket_dispatch s hr haddr hlen hcrc
  have e3 : Nat.testBit 5 0 = true := by decide
  have hsk : ((t.arybytMbBuffer 1 = READ_COILS ∨ t.arybytMbBuffer 1 = FORCE_SINGLE_COIL
            ∨ t.arybytMbBuffer 1 = FORCE_MULTIPLE_COILS) ∧ k = .pCoils)
      ∨ (t.arybytMbBuffer 1 = READ_STATUS_INPUTS ∧ k = .pStatusBits)
      ∨ ((t.arybytMbBuffer 1 = READ_HOLDING_REGISTERS
            ∨ t.arybytMbBuffer 1 = PRESET_SINGLE_REGISTER
            ∨ t.arybytMbBuffer 1 = PRESET_MULTIPLE_REGISTERS) ∧ k = .pHoldingRegs)
      ∨ (t.arybytMbBuffer 1 = READ_INPUT_REGISTERS ∧ k = .pInputRegs) := by
    rw [tb]
    rcases hkind with ⟨hf, hk⟩ | ⟨hf, -, hk⟩
    · exact Or.inr (Or.inr (Or.inl ⟨Or.inr (Or.inl hf), hk⟩))
    · exact Or.inl ⟨Or.inr (Or.inl hf), hk⟩
  have hfn : t.arybytMbBuffer 1 = PRESET_SINGLE_REGISTER
      ∨ (t.arybytMbBuffer 1 = FORCE_SINGLE_COIL
        ∧ ((t.arybytMbBuffer 4 = 0xff ∧ t.arybytMbBuffer 5 = 0x0)
          ∨ (t.arybytMbBuffer 4 = 0x0 ∧ t.arybytMbBuffer 5 = 0x0))) := by
    rw [tb]
    rcases hkind with ⟨hf, -⟩ | ⟨hf, hv, -⟩
    · exact Or.inl hf
    · exact Or.inr ⟨hf, hv⟩
  have hne : (t.regs.get k).isEmpty = false := by
    rw [tr]
    exact findBlock_ne_nil _ _ _ _ _ hfound
  obtain ⟨v, hv, v1, v2, v3, v4, v5, v6⟩ := execute_single_write_found
    { t with bytMbIndex := 3, pCurrBlock := some (k, 0) } k j hfn rfl
    (by rw [tb, tr]; exact hfound)
  have hreq : request t = some v := by
    unfold request
    simp only []
    rw [selectTable_supported { t with bytMbIndex := 3 } k hsk]
    have hne' : ¬ (({ t with bytMbIndex := 3 } : State).regs.get k).isEmpty = true := by
      show ¬ (t.regs.get k).isEmpty = true
      rw [hne]
      decide
    rw [if_neg hne']
    simp only []
    rw [if_pos (te.trans hexc)]
    exact hv
  have v1' : v.bytMbIndex = 7 := v1
  obtain ⟨s', h1, h2, h3, h4, -, -, -⟩ := transmitStart_some v (by rw [v4, tp]; exact e3)
    (by rw [v1']; decide)
  have hb0 : s'.arybytMbBuffer 0 = 9 := by
    rw [h2, v1']
    rfl
  refine ⟨s', ?_, hb0, ?_, ?_, ?_, ?_⟩
  · rw [ht, dispatch_eq_request, hreq]
    show respond v = some s'
    rw [respond_no_exception v (v2.trans (te.trans hexc)) (by rw [v1']; decide)]
    exact h1
  · rw [h4, v5, v3, tb, ttx]
  · unfold responseFrame
    rw [hb0, h4, v5, ttx]
    simp
  · intro i hi2 hi7
    rw [h2, v1', v3, tb]
    rw [store_other _ _ _ _ (by omega), store_other _ _ _ _ (by omega),
      store_other _ _ _ _ (by omega)]
  · rw [h3, ← tr]
    exact v6

/-! ### Blocks and the slave address they were registered for -/

/-- C21 (the code departs from the claim): a holding-register block registered for slave
address 2 on a slave configured with address 1 is read by the request 01 03 00 00 00 01 and
written by the request 01 10 00 00 00 01 02 12 34, both addressed to 1: the dispatcher never looks at
the bytSlaveAddress of a block. -/
theorem decodePacket_serves_block_of_other_slave_address :
    regsForeignOwner.pHoldingRegs.map (fun b => b.bytSlaveAddress) = [2]
    ∧ FrameReady (sessionState regsForeignOwner 1
        (bufferOf [0x01, 0x03, 0x00, 0x00, 0x00, 0x01, 0x84, 0x0A]) 8 5)
    ∧ (decodePacket (sessionState regsForeignOwner 1
        (bufferOf [0x01, 0x03, 0x00, 0x00, 0x00, 0x01, 0x84, 0x0A]) 8 5)).map responseFrame
      = some [0x01, 0x03, 0x02, 0x11, 0x00, 0xB4, 0x14]
    ∧ FrameReady (sessionState regsForeignOwner 1
        (bufferOf [0x01, 0x10, 0x00, 0x00, 0x00, 0x01, 0x02, 0x12, 0x34, 0xAB, 0x27]) 11 5)
    ∧ (decodePacket (sessionState regsForeignOwner 1
        (bufferOf [0x01, 0x10, 0x00, 0x00, 0x00, 0x01, 0x02, 0x12, 0x34, 0xAB, 0x27]) 11 5)).map
        (fun s => (responseFrame s,
          s.regs.pHoldingRegs.map (fun b => (b.bytSlaveAddress, b.paryData 0, b.blnUpdate))))
      = some ([0x01, 0x10, 0x00, 0x00, 0x00, 0x01, 0x01, 0xC9], [(2, 0x1234, true)]) := by
  decide

/-! ### The resolution loop of the dispatcher -/

theorem findBlock_isSome (a b : Nat) :
    ∀ (l : List modbusBlockDef) (i j : Nat) (blk : modbusBlockDef), l[j]? = some blk →
      a ≥ blk.uintAddress → b ≤ (blk.uintAddress + blk.uintTotal + 65535) % 65536 →
      ∃ j', findBlock a b l i = some j' := by
  intro l
  induction l with
  | nil => intro i j blk h; simp at h
  | cons hd rest ih =>
    intro i j blk h h1 h2
    unfold findBlock
    by_cases hc : a ≥ hd.uintAddress ∧ b ≤ (hd.uintAddress + hd.uintTotal + 65535) % 65536
    · rw [if_pos hc]
      exact ⟨i, rfl⟩
    · rw [if_neg hc]
      cases j with
      | zero =>
        simp only [List.getElem?_cons_zero, Option.some.injEq] at h
        subst h
        exact absurd ⟨h1, h2⟩ hc
      | succ n =>
        rw [List.getElem?_cons_succ] at h
        exact ih (i + 1) n blk h h1 h2

theorem wrapped_bound_le (x : Nat) (hx : 1 ≤ x) : (x + 65535) % 65536 ≤ x - 1 := by
  omega

/-- C22 (as amended): let the list of one kind hold pairwise non-overlapping blocks of at
least one item whose last address does not exceed 65535, and let the resolution loop of the
dispatcher start at the head of that list for a range [start, end] with start <= end. If the
block at position j contains the range, the loop leaves pCurrBlock at position j, at that
block; if no block contains the range (it spans blocks or lies outside all of them), the loop
leaves pCurrBlock NULL. -/
theorem resolveCurrBlock_finds_containing_block (s : State) (k : ListHead)
    (uintSAddr uintEAddr : Nat)
    (hp : s.pCurrBlock = some (k, 0))
    (hok : ∀ b ∈ s.regs.get k, 1 ≤ b.uintTotal ∧ b.uintAddress + b.uintTotal ≤ 65536)
    (hdis : (s.regs.get k).Pairwise (fun a b =>
      ¬ rangesOverlap a.uintAddress a.uintTotal b.uintAddress b.uintTotal))
    (hSE : uintSAddr ≤ uintEAddr) :
    (∀ (j : Nat) (b : modbusBlockDef), (s.regs.get k)[j]? = some b →
        b.uintAddress ≤ uintSAddr → uintEAddr < b.uintAddress + b.uintTotal →
        (resolveCurrBlock s uintSAddr uintEAddr).pCurrBlock = some (k, j)
        ∧ currBlock (resolveCurrBlock s uintSAddr uintEAddr) = some b)
    ∧ ((∀ b ∈ s.regs.get k,
          ¬ (b.uintAddress ≤ uintSAddr ∧ uintEAddr < b.uintAddress + b.uintTotal)) →
        (resolveCurrBlock s uintSAddr uintEAddr).pCurrBlock = none) := by
  have hr := (resolveCurrBlock_list s uintSAddr uintEAddr).2 k 0 hp
  rw [List.drop_zero] at hr
  constructor
  · intro j b hj hb1 hb2
    have hbm : b ∈ s.regs.get k := List.getElem?_mem hj
    have hbok := hok b hbm
    have hbound : (b.uintAddress + b.uintTotal + 65535) % 65536
        = b.uintAddress + b.uintTotal - 1 := by omega
    obtain ⟨j', hj'⟩ := findBlock_isSome uintSAddr uintEAddr (s.regs.get k) 0 j b hj hb1
      (by rw [hbound]; omega)
    obtain ⟨b', e1, -, e2, e3⟩ := findBlock_some uintSAddr uintEAddr _ _ _ hj'
    rw [Nat.sub_zero] at e1
    have hb'm : b' ∈ s.regs.get k := List.getElem?_mem e1
    have hb'ok := hok b' hb'm
    have e3' : uintEAddr ≤ b'.uintAddress + b'.uintTotal - 1 :=
      Nat.le_trans e3 (wrapped_bound_le _ (by omega))
    have hjj : j' = j := by
      by_contra hne
      obtain ⟨hjl, hjv⟩ := List.getElem?_eq_some.mp hj
      obtain ⟨hjl', hjv'⟩ := List.getElem?_eq_some.mp e1
      rw [List.pairwise_iff_getElem] at hdis
      rcases Nat.lt_or_gt_of_ne hne with hlt | hgt
      · have := hdis j' j hjl' hjl hlt
        rw [hjv, hjv'] at this
        apply this
        unfold rangesOverlap
        omega
      · have := hdis j j' hjl hjl' hgt
        rw [hjv, hjv'] at this
        apply this
        unfold rangesOverlap
        omega
    subst hjj
    have hpc : (resolveCurrBlock s uintSAddr uintEAddr).pCurrBlock = some (k, j') := by
      rw [hr, hj']
      rfl
    refine ⟨hpc, ?_⟩
    unfold currBlock
    rw [hpc]
    simp only []
    rw [resolveCurrBlock_eq]
    exact hj
  · intro hnone
    rw [hr, findBlock_none]
    · rfl
    · intro b hbm
      have hbok := hok b hbm
      have := hnone b hbm
      refine ⟨by omega, ?_⟩
      omega

/-- C22, an instance: the range 101 to 102 with holding-register blocks at 1 to 10 and 100
to 109 resolves to the second block. -/
theorem resolveCurrBlock_finds_containing_block_witness :
    (resolveCurrBlock { sessionState regsTwoHolding 1 (bufferOf []) 0 1 with
        pCurrBlock := some (.pHoldingRegs, 0) } 101 102).pCurrBlock = some (.pHoldingRegs, 1)
    ∧ currBlock (resolveCurrBlock { sessionState regsTwoHolding 1 (bufferOf []) 0 1 with
        pCurrBlock := some (.pHoldingRegs, 0) } 101 102)
        = some (blockOf HOLDING_REGISTERS 100 10 (rampData 0x2200)) :=
  (resolveCurrBlock_finds_containing_block
    { sessionState regsTwoHolding 1 (bufferOf []) 0 1 with
        pCurrBlock := some (.pHoldingRegs, 0) } .pHoldingRegs 101 102 rfl
    (by
      intro b hb
      have hb' : b = blockOf HOLDING_REGISTERS 1 10 (rampData 0x1100)
          ∨ b = blockOf HOLDING_REGISTERS 100 10 (rampData 0x2200) := by
        simpa [sessionState, regsTwoHolding, Registry.get, Registry.empty] using hb
      rcases hb' with e | e <;> subst e <;> decide)
    (by
      simp only [sessionState, regsTwoHolding, Registry.get, Registry.empty]
      decide)
    (by decide)).1 1 (blockOf HOLDING_REGISTERS 100 10 (rampData 0x2200)) rfl
    (by decide) (by decide)

/-- C22 (the claim as worded fails): for the only holding-register block, 1000 registers
from address 65000 on, the range 65000 to 65000 lies inside the block and the resolution loop
leaves pCurrBlock NULL: the bound `uintAddress + uintTotal - 1` is 463 in 16 bits. -/
theorem resolveCurrBlock_misses_block_beyond_65535 :
    regsBeyondTop.pHoldingRegs.map (fun b => (b.uintAddress, b.uintTotal)) = [(65000, 1000)]
    ∧ findBlock 65000 65000 regsBeyondTop.pHoldingRegs 0 = none
    ∧ (resolveCurrBlock { sessionState regsBeyondTop 1 (bufferOf []) 0 1 with
        pCurrBlock := some (.pHoldingRegs, 0) } 65000 65000).pCurrBlock = none := by
  decide

/-! ### Request fields beyond the fill index -/

/-- C23 (the code departs from the claim): two states hold the same received frame
01 10 00 00 00 02 04 with its CRC 09 F3 (fill index 9, the same nine bytes) and differ only in
the buffer bytes 9 and 10. The dispatcher never compares the fill index with the length the
request needs, takes the data of the two registers from buffer bytes 7 to 10, and leaves
register 2 of the block at 0 in one state and at 0xABCD in the other. -/
theorem decodePacket_reads_bytes_beyond_fill_index :
    bufferBytes (bufferOf [0x01, 0x10, 0x00, 0x00, 0x00, 0x02, 0x04, 0x09, 0xF3]) 9
      = bufferBytes (bufferOf [0x01, 0x10, 0x00, 0x00, 0x00, 0x02, 0x04, 0x09, 0xF3, 0xAB, 0xCD]) 9
    ∧ FrameReady (sessionState regsTwoHolding 1
        (bufferOf [0x01, 0x10, 0x00, 0x00, 0x00, 0x02, 0x04, 0x09, 0xF3]) 9 5)
    ∧ FrameReady (sessionState regsTwoHolding 1
        (bufferOf [0x01, 0x10, 0x00, 0x00, 0x00, 0x02, 0x04, 0x09, 0xF3, 0xAB, 0xCD]) 9 5)
    ∧ (decodePacket (sessionState regsTwoHolding 1
        (bufferOf [0x01, 0x10, 0x00, 0x00, 0x00, 0x02, 0x04, 0x09, 0xF3]) 9 5)).map
        (fun s => (responseFrame s,
          s.regs.pHoldingRegs.map (fun b => (b.paryData 0, b.paryData 1))))
      = some ([0x01, 0x10, 0x00, 0x00, 0x00, 0x02, 0x41, 0xC8],
          [(0x09F3, 0), (0x2200, 0x2201)])
    ∧ (decodePacket (sessionState regsTwoHolding 1
        (bufferOf [0x01, 0x10, 0x00, 0x00, 0x00, 0x02, 0x04, 0x09, 0xF3, 0xAB, 0xCD]) 9 5)).map
        (fun s => (responseFrame s,
          s.regs.pHoldingRegs.map (fun b => (b.paryData 0, b.paryData 1))))
      = some ([0x01, 0x10, 0x00, 0x00, 0x00, 0x02, 0x41, 0xC8],
          [(0x09F3, 0xABCD), (0x2200, 0x2201)]) := by
  decide

/-! ### The lookup of packBits and packRegisters -/

theorem firstNode_eq_firstCandidate (uintStart : Nat) (l : List modbusBlockDef) :
    firstNode uintStart l = firstCandidate uintStart l := by
  unfold firstCandidate
  induction l with
  | nil => rfl
  | cons b rest ih =>
    unfold firstNode
    by_cases h : uintStart ≥ b.uintAddress
    · rw [if_pos h, List.find?_cons_of_pos]
      exact decide_eq_true h
    · rw [if_neg h, List.find?_cons_of_neg]
      · exact ih
      · simpa using h

theorem packBits_lookup (regs : Registry) (eType : Nat) (mem : Nat → Nat)
    (pBuffer uintStart uintEnd : Nat) :
    (firstNode uintStart (if eType = COILS then regs.pCoils else regs.pStatusBits) = none →
      packBits regs eType mem pBuffer uintStart uintEnd = some (mem, 0))
    ∧ (∀ b, firstNode uintStart (if eType = COILS then regs.pCoils else regs.pStatusBits)
          = some b → ¬ uintEnd < (b.uintAddress + b.uintTotal) % 65536 →
        packBits regs eType mem pBuffer uintStart uintEnd = some (mem, 0))
    ∧ (packBits regs eType mem pBuffer uintStart uintEnd ≠ some (mem, 0) →
        ∃ b, firstNode uintStart (if eType = COILS then regs.pCoils else regs.pStatusBits)
          = some b ∧ uintEnd < (b.uintAddress + b.uintTotal) % 65536) := by
  unfold packBits
  by_cases h1 : eType = COILS
  · simp only [h1, if_true]
    cases hf : firstNode uintStart regs.pCoils with
    | none => exact ⟨fun _ => rfl, fun b hb => (by cases hb), fun h => absurd rfl h⟩
    | some b =>
      simp only []
      by_cases hc : uintEnd < (b.uintAddress + b.uintTotal) % 65536
      · refine ⟨fun h => (by cases h), fun b' hb' hn => ?_, fun _ => ⟨b, rfl, hc⟩⟩
        cases hb'
        exact absurd hc hn
      · rw [if_neg hc]
        exact ⟨fun _ => rfl, fun _ _ _ => rfl, fun h => absurd rfl h⟩
  · by_cases h2 : eType = STATUS_INPUTS
    · simp only [h1, h2, if_false, if_true]
      have hne : ¬ STATUS_INPUTS = COILS := by decide
      simp only [if_neg hne]
      cases hf : firstNode uintStart regs.pStatusBits with
      | none => exact ⟨fun _ => rfl, fun b hb => (by cases hb), fun h => absurd rfl h⟩
      | some b =>
        simp only []
        by_cases hc : uintEnd < (b.uintAddress + b.uintTotal) % 65536
        · refine ⟨fun h => (by cases h), fun b' hb' hn => ?_, fun _ => ⟨b, rfl, hc⟩⟩
          cases hb'
          exact absurd hc hn
        · rw [if_neg hc]
          exact ⟨fun _ => rfl, fun _ _ _ => rfl, fun h => absurd rfl h⟩
    · simp only [h1, h2, if_false]
      simp

theorem packRegisters_lookup (regs : Registry) (eType : Nat) (mem : Nat → Nat)
    (pBuffer uintStart uintEnd : Nat) :
    (firstNode uintStart (if eType = HOLDING_REGISTERS then regs.pHoldingRegs
        else regs.pInputRegs) = none →
      packRegisters regs eType mem pBuffer uintStart uintEnd = some (mem, 0))
    ∧ (∀ b, firstNode uintStart (if eType = HOLDING_REGISTERS then regs.pHoldingRegs
          else regs.pInputRegs) = some b →
        ¬ uintEnd < (b.uintAddress + b.uintTotal) % 65536 →
        packRegisters regs eType mem pBuffer uintStart uintEnd = some (mem, 0))
    ∧ (packRegisters regs eType mem pBuffer uintStart uintEnd ≠ some (mem, 0) →
        ∃ b, firstNode uintStart (if eType = HOLDING_REGISTERS then regs.pHoldingRegs
          else regs.pInputRegs) = some b
          ∧ uintEnd < (b.uintAddress + b.uintTotal) % 65536) := by
  unfold packRegisters
  by_cases h1 : eType = HOLDING_REGISTERS
  · simp only [h1, if_true]
    cases hf : firstNode uintStart regs.pHoldingRegs with
    | none => exact ⟨fun _ => rfl, fun b hb => (by cases hb), fun h => absurd rfl h⟩
    | some b =>
      simp only []
      by_cases hc : uintEnd < (b.uintAddress + b.uintTotal) % 65536
      · refine ⟨fun h => (by cases h), fun b' hb' hn => ?_, fun _ => ⟨b, rfl, hc⟩⟩
        cases hb'
        exact absurd hc hn
      · rw [if_neg hc]
        exact ⟨fun _ => rfl, fun _ _ _ => rfl, fun h => absurd rfl h⟩
  · by_cases h2 : eType = INPUT_REGISTERS
    · simp only [h1, h2, if_false, if_true]
      have hne : ¬ INPUT_REGISTERS = HOLDING_REGISTERS := by decide
      simp only [if_neg hne]
      cases hf : firstNode uintStart regs.pInputRegs with
      | none => exact ⟨fun _ => rfl, fun b hb => (by cases hb), fun h => absurd rfl h⟩
      | some b =>
        simp only []
        by_cases hc : uintEnd < (b.uintAddress + b.uintTotal) % 65536
        · refine ⟨fun h => (by cases h), fun b' hb' hn => ?_, fun _ => ⟨b, rfl, hc⟩⟩
          cases hb'
          exact absurd hc hn
        · rw [if_neg hc]
          exact ⟨fun _ => rfl, fun _ _ _ => rfl, fun h => absurd rfl h⟩
    · simp only [h1, h2, if_false]
      simp

theorem mod_bound_of_not_le (x e : Nat) (h : ¬ e ≤ x - 1) : ¬ e < x % 65536 := by
  have := Nat.mod_le x 65536
  omega

theorem le_of_lt_mod_bound (x e : Nat) (h : e < x % 65536) : e ≤ x - 1 := by
  have := Nat.mod_le x 65536
  omega

/-- C24: packBits and packRegisters take as candidate the first block in registration order
whose first address is not above the start address. When there is no such block, or the
candidate does not satisfy end <= base+count-1, they leave the memory as it is and return 0;
whenever they do anything else, the candidate exists and satisfies end <= base+count-1. A
range that no single block contains, such as one spanning two adjacent blocks, is therefore
answered with 0. -/
theorem packers_locate_block_by_two_step_rule (regs : Registry) (eType : Nat)
    (mem : Nat → Nat) (pBuffer uintStart uintEnd : Nat) :
    ((firstCandidate uintStart (if eType = COILS then regs.pCoils else regs.pStatusBits) = none →
        packBits regs eType mem pBuffer uintStart uintEnd = some (mem, 0))
      ∧ (∀ b, firstCandidate uintStart (if eType = COILS then regs.pCoils else regs.pStatusBits)
            = some b → ¬ uintEnd ≤ b.uintAddress + b.uintTotal - 1 →
          packBits regs eType mem pBuffer uintStart uintEnd = some (mem, 0))
      ∧ (packBits regs eType mem pBuffer uintStart uintEnd ≠ some (mem, 0) →
          ∃ b, firstCandidate uintStart (if eType = COILS then regs.pCoils else regs.pStatusBits)
            = some b ∧ uintEnd ≤ b.uintAddress + b.uintTotal - 1)
      ∧ ((∀ b, b ∈ (if eType = COILS then regs.pCoils else regs.pStatusBits) →
            ¬ (b.uintAddress ≤ uintStart ∧ uintEnd ≤ b.uintAddress + b.uintTotal - 1)) →
          packBits regs eType mem pBuffer uintStart uintEnd = some (mem, 0)))
    ∧ ((firstCandidate uintStart (if eType = HOLDING_REGISTERS then regs.pHoldingRegs
          else regs.pInputRegs) = none →
        packRegisters regs eType mem pBuffer uintStart uintEnd = some (mem, 0))
      ∧ (∀ b, firstCandidate uintStart (if eType = HOLDING_REGISTERS then regs.pHoldingRegs
            else regs.pInputRegs) = some b → ¬ uintEnd ≤ b.uintAddress + b.uintTotal - 1 →
          packRegisters regs eType mem pBuffer uintStart uintEnd = some (mem, 0))
      ∧ (packRegisters regs eType mem pBuffer uintStart uintEnd ≠ some (mem, 0) →
          ∃ b, firstCandidate uintStart (if eType = HOLDING_REGISTERS then regs.pHoldingRegs
            else regs.pInputRegs) = some b ∧ uintEnd ≤ b.uintAddress + b.uintTotal - 1)
      ∧ ((∀ b, b ∈ (if eType = HOLDING_REGISTERS then regs.pHoldingRegs else regs.pInputRegs) →
            ¬ (b.uintAddress ≤ uintStart ∧ uintEnd ≤ b.uintAddress + b.uintTotal - 1)) →
          packRegisters regs eType mem pBuffer uintStart uintEnd = some (mem, 0))) := by
  obtain ⟨b1, b2, b3⟩ := packBits_lookup regs eType mem pBuffer uintStart uintEnd
  obtain ⟨r1, r2, r3⟩ := packRegisters_lookup regs eType mem pBuffer uintStart uintEnd
  simp only [firstNode_eq_firstCandidate] at b1 b2 b3 r1 r2 r3
  refine ⟨⟨b1, fun b hb hn => b2 b hb (mod_bound_of_not_le _ _ hn), fun h => ?_,
      packBits_outside regs eType mem pBuffer uintStart uintEnd⟩,
    ⟨r1, fun b hb hn => r2 b hb (mod_bound_of_not_le _ _ hn), fun h => ?_,
      packRegisters_outside regs eType mem pBuffer uintStart uintEnd⟩⟩
  · obtain ⟨b, hb, hlt⟩ := b3 h
    exact ⟨b, hb, le_of_lt_mod_bound _ _ hlt⟩
  · obtain ⟨b, hb, hlt⟩ := r3 h
    exact ⟨b, hb, le_of_lt_mod_bound _ _ hlt⟩

/-- C24, an instance: with adjacent holding-register blocks at 1 to 10 and 11 to 20 the
range 5 to 15 has the first block as candidate, which does not contain address 15, and
packRegisters returns 0 with the memory untouched. -/
theorem packers_locate_block_by_two_step_rule_witness :
    firstCandidate 5 regsAdjacentHolding.pHoldingRegs
      = some (blockOf HOLDING_REGISTERS 1 10 (rampData 0x1100))
    ∧ packRegisters regsAdjacentHolding HOLDING_REGISTERS (bufferOf []) 3 5 15
      = some (bufferOf [], 0) :=
  ⟨rfl, (packers_locate_block_by_two_step_rule regsAdjacentHolding HOLDING_REGISTERS
    (bufferOf []) 3 5 15).2.2.1 (blockOf HOLDING_REGISTERS 1 10 (rampData 0x1100)) rfl
    (by decide)⟩

/-- C25 (the code departs from the claim): with two holding-register blocks registered in
the order addresses 1 to 10, then 100 to 109, the resolution loop of the dispatcher finds the
second block for the range 101 to 101 while packRegisters serves nothing for it. The request
01 10 00 64 00 01 02 12 34 (function 16) is carried out and acknowledged, and the request
01 03 00 64 00 01 (function 3) for the same range, sent afterwards, is answered with the
exception frame 01 83 02 C0 F1. -/
theorem decodePacket_write_accepted_read_refused :
    regsTwoHolding.pHoldingRegs.map (fun b => (b.uintAddress, b.uintTotal))
      = [(1, 10), (100, 10)]
    ∧ findBlock 101 101 regsTwoHolding.pHoldingRegs 0 = some 1
    ∧ (packRegisters regsTwoHolding HOLDING_REGISTERS (bufferOf []) 3 101 101).map
        (fun r => r.2) = some 0
    ∧ (decodePacket (sessionState regsTwoHolding 1
        (bufferOf [0x01, 0x10, 0x00, 0x64, 0x00, 0x01, 0x02, 0x12, 0x34, 0xA3, 0x03]) 11 5)).map
        (fun s => (responseFrame s,
          s.regs.pHoldingRegs.map (fun b => (b.paryData 1, b.blnUpdate))))
      = some ([0x01, 0x10, 0x00, 0x64, 0x00, 0x01, 0x40, 0x16],
          [(0x1101, false), (0x1234, true)])
    ∧ ((decodePacket (sessionState regsTwoHolding 1
        (bufferOf [0x01, 0x10, 0x00, 0x64, 0x00, 0x01, 0x02, 0x12, 0x34, 0xA3, 0x03]) 11 5)).bind
        (fun s => decodePacket (sessionState s.regs 1
          (bufferOf [0x01, 0x03, 0x00, 0x64, 0x00, 0x01, 0xC5, 0xD5]) 8 5))).map responseFrame
      = some [0x01, 0x83, 0x02, 0xC0, 0xF1] := by
  decide

/-! ### coilState, setRegister and the register round trip -/

theorem currBlock_setCurrBlock (s : State) (blk b' : modbusBlockDef)
    (hc : currBlock s = some blk) : currBlock (setCurrBlock s b') = some b' := by
  unfold currBlock at hc
  unfold currBlock setCurrBlock
  cases hp : s.pCurrBlock with
  | none => rw [hp] at hc; cases hc
  | some p =>
    obtain ⟨k, j⟩ := p
    rw [hp] at hc
    simp only [] at hc
    simp only []
    have hj : j < (s.regs.get k).length := (List.getElem?_eq_some.mp hc).1
    rw [Registry.get_set_same, List.getElem?_set_self hj]

theorem offset_in_block (a base : Nat) (hb : base ≤ a) (ha : a < 65536) :
    (a + 65536 - base % 65536) % 65536 = a - base := by
  have h1 : base % 65536 = base := Nat.mod_eq_of_lt (by omega)
  rw [h1]
  omega

theorem bit_mask_byte (k : Nat) (hk : k < 8) : (1 <<< k) % 256 = 2 ^ k := by
  interval_cases k <;> rfl

theorem testBit_set_mask (old k m : Nat) (hk : k < 8) :
    (old ||| (1 <<< k) % 256).testBit m = (old.testBit m || decide (k = m)) := by
  rw [bit_mask_byte k hk, Nat.testBit_or, Nat.testBit_two_pow]

theorem testBit_clear_mask (old k m : Nat) (hk : k < 8) (hm : m < 8) :
    (old &&& (0xff ^^^ (1 <<< k) % 256)).testBit m = (old.testBit m && !decide (k = m)) := by
  rw [bit_mask_byte k hk, Nat.testBit_and, Nat.testBit_xor, Nat.testBit_two_pow]
  have h255 : (0xff : Nat).testBit m = true := by
    interval_cases m <;> rfl
  rw [h255]
  cases decide (k = m) <;> simp

/-- C26 (as amended): coilState with a resolved block `blk`, an address `a` not below the
first address of the block and a state `v` returns TRUE and leaves the block marked for update
with the same description; bit ((a-base) mod 8) of storage byte (((a-base) div 8) mod 256)
equals `v`, the byte index being kept in 8 bits, and every other bit of the storage bytes is
unchanged. With no resolved block coilState returns FALSE and changes nothing. -/
theorem coilState_writes_one_bit :
    (∀ (s : State) (blk : modbusBlockDef) (a : Nat) (v : Bool),
      currBlock s = some blk → blk.uintAddress ≤ a → a < 65536 →
      (coilState s a v).2 = true
      ∧ ∃ blk', currBlock (coilState s a v).1 = some blk'
          ∧ blk'.blnUpdate = true ∧ blockStep blk blk'
          ∧ (blk'.paryData (((a - blk.uintAddress) / 8) % 256)).testBit
                ((a - blk.uintAddress) % 8) = v
          ∧ ∀ i m, m < 8 →
              ¬ (i = ((a - blk.uintAddress) / 8) % 256 ∧ m = (a - blk.uintAddress) % 8) →
              (blk'.paryData i).testBit m = (blk.paryData i).testBit m)
    ∧ (∀ (s : State) (a : Nat) (v : Bool), currBlock s = none → coilState s a v = (s, false)) := by
  constructor
  · intro s blk a v hc hb ha
    have hoff := offset_in_block a blk.uintAddress hb ha
    have hk : (a - blk.uintAddress) % 8 < 8 := Nat.mod_lt _ (by decide)
    unfold coilState
    rw [hc]
    simp only [hoff]
    refine ⟨trivial, _, currBlock_setCurrBlock s blk _ hc, rfl, ⟨rfl, rfl, rfl, rfl, rfl, fun _ => rfl⟩,
      ?_, ?_⟩
    · cases v
      · simp only [Bool.false_eq_true, if_false, store_apply, if_true]
        rw [testBit_clear_mask _ _ _ hk hk]
        simp
      · simp only [if_true, store_apply]
        rw [testBit_set_mask _ _ _ hk]
        simp
    · intro i m hm hne
      cases v
      · simp only [Bool.false_eq_true, if_false, store_apply]
        by_cases hi : i = (a - blk.uintAddress) / 8 % 256
        · rw [if_pos hi, testBit_clear_mask _ _ _ hk hm]
          have hmk : ¬ (a - blk.uintAddress) % 8 = m := fun e => hne ⟨hi, e.symm⟩
          simp [hmk, hi]
        · rw [if_neg hi]
      · simp only [if_true, store_apply]
        by_cases hi : i = (a - blk.uintAddress) / 8 % 256
        · rw [if_pos hi, testBit_set_mask _ _ _ hk]
          have hmk : ¬ (a - blk.uintAddress) % 8 = m := fun e => hne ⟨hi, e.symm⟩
          simp [hmk, hi]
        · rw [if_neg hi]
  · intro s a v hc
    unfold coilState
    rw [hc]

/-- C26, an instance: address 12 of a coil block at addresses 1 to 16 is bit 3 of byte 1. -/
theorem coilState_writes_one_bit_witness :
    (coilState { sessionState regsCoilsAndHolding 1 (bufferOf []) 0 1 with
        pCurrBlock := some (.pCoils, 0) } 12 true).2 = true
    ∧ ∃ blk', currBlock (coilState { sessionState regsCoilsAndHolding 1 (bufferOf []) 0 1 with
          pCurrBlock := some (.pCoils, 0) } 12 true).1 = some blk'
        ∧ blk'.blnUpdate = true ∧ blockStep (blockOf COILS 1 16 (rampData 0)) blk'
        ∧ (blk'.paryData (((12 - 1) / 8) % 256)).testBit ((12 - 1) % 8) = true
        ∧ ∀ i m, m < 8 → ¬ (i = ((12 - 1) / 8) % 256 ∧ m = (12 - 1) % 8) →
            (blk'.paryData i).testBit m = ((rampData 0) i).testBit m :=
  coilState_writes_one_bit.1 { sessionState regsCoilsAndHolding 1 (bufferOf []) 0 1 with
      pCurrBlock := some (.pCoils, 0) } (blockOf COILS 1 16 (rampData 0)) 12 true rfl
    (by decide) (by decide)

/-- C26 (the claim as worded fails): in a coil block of 4096 items at addresses 1 to 4096
whose storage byte 256 holds 1, coilState(2049, FALSE) returns TRUE and leaves bit 0 of
storage byte 256 set: address 2049 has offset 2048, byte 2048 div 8 = 256, and the 8-bit
byte index makes the function work on byte 0. -/
theorem coilState_byte_index_wraps_at_2048 :
    regsBigCoilBlock.pCoils.map (fun b => (b.uintAddress, b.uintTotal, b.paryData 256))
      = [(1, 4096, 1)]
    ∧ (coilState { sessionState regsBigCoilBlock 1 (bufferOf []) 0 1 with
        pCurrBlock := some (.pCoils, 0) } 2049 false).2 = true
    ∧ (coilState { sessionState regsBigCoilBlock 1 (bufferOf []) 0 1 with
        pCurrBlock := some (.pCoils, 0) } 2049 false).1.regs.pCoils.map
        (fun b => ((b.paryData ((2049 - 1) / 8)).testBit ((2049 - 1) % 8), b.paryData 0))
      = [(true, 0)]
    ∧ (coilState { sessionState regsBigCoilBlock 1 (bufferOf []) 0 1 with
        pCurrBlock := some (.pCoils, 0) } 2049 true).1.regs.pCoils.map
        (fun b => (b.paryData 256, b.paryData 0)) = [(1, 1)] := by
  decide

theorem setRegister_resolved (s : State) (a hi lo : Nat) (blk : modbusBlockDef)
    (hc : currBlock s = some blk) :
    (setRegister s a hi lo).2 = true ∧ ∃ b, currBlock (setRegister s a hi lo).1 = some b := by
  unfold setRegister
  rw [hc]
  exact ⟨rfl, _, currBlock_setCurrBlock s blk _ hc⟩

theorem coilState_resolved (s : State) (a : Nat) (v : Bool) (blk : modbusBlockDef)
    (hc : currBlock s = some blk) :
    (coilState s a v).2 = true ∧ ∃ b, currBlock (coilState s a v).1 = some b := by
  unfold coilState
  rw [hc]
  exact ⟨rfl, _, currBlock_setCurrBlock s blk _ hc⟩

theorem packRegistersLoop_one_pass (data : Nat → Nat) (pBuffer uintEnd fuel : Nat)
    (v : PackRegistersVars) (hs : v.uintStart = uintEnd) (he : uintEnd < 65535) :
    packRegistersLoop data pBuffer uintEnd (fuel + 2) v
      = some (packRegistersPass data pBuffer v) := by
  have e1 : packRegistersLoop data pBuffer uintEnd (fuel + 2) v
      = packRegistersLoop data pBuffer uintEnd (fuel + 1) (packRegistersPass data pBuffer v) := by
    show (if v.uintStart ≤ uintEnd then _ else _) = _
    rw [if_pos (by omega)]
  have hn : ¬ (packRegistersPass data pBuffer v).uintStart ≤ uintEnd := by
    show ¬ (v.uintStart + 1) % 65536 ≤ uintEnd
    omega
  rw [e1]
  show (if (packRegistersPass data pBuffer v).uintStart ≤ uintEnd then _ else _) = _
  rw [if_neg hn]

theorem Hi_word (hi lo : Nat) (hh : hi < 256) : Hi (word hi lo) = hi := by
  unfold Hi word
  omega

theorem Lo_word (hi lo : Nat) (hl : lo < 256) : Lo (word hi lo) = lo := by
  unfold Lo word
  omega

/-- The round trip of C27 where the code makes it: the only holding-register block ends
below address 65535. After setRegister(a, hi, lo) for an address inside the block,
packRegisters over [a, a] returns 2 and stores hi and lo, every other register of the block
is unchanged and the block is marked for update. -/
theorem setRegister_packRegisters_round_trip (s : State) (blk : modbusBlockDef)
    (a hi lo : Nat) (mem : Nat → Nat) (pBuffer : Nat)
    (hp : s.pCurrBlock = some (.pHoldingRegs, 0)) (hl : s.regs.pHoldingRegs = [blk])
    (ha : blk.uintAddress ≤ a ∧ a < blk.uintAddress + blk.uintTotal)
    (htop : blk.uintAddress + blk.uintTotal < 65536) (hhi : hi < 256) (hlo : lo < 256) :
    (setRegister s a hi lo).2 = true
    ∧ ∃ blk', (setRegister s a hi lo).1.regs.pHoldingRegs = [blk']
        ∧ blk'.blnUpdate = true ∧ blockStep blk blk'
        ∧ (∀ i, i ≠ a - blk.uintAddress → blk'.paryData i = blk.paryData i)
        ∧ ∃ out, packRegisters (setRegister s a hi lo).1.regs HOLDING_REGISTERS mem pBuffer a a
              = some (out, 2)
            ∧ out pBuffer = hi ∧ out (pBuffer + 1) = lo := by
  have hc : currBlock s = some blk := by
    unfold currBlock
    rw [hp]
    show s.regs.pHoldingRegs[0]? = some blk
    rw [hl]
    rfl
  have hoff := offset_in_block a blk.uintAddress ha.1 (by omega)
  have hregs : (setRegister s a hi lo).1.regs.pHoldingRegs
      = [{ blk with paryData := store blk.paryData (a - blk.uintAddress) (word hi lo),
                    blnUpdate := true }] := by
    unfold setRegister
    rw [hc]
    simp only [hoff]
    unfold setCurrBlock
    rw [hp]
    show ((s.regs.get .pHoldingRegs).set 0 _) = _
    show (s.regs.pHoldingRegs.set 0 _) = _
    rw [hl]
    rfl
  refine ⟨(setRegister_resolved s a hi lo blk hc).1, _, hregs, rfl,
    ⟨rfl, rfl, rfl, rfl, rfl, fun _ => rfl⟩, fun i hi' => store_other _ _ _ _ hi', ?_⟩
  unfold packRegisters
  simp only [if_true, hregs]
  have hf : firstNode a [{ blk with
      paryData := store blk.paryData (a - blk.uintAddress) (word hi lo),
      blnUpdate := true }] = some { blk with
      paryData := store blk.paryData (a - blk.uintAddress) (word hi lo),
      blnUpdate := true } := by
    unfold firstNode
    rw [if_pos ha.1]
  rw [hf]
  simp only []
  have hm : (blk.uintAddress + blk.uintTotal) % 65536 = blk.uintAddress + blk.uintTotal :=
    Nat.mod_eq_of_lt htop
  rw [hm, if_pos ha.2, hoff]
  have hloop : packRegistersLoop (store blk.paryData (a - blk.uintAddress) (word hi lo))
      pBuffer a 65536
      { mem := mem, uintBytes := 0, uintStart := a, uintOffset := a - blk.uintAddress }
      = some (packRegistersPass (store blk.paryData (a - blk.uintAddress) (word hi lo)) pBuffer
          { mem := mem, uintBytes := 0, uintStart := a, uintOffset := a - blk.uintAddress }) :=
    packRegistersLoop_one_pass _ pBuffer a 65534 _ rfl (by omega)
  rw [hloop]
  refine ⟨_, rfl, ?_, ?_⟩
  · show store (store mem (pBuffer + 0) _) (pBuffer + (0 + 1) % 65536) _ pBuffer = hi
    rw [store_other _ _ _ _ (by omega), Nat.add_zero, store_same, store_same,
      Hi_word hi lo hhi]
  · show store (store mem (pBuffer + 0) _) (pBuffer + (0 + 1) % 65536) _ (pBuffer + 1) = lo
    rw [store_same, store_same, Lo_word hi lo hlo]

/-- C27 (the code departs from the claim): for the only holding-register block, addresses
65526 to 65535, setRegister(65526, 0x12, 0x34) stores 0x1234 and marks the block, and
packRegisters over the range 65526 to 65526 then returns 0 and stores nothing: its test
`uintEnd < pNode->uintAddress + pNode->uintTotal` compares with 65526 + 10 = 0 in 16 bits. -/
theorem setRegister_then_packRegisters_top_block :
    regsTopHolding.pHoldingRegs.map (fun b => (b.uintAddress, b.uintTotal)) = [(65526, 10)]
    ∧ (setRegister { sessionState regsTopHolding 1 (bufferOf []) 0 1 with
          pCurrBlock := some (.pHoldingRegs, 0) } 65526 0x12 0x34).2 = true
    ∧ (setRegister { sessionState regsTopHolding 1 (bufferOf []) 0 1 with
          pCurrBlock := some (.pHoldingRegs, 0) } 65526 0x12 0x34).1.regs.pHoldingRegs.map
        (fun b => (b.paryData 0, b.blnUpdate)) = [(0x1234, true)]
    ∧ (packRegisters (setRegister { sessionState regsTopHolding 1 (bufferOf []) 0 1 with
          pCurrBlock := some (.pHoldingRegs, 0) } 65526 0x12 0x34).1.regs
        HOLDING_REGISTERS (bufferOf []) 0 65526 65526).map (fun r => (r.2, r.1 0, r.1 1))
      = some (0, 0, 0) := by
  decide

/-! ### The write loop of functions 15 and 16 -/

/-- With a resolved block and the end address 65535 the condition `uintAddr <= uintEAddr`
of the write loop holds for every 16-bit `uintAddr`, and no pass leaves the loop. -/
theorem writeLoop_top_address :
    ∀ (fuel : Nat) (w : WriteVars), (∃ b, currBlock w.s = some b) → w.uintAddr < 65536 →
      writeLoop 65535 fuel w = none := by
  intro fuel
  induction fuel with
  | zero =>
    intro w _ ha
    unfold writeLoop
    rw [if_pos (by omega)]
  | succ n ih =>
    intro w hb ha
    obtain ⟨blk, hblk⟩ := hb
    unfold writeLoop
    rw [if_pos (by omega)]
    by_cases hf : w.s.arybytMbBuffer 1 = PRESET_MULTIPLE_REGISTERS
    · rw [if_pos hf]
      obtain ⟨h1, h2⟩ := setRegister_resolved w.s w.uintAddr
        (w.s.arybytMbBuffer (7 + w.uintOffset)) (w.s.arybytMbBuffer (8 + w.uintOffset)) blk hblk
      simp only []
      rw [if_neg (by rw [h1]; decide)]
      exact ih _ h2 (Nat.mod_lt _ (by decide))
    · rw [if_neg hf]
      have hblk' : currBlock
          { w.s with blnState := decide ((w.s.arybytMbBuffer (7 + w.uintOffset) &&& w.bytBit) > 0) }
          = some blk := hblk
      obtain ⟨h1, h2⟩ := coilState_resolved _ w.uintAddr
        (decide ((w.s.arybytMbBuffer (7 + w.uintOffset) &&& w.bytBit) > 0)) blk hblk'
      simp only []
      rw [if_neg (by rw [h1]; decide)]
      exact ih _ h2 (Nat.mod_lt _ (by decide))

/-- A multiple write that has passed the ceiling checks, whose end address is 65535 and
whose block is resolved, does not leave the write loop. -/
theorem execute_multiple_write_top (u : State)
    (h : (u.arybytMbBuffer 1 = FORCE_MULTIPLE_COILS
          ∧ word (u.arybytMbBuffer 4) (u.arybytMbBuffer 5) ≤ MAX_DISCRETES_IN_FC15
          ∧ word (u.arybytMbBuffer 4) (u.arybytMbBuffer 5) ≤ (u.arybytMbBuffer 6 % 256) * 8)
      ∨ (u.arybytMbBuffer 1 = PRESET_MULTIPLE_REGISTERS
          ∧ word (u.arybytMbBuffer 4) (u.arybytMbBuffer 5) ≤ MAX_REGISTERS_IN_FC16))
    (hE : (word (u.arybytMbBuffer 2) (u.arybytMbBuffer 3)
            + word (u.arybytMbBuffer 4) (u.arybytMbBuffer 5)) % 65536 = 65535)
    (hres : ∃ b, currBlock (resolveCurrBlock u
        ((word (u.arybytMbBuffer 2) (u.arybytMbBuffer 3) + 1) % 65536) 65535) = some b) :
    execute u = none := by
  obtain ⟨r1, r2, r3, r4, r5, r6⟩ := resolveCurrBlock_fields u
    ((word (u.arybytMbBuffer 2) (u.arybytMbBuffer 3) + 1) % 65536) 65535
  have hloop := writeLoop_top_address 65536
    { s := resolveCurrBlock u ((word (u.arybytMbBuffer 2) (u.arybytMbBuffer 3) + 1) % 65536) 65535,
      bytBit := 1, uintOffset := 0,
      uintAddr := (word (u.arybytMbBuffer 2) (u.arybytMbBuffer 3) + 1) % 65536 }
    hres (Nat.mod_lt _ (by decide))
  rcases h with ⟨hf, hc1, hc2⟩ | ⟨hf, hc⟩
  · unfold execute
    simp +decide only [hf, hE, r1, r2, r3, or_self, or_false, false_or, if_false,
      true_and, false_and, or_true, if_true]
    rw [if_neg (by omega), hloop]
  · unfold execute
    simp +decide only [hf, hE, r1, r2, r3, or_self, or_false, false_or, if_false,
      true_and, false_and, or_true, if_true]
    rw [if_neg (by omega), hloop]

/-- Below the top address the write loop of a resolved block ends: with `n` addresses left
up to the end address it returns after `n` passes with `uintAddr` one above the end address,
and no pass has set an exception code. -/
theorem writeLoop_below_top (uintEAddr : Nat) (hE : uintEAddr < 65535) :
    ∀ (n fuel : Nat) (w : WriteVars), (∃ b, currBlock w.s = some b) →
      w.uintAddr + n = uintEAddr + 1 → n ≤ fuel →
      ∃ w', writeLoop uintEAddr fuel w = some w' ∧ w'.uintAddr = uintEAddr + 1
        ∧ w'.s.eMbExceptionCode = w.s.eMbExceptionCode ∧ ∃ b, currBlock w'.s = some b := by
  intro n
  induction n with
  | zero =>
    intro fuel w hb ha _
    have hn : ¬ w.uintAddr ≤ uintEAddr := by omega
    refine ⟨w, ?_, by omega, rfl, hb⟩
    cases fuel with
    | zero =>
      unfold writeLoop
      rw [if_neg hn]
    | succ f =>
      unfold writeLoop
      rw [if_neg hn]
  | succ n ih =>
    intro fuel w hb ha hf
    obtain ⟨blk, hblk⟩ := hb
    cases fuel with
    | zero => omega
    | succ f =>
      have hmod : (w.uintAddr + 1) % 65536 = w.uintAddr + 1 := Nat.mod_eq_of_lt (by omega)
      unfold writeLoop
      rw [if_pos (by omega)]
      by_cases hfn : w.s.arybytMbBuffer 1 = PRESET_MULTIPLE_REGISTERS
      · rw [if_pos hfn]
        obtain ⟨h1, h2⟩ := setRegister_resolved w.s w.uintAddr
          (w.s.arybytMbBuffer (7 + w.uintOffset)) (w.s.arybytMbBuffer (8 + w.uintOffset))
          blk hblk
        obtain ⟨r, hr, -⟩ := setRegister_spec w.s w.uintAddr
          (w.s.arybytMbBuffer (7 + w.uintOffset)) (w.s.arybytMbBuffer (8 + w.uintOffset))
        simp only []
        rw [if_neg (by rw [h1]; decide)]
        obtain ⟨w', e1, e2, e3, e4⟩ := ih f
          { w with s := (setRegister w.s w.uintAddr (w.s.arybytMbBuffer (7 + w.uintOffset))
                      (w.s.arybytMbBuffer (8 + w.uintOffset))).1,
                   uintOffset := (w.uintOffset + 2) % 65536,
                   uintAddr := (w.uintAddr + 1) % 65536 } h2
          (by
            show (w.uintAddr + 1) % 65536 + n = uintEAddr + 1
            omega)
          (by omega)
        refine ⟨w', e1, e2, e3.trans ?_, e4⟩
        show (setRegister w.s w.uintAddr (w.s.arybytMbBuffer (7 + w.uintOffset))
          (w.s.arybytMbBuffer (8 + w.uintOffset))).1.eMbExceptionCode = w.s.eMbExceptionCode
        rw [hr]
      · rw [if_neg hfn]
        have hblk' : currBlock
            { w.s with blnState := decide ((w.s.arybytMbBuffer (7 + w.uintOffset) &&& w.bytBit) > 0) }
            = some blk := hblk
        obtain ⟨h1, h2⟩ := coilState_resolved _ w.uintAddr
          (decide ((w.s.arybytMbBuffer (7 + w.uintOffset) &&& w.bytBit) > 0)) blk hblk'
        obtain ⟨r, hr, -⟩ := coilState_spec
          { w.s with blnState := decide ((w.s.arybytMbBuffer (7 + w.uintOffset) &&& w.bytBit) > 0) }
          w.uintAddr (decide ((w.s.arybytMbBuffer (7 + w.uintOffset) &&& w.bytBit) > 0))
        simp only []
        rw [if_neg (by rw [h1]; decide)]
        obtain ⟨w', e1, e2, e3, e4⟩ := ih f
          { s := (coilState
              { w.s with blnState := decide ((w.s.arybytMbBuffer (7 + w.uintOffset) &&& w.bytBit) > 0) }
              w.uintAddr (decide ((w.s.arybytMbBuffer (7 + w.uintOffset) &&& w.bytBit) > 0))).1,
            bytBit := if (w.bytBit <<< 1) % 256 = 0 then 1 else (w.bytBit <<< 1) % 256,
            uintOffset := if (w.bytBit <<< 1) % 256 = 0 then (w.uintOffset + 1) % 65536
              else w.uintOffset,
            uintAddr := (w.uintAddr + 1) % 65536 } h2
          (by
            show (w.uintAddr + 1) % 65536 + n = uintEAddr + 1
            omega)
          (by omega)
        refine ⟨w', e1, e2, e3.trans ?_, e4⟩
        show (coilState
          { w.s with blnState := decide ((w.s.arybytMbBuffer (7 + w.uintOffset) &&& w.bytBit) > 0) }
          w.uintAddr (decide ((w.s.arybytMbBuffer (7 + w.uintOffset) &&& w.bytBit) > 0))).1.eMbExceptionCode
          = w.s.eMbExceptionCode
        rw [hr]

/-- A CRC-valid multiple write addressed to this slave that has passed the ceiling checks,
whose end address is 65535 and whose range the resolution loop finds in a block: the call
of decodePacket does not return. -/
theorem decodePacket_multiple_write_top (s : State) (k : ListHead) (j : Nat)
    (hr : FrameReady s)
    (haddr : s.arybytMbBuffer 0 = s.bytMbSlaveAddress)
    (hlen : 3 < s.bytMbIndex ∧ s.bytMbIndex < 256)
    (hcrc : s.arybytMbBuffer (s.bytMbIndex - 2)
              = Lo (crc16 (bufferBytes s.arybytMbBuffer (s.bytMbIndex - 2)))
            ∧ s.arybytMbBuffer (s.bytMbIndex - 1)
              = Hi (crc16 (bufferBytes s.arybytMbBuffer (s.bytMbIndex - 2))))
    (hexc : s.eMbExceptionCode = NO_EXCEPTION)
    (h : (s.arybytMbBuffer 1 = FORCE_MULTIPLE_COILS ∧ k = .pCoils
          ∧ word (s.arybytMbBuffer 4) (s.arybytMbBuffer 5) ≤ MAX_DISCRETES_IN_FC15
          ∧ word (s.arybytMbBuffer 4) (s.arybytMbBuffer 5) ≤ (s.arybytMbBuffer 6 % 256) * 8)
      ∨ (s.arybytMbBuffer 1 = PRESET_MULTIPLE_REGISTERS ∧ k = .pHoldingRegs
          ∧ word (s.arybytMbBuffer 4) (s.arybytMbBuffer 5) ≤ MAX_REGISTERS_IN_FC16))
    (hE : (word (s.arybytMbBuffer 2) (s.arybytMbBuffer 3)
            + word (s.arybytMbBuffer 4) (s.arybytMbBuffer 5)) % 65536 = 65535)
    (hfind : findBlock ((word (s.arybytMbBuffer 2) (s.arybytMbBuffer 3) + 1) % 65536) 65535
        (s.regs.get k) 0 = some j) :
    decodePacket s = none := by
  obtain ⟨t, ht, tr, tb, te, -, -, -, -⟩ := decodePacket_dispatch s hr haddr hlen hcrc
  rw [ht, dispatch_eq_request]
  have hne : (s.regs.get k).isEmpty = false := findBlock_ne_nil _ _ _ _ _ hfind
  have hsel : selectTable { t with bytMbIndex := 3 }
      = { t with bytMbIndex := 3, pCurrBlock := some (k, 0) } := by
    rcases h with ⟨hf, hk, -⟩ | ⟨hf, hk, -⟩
    · subst hk
      rw [selectTable_force_multiple_coils { t with bytMbIndex := 3 } (by rw [← hf, ← tb])]
      have hne' : ¬ t.regs.pCoils.isEmpty = true := by
        rw [tr]
        show ¬ (s.regs.get .pCoils).isEmpty = true
        rw [hne]
        decide
      simp only [hne']
      rfl
    · subst hk
      rw [selectTable_preset_multiple_registers { t with bytMbIndex := 3 }
        (by rw [← hf, ← tb])]
      have hne' : ¬ t.regs.pHoldingRegs.isEmpty = true := by
        rw [tr]
        show ¬ (s.regs.get .pHoldingRegs).isEmpty = true
        rw [hne]
        decide
      simp only [hne']
      rfl
  have hres : ∃ b, currBlock (resolveCurrBlock
      { t with bytMbIndex := 3, pCurrBlock := some (k, 0) }
      ((word (t.arybytMbBuffer 2) (t.arybytMbBuffer 3) + 1) % 65536) 65535) = some b := by
    apply currBlock_found _ k j ((word (t.arybytMbBuffer 2) (t.arybytMbBuffer 3) + 1) % 65536)
      65535
    · rw [(resolveCurrBlock_list _ _ _).2 k 0 rfl, List.drop_zero]
      show Option.map _ (findBlock _ _ (t.regs.get k) 0) = _
      rw [tr, tb, hfind]
      rfl
    · rw [(resolveCurrBlock_fields _ _ _).1]
      show findBlock _ _ (t.regs.get k) 0 = _
      rw [tr, tb]
      exact hfind
  have hex : execute { t with bytMbIndex := 3, pCurrBlock := some (k, 0) } = none := by
    apply execute_multiple_write_top
    · show (t.arybytMbBuffer 1 = FORCE_MULTIPLE_COILS
          ∧ word (t.arybytMbBuffer 4) (t.arybytMbBuffer 5) ≤ MAX_DISCRETES_IN_FC15
          ∧ word (t.arybytMbBuffer 4) (t.arybytMbBuffer 5) ≤ (t.arybytMbBuffer 6 % 256) * 8)
        ∨ (t.arybytMbBuffer 1 = PRESET_MULTIPLE_REGISTERS
          ∧ word (t.arybytMbBuffer 4) (t.arybytMbBuffer 5) ≤ MAX_REGISTERS_IN_FC16)
      rw [tb]
      rcases h with ⟨hf, -, hc⟩ | ⟨hf, -, hc⟩
      · exact Or.inl ⟨hf, hc⟩
      · exact Or.inr ⟨hf, hc⟩
    · show (word (t.arybytMbBuffer 2) (t.arybytMbBuffer 3)
            + word (t.arybytMbBuffer 4) (t.arybytMbBuffer 5)) % 65536 = 65535
      rw [tb]
      exact hE
    · exact hres
  unfold request
  simp only [hsel]
  have hexc' : t.eMbExceptionCode = NO_EXCEPTION := te.trans hexc
  rw [if_pos hexc', hex]
  rfl

/-- C28 (the code departs from the claim): with the only holding-register block at
addresses 65526 to 65535, the CRC-valid request 01 10 FF FE 00 01 02 12 34 (function 16, one
register, address 65535) passes the ceiling check and resolves the block, and the call of
decodePacket does not return. After the write to address 65535 the 16-bit `uintAddr` wraps
to 0, `uintAddr <= uintEAddr` holds again, and the loop goes on with setRegister for address
0, which stores at offset 10, outside the block of 10 registers. -/
theorem decodePacket_multiple_write_to_65535_never_returns :
    (FrameReady (sessionState regsTopHolding 1
        (bufferOf [0x01, 0x10, 0xFF, 0xFE, 0x00, 0x01, 0x02, 0x12, 0x34, 0xB1, 0xF6]) 11 5)
      ∧ Lo (crc16 [0x01, 0x10, 0xFF, 0xFE, 0x00, 0x01, 0x02, 0x12, 0x34]) = 0xB1
      ∧ Hi (crc16 [0x01, 0x10, 0xFF, 0xFE, 0x00, 0x01, 0x02, 0x12, 0x34]) = 0xF6
      ∧ regsTopHolding.pHoldingRegs.map (fun b => (b.uintAddress, b.uintTotal)) = [(65526, 10)]
      ∧ findBlock 65535 65535 regsTopHolding.pHoldingRegs 0 = some 0)
    ∧ decodePacket (sessionState regsTopHolding 1
        (bufferOf [0x01, 0x10, 0xFF, 0xFE, 0x00, 0x01, 0x02, 0x12, 0x34, 0xB1, 0xF6]) 11 5) = none
    ∧ (setRegister { sessionState regsTopHolding 1 (bufferOf []) 3 5 with
          pCurrBlock := some (.pHoldingRegs, 0) } 0 0xAB 0xCD).1.regs.pHoldingRegs.map
        (fun b => (b.uintTotal, b.paryData 10)) = [(10, 0xABCD)] :=
  ⟨by decide,
   decodePacket_multiple_write_top _ .pHoldingRegs 0 (by decide) (by decide) (by decide)
     (by decide) (by decide) (Or.inr (by decide)) (by decide) (by decide),
   by decide⟩

/-! ### The phase gate -/

theorem afterEvents_gate (x : State)
    (hg : (if x.bytMbRxphase = 3 then 4 else x.bytMbRxphase) ≠ 5) :
    ∃ s', afterEvents x = some s' ∧ s'.regs = x.regs ∧ s'.pCurrBlock = x.pCurrBlock
      ∧ s'.uintCRC = x.uintCRC ∧ s'.eMbExceptionCode = x.eMbExceptionCode
      ∧ s'.TXEN_bit = x.TXEN_bit ∧ s'.TXREG = x.TXREG
      ∧ (s'.bytMbRxphase.testBit 7 = true → x.bytMbRxphase.testBit 7 = true) := by
  unfold afterEvents
  simp only []
  by_cases h3 : x.bytMbRxphase = 3
  · rw [if_pos h3]
    have h4 : (startTimeout { x with bytMbRxphase := 4 }).bytMbRxphase ≠ 5 := by
      show (4 : Nat) ≠ 5
      decide
    rw [if_pos h4]
    refine ⟨_, rfl, rfl, rfl, rfl, rfl, rfl, rfl, ?_⟩
    intro h
    have h' : Nat.testBit 4 7 = true := h
    exact absurd h' (by decide)
  · rw [if_neg h3] at hg ⊢
    rw [if_pos hg]
    exact ⟨_, rfl, rfl, rfl, rfl, rfl, rfl, rfl, fun h => h⟩

theorem afterEvents_gate_5 (x : State)
    (hg : (if x.bytMbRxphase = 3 then 4 else x.bytMbRxphase) = 5) :
    x.bytMbRxphase = 5 ∧ afterEvents x = frameReady x := by
  by_cases h3 : x.bytMbRxphase = 3
  · rw [if_pos h3] at hg
    exact absurd hg (by decide)
  · rw [if_neg h3] at hg
    refine ⟨hg, ?_⟩
    unfold afterEvents
    simp only []
    rw [if_neg h3, if_neg (not_not.mpr hg)]

theorem timerExpiry_more_fields (s : State) :
    (timerExpiry s).pCurrBlock = s.pCurrBlock ∧ (timerExpiry s).uintCRC = s.uintCRC
    ∧ ((timerExpiry s).bytMbRxphase.testBit 7 = true → s.bytMbRxphase.testBit 7 = true)
    ∧ (s.TMR0IF_bit = false → timerExpiry s = s) := by
  unfold timerExpiry
  by_cases ht : s.TMR0IF_bit = true
  · rw [if_pos ht]
    refine ⟨rfl, rfl, ?_, fun h => ?_⟩
    · intro h
      have h' : (s.bytMbRxphase ||| 1).testBit 7 = true := h
      rw [Nat.testBit_or] at h'
      have h1 : Nat.testBit 1 7 = false := by decide
      rw [h1, Bool.or_false] at h'
      exact h'
    · rw [ht] at h
      cases h
  · rw [if_neg ht]
    exact ⟨rfl, rfl, fun h => h, fun _ => rfl⟩

theorem gatePhase_frameReady (s : State) : gatePhase s = some 5 ↔ FrameReady s := by
  obtain ⟨-, -, -, -, f5, -, -, -, -, -⟩ := timerExpiry_fields s
  unfold gatePhase
  simp only []
  constructor
  · intro h
    by_cases c1 : s.TMR0IF_bit = true ∧ (timerExpiry s).bytMbRxphase.testBit 7 = true
    · rw [if_pos c1] at h
      cases h
    · rw [if_neg c1] at h
      by_cases c2 : (timerExpiry s).RCIF_bit = true
      · rw [if_pos c2] at h
        by_cases c3 : (timerExpiry s).OERR_bit = true ∨ (timerExpiry s).FERR_bit = true
        · rw [if_pos c3] at h
          cases h
        · rw [if_neg c3] at h
          by_cases c4 : (timerExpiry s).bytMbRxphase = 0
              ∨ (timerExpiry s).bytMbRxphase.testBit 2 = true
              ∨ (timerExpiry s).bytMbIndex ≥ MAX_PACKET_LENGTH
          · rw [if_pos c4] at h
            cases h
          · rw [if_neg c4] at h
            exfalso
            by_cases c5 : (timerExpiry s).bytMbIndex = 0
            · rw [if_pos c5] at h
              revert h
              decide
            · rw [if_neg c5] at h
              by_cases c6 : (timerExpiry s).bytMbRxphase = 3
              · rw [if_pos c6] at h
                revert h
                decide
              · rw [if_neg c6] at h
                have g2 : (timerExpiry s).bytMbRxphase = 5 := Option.some.inj h
                apply c4
                right; left
                rw [g2]
                decide
      · rw [if_neg c2] at h
        by_cases c6 : (timerExpiry s).bytMbRxphase.testBit 7 = true
            ∧ (timerExpiry s).TXIF_bit = true
        · rw [if_pos c6] at h
          cases h
        · rw [if_neg c6] at h
          have g := (afterEvents_gate_5 (timerExpiry s) (Option.some.inj h)).1
          refine ⟨?_, ?_⟩
          · rw [f5] at c2
            cases hb : s.RCIF_bit with
            | true => exact absurd hb c2
            | false => rfl
          · unfold timerExpiry at g
            by_cases ht : s.TMR0IF_bit = true
            · rw [if_pos ht] at g ⊢
              exact g
            · rw [if_neg ht] at g ⊢
              exact g
  · intro hr
    have hp := timerExpiry_phase s hr
    have h7 : (timerExpiry s).bytMbRxphase.testBit 7 = false := by rw [hp]; decide
    have hrc : ¬ (timerExpiry s).RCIF_bit = true := by
      rw [f5, hr.1]
      decide
    rw [if_neg (fun c => by rw [h7] at c; cases c.2), if_neg hrc,
      if_neg (fun c => by rw [h7] at c; cases c.1), hp]
    rfl

/-- C29: in a call of decodePacket in which bytMbRxphase is not 5 at the test behind the
event handling (or which returns before that test), the call returns with every block, the
block pointer, the calculated CRC and the pending exception code as they were; the
transmitter is not switched on, the phase does not enter the transmitting phase, and TXREG
receives at most the next byte of a response that was already being sent. When the phase is 5
at the test, the call is the address, length and CRC check followed by the dispatcher. -/
theorem decodePacket_dispatcher_runs_only_in_phase_5 (s : State) :
    (gatePhase s ≠ some 5 →
      ∃ s', decodePacket s = some s' ∧ s'.regs = s.regs ∧ s'.pCurrBlock = s.pCurrBlock
        ∧ s'.uintCRC = s.uintCRC ∧ s'.eMbExceptionCode = s.eMbExceptionCode
        ∧ (s'.TXEN_bit = true → s.TXEN_bit = true)
        ∧ (s'.bytMbRxphase.testBit 7 = true → s.bytMbRxphase.testBit 7 = true)
        ∧ (s'.TXREG = s.TXREG
            ∨ (s.bytMbRxphase.testBit 7 = true
                ∧ s'.TXREG = s.TXREG ++ [s.arybytMbBuffer s.bytMbIndex])))
    ∧ (gatePhase s = some 5 → FrameReady s ∧ decodePacket s = frameReady (timerExpiry s)) := by
  constructor
  · intro hg
    obtain ⟨f1, f2, f3, -, -, f6, f7, -, f9, -⟩ := timerExpiry_fields s
    obtain ⟨m1, m2, m3, m4⟩ := timerExpiry_more_fields s
    unfold gatePhase at hg
    unfold decodePacket
    simp only [] at hg ⊢
    by_cases c1 : s.TMR0IF_bit = true ∧ (timerExpiry s).bytMbRxphase.testBit 7 = true
    · rw [if_pos c1]
      refine ⟨_, rfl, f1, m1, m2, f9, fun h => (by cases h), fun h => ?_, Or.inl f2⟩
      have h' : Nat.testBit 0 7 = true := h
      exact absurd h' (by decide)
    · rw [if_neg c1] at hg ⊢
      by_cases c2 : (timerExpiry s).RCIF_bit = true
      · rw [if_pos c2] at hg ⊢
        by_cases c3 : (timerExpiry s).OERR_bit = true ∨ (timerExpiry s).FERR_bit = true
        · rw [if_pos c3]
          refine ⟨_, rfl, f1, m1, m2, f9, fun h => (by cases h), fun h => ?_, Or.inl f2⟩
          have h' : Nat.testBit 0 7 = true := h
          exact absurd h' (by decide)
        · rw [if_neg c3] at hg ⊢
          by_cases c4 : (timerExpiry s).bytMbRxphase = 0
              ∨ (timerExpiry s).bytMbRxphase.testBit 2 = true
              ∨ (timerExpiry s).bytMbIndex ≥ MAX_PACKET_LENGTH
          · rw [if_pos c4]
            refine ⟨_, rfl, f1, m1, m2, f9, fun h => ?_, fun h => ?_, Or.inl f2⟩
            · rw [← f3]
              exact h
            · have h' : Nat.testBit 0 7 = true := h
              exact absurd h' (by decide)
          · rw [if_neg c4] at hg ⊢
            by_cases c5 : (timerExpiry s).bytMbIndex = 0
            · simp only [c5, if_true] at hg ⊢
              obtain ⟨s', e, g1, g2, g3, g4, g5, g6, g7⟩ := afterEvents_gate
                (startTimeout { (timerExpiry s) with
                  RCIF_bit := false, bytMbRxphase := 2,
                  arybytMbBuffer := store (timerExpiry s).arybytMbBuffer 0
                    ((timerExpiry s).RCREG % 256),
                  bytMbIndex := (0 + 1) % 256 })
                (by
                  show (if (2 : Nat) = 3 then 4 else 2) ≠ 5
                  decide)
              refine ⟨s', e, g1.trans f1, g2.trans m1, g3.trans m2, g4.trans f9, ?_, ?_, ?_⟩
              · intro h
                rw [g5] at h
                rw [← f3]
                exact h
              · intro h
                have h' : Nat.testBit 2 7 = true := g7 h
                exact absurd h' (by decide)
              · exact Or.inl (g6.trans f2)
            · simp only [c5, if_false] at hg ⊢
              obtain ⟨s', e, g1, g2, g3, g4, g5, g6, g7⟩ := afterEvents_gate
                (startTimeout { (timerExpiry s) with
                  RCIF_bit := false,
                  arybytMbBuffer := store (timerExpiry s).arybytMbBuffer
                    (timerExpiry s).bytMbIndex ((timerExpiry s).RCREG % 256),
                  bytMbIndex := ((timerExpiry s).bytMbIndex + 1) % 256 })
                (fun h => hg (congrArg some h))
              refine ⟨s', e, g1.trans f1, g2.trans m1, g3.trans m2, g4.trans f9, ?_, ?_, ?_⟩
              · intro h
                rw [g5] at h
                rw [← f3]
                exact h
              · intro h
                exact m3 (g7 h)
              · exact Or.inl (g6.trans f2)
      · rw [if_neg c2] at hg ⊢
        by_cases c6 : (timerExpiry s).bytMbRxphase.testBit 7 = true
            ∧ (timerExpiry s).TXIF_bit = true
        · rw [if_pos c6]
          have ht : s.TMR0IF_bit = false := by
            cases hb : s.TMR0IF_bit with
            | false => rfl
            | true => exact absurd ⟨hb, c6.1⟩ c1
          have hs := m4 ht
          rw [hs] at c6 ⊢
          by_cases c7 : s.bytMbIndex < s.arybytMbBuffer 0
          · rw [if_pos c7]
            exact ⟨_, rfl, rfl, rfl, rfl, rfl, fun h => h, fun h => h, Or.inr ⟨c6.1, rfl⟩⟩
          · rw [if_neg c7]
            exact ⟨_, rfl, rfl, rfl, rfl, rfl, fun h => h, fun h => h, Or.inl rfl⟩
        · rw [if_neg c6] at hg ⊢
          obtain ⟨s', e, g1, g2, g3, g4, g5, g6, g7⟩ := afterEvents_gate (timerExpiry s)
            (fun h => hg (congrArg some h))
          refine ⟨s', e, g1.trans f1, g2.trans m1, g3.trans m2, g4.trans f9, ?_, ?_, ?_⟩
          · intro h
            rw [g5] at h
            rw [← f3]
            exact h
          · intro h
            exact m3 (g7 h)
          · exact Or.inl (g6.trans f2)
  · intro hg
    have hr := (gatePhase_frameReady s).mp hg
    exact ⟨hr, decodePacket_of_frameReady s hr⟩

/-- C29, an instance: a byte arriving in phase 2 is stored and nothing else happens. -/
theorem decodePacket_dispatcher_runs_only_in_phase_5_witness :
    gatePhase (byteArrival (sessionState regsTwoHolding 1 (bufferOf [0x01]) 1 2) 0x03) = some 2
    ∧ ∃ s', decodePacket (byteArrival (sessionState regsTwoHolding 1 (bufferOf [0x01]) 1 2) 0x03)
          = some s'
        ∧ s'.regs = regsTwoHolding ∧ s'.pCurrBlock = none ∧ s'.uintCRC = 0
        ∧ s'.eMbExceptionCode = NO_EXCEPTION
        ∧ (s'.TXEN_bit = true → false = true)
        ∧ (s'.bytMbRxphase.testBit 7 = true → Nat.testBit 2 7 = true)
        ∧ (s'.TXREG = [] ∨ (Nat.testBit 2 7 = true ∧ s'.TXREG = [] ++ [bufferOf [0x01] 1])) :=
  ⟨by decide,
   (decodePacket_dispatcher_runs_only_in_phase_5
     (byteArrival (sessionState regsTwoHolding 1 (bufferOf [0x01]) 1 2) 0x03)).1 (by decide)⟩

/-! ### Byte arrival -/

/-- One byte arriving while the buffer takes bytes: the byte is stored at the fill index,
the index moves on, the phase is 2 and the timer runs with the preset for 2.5 character
times. -/
theorem decodePacket_byteArrival (t : State) (b : Nat)
    (hp : (t.bytMbIndex = 0 ∧ t.bytMbRxphase = 1) ∨ (1 ≤ t.bytMbIndex ∧ t.bytMbRxphase = 2))
    (hT : t.TMR0IF_bit = false) (hO : t.OERR_bit = false) (hF : t.FERR_bit = false)
    (hi : t.bytMbIndex < 256) :
    decodePacket (byteArrival t b)
      = some { t with RCIF_bit := false, RCREG := b, bytMbRxphase := 2,
                      arybytMbBuffer := store t.arybytMbBuffer t.bytMbIndex (b % 256),
                      bytMbIndex := (t.bytMbIndex + 1) % 256,
                      TMR0H := Hi t.uintMbRxGapSetPt3, TMR0L := Lo t.uintMbRxGapSetPt3,
                      TMR0IF_bit := false, TMR0ON_bit := true } := by
  have hte : timerExpiry (byteArrival t b) = byteArrival t b := by
    unfold timerExpiry
    rw [if_neg]
    show ¬ t.TMR0IF_bit = true
    rw [hT]
    decide
  unfold decodePacket
  simp only [hte]
  have c1 : ¬ ((byteArrival t b).TMR0IF_bit = true
      ∧ (byteArrival t b).bytMbRxphase.testBit 7 = true) := by
    intro h
    have h1 : t.TMR0IF_bit = true := h.1
    rw [hT] at h1
    cases h1
  have c2 : (byteArrival t b).RCIF_bit = true := rfl
  have c3 : ¬ ((byteArrival t b).OERR_bit = true ∨ (byteArrival t b).FERR_bit = true) := by
    intro h
    rcases h with h | h
    · have h1 : t.OERR_bit = true := h
      rw [hO] at h1
      cases h1
    · have h1 : t.FERR_bit = true := h
      rw [hF] at h1
      cases h1
  have c4 : ¬ ((byteArrival t b).bytMbRxphase = 0
      ∨ (byteArrival t b).bytMbRxphase.testBit 2 = true
      ∨ (byteArrival t b).bytMbIndex ≥ MAX_PACKET_LENGTH) := by
    intro h
    have h' : t.bytMbRxphase = 0 ∨ t.bytMbRxphase.testBit 2 = true
        ∨ t.bytMbIndex ≥ MAX_PACKET_LENGTH := h
    rcases hp with ⟨-, h1⟩ | ⟨-, h1⟩
    · rw [h1] at h'
      rcases h' with h | h | h
      · cases h
      · exact absurd h (by decide)
      · have h2 : t.bytMbIndex ≥ 256 := h
        omega
    · rw [h1] at h'
      rcases h' with h | h | h
      · cases h
      · exact absurd h (by decide)
      · have h2 : t.bytMbIndex ≥ 256 := h
        omega
  rw [if_neg c1, if_pos c2, if_neg c3, if_neg c4]
  rcases hp with ⟨h0, h1⟩ | ⟨h0, h1⟩
  · have c5 : (byteArrival t b).bytMbIndex = 0 := h0
    simp only [c5, if_true]
    unfold afterEvents startTimeout
    simp +decide only [if_true, if_false, Nat.zero_add]
    unfold byteArrival
    simp only [h0, Nat.zero_add]
  · have c5 : ¬ (byteArrival t b).bytMbIndex = 0 := by
      show ¬ t.bytMbIndex = 0
      omega
    simp only [c5, if_false]
    unfold afterEvents startTimeout
    have e2 : (byteArrival t b).bytMbRxphase = 2 := h1
    simp +decide only [e2, if_true, if_false]
    unfold byteArrival
    simp only [h1]

theorem receiveBytes_invariant :
    ∀ (bs : List Nat) (t : State),
      ((t.bytMbIndex = 0 ∧ t.bytMbRxphase = 1) ∨ (1 ≤ t.bytMbIndex ∧ t.bytMbRxphase = 2)) →
      t.TMR0IF_bit = false → t.OERR_bit = false → t.FERR_bit = false →
      t.bytMbIndex + bs.length ≤ 255 → (∀ b, b ∈ bs → b < 256) →
      ∃ t', receiveBytes t bs = some t'
        ∧ t'.bytMbIndex = t.bytMbIndex + bs.length
        ∧ (∀ i, i < t.bytMbIndex → t'.arybytMbBuffer i = t.arybytMbBuffer i)
        ∧ (∀ (i b : Nat), bs[i]? = some b → t'.arybytMbBuffer (t.bytMbIndex + i) = b)
        ∧ t'.uintMbRxGapSetPt3 = t.uintMbRxGapSetPt3
        ∧ (bs ≠ [] → t'.bytMbRxphase = 2
            ∧ t'.TMR0H = Hi t.uintMbRxGapSetPt3 ∧ t'.TMR0L = Lo t.uintMbRxGapSetPt3
            ∧ t'.TMR0ON_bit = true ∧ t'.TMR0IF_bit = false) := by
  intro bs
  induction bs with
  | nil =>
    intro t _ _ _ _ _ _
    exact ⟨t, rfl, rfl, fun _ _ => rfl, fun i b h => (by simp at h), rfl,
      fun h => absurd rfl h⟩
  | cons b rest ih =>
    intro t hp hT hO hF hlen hb
    have hlen' : t.bytMbIndex + (rest.length + 1) ≤ 255 := by
      rw [List.length_cons] at hlen
      exact hlen
    have hstep := decodePacket_byteArrival t b hp hT hO hF (by omega)
    have hmod : (t.bytMbIndex + 1) % 256 = t.bytMbIndex + 1 := Nat.mod_eq_of_lt (by omega)
    have hbmod : b % 256 = b := Nat.mod_eq_of_lt (hb b (List.mem_cons_self _ _))
    rw [hmod, hbmod] at hstep
    obtain ⟨t', e, k1, k2, k3, k4, k5⟩ := ih
      { t with RCIF_bit := false, RCREG := b, bytMbRxphase := 2,
               arybytMbBuffer := store t.arybytMbBuffer t.bytMbIndex b,
               bytMbIndex := t.bytMbIndex + 1,
               TMR0H := Hi t.uintMbRxGapSetPt3, TMR0L := Lo t.uintMbRxGapSetPt3,
               TMR0IF_bit := false, TMR0ON_bit := true }
      (Or.inr ⟨Nat.le_add_left 1 _, rfl⟩) rfl hO hF
      (by
        show t.bytMbIndex + 1 + rest.length ≤ 255
        omega)
      (fun x hx => hb x (List.mem_cons_of_mem _ hx))
    have k1' : t'.bytMbIndex = t.bytMbIndex + 1 + rest.length := k1
    have k2' : ∀ i, i < t.bytMbIndex + 1 →
        t'.arybytMbBuffer i = store t.arybytMbBuffer t.bytMbIndex b i := k2
    have k3' : ∀ (i c : Nat), rest[i]? = some c →
        t'.arybytMbBuffer (t.bytMbIndex + 1 + i) = c := k3
    have k4' : t'.uintMbRxGapSetPt3 = t.uintMbRxGapSetPt3 := k4
    refine ⟨t', ?_, ?_, ?_, ?_, k4', fun _ => ?_⟩
    · show (decodePacket (byteArrival t b)).bind (fun u => receiveBytes u rest) = some t'
      rw [hstep]
      exact e
    · rw [k1', List.length_cons]
      omega
    · intro i hi
      rw [k2' i (by omega), store_other _ _ _ _ (by omega)]
    · intro i c hc
      cases i with
      | zero =>
        simp only [List.getElem?_cons_zero, Option.some.injEq] at hc
        subst hc
        rw [Nat.add_zero, k2' _ (by omega), store_same]
      | succ n =>
        rw [List.getElem?_cons_succ] at hc
        have := k3' n c hc
        rw [← this]
        congr 1
        omega
    · by_cases hr : rest = []
      · subst hr
        have e' : some _ = some t' := e
        cases e'
        exact ⟨rfl, rfl, rfl, rfl, rfl⟩
      · exact k5 hr

/-- C30: from a state with fill index 0 and phase 1 in which no timer expiry and no receive
error is pending, let the bytes of a list of 1 to 255 bytes arrive one by one, each followed
by its call of decodePacket. After each byte, that is for every k from 1 to the length of
the list, all k calls have returned, the buffer holds the first k bytes in arrival order,
the fill index is k, the phase is 2, and the timer runs with the preset for 2.5 character
times. -/
theorem receiveBytes_fills_buffer (s : State) (bs : List Nat)
    (hidx : s.bytMbIndex = 0) (hph : s.bytMbRxphase = 1)
    (hT : s.TMR0IF_bit = false) (hO : s.OERR_bit = false) (hF : s.FERR_bit = false)
    (hn : 1 ≤ bs.length ∧ bs.length ≤ 255) (hb : ∀ b, b ∈ bs → b < 256) :
    ∀ k, 1 ≤ k → k ≤ bs.length →
      ∃ t, receiveBytes s (bs.take k) = some t
        ∧ (∀ i, i < k → bs[i]? = some (t.arybytMbBuffer i))
        ∧ t.bytMbIndex = k ∧ t.bytMbRxphase = 2
        ∧ t.TMR0H = Hi s.uintMbRxGapSetPt3 ∧ t.TMR0L = Lo s.uintMbRxGapSetPt3
        ∧ t.TMR0ON_bit = true ∧ t.TMR0IF_bit = false := by
  intro k hk1 hk2
  have hl : (bs.take k).length = k := by
    rw [List.length_take]
    omega
  obtain ⟨t, e, k1, -, k3, -, k5⟩ := receiveBytes_invariant (bs.take k) s
    (Or.inl ⟨hidx, hph⟩) hT hO hF (by rw [hidx, hl]; omega)
    (fun x hx => hb x (List.mem_of_mem_take hx))
  have hne : bs.take k ≠ [] := by
    intro h
    rw [h] at hl
    simp at hl
    omega
  obtain ⟨p1, p2, p3, p4, p5⟩ := k5 hne
  refine ⟨t, e, ?_, ?_, p1, p2, p3, p4, p5⟩
  · intro i hi
    have hi' : i < bs.length := by omega
    have h1 : (bs.take k)[i]? = some bs[i] := by
      rw [List.getElem?_take_of_lt hi]
      exact List.getElem?_eq_getElem hi'
    have h2 := k3 i bs[i] h1
    rw [hidx, Nat.zero_add] at h2
    rw [h2]
    exact List.getElem?_eq_getElem hi'
  · rw [k1, hidx, hl, Nat.zero_add]

/-- C30, an instance: the three bytes 01 03 00 arriving after the silent interval. -/
theorem receiveBytes_fills_buffer_witness :
    ∃ t, receiveBytes (sessionState regsTwoHolding 1 (bufferOf []) 0 1)
          (List.take 3 [0x01, 0x03, 0x00]) = some t
      ∧ (∀ i, i < 3 → [0x01, 0x03, 0x00][i]? = some (t.arybytMbBuffer i))
      ∧ t.bytMbIndex = 3 ∧ t.bytMbRxphase = 2
      ∧ t.TMR0H = Hi 0 ∧ t.TMR0L = Lo 0 ∧ t.TMR0ON_bit = true ∧ t.TMR0IF_bit = false :=
  receiveBytes_fills_buffer (sessionState regsTwoHolding 1 (bufferOf []) 0 1)
    [0x01, 0x03, 0x00] rfl rfl rfl rfl rfl (by decide) (by decide) 3 (by decide) (by decide)

/-! ### Byte arrival into a full buffer -/

/-- A byte arriving in phase 2 is stored whatever the fill index is: an index that is a byte
value never satisfies `bytMbIndex >= MAX_PACKET_LENGTH`. -/
theorem decodePacket_byteArrival_phase_2 (t : State) (b : Nat)
    (hp : t.bytMbRxphase = 2) (hT : t.TMR0IF_bit = false) (hO : t.OERR_bit = false)
    (hF : t.FERR_bit = false) (hi : t.bytMbIndex < 256) :
    decodePacket (byteArrival t b)
      = some { t with RCIF_bit := false, RCREG := b, bytMbRxphase := 2,
                      arybytMbBuffer := store t.arybytMbBuffer t.bytMbIndex (b % 256),
                      bytMbIndex := (t.bytMbIndex + 1) % 256,
                      TMR0H := Hi t.uintMbRxGapSetPt3, TMR0L := Lo t.uintMbRxGapSetPt3,
                      TMR0IF_bit := false, TMR0ON_bit := true } := by
  by_cases h0 : 1 ≤ t.bytMbIndex
  · exact decodePacket_byteArrival t b (Or.inr ⟨h0, hp⟩) hT hO hF hi
  · have h0' : t.bytMbIndex = 0 := by omega
    have hte : timerExpiry (byteArrival t b) = byteArrival t b := by
      unfold timerExpiry
      rw [if_neg]
      show ¬ t.TMR0IF_bit = true
      rw [hT]
      decide
    unfold decodePacket
    simp only [hte]
    have c1 : ¬ ((byteArrival t b).TMR0IF_bit = true
        ∧ (byteArrival t b).bytMbRxphase.testBit 7 = true) := by
      intro h
      have h1 : t.TMR0IF_bit = true := h.1
      rw [hT] at h1
      cases h1
    have c2 : (byteArrival t b).RCIF_bit = true := rfl
    have c3 : ¬ ((byteArrival t b).OERR_bit = true ∨ (byteArrival t b).FERR_bit = true) := by
      intro h
      rcases h with h | h
      · have h1 : t.OERR_bit = true := h
        rw [hO] at h1
        cases h1
      · have h1 : t.FERR_bit = true := h
        rw [hF] at h1
        cases h1
    have c4 : ¬ ((byteArrival t b).bytMbRxphase = 0
        ∨ (byteArrival t b).bytMbRxphase.testBit 2 = true
        ∨ (byteArrival t b).bytMbIndex ≥ MAX_PACKET_LENGTH) := by
      intro h
      have h' : t.bytMbRxphase = 0 ∨ t.bytMbRxphase.testBit 2 = true
          ∨ t.bytMbIndex ≥ MAX_PACKET_LENGTH := h
      rw [hp] at h'
      rcases h' with h | h | h
      · cases h
      · exact absurd h (by decide)
      · have h2 : t.bytMbIndex ≥ 256 := h
        omega
    rw [if_neg c1, if_pos c2, if_neg c3, if_neg c4]
    have c5 : (byteArrival t b).bytMbIndex = 0 := h0'
    simp only [c5, if_true]
    unfold afterEvents startTimeout
    simp +decide only [if_true, if_false, Nat.zero_add]
    unfold byteArrival
    simp only [h0', Nat.zero_add]

/-- C31 (the code departs from the claim): the buffer holds 255 bytes of a frame (fill index
255, phase 2). Byte 256, 0xAA, is stored at index 255 and the 8-bit fill index wraps to 0,
the phase staying 2. Byte 257, 0xBB, arriving while the buffer holds its 256 bytes, is stored
at index 0 over the first byte of the frame; the fill index becomes 1, the phase stays 2 and
the timer is loaded with the preset for 2.5 character times, not the one for 4.5: the test
`bytMbIndex >= MAX_PACKET_LENGTH` compares a byte with 256. -/
theorem decodePacket_stores_byte_into_full_buffer :
    (receiveBytes { sessionState regsTwoHolding 1 (bufferOf [0x01, 0x03]) 255 2 with
        uintMbRxGapSetPt3 := 0xFACD, uintMbRxGapSetPt := 0xF6A0 } [0xAA]).map
        (fun s => (s.bytMbIndex, s.bytMbRxphase, s.arybytMbBuffer 0, s.arybytMbBuffer 255))
      = some (0, 2, 0x01, 0xAA)
    ∧ (receiveBytes { sessionState regsTwoHolding 1 (bufferOf [0x01, 0x03]) 255 2 with
        uintMbRxGapSetPt3 := 0xFACD, uintMbRxGapSetPt := 0xF6A0 } [0xAA, 0xBB]).map
        (fun s => (s.bytMbIndex, s.bytMbRxphase, s.arybytMbBuffer 0, s.arybytMbBuffer 255,
          s.TMR0H, s.TMR0L, s.TMR0ON_bit))
      = some (1, 2, 0xBB, 0xAA, 0xFA, 0xCD, true) :=
  ⟨rfl, rfl⟩

/-! ### Restart of the reception -/

/-- C32: when the timer has expired while bit 7 (0x80) of the phase is set, or a byte has
arrived with an overrun or framing error signalled, decodePacket returns with the buffer and
every block as they were, nothing new in TXREG, the block pointer, CRC and exception holder
untouched, fill index 0, phase 0, transmitter and transmit interrupt disabled, receiver and
receive interrupt enabled with the error flags cleared, and Timer0 running from the preset
for 4.5 character times. -/
theorem decodePacket_restarts_reception (s : State)
    (h : (s.TMR0IF_bit = true ∧ s.bytMbRxphase.testBit 7 = true)
      ∨ (s.RCIF_bit = true ∧ (s.OERR_bit = true ∨ s.FERR_bit = true))) :
    ∃ s', decodePacket s = some s'
      ∧ s'.arybytMbBuffer = s.arybytMbBuffer ∧ s'.regs = s.regs ∧ s'.TXREG = s.TXREG
      ∧ s'.pCurrBlock = s.pCurrBlock ∧ s'.uintCRC = s.uintCRC
      ∧ s'.eMbExceptionCode = s.eMbExceptionCode
      ∧ s'.bytMbIndex = 0 ∧ s'.bytMbRxphase = 0
      ∧ s'.TXEN_bit = false ∧ s'.TXIE_bit = false
      ∧ s'.CREN_bit = true ∧ s'.RCIE_bit = true
      ∧ s'.RCIF_bit = false ∧ s'.OERR_bit = false ∧ s'.FERR_bit = false
      ∧ s'.TMR0H = Hi s.uintMbRxGapSetPt ∧ s'.TMR0L = Lo s.uintMbRxGapSetPt
      ∧ s'.TMR0ON_bit = true ∧ s'.TMR0IF_bit = false := by
  have hres : decodePacket s = some (restartRx (timerExpiry s)) := by
    unfold decodePacket
    simp only []
    by_cases c1 : s.TMR0IF_bit = true ∧ (timerExpiry s).bytMbRxphase.testBit 7 = true
    · rw [if_pos c1]
    · rw [if_neg c1]
      rcases h with ⟨h1, h2⟩ | ⟨h1, h2⟩
      · exfalso
        apply c1
        refine ⟨h1, ?_⟩
        unfold timerExpiry
        rw [if_pos h1]
        show (s.bytMbRxphase ||| 1).testBit 7 = true
        rw [Nat.testBit_or, h2]
        rfl
      · have c2 : (timerExpiry s).RCIF_bit = true := by
          rw [(timerExpiry_fields s).2.2.2.2.1]
          exact h1
        have c3 : (timerExpiry s).OERR_bit = true ∨ (timerExpiry s).FERR_bit = true := by
          unfold timerExpiry
          by_cases ht : s.TMR0IF_bit = true
          · rw [if_pos ht]
            exact h2
          · rw [if_neg ht]
            exact h2
        rw [if_pos c2, if_pos c3]
  obtain ⟨f1, f2, -, -, -, f6, -, -, f9, -⟩ := timerExpiry_fields s
  obtain ⟨m1, m2, -, -⟩ := timerExpiry_more_fields s
  have hpt : (timerExpiry s).uintMbRxGapSetPt = s.uintMbRxGapSetPt := by
    unfold timerExpiry
    split <;> rfl
  refine ⟨_, hres, f6, f1, f2, m1, m2, f9, rfl, rfl, rfl, rfl, rfl, rfl, rfl, rfl, rfl, ?_, ?_,
    rfl, rfl⟩
  · unfold restartRx startTimeout
    simp +decide only [if_false]
    rw [hpt]
  · unfold restartRx startTimeout
    simp +decide only [if_false]
    rw [hpt]

/-- C32, an instance: the timer expires behind the last byte of a response. -/
theorem decodePacket_restarts_reception_witness :
    ∃ s', decodePacket { sessionState regsTwoHolding 1 (bufferOf [0x05, 0x83, 0x02]) 5 128 with
          TMR0IF_bit := true, TXEN_bit := true, CREN_bit := false, RCIE_bit := false,
          uintMbRxGapSetPt := 0xF6A0 } = some s'
      ∧ s'.arybytMbBuffer = bufferOf [0x05, 0x83, 0x02] ∧ s'.regs = regsTwoHolding
      ∧ s'.TXREG = [] ∧ s'.pCurrBlock = none ∧ s'.uintCRC = 0
      ∧ s'.eMbExceptionCode = NO_EXCEPTION
      ∧ s'.bytMbIndex = 0 ∧ s'.bytMbRxphase = 0
      ∧ s'.TXEN_bit = false ∧ s'.TXIE_bit = false
      ∧ s'.CREN_bit = true ∧ s'.RCIE_bit = true
      ∧ s'.RCIF_bit = false ∧ s'.OERR_bit = false ∧ s'.FERR_bit = false
      ∧ s'.TMR0H = Hi 0xF6A0 ∧ s'.TMR0L = Lo 0xF6A0
      ∧ s'.TMR0ON_bit = true ∧ s'.TMR0IF_bit = false :=
  decodePacket_restarts_reception
    { sessionState regsTwoHolding 1 (bufferOf [0x05, 0x83, 0x02]) 5 128 with
      TMR0IF_bit := true, TXEN_bit := true, CREN_bit := false, RCIE_bit := false,
      uintMbRxGapSetPt := 0xF6A0 }
    (Or.inl (by decide))

/-! ### The drop path -/

/-- C33 (as amended): whenever decodePacket in FrameReady drops the frame without
responding, because the address byte is not the slave address, the length is at most 3, or
the last two bytes are not the CRC of the bytes before them, it returns with fill index 0
and phase 1, the value with only bit 0 set (the silent interval has elapsed, the next byte
starts a frame); TXREG and every block are as they were. -/
theorem decodePacket_drop_leaves_phase_1 (s : State) (hr : FrameReady s)
    (h : s.arybytMbBuffer 0 ≠ s.bytMbSlaveAddress ∨ s.bytMbIndex ≤ 3
      ∨ (3 < s.bytMbIndex ∧ s.bytMbIndex < 256
          ∧ ¬ (s.arybytMbBuffer (s.bytMbIndex - 2)
                  = Lo (crc16 (bufferBytes s.arybytMbBuffer (s.bytMbIndex - 2)))
                ∧ s.arybytMbBuffer (s.bytMbIndex - 1)
                  = Hi (crc16 (bufferBytes s.arybytMbBuffer (s.bytMbIndex - 2)))))) :
    ∃ s', decodePacket s = some s' ∧ s'.bytMbRxphase = 1 ∧ s'.bytMbIndex = 0
      ∧ s'.TXREG = s.TXREG ∧ s'.regs = s.regs := by
  obtain ⟨f1, f2, -, -, -, f6, f7, f8, -, -⟩ := timerExpiry_fields s
  rw [decodePacket_of_frameReady s hr]
  unfold frameReady
  by_cases hc : (timerExpiry s).bytMbSlaveAddress = (timerExpiry s).arybytMbBuffer 0
      ∧ (timerExpiry s).bytMbIndex > 3
  · rw [if_pos hc]
    rw [f6, f7, f8] at hc
    rcases h with h | h | ⟨h1, h2, h3⟩
    · exact absurd hc.1.symm h
    · omega
    · have hcrc := calcCRC_eq_crc16 s.arybytMbBuffer (s.bytMbIndex - 2) (by omega) (by omega)
      have e1 : s.bytMbIndex - 2 + 1 = s.bytMbIndex - 1 := by omega
      simp only [f6, f7, hcrc, e1]
      rw [if_neg (fun c => h3 ⟨c.1.symm, c.2.symm⟩)]
      exact ⟨_, rfl, rfl, rfl, f2, f1⟩
  · rw [if_neg hc]
    exact ⟨_, rfl, rfl, rfl, f2, f1⟩

/-- C33, an instance: a frame addressed to slave 2 reaches slave 1. -/
theorem decodePacket_drop_leaves_phase_1_witness :
    ∃ s', decodePacket (sessionState regsTwoHolding 1
          (bufferOf [0x02, 0x03, 0x00, 0x00, 0x00, 0x01, 0x84, 0x39]) 8 5) = some s'
      ∧ s'.bytMbRxphase = 1 ∧ s'.bytMbIndex = 0 ∧ s'.TXREG = [] ∧ s'.regs = regsTwoHolding :=
  decodePacket_drop_leaves_phase_1
    (sessionState regsTwoHolding 1 (bufferOf [0x02, 0x03, 0x00, 0x00, 0x00, 0x01, 0x84, 0x39]) 8 5)
    (by decide) (Or.inl (by decide))

/-- C33 (the claim as worded fails): a frame for slave 2, a frame of 3 bytes and a frame
with a wrong CRC, each buffered at slave 1 in phase 5, are dropped with fill index 0 and
phase 1, not 0: the drop path ends in `bytMbIndex = 0; bytMbRxphase = 1;`. -/
theorem decodePacket_drop_phase_is_not_0 :
    (decodePacket (sessionState regsTwoHolding 1
        (bufferOf [0x02, 0x03, 0x00, 0x00, 0x00, 0x01, 0x84, 0x39]) 8 5)).map
        (fun s => (s.bytMbRxphase, s.bytMbIndex, s.TXREG)) = some (1, 0, [])
    ∧ (decodePacket (sessionState regsTwoHolding 1
        (bufferOf [0x01, 0x03, 0x00]) 3 5)).map
        (fun s => (s.bytMbRxphase, s.bytMbIndex, s.TXREG)) = some (1, 0, [])
    ∧ (decodePacket (sessionState regsTwoHolding 1
        (bufferOf [0x01, 0x03, 0x00, 0x00, 0x00, 0x01, 0x84, 0x0B]) 8 5)).map
        (fun s => (s.bytMbRxphase, s.bytMbIndex, s.TXREG)) = some (1, 0, []) := by
  decide

/-! ### startTimeout -/

/-- C34: startTimeout loads Timer0 with a preset chosen by the phase bits alone: the preset
for 2.5 character times when bit 1 is set, otherwise the one for 2 character times when bit
2 is set, otherwise the one for 1 character time when bit 7 is set, otherwise the one for
4.5 character times; it clears TMR0IF, starts the timer and changes nothing else. So the
presets are 2.5 characters in phase 2, 2 characters in phase 4, 1 character in phase 128 and
4.5 characters in phases 0 and 1. A timer expiry in phase 2 with no byte waiting makes
decodePacket return in phase 4 with the timer running from the preset for 2 character
times, the fill index, buffer, blocks and TXREG as they were. -/
theorem startTimeout_selects_preset_by_phase :
    (∀ s : State,
      startTimeout s
        = { s with
            TMR0H := Hi (if s.bytMbRxphase.testBit 1 = true then s.uintMbRxGapSetPt3
              else if s.bytMbRxphase.testBit 2 = true then s.uintMbRxGapSetPt2
              else if s.bytMbRxphase.testBit 7 = true then s.uintMbRxGapSetPt1
              else s.uintMbRxGapSetPt),
            TMR0L := Lo (if s.bytMbRxphase.testBit 1 = true then s.uintMbRxGapSetPt3
              else if s.bytMbRxphase.testBit 2 = true then s.uintMbRxGapSetPt2
              else if s.bytMbRxphase.testBit 7 = true then s.uintMbRxGapSetPt1
              else s.uintMbRxGapSetPt),
            TMR0IF_bit := false, TMR0ON_bit := true })
    ∧ (∀ s : State, s.bytMbRxphase = 2 →
        (startTimeout s).TMR0H = Hi s.uintMbRxGapSetPt3
        ∧ (startTimeout s).TMR0L = Lo s.uintMbRxGapSetPt3)
    ∧ (∀ s : State, s.bytMbRxphase = 4 →
        (startTimeout s).TMR0H = Hi s.uintMbRxGapSetPt2
        ∧ (startTimeout s).TMR0L = Lo s.uintMbRxGapSetPt2)
    ∧ (∀ s : State, s.bytMbRxphase = 128 →
        (startTimeout s).TMR0H = Hi s.uintMbRxGapSetPt1
        ∧ (startTimeout s).TMR0L = Lo s.uintMbRxGapSetPt1)
    ∧ (∀ s : State, s.bytMbRxphase = 0 ∨ s.bytMbRxphase = 1 →
        (startTimeout s).TMR0H = Hi s.uintMbRxGapSetPt
        ∧ (startTimeout s).TMR0L = Lo s.uintMbRxGapSetPt)
    ∧ (∀ s : State, s.TMR0IF_bit = true → s.RCIF_bit = false → s.bytMbRxphase = 2 →
        ∃ s', decodePacket s = some s' ∧ s'.bytMbRxphase = 4
          ∧ s'.TMR0H = Hi s.uintMbRxGapSetPt2 ∧ s'.TMR0L = Lo s.uintMbRxGapSetPt2
          ∧ s'.TMR0ON_bit = true ∧ s'.TMR0IF_bit = false
          ∧ s'.bytMbIndex = s.bytMbIndex ∧ s'.arybytMbBuffer = s.arybytMbBuffer
          ∧ s'.regs = s.regs ∧ s'.TXREG = s.TXREG ∧ s'.uintCRC = s.uintCRC
          ∧ s'.pCurrBlock = s.pCurrBlock) := by
  refine ⟨fun s => rfl, ?_, ?_, ?_, ?_, ?_⟩
  · intro s h
    unfold startTimeout
    simp +decide only [h, if_true]
  · intro s h
    unfold startTimeout
    simp +decide only [h, if_true, if_false]
  · intro s h
    unfold startTimeout
    simp +decide only [h, if_true, if_false]
  · intro s h
    unfold startTimeout
    rcases h with h | h
    · simp +decide only [h, if_true, if_false]
    · simp +decide only [h, if_true, if_false]
  · intro s ht hr hp
    have hte : timerExpiry s
        = { s with bytMbRxphase := 3, TMR0ON_bit := false, TMR0IF_bit := false } := by
      unfold timerExpiry
      rw [if_pos ht, hp]
      rfl
    unfold decodePacket
    simp only [hte]
    have e7 : Nat.testBit 3 7 = false := by decide
    rw [if_neg (fun c => by rw [e7] at c; cases c.2), if_neg (by rw [hr]; decide),
      if_neg (fun c => by rw [e7] at c; cases c.1)]
    unfold afterEvents
    simp +decide only [if_true]
    unfold startTimeout
    simp +decide only [if_true, if_false]
    exact ⟨_, rfl, rfl, rfl, rfl, rfl, rfl, rfl, rfl, rfl, rfl, rfl, rfl⟩

/-- C34, an instance: the timer expires behind the eighth byte of a frame. -/
theorem startTimeout_selects_preset_by_phase_witness :
    ∃ s', decodePacket { sessionState regsTwoHolding 1
          (bufferOf [0x01, 0x03, 0x00, 0x00, 0x00, 0x01, 0x84, 0x0A]) 8 2 with
          TMR0IF_bit := true, uintMbRxGapSetPt2 := 0xFBD7 } = some s'
      ∧ s'.bytMbRxphase = 4 ∧ s'.TMR0H = Hi 0xFBD7 ∧ s'.TMR0L = Lo 0xFBD7
      ∧ s'.TMR0ON_bit = true ∧ s'.TMR0IF_bit = false
      ∧ s'.bytMbIndex = 8
      ∧ s'.arybytMbBuffer = bufferOf [0x01, 0x03, 0x00, 0x00, 0x00, 0x01, 0x84, 0x0A]
      ∧ s'.regs = regsTwoHolding ∧ s'.TXREG = [] ∧ s'.uintCRC = 0 ∧ s'.pCurrBlock = none :=
  startTimeout_selects_preset_by_phase.2.2.2.2.2
    { sessionState regsTwoHolding 1
        (bufferOf [0x01, 0x03, 0x00, 0x00, 0x00, 0x01, 0x84, 0x0A]) 8 2 with
      TMR0IF_bit := true, uintMbRxGapSetPt2 := 0xFBD7 } rfl rfl rfl

/-! ### Transmission of the response -/

/-- A transmit-ready event while bytes are left: the byte at the index goes to TXREG. -/
theorem decodePacket_txReady_next (s : State) (hp : s.bytMbRxphase = 128)
    (hi : s.bytMbIndex < s.arybytMbBuffer 0) :
    decodePacket (raise s txReady)
      = some { raise s txReady with
          TXREG := s.TXREG ++ [s.arybytMbBuffer s.bytMbIndex], TXIF_bit := false,
          bytMbIndex := (s.bytMbIndex + 1) % 256 } := by
  have hte : timerExpiry (raise s txReady) = raise s txReady := rfl
  unfold decodePacket
  simp only [hte]
  have c1 : ¬ ((raise s txReady).TMR0IF_bit = true
      ∧ (raise s txReady).bytMbRxphase.testBit 7 = true) := fun h => (by cases h.1)
  have c2 : ¬ (raise s txReady).RCIF_bit = true := fun h => (by cases h)
  have c6 : (raise s txReady).bytMbRxphase.testBit 7 = true
      ∧ (raise s txReady).TXIF_bit = true := by
    refine ⟨?_, rfl⟩
    show s.bytMbRxphase.testBit 7 = true
    rw [hp]
    decide
  have c7 : (raise s txReady).bytMbIndex < (raise s txReady).arybytMbBuffer 0 := hi
  rw [if_neg c1, if_neg c2, if_pos c6, if_pos c7]
  rfl

/-- A transmit-ready event when no byte is left: nothing goes to TXREG, the timer is loaded
with the preset for 1 character time and the transmit interrupt is disabled. -/
theorem decodePacket_txReady_last (s : State) (hp : s.bytMbRxphase = 128)
    (hi : ¬ s.bytMbIndex < s.arybytMbBuffer 0) :
    decodePacket (raise s txReady)
      = some { raise s txReady with
          TMR0H := Hi s.uintMbRxGapSetPt1, TMR0L := Lo s.uintMbRxGapSetPt1,
          TMR0IF_bit := false, TMR0ON_bit := true, TXIE_bit := false } := by
  have hte : timerExpiry (raise s txReady) = raise s txReady := rfl
  unfold decodePacket
  simp only [hte]
  have c1 : ¬ ((raise s txReady).TMR0IF_bit = true
      ∧ (raise s txReady).bytMbRxphase.testBit 7 = true) := fun h => (by cases h.1)
  have c2 : ¬ (raise s txReady).RCIF_bit = true := fun h => (by cases h)
  have c6 : (raise s txReady).bytMbRxphase.testBit 7 = true
      ∧ (raise s txReady).TXIF_bit = true := by
    refine ⟨?_, rfl⟩
    show s.bytMbRxphase.testBit 7 = true
    rw [hp]
    decide
  have c7 : ¬ (raise s txReady).bytMbIndex < (raise s txReady).arybytMbBuffer 0 := hi
  rw [if_neg c1, if_neg c2, if_pos c6, if_neg c7]
  unfold startTimeout
  have e : (raise s txReady).bytMbRxphase = 128 := hp
  simp +decide only [e, if_true, if_false]
  rfl

theorem runEvents_txReady :
    ∀ (n : Nat) (s : State), s.bytMbRxphase = 128 → s.bytMbIndex + n ≤ s.arybytMbBuffer 0 →
      s.arybytMbBuffer 0 ≤ 255 →
      ∃ t, runEvents s (List.replicate n txReady) = some t
        ∧ t.TXREG = s.TXREG ++ (List.range n).map (fun k => s.arybytMbBuffer (s.bytMbIndex + k))
        ∧ t.bytMbIndex = s.bytMbIndex + n ∧ t.bytMbRxphase = 128
        ∧ t.arybytMbBuffer = s.arybytMbBuffer ∧ t.regs = s.regs
        ∧ t.uintMbRxGapSetPt1 = s.uintMbRxGapSetPt1 ∧ t.TXEN_bit = s.TXEN_bit
        ∧ t.TXIE_bit = s.TXIE_bit := by
  intro n
  induction n with
  | zero =>
    intro s hp _ _
    refine ⟨s, rfl, ?_, rfl, hp, rfl, rfl, rfl, rfl, rfl⟩
    simp
  | succ n ih =>
    intro s hp hi hL
    have hstep := decodePacket_txReady_next s hp (by omega)
    have hmod : (s.bytMbIndex + 1) % 256 = s.bytMbIndex + 1 := Nat.mod_eq_of_lt (by omega)
    rw [hmod] at hstep
    obtain ⟨t, e, k1, k2, k3, k4, k5, k6, k7, k8⟩ := ih
      { raise s txReady with
        TXREG := s.TXREG ++ [s.arybytMbBuffer s.bytMbIndex], TXIF_bit := false,
        bytMbIndex := s.bytMbIndex + 1 } hp
      (by
        show s.bytMbIndex + 1 + n ≤ s.arybytMbBuffer 0
        omega)
      hL
    refine ⟨t, ?_, ?_, ?_, k3, k4, k5, k6, k7, k8⟩
    · show (decodePacket (raise s txReady)).bind (fun u => runEvents u (List.replicate n txReady))
        = some t
      rw [hstep]
      exact e
    · rw [k1]
      show s.TXREG ++ [s.arybytMbBuffer s.bytMbIndex]
          ++ (List.range n).map (fun k => s.arybytMbBuffer (s.bytMbIndex + 1 + k))
        = s.TXREG ++ (List.range (n + 1)).map (fun k => s.arybytMbBuffer (s.bytMbIndex + k))
      rw [List.range_succ_eq_map, List.map_cons, List.map_map, List.append_assoc]
      congr 1
      rw [List.singleton_append, Nat.add_zero]
      congr 1
      apply List.map_congr_left
      intro k _
      show s.arybytMbBuffer (s.bytMbIndex + 1 + k) = s.arybytMbBuffer (s.bytMbIndex + (k + 1))
      congr 1
      omega
    · rw [k2]
      show s.bytMbIndex + 1 + n = s.bytMbIndex + (n + 1)
      omega

/-- The transmission of a response whose length fits the length byte: from the state the
dispatcher leaves when it has started a response (phase 128, index 2, the length L in
buffer byte 0, the first two bytes in TXREG), L - 2 transmit-ready events put the remaining
bytes into TXREG in order, so TXREG then holds the response frame, and the next
transmit-ready event sends nothing, loads the timer with the preset for 1 character time
and disables the transmit interrupt. -/
theorem runEvents_sends_responseFrame (s : State) (hp : s.bytMbRxphase = 128)
    (hi : s.bytMbIndex = 2) (hL : 2 ≤ s.arybytMbBuffer 0 ∧ s.arybytMbBuffer 0 ≤ 255) :
    ∃ t, runEvents s (List.replicate (s.arybytMbBuffer 0 - 2) txReady) = some t
      ∧ t.TXREG = responseFrame s ∧ t.bytMbRxphase = 128 ∧ t.regs = s.regs
      ∧ ∃ t', decodePacket (raise t txReady) = some t'
          ∧ t'.TXREG = responseFrame s ∧ t'.TXIE_bit = false ∧ t'.bytMbRxphase = 128
          ∧ t'.TMR0H = Hi s.uintMbRxGapSetPt1 ∧ t'.TMR0L = Lo s.uintMbRxGapSetPt1
          ∧ t'.TMR0ON_bit = true ∧ t'.TMR0IF_bit = false ∧ t'.regs = s.regs := by
  obtain ⟨t, e, k1, k2, k3, k4, k5, k6, -, -⟩ := runEvents_txReady (s.arybytMbBuffer 0 - 2) s hp
    (by omega) hL.2
  have hresp : t.TXREG = responseFrame s := by
    rw [k1]
    unfold responseFrame
    congr 1
    apply List.map_congr_left
    intro k _
    show s.arybytMbBuffer (s.bytMbIndex + k) = s.arybytMbBuffer (k + 2)
    rw [hi, Nat.add_comm]
  have hlast := decodePacket_txReady_last t k3 (by rw [k2, k4]; omega)
  refine ⟨t, e, hresp, k3, k5, _, hlast, hresp, rfl, k3, ?_, ?_, rfl, rfl, k5⟩
  · show Hi t.uintMbRxGapSetPt1 = _
    rw [k6]
  · show Lo t.uintMbRxGapSetPt1 = _
    rw [k6]

theorem transmitStart_index_254_state (s : State) (h0 : s.bytMbRxphase.testBit 0 = true)
    (hidx : s.bytMbIndex = 254) :
    ∃ s', transmitStart s = some s'
      ∧ s'.arybytMbBuffer
          = store (store (store s.arybytMbBuffer 254 (Lo (calcCRC s.arybytMbBuffer 254))) 255
              (Hi (calcCRC s.arybytMbBuffer 254))) 0 0
      ∧ s'.TXREG = s.TXREG ++ [s.arybytMbBuffer 0, s.arybytMbBuffer 1]
      ∧ s'.bytMbRxphase = 128 ∧ s'.bytMbIndex = 2 := by
  unfold transmitStart
  simp only [h0, Bool.true_eq_false, if_false, hidx]
  refine ⟨_, rfl, rfl, ?_, rfl, rfl⟩
  simp [store_apply]

/-- C35 (the code departs from the claim): with one coil block of 4096 coils from address 1
on, the request 01 01 00 00 07 D1 (read 2001 coils), which is never checked against
MAX_DISCRETES_IN_1_AND_2, makes the dispatcher build a response of 256 bytes: 3 header bytes,
byte count 251, 251 data bytes and 2 CRC bytes. The 8-bit index wraps to 0 behind the last
CRC byte and is stored as the length in buffer byte 0. The dispatcher sends 01 01, and the
first transmit-ready event that follows sends nothing and disables the transmit interrupt:
of the 256 bytes two are sent. -/
theorem decodePacket_read_2001_coils_transmission_stops :
    ((decodePacket (sessionState regsBigCoilBlock 1
        (bufferOf [0x01, 0x01, 0x00, 0x00, 0x07, 0xD1, 0xFE, 0x66]) 8 5)).bind
      (fun s => runEvents s [txReady])).map
      (fun t => (t.TXREG, t.TXIE_bit, t.bytMbRxphase, t.arybytMbBuffer 0, t.arybytMbBuffer 2))
    = some ([0x01, 0x01], false, 128, 0, 251) := by
  obtain ⟨t, ht, tr, tb, te, tp, ttx, -, -⟩ := decodePacket_dispatch
    (sessionState regsBigCoilBlock 1
        (bufferOf [0x01, 0x01, 0x00, 0x00, 0x07, 0xD1, 0xFE, 0x66]) 8 5)
    (by decide) (by decide) (by decide) (by decide)
  have hfirst : ((if (bufferOf [0x01, 0x01, 0x00, 0x00, 0x07, 0xD1, 0xFE, 0x66]) 1 = READ_COILS
        then COILS else STATUS_INPUTS) = COILS
        ∧ firstNode 1 regsBigCoilBlock.pCoils = some (blockOf COILS 1 4096 highByteData))
      ∨ ((if (bufferOf [0x01, 0x01, 0x00, 0x00, 0x07, 0xD1, 0xFE, 0x66]) 1 = READ_COILS
        then COILS else STATUS_INPUTS) = STATUS_INPUTS
        ∧ firstNode 1 regsBigCoilBlock.pStatusBits = some (blockOf COILS 1 4096 highByteData)) :=
    Or.inl ⟨by decide, rfl⟩
  obtain ⟨out, hpack, -, -, hframe⟩ := packBits_serves regsBigCoilBlock _
    (bufferOf [0x01, 0x01, 0x00, 0x00, 0x07, 0xD1, 0xFE, 0x66]) 3 1 2001 _ hfirst
    (by decide) (by decide)
  have hsel : selectTable { t with bytMbIndex := 3 }
      = { t with bytMbIndex := 3, pCurrBlock := some (.pCoils, 0) } :=
    selectTable_read_coils _ (by rw [tb]; decide) (by rw [tr]; decide)
  have hb : ({ t with bytMbIndex := 3, pCurrBlock := some (.pCoils, 0) } : State).arybytMbBuffer
      = bufferOf [0x01, 0x01, 0x00, 0x00, 0x07, 0xD1, 0xFE, 0x66] := tb
  obtain ⟨u', hex, hbuf, hidx, hexc', hph, hregs, htx⟩ :=
    execute_read_bits { t with bytMbIndex := 3, pCurrBlock := some (.pCoils, 0) } out 251
      (Or.inl (by rw [hb]; decide))
      (by rw [hb]
          rw [show ({ t with bytMbIndex := 3, pCurrBlock := some (.pCoils, 0) } : State).regs
            = regsBigCoilBlock from tr]
          exact hpack) (by decide)
  have hidx' : u'.bytMbIndex = 254 := hidx
  obtain ⟨s', hts, hsb, htx', hsp, hsi⟩ := transmitStart_index_254_state u'
    (by rw [hph]; show t.bytMbRxphase.testBit 0 = true; rw [tp]; decide) hidx'
  have hd : decodePacket (sessionState regsBigCoilBlock 1
        (bufferOf [0x01, 0x01, 0x00, 0x00, 0x07, 0xD1, 0xFE, 0x66]) 8 5) = some s' := by
    rw [ht, dispatch_of_execute t _ u' hsel te hex,
      respond_no_exception u' (by rw [hexc']; exact te) (by rw [hidx']; decide)]
    exact hts
  have hb0 : s'.arybytMbBuffer 0 = 0 := by
    rw [hsb]
    exact store_same _ _ _
  have hb2 : s'.arybytMbBuffer 2 = 251 := by
    rw [hsb, store_other _ _ _ _ (by decide), store_other _ _ _ _ (by decide),
      store_other _ _ _ _ (by decide), hbuf]
    exact store_same _ _ _
  have htxr : s'.TXREG = [0x01, 0x01] := by
    rw [htx', htx, hbuf, store_other _ _ _ _ (by decide), store_other _ _ _ _ (by decide),
      hframe 0 (by decide), hframe 1 (by decide)]
    show t.TXREG ++ _ = _
    rw [ttx]
    rfl
  have hlast := decodePacket_txReady_last s' hsp (by rw [hsi, hb0]; decide)
  rw [hd]
  show ((decodePacket (raise s' txReady)).bind (fun u => runEvents u [])).map _ = _
  rw [hlast]
  show some (s'.TXREG, false, s'.bytMbRxphase, s'.arybytMbBuffer 0, s'.arybytMbBuffer 2) = _
  rw [htxr, hsp, hb0, hb2]

/-! ### CRC residue -/

theorem crc16ShiftStep_lt (v : Nat) (hv : v < 65536) : crc16ShiftStep v < 65536 := by
  unfold crc16ShiftStep
  split
  · exact @Nat.xor_lt_two_pow _ _ 16 (by omega) (by decide)
  · omega

theorem crc16ShiftStep_iterate_lt (n : Nat) : ∀ v, v < 65536 → crc16ShiftStep^[n] v < 65536 := by
  induction n with
  | zero => intro v hv; exact hv
  | succ n ih =>
    intro v hv
    rw [Function.iterate_succ_apply]
    exact ih _ (crc16ShiftStep_lt v hv)

theorem crc16ByteStep_lt (v b : Nat) (hv : v < 65536) (hb : b < 256) :
    crc16ByteStep v b < 65536 := by
  unfold crc16ByteStep
  exact crc16ShiftStep_iterate_lt 8 _ (@Nat.xor_lt_two_pow _ _ 16 (by omega) (by omega))

theorem crc16_foldl_lt (m : List Nat) :
    ∀ v, v < 65536 → (∀ b, b ∈ m → b < 256) → m.foldl crc16ByteStep v < 65536 := by
  induction m with
  | nil => intro v hv _; exact hv
  | cons b rest ih =>
    intro v hv hm
    rw [List.foldl_cons]
    exact ih _ (crc16ByteStep_lt v b hv (hm b (List.mem_cons_self _ _)))
      (fun x hx => hm x (List.mem_cons_of_mem _ hx))

theorem crc16_lt (m : List Nat) (hm : ∀ b, b ∈ m → b < 256) : crc16 m < 65536 :=
  crc16_foldl_lt m 0xFFFF (by decide) hm

theorem crc16ShiftStep_even (y : Nat) : crc16ShiftStep (2 * y) = y := by
  unfold crc16ShiftStep
  rw [if_neg (by omega)]
  omega

theorem crc16ShiftStep_shift_out_byte (h : Nat) : crc16ShiftStep^[8] (h * 256) = h := by
  have e : h * 256 = 2 * (2 * (2 * (2 * (2 * (2 * (2 * (2 * h))))))) := by omega
  rw [e]
  simp only [Function.iterate_succ_apply, Function.iterate_zero_apply, crc16ShiftStep_even]

/-- Feeding a 16-bit CRC value its own low byte and then its own high byte leaves 0. -/
theorem crc16ByteStep_own_bytes (v : Nat) (hv : v < 65536) :
    crc16ByteStep (crc16ByteStep v (Lo v)) (Hi v) = 0 := by
  have h1 : v ^^^ Lo v = (v / 256) * 256 := by
    unfold Lo
    have e := xor_bytes (v / 256) (v % 256) 0 (v % 256) (Nat.mod_lt _ (by decide))
      (Nat.mod_lt _ (by decide))
    have e1 : v / 256 * 256 + v % 256 = v := by omega
    have e2 : 0 * 256 + v % 256 = v % 256 := by omega
    rw [e1, e2] at e
    rw [e, Nat.xor_self, Nat.xor_zero, Nat.add_zero]
  have h2 : crc16ByteStep v (Lo v) = v / 256 := by
    unfold crc16ByteStep
    rw [h1, crc16ShiftStep_shift_out_byte]
  have h3 : Hi v = v / 256 := by
    unfold Hi
    exact Nat.mod_eq_of_lt (by omega)
  rw [h2, h3]
  unfold crc16ByteStep
  rw [Nat.xor_self]
  rfl

theorem crc16_append_own_bytes (m : List Nat) (hm : ∀ b, b ∈ m → b < 256) :
    crc16 (m ++ [Lo (crc16 m), Hi (crc16 m)]) = 0 := by
  have hlt := crc16_lt m hm
  unfold crc16 at hlt ⊢
  rw [List.foldl_append]
  exact crc16ByteStep_own_bytes _ hlt

theorem bufferBytes_succ (buf : Nat → Nat) (n : Nat) :
    bufferBytes buf (n + 1) = bufferBytes buf n ++ [buf n % 256] := by
  unfold bufferBytes
  rw [List.range_succ, List.map_append]
  rfl

theorem bufferBytes_congr (buf1 buf2 : Nat → Nat) (n : Nat)
    (h : ∀ i, i < n → buf1 i = buf2 i) : bufferBytes buf1 n = bufferBytes buf2 n := by
  unfold bufferBytes
  apply List.map_congr_left
  intro i hi
  rw [h i (List.mem_range.mp hi)]

theorem bufferBytes_mem_lt (buf : Nat → Nat) (n b : Nat) (h : b ∈ bufferBytes buf n) :
    b < 256 := by
  unfold bufferBytes at h
  obtain ⟨i, -, e⟩ := List.mem_map.mp h
  rw [← e]
  exact Nat.mod_lt _ (by decide)

/-- C36: for every message of bytes, the CRC-16/Modbus value over the message followed by
the low byte and then the high byte of its CRC is 0. In the terms of the code: when calcCRC
over the first n buffer bytes (1 <= n <= 253) is appended low byte first behind them, as the
dispatcher does for a response, calcCRC over the n + 2 bytes returns 0. -/
theorem crc16_residue_is_zero :
    (∀ (m : List Nat), (∀ b, b ∈ m → b < 256) →
      crc16 (m ++ [Lo (crc16 m), Hi (crc16 m)]) = 0)
    ∧ (∀ (arybytMbBuffer : Nat → Nat) (n : Nat), 1 ≤ n → n ≤ 253 →
      calcCRC (store (store arybytMbBuffer n (Lo (calcCRC arybytMbBuffer n))) (n + 1)
        (Hi (calcCRC arybytMbBuffer n))) (n + 2) = 0) := by
  refine ⟨crc16_append_own_bytes, ?_⟩
  intro buf n h1 h2
  have hc : calcCRC buf n = crc16 (bufferBytes buf n) := calcCRC_eq_crc16 buf n h1 (by omega)
  rw [calcCRC_eq_crc16 _ (n + 2) (by omega) (by omega), hc]
  generalize hcv : crc16 (bufferBytes buf n) = c
  have hb : bufferBytes (store (store buf n (Lo c)) (n + 1) (Hi c)) (n + 2)
      = bufferBytes buf n ++ [Lo c, Hi c] := by
    rw [bufferBytes_succ, bufferBytes_succ, store_same,
      store_other _ _ _ _ (show n ≠ n + 1 by omega), store_same,
      bufferBytes_congr (store (store buf n (Lo c)) (n + 1) (Hi c)) buf n
        (fun i hi => by
          rw [store_other _ _ _ _ (show i ≠ n + 1 by omega),
            store_other _ _ _ _ (show i ≠ n by omega)])]
    have e1 : Lo c % 256 = Lo c := Nat.mod_eq_of_lt (Nat.mod_lt _ (by decide))
    have e2 : Hi c % 256 = Hi c := Nat.mod_eq_of_lt (Nat.mod_lt _ (by decide))
    rw [e1, e2, List.append_assoc]
    rfl
  rw [hb, ← hcv]
  exact crc16_append_own_bytes _ (fun b hb' => bufferBytes_mem_lt buf n b hb')

/-- C36, an instance: the request 01 03 00 00 00 01 with its CRC 84 0A. -/
theorem crc16_residue_is_zero_witness :
    crc16 ([0x01, 0x03, 0x00, 0x00, 0x00, 0x01]
      ++ [Lo (crc16 [0x01, 0x03, 0x00, 0x00, 0x00, 0x01]),
          Hi (crc16 [0x01, 0x03, 0x00, 0x00, 0x00, 0x01])]) = 0 :=
  crc16_residue_is_zero.1 [0x01, 0x03, 0x00, 0x00, 0x00, 0x01] (by decide)

/-! ### Read responses and the buffer -/

/-- The packing loop of packRegisters with `n` addresses left: it ends after `n` passes,
has stored the high and the low byte of the `n` registers in order behind the bytes stored
before, and has left everything below them as it was. -/
theorem packRegistersLoop_writes (data : Nat → Nat) (pBuffer uintEnd : Nat)
    (hE : uintEnd < 65535) :
    ∀ (n fuel : Nat) (v : PackRegistersVars), v.uintStart + n = uintEnd + 1 → n ≤ fuel →
      v.uintBytes + 2 * n < 65536 → v.uintOffset + n < 65536 →
      ∃ w, packRegistersLoop data pBuffer uintEnd fuel v = some w
        ∧ w.uintBytes = v.uintBytes + 2 * n
        ∧ (∀ k, k < n →
            w.mem (pBuffer + v.uintBytes + 2 * k) = Hi (data (v.uintOffset + k))
            ∧ w.mem (pBuffer + v.uintBytes + 2 * k + 1) = Lo (data (v.uintOffset + k)))
        ∧ (∀ i, i < pBuffer + v.uintBytes → w.mem i = v.mem i) := by
  intro n
  induction n with
  | zero =>
    intro fuel v hs _ _ _
    have hn : ¬ v.uintStart ≤ uintEnd := by omega
    refine ⟨v, ?_, rfl, fun k hk => absurd hk (Nat.not_lt_zero k), fun _ _ => rfl⟩
    cases fuel with
    | zero =>
      unfold packRegistersLoop
      rw [if_neg hn]
    | succ f =>
      unfold packRegistersLoop
      rw [if_neg hn]
  | succ n ih =>
    intro fuel v hs hf hb ho
    cases fuel with
    | zero => omega
    | succ f =>
      have e1 : (v.uintBytes + 1) % 65536 = v.uintBytes + 1 := Nat.mod_eq_of_lt (by omega)
      have e2 : (v.uintBytes + 1 + 1) % 65536 = v.uintBytes + 2 := Nat.mod_eq_of_lt (by omega)
      have e3 : (v.uintStart + 1) % 65536 = v.uintStart + 1 := Nat.mod_eq_of_lt (by omega)
      have e4 : (v.uintOffset + 1) % 65536 = v.uintOffset + 1 := Nat.mod_eq_of_lt (by omega)
      have hpass : packRegistersPass data pBuffer v
          = { mem := store (store v.mem (pBuffer + v.uintBytes) (Hi (data v.uintOffset)))
                (pBuffer + (v.uintBytes + 1)) (Lo (data v.uintOffset)),
              uintBytes := v.uintBytes + 2, uintStart := v.uintStart + 1,
              uintOffset := v.uintOffset + 1 } := by
        unfold packRegistersPass
        simp only [e1, e2, e3, e4]
      unfold packRegistersLoop
      rw [if_pos (by omega), hpass]
      obtain ⟨w, hw, w1, w2, w3⟩ := ih f
        { mem := store (store v.mem (pBuffer + v.uintBytes) (Hi (data v.uintOffset)))
            (pBuffer + (v.uintBytes + 1)) (Lo (data v.uintOffset)),
          uintBytes := v.uintBytes + 2, uintStart := v.uintStart + 1,
          uintOffset := v.uintOffset + 1 }
        (by
          show v.uintStart + 1 + n = uintEnd + 1
          omega)
        (by omega)
        (by
          show v.uintBytes + 2 + 2 * n < 65536
          omega)
        (by
          show v.uintOffset + 1 + n < 65536
          omega)
      have w1' : w.uintBytes = v.uintBytes + 2 + 2 * n := w1
      have w2' : ∀ k, k < n →
          w.mem (pBuffer + (v.uintBytes + 2) + 2 * k) = Hi (data (v.uintOffset + 1 + k))
          ∧ w.mem (pBuffer + (v.uintBytes + 2) + 2 * k + 1)
              = Lo (data (v.uintOffset + 1 + k)) := w2
      have w3' : ∀ i, i < pBuffer + (v.uintBytes + 2) →
          w.mem i = store (store v.mem (pBuffer + v.uintBytes) (Hi (data v.uintOffset)))
            (pBuffer + (v.uintBytes + 1)) (Lo (data v.uintOffset)) i := w3
      refine ⟨w, hw, by omega, ?_, ?_⟩
      · intro k hk
        cases k with
        | zero =>
          rw [Nat.mul_zero, Nat.add_zero, Nat.add_zero]
          constructor
          · rw [w3' _ (by omega), store_other _ _ _ _ (by omega), store_same]
          · rw [w3' _ (by omega)]
            have e : pBuffer + v.uintBytes + 1 = pBuffer + (v.uintBytes + 1) := by omega
            rw [e, store_same]
        | succ j =>
          obtain ⟨a1, a2⟩ := w2' j (by omega)
          have i1 : pBuffer + v.uintBytes + 2 * (j + 1) = pBuffer + (v.uintBytes + 2) + 2 * j := by
            omega
          have i2 : v.uintOffset + (j + 1) = v.uintOffset + 1 + j := by omega
          rw [i1, i2]
          exact ⟨a1, a2⟩
      · intro i hi
        rw [w3' i (by omega), store_other _ _ _ _ (by omega), store_other _ _ _ _ (by omega)]

/-- What packRegisters does when it serves: the candidate block passes the end test and the
range of N registers lies below address 65535. It returns 2N and has stored the high and
the low byte of the N registers in order from the position given. -/
theorem packRegisters_serves (regs : Registry) (eType : Nat) (mem : Nat → Nat)
    (pBuffer uintStart uintEnd : Nat) (pNode : modbusBlockDef)
    (hfirst : (eType = HOLDING_REGISTERS ∧ firstNode uintStart regs.pHoldingRegs = some pNode)
      ∨ (eType = INPUT_REGISTERS ∧ firstNode uintStart regs.pInputRegs = some pNode))
    (hend : uintEnd < (pNode.uintAddress + pNode.uintTotal) % 65536)
    (hse : uintStart ≤ uintEnd) (hn : 2 * (uintEnd - uintStart + 1) < 65536) :
    ∃ out, packRegisters regs eType mem pBuffer uintStart uintEnd
        = some (out, 2 * (uintEnd - uintStart + 1))
      ∧ (∀ k, k < uintEnd - uintStart + 1 →
          out (pBuffer + 2 * k) = Hi (pNode.paryData (uintStart - pNode.uintAddress + k))
          ∧ out (pBuffer + 2 * k + 1)
              = Lo (pNode.paryData (uintStart - pNode.uintAddress + k)))
      ∧ (∀ i, i < pBuffer → out i = mem i) := by
  have hE : uintEnd < 65535 := by
    have := Nat.mod_lt (pNode.uintAddress + pNode.uintTotal) (show 65536 > 0 by decide)
    omega
  have hbase : pNode.uintAddress ≤ uintStart := by
    rcases hfirst with ⟨-, h⟩ | ⟨-, h⟩ <;> exact (firstNode_some _ _ _ h).2
  have hoff := offset_in_block uintStart pNode.uintAddress hbase (by omega)
  obtain ⟨w, hw, w1, w2, w3⟩ := packRegistersLoop_writes pNode.paryData pBuffer uintEnd hE
    (uintEnd - uintStart + 1) 65536
    { mem := mem, uintBytes := 0, uintStart := uintStart,
      uintOffset := uintStart - pNode.uintAddress }
    (by
      show uintStart + (uintEnd - uintStart + 1) = uintEnd + 1
      omega)
    (by omega)
    (by
      show 0 + 2 * (uintEnd - uintStart + 1) < 65536
      omega)
    (by
      show uintStart - pNode.uintAddress + (uintEnd - uintStart + 1) < 65536
      omega)
  have w1' : w.uintBytes = 0 + 2 * (uintEnd - uintStart + 1) := w1
  have w2' : ∀ k, k < uintEnd - uintStart + 1 →
      w.mem (pBuffer + 0 + 2 * k) = Hi (pNode.paryData (uintStart - pNode.uintAddress + k))
      ∧ w.mem (pBuffer + 0 + 2 * k + 1)
          = Lo (pNode.paryData (uintStart - pNode.uintAddress + k)) := w2
  have w3' : ∀ i, i < pBuffer + 0 → w.mem i = mem i := w3
  rw [Nat.zero_add] at w1'
  have hres : packRegisters regs eType mem pBuffer uintStart uintEnd
      = some (w.mem, w.uintBytes) := by
    unfold packRegisters
    rcases hfirst with ⟨he, hf⟩ | ⟨he, hf⟩
    · simp only [he, if_true, hf]
      rw [if_pos hend, hoff, hw]
      rfl
    · have hne : ¬ INPUT_REGISTERS = HOLDING_REGISTERS := by decide
      simp only [he, if_neg hne, if_true, hf]
      rw [if_pos hend, hoff, hw]
      rfl
  refine ⟨w.mem, ?_, ?_, ?_⟩
  · rw [hres, w1']
  · intro k hk
    have := w2' k hk
    rw [Nat.add_zero] at this
    exact this
  · intro i hi
    exact w3' i (by omega)

theorem selectTable_read_holding (u : State) (hf : u.arybytMbBuffer 1 = READ_HOLDING_REGISTERS)
    (hne : u.regs.pHoldingRegs.isEmpty = false) :
    selectTable u = { u with pCurrBlock := some (.pHoldingRegs, 0) } := by
  unfold selectTable
  simp +decide [hf, hne]

theorem execute_read_holding (u : State) (out : Nat → Nat) (n : Nat)
    (hfn : u.arybytMbBuffer 1 = READ_HOLDING_REGISTERS)
    (hpack : packRegisters u.regs HOLDING_REGISTERS u.arybytMbBuffer 3
        ((word (u.arybytMbBuffer 2) (u.arybytMbBuffer 3) + 1) % 65536)
        ((word (u.arybytMbBuffer 2) (u.arybytMbBuffer 3)
            + word (u.arybytMbBuffer 4) (u.arybytMbBuffer 5)) % 65536) = some (out, n))
    (hn : n % 256 ≠ 0) :
    ∃ u', execute u = some u' ∧ u'.arybytMbBuffer = store out 2 (n % 256)
      ∧ u'.bytMbIndex = (u.bytMbIndex + n % 256) % 256
      ∧ u'.eMbExceptionCode = u.eMbExceptionCode ∧ u'.bytMbRxphase = u.bytMbRxphase
      ∧ u'.regs = u.regs ∧ u'.TXREG = u.TXREG := by
  obtain ⟨r1, r2, r3, r4, r5, r6⟩ := resolveCurrBlock_fields u
    ((word (u.arybytMbBuffer 2) (u.arybytMbBuffer 3) + 1) % 65536)
    ((word (u.arybytMbBuffer 2) (u.arybytMbBuffer 3)
            + word (u.arybytMbBuffer 4) (u.arybytMbBuffer 5)) % 65536)
  unfold execute
  simp +decide only [hfn, r1, r2, r3, or_self, or_false, false_or, if_false, true_or, if_true,
    hpack, if_neg hn]
  exact ⟨_, rfl, rfl, rfl, r4, r5, rfl, r6⟩

theorem transmitStart_index_1 (s : State) (h0 : s.bytMbRxphase.testBit 0 = true)
    (hidx : s.bytMbIndex = 1) :
    ∃ s', transmitStart s = some s'
      ∧ s'.arybytMbBuffer
          = store (store (store s.arybytMbBuffer 1 (Lo (calcCRC s.arybytMbBuffer 1))) 2
              (Hi (calcCRC s.arybytMbBuffer 1))) 0 3
      ∧ s'.bytMbRxphase = 128 ∧ s'.bytMbIndex = 2 := by
  unfold transmitStart
  simp only [h0, Bool.true_eq_false, if_false, hidx]
  exact ⟨_, rfl, rfl, rfl, rfl⟩

/-- C37 (the code departs from the claim): with one holding-register block of 200
registers from address 1 on, the CRC-valid request 01 03 00 00 00 7F (read 127 registers,
above MAX_REGISTERS_IN_3_AND_4, which no code refers to) is served. packRegisters stores
254 data bytes from buffer index 3 on, the last of them, the low byte 0x7E of register 127,
at index 256, behind the 256 bytes of arybytMbBuffer. The 8-bit index goes from 3 to
(3 + 254) mod 256 = 1, and the response started has the length 3 in buffer byte 0 instead of
the 259 bytes of header, data and CRC. -/
theorem decodePacket_read_127_registers_writes_behind_buffer :
    (FrameReady (sessionState regsBigHolding 1
        (bufferOf [0x01, 0x03, 0x00, 0x00, 0x00, 0x7F, 0x04, 0x2A]) 8 5)
      ∧ Lo (crc16 [0x01, 0x03, 0x00, 0x00, 0x00, 0x7F]) = 0x04
      ∧ Hi (crc16 [0x01, 0x03, 0x00, 0x00, 0x00, 0x7F]) = 0x2A
      ∧ word 0x00 0x7F = 127 ∧ 127 > MAX_REGISTERS_IN_3_AND_4
      ∧ regsBigHolding.pHoldingRegs.map (fun b => (b.uintAddress, b.uintTotal)) = [(1, 200)]
      ∧ bufferOf [0x01, 0x03, 0x00, 0x00, 0x00, 0x7F, 0x04, 0x2A] 256 = 0)
    ∧ (decodePacket (sessionState regsBigHolding 1
        (bufferOf [0x01, 0x03, 0x00, 0x00, 0x00, 0x7F, 0x04, 0x2A]) 8 5)).map
        (fun s => (s.arybytMbBuffer 256, s.arybytMbBuffer 255, s.arybytMbBuffer 0))
      = some (0x7E, 0x11, 3) := by
  refine ⟨by decide, ?_⟩
  obtain ⟨t, ht, tr, tb, te, tp, -, -, -⟩ := decodePacket_dispatch
    (sessionState regsBigHolding 1
        (bufferOf [0x01, 0x03, 0x00, 0x00, 0x00, 0x7F, 0x04, 0x2A]) 8 5)
    (by decide) (by decide) (by decide) (by decide)
  obtain ⟨out, hpack, hout, -⟩ := packRegisters_serves regsBigHolding HOLDING_REGISTERS
    (bufferOf [0x01, 0x03, 0x00, 0x00, 0x00, 0x7F, 0x04, 0x2A]) 3 1 127
    (blockOf HOLDING_REGISTERS 1 200 (rampData 0x1100)) (Or.inl ⟨rfl, rfl⟩)
    (by decide) (by decide) (by decide)
  have hsel : selectTable { t with bytMbIndex := 3 }
      = { t with bytMbIndex := 3, pCurrBlock := some (.pHoldingRegs, 0) } :=
    selectTable_read_holding _ (by rw [tb]; decide) (by rw [tr]; decide)
  have hb : ({ t with bytMbIndex := 3, pCurrBlock := some (.pHoldingRegs, 0) }
      : State).arybytMbBuffer
      = bufferOf [0x01, 0x03, 0x00, 0x00, 0x00, 0x7F, 0x04, 0x2A] := tb
  obtain ⟨u', hex, hbuf, hidx, hexc', hph, -, -⟩ :=
    execute_read_holding { t with bytMbIndex := 3, pCurrBlock := some (.pHoldingRegs, 0) }
      out 254
      (by rw [hb]; decide)
      (by rw [hb]
          rw [show ({ t with bytMbIndex := 3, pCurrBlock := some (.pHoldingRegs, 0) }
            : State).regs = regsBigHolding from tr]
          exact hpack) (by decide)
  have hidx' : u'.bytMbIndex = 1 := by
    rw [hidx]
    show (3 + 254 % 256) % 256 = 1
    decide
  obtain ⟨s', hts, hsb, -, -⟩ := transmitStart_index_1 u'
    (by rw [hph]; show t.bytMbRxphase.testBit 0 = true; rw [tp]; decide) hidx'
  have hd : decodePacket (sessionState regsBigHolding 1
        (bufferOf [0x01, 0x03, 0x00, 0x00, 0x00, 0x7F, 0x04, 0x2A]) 8 5) = some s' := by
    rw [ht, dispatch_of_execute t _ u' hsel te hex,
      respond_no_exception u' (by rw [hexc']; exact te) (by rw [hidx']; decide)]
    exact hts
  obtain ⟨o1, o2⟩ := hout 126 (by decide)
  have e256 : s'.arybytMbBuffer 256 = 0x7E := by
    rw [hsb, store_other _ _ _ _ (by decide), store_other _ _ _ _ (by decide),
      store_other _ _ _ _ (by decide), hbuf, store_other _ _ _ _ (by decide)]
    exact o2
  have e255 : s'.arybytMbBuffer 255 = 0x11 := by
    rw [hsb, store_other _ _ _ _ (by decide), store_other _ _ _ _ (by decide),
      store_other _ _ _ _ (by decide), hbuf, store_other _ _ _ _ (by decide)]
    exact o1
  have e0 : s'.arybytMbBuffer 0 = 3 := by
    rw [hsb]
    exact store_same _ _ _
  rw [hd]
  show some (s'.arybytMbBuffer 256, s'.arybytMbBuffer 255, s'.arybytMbBuffer 0) = _
  rw [e256, e255, e0]

/-! ### Buffer indices read by the write loop -/

theorem writeLoopReads_fst (uintEAddr : Nat) :
    ∀ (fuel : Nat) (v : WriteVars),
      (writeLoopReads uintEAddr fuel v).1 = writeLoop uintEAddr fuel v := by
  intro fuel
  induction fuel with
  | zero =>
    intro v
    unfold writeLoopReads writeLoop
    rfl
  | succ n ih =>
    intro v
    unfold writeLoopReads writeLoop
    by_cases ha : v.uintAddr ≤ uintEAddr
    · rw [if_pos ha, if_pos ha]
      by_cases hf : v.s.arybytMbBuffer 1 = PRESET_MULTIPLE_REGISTERS
      · rw [if_pos hf, if_pos hf]
        simp only []
        by_cases hr : (setRegister v.s v.uintAddr (v.s.arybytMbBuffer (7 + v.uintOffset))
            (v.s.arybytMbBuffer (8 + v.uintOffset))).2 = false
        · rw [if_pos hr, if_pos hr]
        · rw [if_neg hr, if_neg hr]
          exact ih _
      · rw [if_neg hf, if_neg hf]
        simp only []
        by_cases hr : (coilState
            { v.s with blnState := decide ((v.s.arybytMbBuffer (7 + v.uintOffset) &&& v.bytBit) > 0) }
            v.uintAddr (decide ((v.s.arybytMbBuffer (7 + v.uintOffset) &&& v.bytBit) > 0))).2 = false
        · rw [if_pos hr, if_pos hr]
        · rw [if_neg hr, if_neg hr]
          exact ih _
    · rw [if_neg ha, if_neg ha]

theorem setRegister_buffer (s : State) (a hi lo : Nat) :
    (setRegister s a hi lo).1.arybytMbBuffer = s.arybytMbBuffer := by
  obtain ⟨r, hr, -⟩ := setRegister_spec s a hi lo
  rw [hr]

theorem coilState_buffer (s : State) (a : Nat) (v : Bool) :
    (coilState s a v).1.arybytMbBuffer = s.arybytMbBuffer := by
  obtain ⟨r, hr, -⟩ := coilState_spec s a v
  rw [hr]

/-- With a resolved block and the end address 65535, pass number j + 1 of the write loop of
function 16 reads the buffer indices 7 + 2j and 8 + 2j behind the offset it started with,
for as many passes as it is given. -/
theorem writeLoopReads_top_address :
    ∀ (fuel : Nat) (v : WriteVars), (∃ b, currBlock v.s = some b) → v.uintAddr < 65536 →
      v.s.arybytMbBuffer 1 = PRESET_MULTIPLE_REGISTERS →
      ∀ j, j < fuel → v.uintOffset + 2 * j + 2 < 65536 →
        (7 + v.uintOffset + 2 * j) ∈ (writeLoopReads 65535 fuel v).2
        ∧ (8 + v.uintOffset + 2 * j) ∈ (writeLoopReads 65535 fuel v).2 := by
  intro fuel
  induction fuel with
  | zero => intro v _ _ _ j hj; omega
  | succ n ih =>
    intro v hb ha hf j hj ho
    obtain ⟨blk, hblk⟩ := hb
    obtain ⟨h1, h2⟩ := setRegister_resolved v.s v.uintAddr
      (v.s.arybytMbBuffer (7 + v.uintOffset)) (v.s.arybytMbBuffer (8 + v.uintOffset)) blk hblk
    have hbuf := setRegister_buffer v.s v.uintAddr
      (v.s.arybytMbBuffer (7 + v.uintOffset)) (v.s.arybytMbBuffer (8 + v.uintOffset))
    have hmod : (v.uintOffset + 2) % 65536 = v.uintOffset + 2 := Nat.mod_eq_of_lt (by omega)
    unfold writeLoopReads
    rw [if_pos (by omega), if_pos hf]
    simp only []
    rw [if_neg (by rw [h1]; decide), hmod]
    cases j with
    | zero =>
      simp
    | succ i =>
      obtain ⟨a1, a2⟩ := ih
        { v with s := (setRegister v.s v.uintAddr (v.s.arybytMbBuffer (7 + v.uintOffset))
                    (v.s.arybytMbBuffer (8 + v.uintOffset))).1,
                 uintOffset := v.uintOffset + 2,
                 uintAddr := (v.uintAddr + 1) % 65536 }
        h2 (Nat.mod_lt _ (by decide))
        (by
          show (setRegister v.s v.uintAddr (v.s.arybytMbBuffer (7 + v.uintOffset))
            (v.s.arybytMbBuffer (8 + v.uintOffset))).1.arybytMbBuffer 1 = _
          rw [hbuf]
          exact hf)
        i (by omega)
        (by
          show v.uintOffset + 2 + 2 * i + 2 < 65536
          omega)
      have a1' : (7 + (v.uintOffset + 2) + 2 * i) ∈ _ := a1
      have a2' : (8 + (v.uintOffset + 2) + 2 * i) ∈ _ := a2
      have e1 : 7 + v.uintOffset + 2 * (i + 1) = 7 + (v.uintOffset + 2) + 2 * i := by omega
      have e2 : 8 + v.uintOffset + 2 * (i + 1) = 8 + (v.uintOffset + 2) + 2 * i := by omega
      rw [e1, e2]
      exact ⟨List.mem_cons_of_mem _ (List.mem_cons_of_mem _ (List.mem_cons_of_mem _ a1')),
        List.mem_cons_of_mem _ (List.mem_cons_of_mem _ (List.mem_cons_of_mem _ a2'))⟩

/-- Below the top address the passes of function 16 read, besides index 1, only indices up
to 6 + uintOffset + 2n, where n is the number of addresses left up to the end address. -/
theorem writeLoopReads_registers_bound (uintEAddr : Nat) (hE : uintEAddr < 65535) :
    ∀ (fuel : Nat) (v : WriteVars), v.s.arybytMbBuffer 1 = PRESET_MULTIPLE_REGISTERS →
      v.uintOffset + 2 * (uintEAddr + 1 - v.uintAddr) < 65536 →
      ∀ i, i ∈ (writeLoopReads uintEAddr fuel v).2 →
        i = 1 ∨ i ≤ 6 + v.uintOffset + 2 * (uintEAddr + 1 - v.uintAddr) := by
  intro fuel
  induction fuel with
  | zero =>
    intro v _ _ i hi
    unfold writeLoopReads at hi
    simp at hi
  | succ n ih =>
    intro v hf ho i hi
    unfold writeLoopReads at hi
    by_cases ha : v.uintAddr ≤ uintEAddr
    · rw [if_pos ha, if_pos hf] at hi
      simp only [] at hi
      have hbuf := setRegister_buffer v.s v.uintAddr
        (v.s.arybytMbBuffer (7 + v.uintOffset)) (v.s.arybytMbBuffer (8 + v.uintOffset))
      have hmod : (v.uintOffset + 2) % 65536 = v.uintOffset + 2 := Nat.mod_eq_of_lt (by omega)
      have hmod' : (v.uintAddr + 1) % 65536 = v.uintAddr + 1 := Nat.mod_eq_of_lt (by omega)
      by_cases hr : (setRegister v.s v.uintAddr (v.s.arybytMbBuffer (7 + v.uintOffset))
          (v.s.arybytMbBuffer (8 + v.uintOffset))).2 = false
      · rw [if_pos hr] at hi
        simp only [List.mem_cons, List.mem_singleton, List.not_mem_nil, or_false] at hi
        rcases hi with h | h | h
        · exact Or.inl h
        · right; omega
        · right; omega
      · rw [if_neg hr, hmod, hmod'] at hi
        simp only [List.mem_cons] at hi
        rcases hi with h | h | h | h
        · exact Or.inl h
        · right; omega
        · right; omega
        · have := ih
            { v with s := (setRegister v.s v.uintAddr (v.s.arybytMbBuffer (7 + v.uintOffset))
                        (v.s.arybytMbBuffer (8 + v.uintOffset))).1,
                     uintOffset := v.uintOffset + 2, uintAddr := v.uintAddr + 1 }
            (by
              show (setRegister v.s v.uintAddr (v.s.arybytMbBuffer (7 + v.uintOffset))
                (v.s.arybytMbBuffer (8 + v.uintOffset))).1.arybytMbBuffer 1 = _
              rw [hbuf]
              exact hf)
            (by
              show v.uintOffset + 2 + 2 * (uintEAddr + 1 - (v.uintAddr + 1)) < 65536
              omega)
            i h
          have this' : i = 1
              ∨ i ≤ 6 + (v.uintOffset + 2) + 2 * (uintEAddr + 1 - (v.uintAddr + 1)) := this
          rcases this' with h' | h'
          · exact Or.inl h'
          · right; omega
    · rw [if_neg ha] at hi
      simp at hi

theorem shifted_mask (b : Nat) (hb : b < 8) :
    ((2 ^ b <<< 1) % 256 = 0 ↔ b = 7) ∧ (b ≠ 7 → (2 ^ b <<< 1) % 256 = 2 ^ (b + 1)) := by
  interval_cases b <;> decide

/-- Below the top address the passes of function 15 read, besides index 1, only indices
7 + k with 8k at most 8 uintOffset + b + n - 1, where the mask is 2 ^ b and n is the number
of addresses left up to the end address. -/
theorem writeLoopReads_coils_bound (uintEAddr : Nat) (hE : uintEAddr < 65535) :
    ∀ (fuel : Nat) (v : WriteVars) (b : Nat),
      v.s.arybytMbBuffer 1 ≠ PRESET_MULTIPLE_REGISTERS → v.bytBit = 2 ^ b → b < 8 →
      v.uintOffset + (uintEAddr + 1 - v.uintAddr) < 65536 →
      ∀ i, i ∈ (writeLoopReads uintEAddr fuel v).2 →
        i = 1 ∨ 8 * i + 1 ≤ 56 + 8 * v.uintOffset + b + (uintEAddr + 1 - v.uintAddr) := by
  intro fuel
  induction fuel with
  | zero =>
    intro v b _ _ _ _ i hi
    unfold writeLoopReads at hi
    simp at hi
  | succ n ih =>
    intro v b hf hbit hb ho i hi
    unfold writeLoopReads at hi
    by_cases ha : v.uintAddr ≤ uintEAddr
    · rw [if_pos ha, if_neg hf] at hi
      simp only [] at hi
      have hbuf := coilState_buffer
        { v.s with blnState := decide ((v.s.arybytMbBuffer (7 + v.uintOffset) &&& v.bytBit) > 0) }
        v.uintAddr (decide ((v.s.arybytMbBuffer (7 + v.uintOffset) &&& v.bytBit) > 0))
      have hmod : (v.uintOffset + 1) % 65536 = v.uintOffset + 1 := Nat.mod_eq_of_lt (by omega)
      have hmod' : (v.uintAddr + 1) % 65536 = v.uintAddr + 1 := Nat.mod_eq_of_lt (by omega)
      by_cases hr : (coilState
          { v.s with blnState := decide ((v.s.arybytMbBuffer (7 + v.uintOffset) &&& v.bytBit) > 0) }
          v.uintAddr (decide ((v.s.arybytMbBuffer (7 + v.uintOffset) &&& v.bytBit) > 0))).2 = false
      · rw [if_pos hr] at hi
        simp only [List.mem_cons, List.mem_singleton, List.not_mem_nil, or_false] at hi
        rcases hi with h | h
        · exact Or.inl h
        · right; omega
      · rw [if_neg hr, hmod, hmod'] at hi
        simp only [List.mem_cons] at hi
        rcases hi with h | h | h
        · exact Or.inl h
        · right; omega
        · obtain ⟨m1, m2⟩ := shifted_mask b hb
          rw [← hbit] at m1 m2
          by_cases h7 : b = 7
          · have hz : (v.bytBit <<< 1) % 256 = 0 := m1.mpr h7
            rw [if_pos hz, if_pos hz] at h
            have := ih
              { s := (coilState
                  { v.s with blnState := decide ((v.s.arybytMbBuffer (7 + v.uintOffset) &&& v.bytBit) > 0) }
                  v.uintAddr
                  (decide ((v.s.arybytMbBuffer (7 + v.uintOffset) &&& v.bytBit) > 0))).1,
                bytBit := 1, uintOffset := v.uintOffset + 1, uintAddr := v.uintAddr + 1 } 0
              (by
                show (coilState _ _ _).1.arybytMbBuffer 1 ≠ _
                rw [hbuf]
                exact hf)
              rfl (by decide)
              (by
                show v.uintOffset + 1 + (uintEAddr + 1 - (v.uintAddr + 1)) < 65536
                omega)
              i h
            have this' : i = 1 ∨ 8 * i + 1
                ≤ 56 + 8 * (v.uintOffset + 1) + 0 + (uintEAddr + 1 - (v.uintAddr + 1)) := this
            rcases this' with h' | h'
            · exact Or.inl h'
            · right; omega
          · have hnz : ¬ (v.bytBit <<< 1) % 256 = 0 := fun c => h7 (m1.mp c)
            rw [if_neg hnz, if_neg hnz, m2 h7] at h
            have := ih
              { s := (coilState
                  { v.s with blnState := decide ((v.s.arybytMbBuffer (7 + v.uintOffset) &&& v.bytBit) > 0) }
                  v.uintAddr
                  (decide ((v.s.arybytMbBuffer (7 + v.uintOffset) &&& v.bytBit) > 0))).1,
                bytBit := 2 ^ (b + 1), uintOffset := v.uintOffset, uintAddr := v.uintAddr + 1 }
              (b + 1)
              (by
                show (coilState _ _ _).1.arybytMbBuffer 1 ≠ _
                rw [hbuf]
                exact hf)
              rfl (by omega)
              (by
                show v.uintOffset + (uintEAddr + 1 - (v.uintAddr + 1)) < 65536
                omega)
              i h
            have this' : i = 1 ∨ 8 * i + 1
                ≤ 56 + 8 * v.uintOffset + (b + 1) + (uintEAddr + 1 - (v.uintAddr + 1)) := this
            rcases this' with h' | h'
            · exact Or.inl h'
            · right; omega
    · rw [if_neg ha] at hi
      simp at hi

/-- The number of addresses from the start address to the end address the dispatcher
computes is at most the item count, unless the end address is 65535. -/
theorem range_length_le_count (w c : Nat) (hE : (w + c) % 65536 ≠ 65535) :
    (w + c) % 65536 + 1 - (w + 1) % 65536 ≤ c := by
  omega

/-- The reads of the write loop where the code keeps them inside the buffer: for a multiple
write that has passed the ceiling checks and whose end address is not 65535, every buffer
index the loop reads is below 256. -/
theorem writeLoopReads_below_256 (s : State)
    (h : (s.arybytMbBuffer 1 = FORCE_MULTIPLE_COILS
          ∧ word (s.arybytMbBuffer 4) (s.arybytMbBuffer 5) ≤ MAX_DISCRETES_IN_FC15)
      ∨ (s.arybytMbBuffer 1 = PRESET_MULTIPLE_REGISTERS
          ∧ word (s.arybytMbBuffer 4) (s.arybytMbBuffer 5) ≤ MAX_REGISTERS_IN_FC16))
    (hE : (word (s.arybytMbBuffer 2) (s.arybytMbBuffer 3)
            + word (s.arybytMbBuffer 4) (s.arybytMbBuffer 5)) % 65536 ≠ 65535) :
    ∀ i, i ∈ (writeLoopReads
        ((word (s.arybytMbBuffer 2) (s.arybytMbBuffer 3)
            + word (s.arybytMbBuffer 4) (s.arybytMbBuffer 5)) % 65536) 65536
        (WriteVars.mk s 1 0 ((word (s.arybytMbBuffer 2) (s.arybytMbBuffer 3) + 1) % 65536))).2 →
      i < 256 := by
  intro i hi
  have hlen := range_length_le_count _ (word (s.arybytMbBuffer 4) (s.arybytMbBuffer 5)) hE
  have hE' : (word (s.arybytMbBuffer 2) (s.arybytMbBuffer 3)
      + word (s.arybytMbBuffer 4) (s.arybytMbBuffer 5)) % 65536 < 65535 := by
    have := Nat.mod_lt (word (s.arybytMbBuffer 2) (s.arybytMbBuffer 3)
      + word (s.arybytMbBuffer 4) (s.arybytMbBuffer 5)) (show 65536 > 0 by decide)
    omega
  rcases h with ⟨hf, hc⟩ | ⟨hf, hc⟩
  · have hc' : word (s.arybytMbBuffer 4) (s.arybytMbBuffer 5) ≤ 1968 := hc
    have := writeLoopReads_coils_bound _ hE' 65536
      (WriteVars.mk s 1 0 ((word (s.arybytMbBuffer 2) (s.arybytMbBuffer 3) + 1) % 65536)) 0
      (by
        show s.arybytMbBuffer 1 ≠ _
        rw [hf]
        decide)
      rfl (by decide)
      (by
        show 0 + (_ + 1 - (word (s.arybytMbBuffer 2) (s.arybytMbBuffer 3) + 1) % 65536) < 65536
        omega)
      i hi
    have this' : i = 1 ∨ 8 * i + 1 ≤ 56 + 8 * 0 + 0
        + ((word (s.arybytMbBuffer 2) (s.arybytMbBuffer 3)
            + word (s.arybytMbBuffer 4) (s.arybytMbBuffer 5)) % 65536 + 1
          - (word (s.arybytMbBuffer 2) (s.arybytMbBuffer 3) + 1) % 65536) := this
    rcases this' with h' | h'
    · omega
    · omega
  · have hc' : word (s.arybytMbBuffer 4) (s.arybytMbBuffer 5) ≤ 123 := hc
    have := writeLoopReads_registers_bound _ hE' 65536
      (WriteVars.mk s 1 0 ((word (s.arybytMbBuffer 2) (s.arybytMbBuffer 3) + 1) % 65536))
      hf
      (by
        show 0 + 2 * (_ + 1 - (word (s.arybytMbBuffer 2) (s.arybytMbBuffer 3) + 1) % 65536)
          < 65536
        omega)
      i hi
    have this' : i = 1 ∨ i ≤ 6 + 0
        + 2 * ((word (s.arybytMbBuffer 2) (s.arybytMbBuffer 3)
            + word (s.arybytMbBuffer 4) (s.arybytMbBuffer 5)) % 65536 + 1
          - (word (s.arybytMbBuffer 2) (s.arybytMbBuffer 3) + 1) % 65536) := this
    rcases this' with h' | h'
    · omega
    · omega

/-- C38 (the code departs from the claim): with the only holding-register block at
addresses 65526 to 65535, the CRC-valid request 01 10 FF FE 00 01 02 12 34 (function 16, one
register, address 65535) passes the ceiling check (1 <= 123) and resolves the block. The
write loop entered with `uintAddr = uintEAddr = 65535` does not end, since `uintAddr` wraps
to 0 behind 65535, and `uintOffset` grows by 2 in every pass: pass 125 reads
`arybytMbBuffer[8 + 248]`, index 256, behind the 256 bytes of the buffer, and the passes
that follow read further behind it. -/
theorem writeLoop_reads_behind_buffer :
    (FrameReady (sessionState regsTopHolding 1
        (bufferOf [0x01, 0x10, 0xFF, 0xFE, 0x00, 0x01, 0x02, 0x12, 0x34, 0xB1, 0xF6]) 11 5)
      ∧ word 0x00 0x01 ≤ MAX_REGISTERS_IN_FC16
      ∧ (word 0xFF 0xFE + 1) % 65536 = 65535 ∧ (word 0xFF 0xFE + word 0x00 0x01) % 65536 = 65535
      ∧ currBlock (resolveCurrBlock (selectTable { dispatchEntry (timerExpiry
          (sessionState regsTopHolding 1
            (bufferOf [0x01, 0x10, 0xFF, 0xFE, 0x00, 0x01, 0x02, 0x12, 0x34, 0xB1, 0xF6]) 11 5))
          with bytMbIndex := 3 }) 65535 65535)
        = some (blockOf HOLDING_REGISTERS 65526 10 (rampData 0x1100)))
    ∧ (writeLoopReads 65535 65536 (WriteVars.mk
        (resolveCurrBlock (selectTable { dispatchEntry (timerExpiry
          (sessionState regsTopHolding 1
            (bufferOf [0x01, 0x10, 0xFF, 0xFE, 0x00, 0x01, 0x02, 0x12, 0x34, 0xB1, 0xF6]) 11 5))
          with bytMbIndex := 3 }) 65535 65535) 1 0 65535)).1 = none
    ∧ 256 ∈ (writeLoopReads 65535 65536 (WriteVars.mk
        (resolveCurrBlock (selectTable { dispatchEntry (timerExpiry
          (sessionState regsTopHolding 1
            (bufferOf [0x01, 0x10, 0xFF, 0xFE, 0x00, 0x01, 0x02, 0x12, 0x34, 0xB1, 0xF6]) 11 5))
          with bytMbIndex := 3 }) 65535 65535) 1 0 65535)).2
    ∧ 1000 ∈ (writeLoopReads 65535 65536 (WriteVars.mk
        (resolveCurrBlock (selectTable { dispatchEntry (timerExpiry
          (sessionState regsTopHolding 1
            (bufferOf [0x01, 0x10, 0xFF, 0xFE, 0x00, 0x01, 0x02, 0x12, 0x34, 0xB1, 0xF6]) 11 5))
          with bytMbIndex := 3 }) 65535 65535) 1 0 65535)).2 := by
  have hcur : currBlock (resolveCurrBlock (selectTable { dispatchEntry (timerExpiry
          (sessionState regsTopHolding 1
            (bufferOf [0x01, 0x10, 0xFF, 0xFE, 0x00, 0x01, 0x02, 0x12, 0x34, 0xB1, 0xF6]) 11 5))
          with bytMbIndex := 3 }) 65535 65535)
        = some (blockOf HOLDING_REGISTERS 65526 10 (rampData 0x1100)) := rfl
  have hfn : (resolveCurrBlock (selectTable { dispatchEntry (timerExpiry
          (sessionState regsTopHolding 1
            (bufferOf [0x01, 0x10, 0xFF, 0xFE, 0x00, 0x01, 0x02, 0x12, 0x34, 0xB1, 0xF6]) 11 5))
          with bytMbIndex := 3 }) 65535 65535).arybytMbBuffer 1
        = PRESET_MULTIPLE_REGISTERS := rfl
  refine ⟨⟨by decide, by decide, by decide, by decide, hcur⟩, ?_, ?_, ?_⟩
  · rw [writeLoopReads_fst]
    exact writeLoop_top_address 65536 _ ⟨_, hcur⟩ (by decide)
  · exact (writeLoopReads_top_address 65536 (WriteVars.mk _ 1 0 65535) ⟨_, hcur⟩
      (by decide) hfn 124 (by decide) (by decide)).2
  · exact (writeLoopReads_top_address 65536 (WriteVars.mk _ 1 0 65535) ⟨_, hcur⟩
      (by decide) hfn 496 (by decide) (by decide)).2

/-! ### Phase invariant -/

theorem transmitStart_phase (s s' : State) (h : transmitStart s = some s') :
    s'.bytMbRxphase = 128 ∧ s'.bytMbIndex = 2 := by
  unfold transmitStart at h
  simp only [] at h
  by_cases h0 : s.bytMbRxphase.testBit 0 = false
  · rw [if_pos h0] at h; cases h
  · rw [if_neg h0] at h
    cases h
    exact ⟨rfl, rfl⟩

theorem respond_phase (v s' : State) (h : respond v = some s') :
    (s'.bytMbRxphase = 128 ∧ s'.bytMbIndex = 2) ∨ (s'.bytMbRxphase = 1 ∧ s'.bytMbIndex = 0) := by
  unfold respond at h
  simp only [] at h
  by_cases he : v.eMbExceptionCode ≠ NO_EXCEPTION
  · rw [if_pos he] at h
    simp only [] at h
    by_cases hi : v.bytMbIndex > 0
    · rw [if_pos hi] at h
      exact Or.inl (transmitStart_phase _ _ h)
    · rw [if_neg hi] at h
      cases h
      exact Or.inr ⟨rfl, rfl⟩
  · rw [if_neg he] at h
    by_cases hi : v.bytMbIndex > 0
    · rw [if_pos hi] at h
      exact Or.inl (transmitStart_phase _ _ h)
    · rw [if_neg hi] at h
      cases h
      exact Or.inr ⟨rfl, rfl⟩

theorem frameReady_phase (x s' : State) (h : frameReady x = some s') :
    (s'.bytMbRxphase = 128 ∧ s'.bytMbIndex = 2) ∨ (s'.bytMbRxphase = 1 ∧ s'.bytMbIndex = 0) := by
  unfold frameReady at h
  simp only [] at h
  by_cases h1 : x.bytMbSlaveAddress = x.arybytMbBuffer 0 ∧ x.bytMbIndex > 3
  · rw [if_pos h1] at h
    by_cases h2 : Lo (calcCRC x.arybytMbBuffer (x.bytMbIndex - 2))
          = x.arybytMbBuffer (x.bytMbIndex - 2)
        ∧ Hi (calcCRC x.arybytMbBuffer (x.bytMbIndex - 2))
          = x.arybytMbBuffer (x.bytMbIndex - 2 + 1)
    · rw [if_pos h2] at h
      obtain ⟨v, -, hv⟩ := dispatch_some _ _ h
      exact respond_phase v s' hv
    · rw [if_neg h2] at h
      cases h
      exact Or.inr ⟨rfl, rfl⟩
  · rw [if_neg h1] at h
    cases h
    exact Or.inr ⟨rfl, rfl⟩

theorem afterEvents_phase (x s' : State) (h : afterEvents x = some s') :
    (x.bytMbRxphase = 3 ∧ s'.bytMbRxphase = 4)
    ∨ (x.bytMbRxphase ≠ 3 ∧ x.bytMbRxphase ≠ 5 ∧ s'.bytMbRxphase = x.bytMbRxphase
        ∧ s'.bytMbIndex = x.bytMbIndex)
    ∨ (x.bytMbRxphase = 5
        ∧ ((s'.bytMbRxphase = 128 ∧ s'.bytMbIndex = 2)
          ∨ (s'.bytMbRxphase = 1 ∧ s'.bytMbIndex = 0))) := by
  unfold afterEvents at h
  simp only [] at h
  by_cases h3 : x.bytMbRxphase = 3
  · rw [if_pos h3] at h
    have h4 : (startTimeout { x with bytMbRxphase := 4 }).bytMbRxphase ≠ 5 := by
      show (4 : Nat) ≠ 5
      decide
    rw [if_pos h4] at h
    cases h
    exact Or.inl ⟨h3, rfl⟩
  · rw [if_neg h3] at h
    by_cases h5 : x.bytMbRxphase ≠ 5
    · rw [if_pos h5] at h
      cases h
      exact Or.inr (Or.inl ⟨h3, h5, rfl, rfl⟩)
    · rw [if_neg h5] at h
      exact Or.inr (Or.inr ⟨not_not.mp h5, frameReady_phase x s' h⟩)

/-- What the phase can be behind the timer branch when the invariant held at the call. -/
theorem timerExpiry_phase_cases (s : State) (hi : phaseInvariant s) :
    (timerExpiry s).bytMbIndex = s.bytMbIndex
    ∧ (((timerExpiry s).bytMbRxphase = 0 ∧ s.bytMbIndex = 0)
      ∨ ((timerExpiry s).bytMbRxphase = 1 ∧ s.bytMbIndex = 0)
      ∨ (timerExpiry s).bytMbRxphase = 2
      ∨ (timerExpiry s).bytMbRxphase = 3
      ∨ (timerExpiry s).bytMbRxphase = 4
      ∨ (timerExpiry s).bytMbRxphase = 5
      ∨ (timerExpiry s).bytMbRxphase = 128
      ∨ ((timerExpiry s).bytMbRxphase = 129 ∧ s.TMR0IF_bit = true)) := by
  obtain ⟨hp, hx⟩ := hi
  unfold timerExpiry
  by_cases ht : s.TMR0IF_bit = true
  · rw [if_pos ht]
    refine ⟨rfl, ?_⟩
    show ((s.bytMbRxphase ||| 1) = 0 ∧ _) ∨ ((s.bytMbRxphase ||| 1) = 1 ∧ _)
      ∨ (s.bytMbRxphase ||| 1) = 2 ∨ (s.bytMbRxphase ||| 1) = 3 ∨ (s.bytMbRxphase ||| 1) = 4
      ∨ (s.bytMbRxphase ||| 1) = 5 ∨ (s.bytMbRxphase ||| 1) = 128
      ∨ ((s.bytMbRxphase ||| 1) = 129 ∧ _)
    rcases hp with h | h | h | h | h
    · rw [h]
      exact Or.inr (Or.inl ⟨rfl, hx (Or.inl h)⟩)
    · rw [h]
      exact Or.inr (Or.inl ⟨rfl, hx (Or.inr h)⟩)
    · rw [h]
      exact Or.inr (Or.inr (Or.inr (Or.inl rfl)))
    · rw [h]
      exact Or.inr (Or.inr (Or.inr (Or.inr (Or.inr (Or.inl rfl)))))
    · rw [h]
      exact Or.inr (Or.inr (Or.inr (Or.inr (Or.inr (Or.inr (Or.inr ⟨rfl, ht⟩))))))
  · rw [if_neg ht]
    refine ⟨rfl, ?_⟩
    rcases hp with h | h | h | h | h
    · exact Or.inl ⟨h, hx (Or.inl h)⟩
    · exact Or.inr (Or.inl ⟨h, hx (Or.inr h)⟩)
    · exact Or.inr (Or.inr (Or.inl h))
    · exact Or.inr (Or.inr (Or.inr (Or.inr (Or.inl h))))
    · exact Or.inr (Or.inr (Or.inr (Or.inr (Or.inr (Or.inr (Or.inl h))))))

/-- One call of decodePacket keeps the phase invariant, whatever the hardware flags are. -/
theorem decodePacket_keeps_phaseInvariant (s s' : State) (hi : phaseInvariant s)
    (h : decodePacket s = some s') : phaseInvariant s' := by
  obtain ⟨hidx, hP⟩ := timerExpiry_phase_cases s hi
  unfold decodePacket at h
  simp only [] at h
  by_cases c1 : s.TMR0IF_bit = true ∧ (timerExpiry s).bytMbRxphase.testBit 7 = true
  · rw [if_pos c1] at h
    cases h
    exact ⟨Or.inl rfl, fun _ => rfl⟩
  · rw [if_neg c1] at h
    have h129 : (timerExpiry s).bytMbRxphase ≠ 129 := by
      intro e
      rcases hP with ⟨p, -⟩ | ⟨p, -⟩ | p | p | p | p | p | ⟨p, ht⟩
      all_goals first
        | (rw [p] at e; exact absurd e (by decide))
        | exact c1 ⟨ht, by rw [p]; decide⟩
    by_cases c2 : (timerExpiry s).RCIF_bit = true
    · rw [if_pos c2] at h
      by_cases c3 : (timerExpiry s).OERR_bit = true ∨ (timerExpiry s).FERR_bit = true
      · rw [if_pos c3] at h
        cases h
        exact ⟨Or.inl rfl, fun _ => rfl⟩
      · rw [if_neg c3] at h
        by_cases c4 : (timerExpiry s).bytMbRxphase = 0
            ∨ (timerExpiry s).bytMbRxphase.testBit 2 = true
            ∨ (timerExpiry s).bytMbIndex ≥ MAX_PACKET_LENGTH
        · rw [if_pos c4] at h
          cases h
          exact ⟨Or.inl rfl, fun _ => rfl⟩
        · rw [if_neg c4] at h
          by_cases c5 : (timerExpiry s).bytMbIndex = 0
          · simp only [c5, if_true] at h
            rcases afterEvents_phase _ _ h with ⟨a, -⟩ | ⟨-, -, a, -⟩ | ⟨a, -⟩
            · exact absurd (show (2 : Nat) = 3 from a) (by decide)
            · have a' : s'.bytMbRxphase = 2 := a
              refine ⟨Or.inr (Or.inr (Or.inl a')), fun hc => ?_⟩
              rw [a'] at hc
              rcases hc with hc | hc <;> exact absurd hc (by decide)
            · exact absurd (show (2 : Nat) = 5 from a) (by decide)
          · simp only [c5, if_false] at h
            rw [hidx] at c5
            rcases afterEvents_phase _ _ h with ⟨-, b⟩ | ⟨a3, a5, a, -⟩ | ⟨a, -⟩
            · refine ⟨Or.inr (Or.inr (Or.inr (Or.inl b))), fun hc => ?_⟩
              rw [b] at hc
              rcases hc with hc | hc <;> exact absurd hc (by decide)
            · have a' : s'.bytMbRxphase = (timerExpiry s).bytMbRxphase := a
              have a3' : (timerExpiry s).bytMbRxphase ≠ 3 := a3
              have a5' : (timerExpiry s).bytMbRxphase ≠ 5 := a5
              rcases hP with ⟨-, q⟩ | ⟨-, q⟩ | p | p | p | p | p | ⟨p, -⟩
              · exact absurd q c5
              · exact absurd q c5
              · rw [p] at a'
                refine ⟨Or.inr (Or.inr (Or.inl a')), fun hc => ?_⟩
                rw [a'] at hc
                rcases hc with hc | hc <;> exact absurd hc (by decide)
              · exact absurd p a3'
              · exfalso
                apply c4
                right; left
                rw [p]
                decide
              · exact absurd p a5'
              · rw [p] at a'
                refine ⟨Or.inr (Or.inr (Or.inr (Or.inr a'))), fun hc => ?_⟩
                rw [a'] at hc
                rcases hc with hc | hc <;> exact absurd hc (by decide)
              · exact absurd p h129
            · have a' : (timerExpiry s).bytMbRxphase = 5 := a
              exfalso
              apply c4
              right; left
              rw [a']
              decide
    · rw [if_neg c2] at h
      by_cases c6 : (timerExpiry s).bytMbRxphase.testBit 7 = true
          ∧ (timerExpiry s).TXIF_bit = true
      · rw [if_pos c6] at h
        have hp128 : (timerExpiry s).bytMbRxphase = 128 := by
          rcases hP with ⟨p, -⟩ | ⟨p, -⟩ | p | p | p | p | p | ⟨p, -⟩
          all_goals first
            | exact p
            | exact absurd p h129
            | (exfalso; have c := c6.1; rw [p] at c; exact absurd c (by decide))
        by_cases c7 : (timerExpiry s).bytMbIndex < (timerExpiry s).arybytMbBuffer 0
        · rw [if_pos c7] at h
          cases h
          refine ⟨Or.inr (Or.inr (Or.inr (Or.inr hp128))), fun hc => ?_⟩
          have hc' : (timerExpiry s).bytMbRxphase = 0 ∨ (timerExpiry s).bytMbRxphase = 1 := hc
          rw [hp128] at hc'
          rcases hc' with hc' | hc' <;> exact absurd hc' (by decide)
        · rw [if_neg c7] at h
          cases h
          refine ⟨Or.inr (Or.inr (Or.inr (Or.inr hp128))), fun hc => ?_⟩
          have hc' : (timerExpiry s).bytMbRxphase = 0 ∨ (timerExpiry s).bytMbRxphase = 1 := hc
          rw [hp128] at hc'
          rcases hc' with hc' | hc' <;> exact absurd hc' (by decide)
      · rw [if_neg c6] at h
        rcases afterEvents_phase _ _ h with ⟨-, b⟩ | ⟨a3, a5, a, ai⟩ | ⟨-, b⟩
        · refine ⟨Or.inr (Or.inr (Or.inr (Or.inl b))), fun hc => ?_⟩
          rw [b] at hc
          rcases hc with hc | hc <;> exact absurd hc (by decide)
        · rw [hidx] at ai
          rcases hP with ⟨p, q⟩ | ⟨p, q⟩ | p | p | p | p | p | ⟨p, -⟩
          · rw [p] at a
            exact ⟨Or.inl a, fun _ => ai.trans q⟩
          · rw [p] at a
            exact ⟨Or.inr (Or.inl a), fun _ => ai.trans q⟩
          · rw [p] at a
            refine ⟨Or.inr (Or.inr (Or.inl a)), fun hc => ?_⟩
            rw [a] at hc
            rcases hc with hc | hc <;> exact absurd hc (by decide)
          · exact absurd p a3
          · rw [p] at a
            refine ⟨Or.inr (Or.inr (Or.inr (Or.inl a))), fun hc => ?_⟩
            rw [a] at hc
            rcases hc with hc | hc <;> exact absurd hc (by decide)
          · exact absurd p a5
          · rw [p] at a
            refine ⟨Or.inr (Or.inr (Or.inr (Or.inr a))), fun hc => ?_⟩
            rw [a] at hc
            rcases hc with hc | hc <;> exact absurd hc (by decide)
          · exact absurd p h129
        · rcases b with ⟨b1, -⟩ | ⟨b1, b2⟩
          · refine ⟨Or.inr (Or.inr (Or.inr (Or.inr b1))), fun hc => ?_⟩
            rw [b1] at hc
            rcases hc with hc | hc <;> exact absurd hc (by decide)
          · exact ⟨Or.inr (Or.inl b1), fun _ => b2⟩

theorem runEvents_keeps_phaseInvariant :
    ∀ (events : List Event) (s t : State), phaseInvariant s → runEvents s events = some t →
      phaseInvariant t := by
  intro events
  induction events with
  | nil =>
    intro s t hi h
    cases h
    exact hi
  | cons e rest ih =>
    intro s t hi h
    have h' : (decodePacket (raise s e)).bind (fun u => runEvents u rest) = some t := h
    obtain ⟨u, hu, hr⟩ := Option.bind_eq_some.mp h'
    exact ih u t (decodePacket_keeps_phaseInvariant (raise s e) u hi hu) hr

/-! ### Calls that keep to the read ceilings store inside the session buffer -/

theorem packRegistersLoop_above (data : Nat → Nat) (pBuffer uintEnd : Nat)
    (hE : uintEnd < 65535) :
    ∀ (n fuel : Nat) (v w : PackRegistersVars), v.uintStart + n = uintEnd + 1 →
      v.uintBytes + 2 * n < 65536 →
      packRegistersLoop data pBuffer uintEnd fuel v = some w →
      ∀ i, pBuffer + v.uintBytes + 2 * n ≤ i → w.mem i = v.mem i := by
  intro n
  induction n with
  | zero =>
    intro fuel v w hs _ h i _
    cases fuel with
    | zero =>
      unfold packRegistersLoop at h
      rw [if_neg (by omega)] at h
      cases h
      rfl
    | succ f =>
      unfold packRegistersLoop at h
      rw [if_neg (by omega)] at h
      cases h
      rfl
  | succ n ih =>
    intro fuel v w hs hb h i hi
    cases fuel with
    | zero =>
      unfold packRegistersLoop at h
      rw [if_pos (by omega)] at h
      cases h
    | succ f =>
      unfold packRegistersLoop at h
      rw [if_pos (by omega)] at h
      have e1 : (packRegistersPass data pBuffer v).uintStart = v.uintStart + 1 := by
        show (v.uintStart + 1) % 65536 = v.uintStart + 1
        exact Nat.mod_eq_of_lt (by omega)
      have e2 : (packRegistersPass data pBuffer v).uintBytes = v.uintBytes + 2 := by
        show ((v.uintBytes + 1) % 65536 + 1) % 65536 = v.uintBytes + 2
        rw [Nat.mod_eq_of_lt (show v.uintBytes + 1 < 65536 by omega)]
        exact Nat.mod_eq_of_lt (by omega)
      have e3 : (packRegistersPass data pBuffer v).mem
          = store (store v.mem (pBuffer + v.uintBytes) (Hi (data v.uintOffset)))
              (pBuffer + (v.uintBytes + 1)) (Lo (data v.uintOffset)) := by
        show store (store v.mem (pBuffer + v.uintBytes) (Hi (data v.uintOffset)))
              (pBuffer + (v.uintBytes + 1) % 65536) (Lo (data v.uintOffset)) = _
        rw [Nat.mod_eq_of_lt (show v.uintBytes + 1 < 65536 by omega)]
      have key := ih f (packRegistersPass data pBuffer v) w (by rw [e1]; omega)
        (by rw [e2]; omega) h i (by rw [e2]; omega)
      rw [key, e3, store_other _ _ _ _ (by omega), store_other _ _ _ _ (by omega)]

theorem packRegisters_above (regs : Registry) (eType : Nat) (mem : Nat → Nat)
    (pBuffer uintStart uintEnd m : Nat) (out : Nat → Nat) (n : Nat)
    (h : packRegisters regs eType mem pBuffer uintStart uintEnd = some (out, n))
    (hN : uintEnd < 65535 → uintEnd + 1 - uintStart ≤ m) (hm : 2 * m < 65536) :
    ∀ i, pBuffer + 2 * m ≤ i → out i = mem i := by
  intro i hi
  unfold packRegisters at h
  simp only [] at h
  split at h
  · cases h; rfl
  · split at h
    · cases h; rfl
    · rename_i pNode _
      split at h
      · rename_i hlt
        have hE : uintEnd < 65535 := by
          have := Nat.mod_lt (pNode.uintAddress + pNode.uintTotal) (show 65536 > 0 by decide)
          omega
        obtain ⟨w, hw, e⟩ := Option.map_eq_some'.mp h
        cases e
        by_cases hse : uintStart ≤ uintEnd
        · have key := packRegistersLoop_above pNode.paryData pBuffer uintEnd hE
            (uintEnd + 1 - uintStart) 65536 _ w (by show uintStart + _ = _; omega)
            (by show 0 + _ < _; have := hN hE; omega) hw i
            (by show pBuffer + 0 + _ ≤ i; have := hN hE; omega)
          exact key
        · unfold packRegistersLoop at hw
          rw [if_neg hse] at hw
          cases hw
          rfl
      · cases h; rfl

theorem respBit_shift (r : Nat) (hr : r < 8) :
    ((2 ^ r <<< 1) % 256 = 0 ↔ r = 7) ∧ (r < 7 → (2 ^ r <<< 1) % 256 = 2 ^ (r + 1)) := by
  interval_cases r <;> decide

theorem packBitsLoop_above (data : Nat → Nat) (uintEnd : Nat) (hE : uintEnd < 65535) :
    ∀ (n fuel : Nat) (v w : PackBitsVars) (r : Nat), v.uintStart + n = uintEnd + 1 →
      v.respBit = 2 ^ r → r < 8 →
      packBitsLoop data uintEnd fuel v = some w →
      ∀ i, v.pBuffer + (r + n) / 8 < i → w.mem i = v.mem i := by
  intro n
  induction n with
  | zero =>
    intro fuel v w r hs _ _ h i _
    cases fuel with
    | zero =>
      unfold packBitsLoop at h
      rw [if_neg (by omega)] at h
      cases h
      rfl
    | succ f =>
      unfold packBitsLoop at h
      rw [if_neg (by omega)] at h
      cases h
      rfl
  | succ n ih =>
    intro fuel v w r hs hb hr h i hi
    cases fuel with
    | zero =>
      unfold packBitsLoop at h
      rw [if_pos (by omega)] at h
      cases h
    | succ f =>
      unfold packBitsLoop at h
      rw [if_pos (by omega)] at h
      obtain ⟨s1, s2⟩ := respBit_shift r hr
      have e1 : (packBitsPass data v).uintStart = v.uintStart + 1 := by
        show (v.uintStart + 1) % 65536 = v.uintStart + 1
        exact Nat.mod_eq_of_lt (by omega)
      have hm1 : ∀ j, v.pBuffer < j →
          (if data v.bytIndex &&& v.dataBit ≠ 0 then
            store v.mem v.pBuffer (v.mem v.pBuffer ||| v.respBit) else v.mem) j = v.mem j := by
        intro j hj
        split
        · exact store_other _ _ _ _ (by omega)
        · rfl
      by_cases h7 : r = 7
      · have hz : (v.respBit <<< 1) % 256 = 0 := by rw [hb]; exact s1.mpr h7
        have e2 : (packBitsPass data v).pBuffer = v.pBuffer + 1 := by
          unfold packBitsPass
          simp only [hz, if_true]
        have e3 : (packBitsPass data v).respBit = 2 ^ 0 := by
          unfold packBitsPass
          simp only [hz, if_true]
          rfl
        have e4 : ∀ j, v.pBuffer + 1 < j → (packBitsPass data v).mem j = v.mem j := by
          intro j hj
          unfold packBitsPass
          simp only [hz, if_true]
          rw [store_other _ _ _ _ (by omega)]
          exact hm1 j (by omega)
        have hdiv : (r + (n + 1)) / 8 = 1 + n / 8 := by
          rw [h7]
          omega
        have key := ih f (packBitsPass data v) w 0 (by rw [e1]; omega) e3 (by decide) h i
          (by rw [e2, Nat.zero_add]; omega)
        rw [key]
        exact e4 i (by omega)
      · have hnz : (v.respBit <<< 1) % 256 = 2 ^ (r + 1) := by rw [hb]; exact s2 (by omega)
        have hne : ¬ ((v.respBit <<< 1) % 256 = 0) := by
          rw [hnz]
          exact Nat.pos_iff_ne_zero.mp (Nat.pow_pos (by decide))
        have e2 : (packBitsPass data v).pBuffer = v.pBuffer := by
          unfold packBitsPass
          simp only [hne, if_false]
        have e3 : (packBitsPass data v).respBit = 2 ^ (r + 1) := by
          unfold packBitsPass
          simp only [hne, if_false]
          exact hnz
        have e4 : ∀ j, v.pBuffer < j → (packBitsPass data v).mem j = v.mem j := by
          intro j hj
          unfold packBitsPass
          simp only [hne, if_false]
          exact hm1 j hj
        have key := ih f (packBitsPass data v) w (r + 1) (by rw [e1]; omega) e3 (by omega) h i
          (by rw [e2]; have e : r + 1 + n = r + (n + 1) := by omega
              rw [e]; exact hi)
        rw [key]
        exact e4 i (by omega)

theorem packBits_above (regs : Registry) (eType : Nat) (mem : Nat → Nat)
    (pBuffer uintStart uintEnd m : Nat) (out : Nat → Nat) (n : Nat)
    (h : packBits regs eType mem pBuffer uintStart uintEnd = some (out, n))
    (hN : uintEnd < 65535 → uintEnd + 1 - uintStart ≤ m) :
    ∀ i, pBuffer + m / 8 < i → out i = mem i := by
  intro i hi
  unfold packBits at h
  simp only [] at h
  split at h
  · cases h; rfl
  · split at h
    · cases h; rfl
    · rename_i pNode _
      split at h
      · rename_i hlt
        have hE : uintEnd < 65535 := by
          have := Nat.mod_lt (pNode.uintAddress + pNode.uintTotal) (show 65536 > 0 by decide)
          omega
        obtain ⟨w, hw, e⟩ := Option.map_eq_some'.mp h
        cases e
        have hmono : (uintEnd + 1 - uintStart) / 8 ≤ m / 8 := Nat.div_le_div_right (hN hE)
        by_cases hse : uintStart ≤ uintEnd
        · have key := packBitsLoop_above pNode.paryData uintEnd hE
            (uintEnd + 1 - uintStart) 65536 _ w 0 (by show uintStart + _ = _; omega)
            rfl (by decide) hw i
            (by show pBuffer + (0 + _) / 8 < i; rw [Nat.zero_add]; omega)
          rw [key]
          exact store_other _ _ _ _ (by omega)
        · unfold packBitsLoop at hw
          rw [if_neg hse] at hw
          cases hw
          exact store_other _ _ _ _ (by omega)
      · cases h; rfl

theorem execute_above (u v : State) (h : execute u = some v)
    (hbits : (u.arybytMbBuffer 1 = READ_COILS ∨ u.arybytMbBuffer 1 = READ_STATUS_INPUTS) →
      word (u.arybytMbBuffer 4) (u.arybytMbBuffer 5) ≤ MAX_DISCRETES_IN_1_AND_2)
    (hregs : (u.arybytMbBuffer 1 = READ_HOLDING_REGISTERS
        ∨ u.arybytMbBuffer 1 = READ_INPUT_REGISTERS) →
      word (u.arybytMbBuffer 4) (u.arybytMbBuffer 5) ≤ MAX_REGISTERS_IN_3_AND_4) :
    (∀ i, 256 ≤ i → v.arybytMbBuffer i = u.arybytMbBuffer i)
    ∧ (u.bytMbIndex < 256 → v.bytMbIndex < 256) := by
  unfold execute at h
  simp only [] at h
  generalize hS : (word (u.arybytMbBuffer 2) (u.arybytMbBuffer 3) + 1) % 65536 = S at h
  have hlen : ¬ (u.arybytMbBuffer 1 = FORCE_SINGLE_COIL
        ∨ u.arybytMbBuffer 1 = PRESET_SINGLE_REGISTER) →
      (word (u.arybytMbBuffer 2) (u.arybytMbBuffer 3)
            + (if u.arybytMbBuffer 1 = FORCE_SINGLE_COIL
                  ∨ u.arybytMbBuffer 1 = PRESET_SINGLE_REGISTER then 1
               else word (u.arybytMbBuffer 4) (u.arybytMbBuffer 5))) % 65536 < 65535 →
      (word (u.arybytMbBuffer 2) (u.arybytMbBuffer 3)
            + (if u.arybytMbBuffer 1 = FORCE_SINGLE_COIL
                  ∨ u.arybytMbBuffer 1 = PRESET_SINGLE_REGISTER then 1
               else word (u.arybytMbBuffer 4) (u.arybytMbBuffer 5))) % 65536 + 1 - S
        ≤ word (u.arybytMbBuffer 4) (u.arybytMbBuffer 5) := by
    intro hn hlt
    rw [if_neg hn] at hlt ⊢
    rw [← hS]
    exact range_length_le_count _ _ (by omega)
  generalize hE : (word (u.arybytMbBuffer 2) (u.arybytMbBuffer 3)
            + (if u.arybytMbBuffer 1 = FORCE_SINGLE_COIL
                  ∨ u.arybytMbBuffer 1 = PRESET_SINGLE_REGISTER then 1
               else word (u.arybytMbBuffer 4) (u.arybytMbBuffer 5))) % 65536 = E at h hlen
  have hR := resolveCurrBlock_eq u S E
  generalize (resolveCurrBlock u S E).pCurrBlock = pc at hR
  generalize resolveCurrBlock u S E = R at h hR
  by_cases h1 : u.arybytMbBuffer 1 = READ_COILS ∨ u.arybytMbBuffer 1 = READ_STATUS_INPUTS
  · rw [if_pos h1] at h
    have hn : ¬ (u.arybytMbBuffer 1 = FORCE_SINGLE_COIL
        ∨ u.arybytMbBuffer 1 = PRESET_SINGLE_REGISTER) := by
      rcases h1 with a | a <;> rw [a] <;> decide
    have hb := hbits h1
    subst hR
    split at h
    · cases h
    · rename_i mem n heq
      have key := packBits_above _ _ _ _ _ _ MAX_DISCRETES_IN_1_AND_2 _ _ heq
        (fun hlt => Nat.le_trans (hlen hn hlt) hb)
      have kb : ∀ i, 256 ≤ i → (store mem 2 (n % 256)) i = u.arybytMbBuffer i := by
        intro i hi
        rw [store_other _ _ _ _ (by omega)]
        exact key i (by
          have e : 3 + MAX_DISCRETES_IN_1_AND_2 / 8 = 253 := by decide
          omega)
      split at h
      · cases h
        exact ⟨kb, fun hi => hi⟩
      · cases h
        exact ⟨kb, fun _ => Nat.mod_lt _ (by decide)⟩
  · rw [if_neg h1] at h
    by_cases h2 : u.arybytMbBuffer 1 = READ_HOLDING_REGISTERS
        ∨ u.arybytMbBuffer 1 = READ_INPUT_REGISTERS
    · rw [if_pos h2] at h
      have hn : ¬ (u.arybytMbBuffer 1 = FORCE_SINGLE_COIL
          ∨ u.arybytMbBuffer 1 = PRESET_SINGLE_REGISTER) := by
        rcases h2 with a | a <;> rw [a] <;> decide
      have hb := hregs h2
      subst hR
      split at h
      · cases h
      · rename_i mem n heq
        have key := packRegisters_above _ _ _ _ _ _ MAX_REGISTERS_IN_3_AND_4 _ _ heq
          (fun hlt => Nat.le_trans (hlen hn hlt) hb) (by decide)
        have kb : ∀ i, 256 ≤ i → (store mem 2 (n % 256)) i = u.arybytMbBuffer i := by
          intro i hi
          rw [store_other _ _ _ _ (by omega)]
          exact key i (by
            have e : 3 + 2 * MAX_REGISTERS_IN_3_AND_4 = 253 := by decide
            omega)
        split at h
        · cases h
          exact ⟨kb, fun hi => hi⟩
        · cases h
          exact ⟨kb, fun _ => Nat.mod_lt _ (by decide)⟩
    · rw [if_neg h2] at h
      by_cases h3 : u.arybytMbBuffer 1 = FORCE_SINGLE_COIL
      · rw [if_pos h3] at h
        generalize hs1 : (if R.arybytMbBuffer 4 = 0xff ∧ R.arybytMbBuffer 5 = 0x0 then
            { (coilState R S true).1 with blnState := (coilState R S true).2 }
          else if R.arybytMbBuffer 4 = 0x0 ∧ R.arybytMbBuffer 5 = 0x0 then
            { (coilState R S false).1 with blnState := (coilState R S false).2 }
          else R) = s1 at h
        have hs1' : s1.arybytMbBuffer = R.arybytMbBuffer ∧ s1.bytMbIndex = R.bytMbIndex := by
          subst hs1
          obtain ⟨r1, e1, -⟩ := coilState_spec R S true
          obtain ⟨r2, e2, -⟩ := coilState_spec R S false
          by_cases c1 : R.arybytMbBuffer 4 = 0xff ∧ R.arybytMbBuffer 5 = 0x0
          · rw [if_pos c1, e1]; exact ⟨rfl, rfl⟩
          · rw [if_neg c1]
            by_cases c2 : R.arybytMbBuffer 4 = 0x0 ∧ R.arybytMbBuffer 5 = 0x0
            · rw [if_pos c2, e2]; exact ⟨rfl, rfl⟩
            · rw [if_neg c2]; exact ⟨rfl, rfl⟩
        obtain ⟨b1, b2⟩ := hs1'
        subst hR
        split at h
        · cases h
          exact ⟨fun i _ => congrFun b1 i, fun hi => b2 ▸ hi⟩
        · cases h
          exact ⟨fun i _ => congrFun b1 i, fun _ => Nat.mod_lt _ (by decide)⟩
      · rw [if_neg h3] at h
        by_cases h4 : u.arybytMbBuffer 1 = PRESET_SINGLE_REGISTER
        · rw [if_pos h4] at h
          obtain ⟨r, e1, -⟩ := setRegister_spec R S (R.arybytMbBuffer 4) (R.arybytMbBuffer 5)
          rw [e1] at h
          subst hR
          split at h
          · cases h
            exact ⟨fun i _ => rfl, fun hi => hi⟩
          · cases h
            exact ⟨fun i _ => rfl, fun _ => Nat.mod_lt _ (by decide)⟩
        · rw [if_neg h4] at h
          generalize (if u.arybytMbBuffer 1 = FORCE_SINGLE_COIL
              ∨ u.arybytMbBuffer 1 = PRESET_SINGLE_REGISTER then 1
            else word (u.arybytMbBuffer 4) (u.arybytMbBuffer 5)) = cnt at h
          by_cases h5 : u.arybytMbBuffer 1 = FORCE_MULTIPLE_COILS
              ∧ (cnt > MAX_DISCRETES_IN_FC15 ∨ cnt > (R.arybytMbBuffer 6 % 256) * 8)
          · rw [if_pos h5] at h
            subst hR
            cases h
            exact ⟨fun i _ => rfl, fun hi => hi⟩
          · rw [if_neg h5] at h
            by_cases h6 : u.arybytMbBuffer 1 = FORCE_MULTIPLE_COILS
                ∨ u.arybytMbBuffer 1 = PRESET_MULTIPLE_REGISTERS
            · rw [if_pos h6] at h
              by_cases h7 : u.arybytMbBuffer 1 = PRESET_MULTIPLE_REGISTERS
                  ∧ cnt > MAX_REGISTERS_IN_FC16
              · rw [if_pos h7] at h
                subst hR
                cases h
                exact ⟨fun i _ => rfl, fun hi => hi⟩
              · rw [if_neg h7] at h
                split at h
                · cases h
                · rename_i w hw
                  obtain ⟨r, e, bs, e1, -, -⟩ := writeLoop_spec _ _ _ _ hw
                  simp only [] at e1
                  rw [e1] at h
                  subst hR
                  simp only [] at h
                  by_cases h8 : e = NO_EXCEPTION
                  · rw [if_pos h8] at h
                    cases h
                    exact ⟨fun i _ => rfl, fun _ => Nat.mod_lt _ (by decide)⟩
                  · rw [if_neg h8] at h
                    cases h
                    exact ⟨fun i _ => rfl, fun hi => hi⟩
            · rw [if_neg h6] at h
              subst hR
              cases h
              exact ⟨fun i _ => rfl, fun hi => hi⟩

theorem request_above (t v : State) (h : request t = some v)
    (hbits : (t.arybytMbBuffer 1 = READ_COILS ∨ t.arybytMbBuffer 1 = READ_STATUS_INPUTS) →
      word (t.arybytMbBuffer 4) (t.arybytMbBuffer 5) ≤ MAX_DISCRETES_IN_1_AND_2)
    (hregs : (t.arybytMbBuffer 1 = READ_HOLDING_REGISTERS
        ∨ t.arybytMbBuffer 1 = READ_INPUT_REGISTERS) →
      word (t.arybytMbBuffer 4) (t.arybytMbBuffer 5) ≤ MAX_REGISTERS_IN_3_AND_4) :
    (∀ i, 256 ≤ i → v.arybytMbBuffer i = t.arybytMbBuffer i) ∧ v.bytMbIndex < 256 := by
  unfold request at h
  simp only [] at h
  have hsel : (selectTable { t with bytMbIndex := 3 }).arybytMbBuffer = t.arybytMbBuffer
      ∧ (selectTable { t with bytMbIndex := 3 }).bytMbIndex = 3 := by
    rcases selectTable_spec { t with bytMbIndex := 3 } with ⟨e, -⟩ | e | ⟨k, e, -⟩ <;>
      rw [e] <;> exact ⟨rfl, rfl⟩
  obtain ⟨b1, b2⟩ := hsel
  by_cases he : (selectTable { t with bytMbIndex := 3 }).eMbExceptionCode = NO_EXCEPTION
  · rw [if_pos he] at h
    obtain ⟨k1, k2⟩ := execute_above _ v h (by rw [b1]; exact hbits) (by rw [b1]; exact hregs)
    refine ⟨fun i hi => ?_, k2 (by rw [b2]; decide)⟩
    rw [k1 i hi, b1]
  · rw [if_neg he] at h
    cases h
    exact ⟨fun i _ => by rw [b1], by rw [b2]; decide⟩

theorem transmitStart_above (s s' : State) (h : transmitStart s = some s')
    (hidx : s.bytMbIndex < 256) :
    ∀ i, 256 ≤ i → s'.arybytMbBuffer i = s.arybytMbBuffer i := by
  intro i hi
  unfold transmitStart at h
  simp only [] at h
  by_cases h0 : s.bytMbRxphase.testBit 0 = false
  · rw [if_pos h0] at h; cases h
  · rw [if_neg h0] at h
    cases h
    show store (store (store s.arybytMbBuffer s.bytMbIndex _) ((s.bytMbIndex + 1) % 256) _) 0 _ i
      = s.arybytMbBuffer i
    have hm : (s.bytMbIndex + 1) % 256 < 256 := Nat.mod_lt _ (by decide)
    rw [store_other _ _ _ _ (by omega), store_other _ _ _ _ (by omega),
      store_other _ _ _ _ (by omega)]

theorem respond_above (v s' : State) (h : respond v = some s') (hidx : v.bytMbIndex < 256) :
    ∀ i, 256 ≤ i → s'.arybytMbBuffer i = v.arybytMbBuffer i := by
  intro i hi
  unfold respond at h
  simp only [] at h
  by_cases he : v.eMbExceptionCode ≠ NO_EXCEPTION
  · rw [if_pos he] at h
    simp only [] at h
    have hb : store (store v.arybytMbBuffer 1 (v.arybytMbBuffer 1 ||| EXCEPTION_FLAG)) 2
        (v.eMbExceptionCode % 256) i = v.arybytMbBuffer i := by
      rw [store_other _ _ _ _ (by omega), store_other _ _ _ _ (by omega)]
    by_cases hi0 : v.bytMbIndex > 0
    · rw [if_pos hi0] at h
      rw [transmitStart_above _ _ h hidx i hi]
      exact hb
    · rw [if_neg hi0] at h
      cases h
      exact hb
  · rw [if_neg he] at h
    by_cases hi0 : v.bytMbIndex > 0
    · rw [if_pos hi0] at h
      exact transmitStart_above _ _ h hidx i hi
    · rw [if_neg hi0] at h
      cases h
      rfl

theorem afterEvents_buffer (x s' : State) (h : afterEvents x = some s') :
    s'.arybytMbBuffer = x.arybytMbBuffer ∨ (x.bytMbRxphase = 5 ∧ frameReady x = some s') := by
  unfold afterEvents at h
  simp only [] at h
  by_cases h3 : x.bytMbRxphase = 3
  · rw [if_pos h3] at h
    have h4 : (startTimeout { x with bytMbRxphase := 4 }).bytMbRxphase ≠ 5 := by
      show (4 : Nat) ≠ 5
      decide
    rw [if_pos h4] at h
    cases h
    exact Or.inl rfl
  · rw [if_neg h3] at h
    by_cases h5 : x.bytMbRxphase ≠ 5
    · rw [if_pos h5] at h
      cases h
      exact Or.inl rfl
    · rw [if_neg h5] at h
      exact Or.inr ⟨not_not.mp h5, h⟩

theorem frameReady_buffer (x s' : State) (h : frameReady x = some s') :
    s'.arybytMbBuffer = x.arybytMbBuffer
      ∨ ((x.bytMbSlaveAddress = x.arybytMbBuffer 0 ∧ x.bytMbIndex > 3)
        ∧ (Lo (calcCRC x.arybytMbBuffer (x.bytMbIndex - 2))
            = x.arybytMbBuffer (x.bytMbIndex - 2)
          ∧ Hi (calcCRC x.arybytMbBuffer (x.bytMbIndex - 2))
            = x.arybytMbBuffer (x.bytMbIndex - 2 + 1))
        ∧ dispatch (dispatchEntry x) = some s') := by
  unfold frameReady at h
  simp only [] at h
  by_cases h1 : x.bytMbSlaveAddress = x.arybytMbBuffer 0 ∧ x.bytMbIndex > 3
  · rw [if_pos h1] at h
    by_cases h2 : Lo (calcCRC x.arybytMbBuffer (x.bytMbIndex - 2))
          = x.arybytMbBuffer (x.bytMbIndex - 2)
        ∧ Hi (calcCRC x.arybytMbBuffer (x.bytMbIndex - 2))
          = x.arybytMbBuffer (x.bytMbIndex - 2 + 1)
    · rw [if_pos h2] at h
      exact Or.inr ⟨h1, h2, h⟩
    · rw [if_neg h2] at h
      cases h
      exact Or.inl rfl
  · rw [if_neg h1] at h
    cases h
    exact Or.inl rfl

/-- A call of decodePacket that returns and keeps to the read ceilings stores nothing behind
the 256 bytes of arybytMbBuffer. -/
theorem decodePacket_above (s s' : State) (h : decodePacket s = some s')
    (hfit : readWithinCeiling s) :
    ∀ i, 256 ≤ i → s'.arybytMbBuffer i = s.arybytMbBuffer i := by
  intro i hi
  obtain ⟨-, -, -, -, f5, f6, f7, f8, -, -⟩ := timerExpiry_fields s
  unfold decodePacket at h
  simp only [] at h
  by_cases c1 : s.TMR0IF_bit = true ∧ (timerExpiry s).bytMbRxphase.testBit 7 = true
  · rw [if_pos c1] at h
    cases h
    exact congrFun f6 i
  · rw [if_neg c1] at h
    by_cases c2 : (timerExpiry s).RCIF_bit = true
    · rw [if_pos c2] at h
      by_cases c3 : (timerExpiry s).OERR_bit = true ∨ (timerExpiry s).FERR_bit = true
      · rw [if_pos c3] at h
        cases h
        exact congrFun f6 i
      · rw [if_neg c3] at h
        by_cases c4 : (timerExpiry s).bytMbRxphase = 0
            ∨ (timerExpiry s).bytMbRxphase.testBit 2 = true
            ∨ (timerExpiry s).bytMbIndex ≥ MAX_PACKET_LENGTH
        · rw [if_pos c4] at h
          cases h
          exact congrFun f6 i
        · rw [if_neg c4] at h
          have hlt : (timerExpiry s).bytMbIndex < 256 := by
            have c := fun a => c4 (Or.inr (Or.inr a))
            have c' : ¬ (timerExpiry s).bytMbIndex ≥ 256 := c
            omega
          by_cases c5 : (timerExpiry s).bytMbIndex = 0
          · simp only [c5, if_true] at h
            rcases afterEvents_buffer _ _ h with g | ⟨g1, -⟩
            · rw [g]
              show store (timerExpiry s).arybytMbBuffer 0 _ i = s.arybytMbBuffer i
              rw [store_other _ _ _ _ (by omega)]
              exact congrFun f6 i
            · exact absurd (show (2 : Nat) = 5 from g1) (by decide)
          · simp only [c5, if_false] at h
            rcases afterEvents_buffer _ _ h with g | ⟨g1, -⟩
            · rw [g]
              show store (timerExpiry s).arybytMbBuffer (timerExpiry s).bytMbIndex _ i
                = s.arybytMbBuffer i
              rw [store_other _ _ _ _ (by omega)]
              exact congrFun f6 i
            · exfalso
              have g2 : (timerExpiry s).bytMbRxphase = 5 := g1
              apply c4
              right; left
              rw [g2]
              decide
    · rw [if_neg c2] at h
      by_cases c6 : (timerExpiry s).bytMbRxphase.testBit 7 = true
          ∧ (timerExpiry s).TXIF_bit = true
      · rw [if_pos c6] at h
        by_cases c7 : (timerExpiry s).bytMbIndex < (timerExpiry s).arybytMbBuffer 0
        · rw [if_pos c7] at h
          cases h
          exact congrFun f6 i
        · rw [if_neg c7] at h
          cases h
          exact congrFun f6 i
      · rw [if_neg c6] at h
        rcases afterEvents_buffer _ _ h with g | ⟨g1, g2⟩
        · rw [g]; exact congrFun f6 i
        · rcases frameReady_buffer _ _ g2 with k | ⟨k1, k2, k3⟩
          · rw [k]; exact congrFun f6 i
          · have hready : FrameReady s := by
              refine ⟨?_, ?_⟩
              · rw [f5] at c2
                cases hb : s.RCIF_bit with
                | true => exact absurd hb c2
                | false => rfl
              · unfold timerExpiry at g1
                by_cases ht : s.TMR0IF_bit = true
                · rw [if_pos ht] at g1 ⊢
                  exact g1
                · rw [if_neg ht] at g1 ⊢
                  exact g1
            rw [f6, f7, f8] at k1
            rw [f6, f7] at k2
            obtain ⟨hb, hr⟩ := hfit ⟨hready, k1.1, k1.2, k2.1, k2.2⟩
            obtain ⟨v, hv, hresp⟩ := dispatch_some _ _ k3
            have hbuf : (dispatchEntry (timerExpiry s)).arybytMbBuffer = s.arybytMbBuffer := f6
            obtain ⟨r1, r2⟩ := request_above _ v hv (by rw [hbuf]; exact hb)
              (by rw [hbuf]; exact hr)
            rw [respond_above _ _ hresp r2 i hi, r1 i hi, hbuf]

/-! ### Exception responses -/

/-- Exception responses of calls that keep to the read ceilings of modbus.h
(readWithinCeiling): when the dispatcher, run by decodePacket in FrameReady on a CRC-valid
frame addressed to this slave with no exception pending at entry, reaches the point where
the response is built with an exception set, the code is ILLEGAL_FUNCTION or
ILLEGAL_DATA_ADDRESS and the response started is exactly the five bytes address, function
byte with bit 0x80 set, exception code, and the CRC of these three bytes low byte first; the
holder eMbExceptionCode is NO_EXCEPTION when decodePacket returns, and nothing has been
stored behind the 256 bytes of arybytMbBuffer. And every such call of decodePacket that is
entered with eMbExceptionCode = NO_EXCEPTION returns with eMbExceptionCode = NO_EXCEPTION. -/
theorem decodePacket_exception_response_within_ceiling :
    (∀ (s v : State), FrameReady s → s.arybytMbBuffer 0 = s.bytMbSlaveAddress →
      (3 < s.bytMbIndex ∧ s.bytMbIndex < 256) →
      (s.arybytMbBuffer (s.bytMbIndex - 2)
          = Lo (crc16 (bufferBytes s.arybytMbBuffer (s.bytMbIndex - 2)))
        ∧ s.arybytMbBuffer (s.bytMbIndex - 1)
          = Hi (crc16 (bufferBytes s.arybytMbBuffer (s.bytMbIndex - 2)))) →
      (s.arybytMbBuffer 0 < 256 ∧ s.arybytMbBuffer 1 < 256) →
      s.eMbExceptionCode = NO_EXCEPTION → readWithinCeiling s →
      request (dispatchEntry (timerExpiry s)) = some v →
      v.eMbExceptionCode ≠ NO_EXCEPTION →
      (v.eMbExceptionCode = ILLEGAL_FUNCTION ∨ v.eMbExceptionCode = ILLEGAL_DATA_ADDRESS)
      ∧ ∃ s', decodePacket s = some s'
        ∧ responseFrame s' = s.TXREG ++
            [s.arybytMbBuffer 0, s.arybytMbBuffer 1 ||| EXCEPTION_FLAG, v.eMbExceptionCode,
             Lo (crc16 [s.arybytMbBuffer 0, s.arybytMbBuffer 1 ||| EXCEPTION_FLAG,
                        v.eMbExceptionCode]),
             Hi (crc16 [s.arybytMbBuffer 0, s.arybytMbBuffer 1 ||| EXCEPTION_FLAG,
                        v.eMbExceptionCode])]
        ∧ s'.eMbExceptionCode = NO_EXCEPTION
        ∧ ∀ i, 256 ≤ i → s'.arybytMbBuffer i = s.arybytMbBuffer i)
    ∧ (∀ (s s' : State), decodePacket s = some s' → readWithinCeiling s →
        s.eMbExceptionCode = NO_EXCEPTION → s'.eMbExceptionCode = NO_EXCEPTION) := by
  constructor
  · intro s v hr haddr hlen hcrc hbytes hexc hfit hv hset
    obtain ⟨f1, f2, -, -, -, f6, f7, f8, f9, -⟩ := timerExpiry_fields s
    have hp := timerExpiry_phase s hr
    have hd : decodePacket s = dispatch (dispatchEntry (timerExpiry s)) := by
      rw [decodePacket_of_frameReady s hr,
        frameReady_dispatch (timerExpiry s) (by rw [f6, f8]; exact haddr)
          (by rw [f7]; exact hlen) (by rw [f6, f7]; exact hcrc)]
      rfl
    obtain ⟨pc, r, e, bs, buf, idx, e1, -, g2, g3, g4, -⟩ := request_spec _ _ hv
    have tb : (dispatchEntry (timerExpiry s)).arybytMbBuffer = s.arybytMbBuffer := f6
    have te : (dispatchEntry (timerExpiry s)).eMbExceptionCode = NO_EXCEPTION := f9.trans hexc
    have tp : (dispatchEntry (timerExpiry s)).bytMbRxphase = 5 := hp
    have ttx : (dispatchEntry (timerExpiry s)).TXREG = s.TXREG := f2
    have ve : v.eMbExceptionCode = e := by rw [e1]
    have vi : v.bytMbIndex = idx := by rw [e1]
    have vb : v.arybytMbBuffer = buf := by rw [e1]
    have vp : v.bytMbRxphase = 5 := by rw [e1]; exact tp
    have vtx : v.TXREG = s.TXREG := by rw [e1]; exact ttx
    rw [tb] at g2 g3
    have hcode : (e = ILLEGAL_FUNCTION ∨ e = ILLEGAL_DATA_ADDRESS) ∧ idx = 3 := by
      rcases g4 with g4 | g4
      · rw [ve, g4, te] at hset
        exact absurd rfl hset
      · exact g4
    have e3 : Nat.testBit 5 0 = true := by decide
    have hlt : v.eMbExceptionCode < 256 := by
      rw [ve]
      rcases hcode.1 with hc | hc <;> rw [hc] <;> decide
    obtain ⟨s', h1, h2, -, h4⟩ := respond_exception_frame v hset (by rw [vi]; exact hcode.2)
      (by rw [vp]; exact e3) (by rw [vb, g2]; exact hbytes.1) (by rw [vb, g3]; exact hbytes.2)
      hlt
    have hs' : decodePacket s = some s' := by
      rw [hd, dispatch_eq_request, hv]
      exact h1
    refine ⟨by rw [ve]; exact hcode.1, s', hs', ?_, h4, decodePacket_above s s' hs' hfit⟩
    rw [h2, vtx, vb, g2, g3]
  · intro s s' h _ hexc
    rcases decodePacket_cases s s' h with ⟨-, h2⟩ | ⟨-, hd⟩
    · rw [h2]; exact hexc
    · obtain ⟨v, -, hresp⟩ := dispatch_some _ _ hd
      exact (respond_fields _ _ hresp).2.2

theorem decodePacket_exception_response_within_ceiling_witness :
    (FrameReady (sessionState regsTwoHolding 1
        (bufferOf [0x01, 0x2B, 0x00, 0x00, 0x00, 0x00, 0x25, 0xCC]) 8 5)
      ∧ request (dispatchEntry (timerExpiry (sessionState regsTwoHolding 1
          (bufferOf [0x01, 0x2B, 0x00, 0x00, 0x00, 0x00, 0x25, 0xCC]) 8 5)))
        = some { sessionState regsTwoHolding 1
            (bufferOf [0x01, 0x2B, 0x00, 0x00, 0x00, 0x00, 0x25, 0xCC]) 3 5 with
            uintCRC := 0xCC25, eMbExceptionCode := ILLEGAL_FUNCTION })
    ∧ (∃ s', decodePacket (sessionState regsTwoHolding 1
          (bufferOf [0x01, 0x2B, 0x00, 0x00, 0x00, 0x00, 0x25, 0xCC]) 8 5) = some s'
        ∧ responseFrame s' = [0x01, 0xAB, 0x01, 0x9E, 0xF0]
        ∧ s'.eMbExceptionCode = NO_EXCEPTION
        ∧ ∀ i, 256 ≤ i → s'.arybytMbBuffer i
            = bufferOf [0x01, 0x2B, 0x00, 0x00, 0x00, 0x00, 0x25, 0xCC] i)
    ∧ (∃ s', decodePacket (sessionState regsTwoHolding 1
          (bufferOf [0x01, 0x2B, 0x00, 0x00, 0x00, 0x00, 0x25, 0xCC]) 8 5) = some s'
        ∧ s'.eMbExceptionCode = NO_EXCEPTION) :=
  ⟨⟨by decide, rfl⟩,
   (decodePacket_exception_response_within_ceiling.1
      (sessionState regsTwoHolding 1
        (bufferOf [0x01, 0x2B, 0x00, 0x00, 0x00, 0x00, 0x25, 0xCC]) 8 5)
      { sessionState regsTwoHolding 1
            (bufferOf [0x01, 0x2B, 0x00, 0x00, 0x00, 0x00, 0x25, 0xCC]) 3 5 with
            uintCRC := 0xCC25, eMbExceptionCode := ILLEGAL_FUNCTION }
      (by decide) (by decide) (by decide) (by decide) (by decide) (by decide) (by decide) rfl
      (by decide)).2,
   (Option.isSome_iff_exists.mp
    (show (decodePacket (sessionState regsTwoHolding 1
      (bufferOf [0x01, 0x2B, 0x00, 0x00, 0x00, 0x00, 0x25, 0xCC]) 8 5)).isSome = true
      by decide)).elim
    (fun s' h => ⟨s', h,
      decodePacket_exception_response_within_ceiling.2 _ s' h (by decide) rfl⟩)⟩

theorem execute_read_holding_wrapped (u : State) (out : Nat → Nat) (n : Nat)
    (hfn : u.arybytMbBuffer 1 = READ_HOLDING_REGISTERS)
    (hpack : packRegisters u.regs HOLDING_REGISTERS u.arybytMbBuffer 3
        ((word (u.arybytMbBuffer 2) (u.arybytMbBuffer 3) + 1) % 65536)
        ((word (u.arybytMbBuffer 2) (u.arybytMbBuffer 3)
            + word (u.arybytMbBuffer 4) (u.arybytMbBuffer 5)) % 65536) = some (out, n))
    (hn : n % 256 = 0) :
    ∃ u', execute u = some u' ∧ u'.arybytMbBuffer = store out 2 (n % 256)
      ∧ u'.bytMbIndex = u.bytMbIndex
      ∧ u'.eMbExceptionCode = ILLEGAL_DATA_ADDRESS ∧ u'.bytMbRxphase = u.bytMbRxphase
      ∧ u'.regs = u.regs ∧ u'.TXREG = u.TXREG := by
  obtain ⟨r1, r2, r3, r4, r5, r6⟩ := resolveCurrBlock_fields u
    ((word (u.arybytMbBuffer 2) (u.arybytMbBuffer 3) + 1) % 65536)
    ((word (u.arybytMbBuffer 2) (u.arybytMbBuffer 3)
            + word (u.arybytMbBuffer 4) (u.arybytMbBuffer 5)) % 65536)
  unfold execute
  simp +decide only [hfn, r1, r2, r3, or_self, or_false, false_or, if_false, true_or, if_true,
    hpack, if_pos hn]
  exact ⟨_, rfl, rfl, rfl, rfl, r5, rfl, r6⟩

/-- Block changes of calls that return and keep to the read ceilings of modbus.h
(readWithinCeiling): such a call of decodePacket never changes a discrete-input or
input-register block; when the function byte is 1, 2, 3 or 4 it leaves every block of every
list as it was; when any block differs afterwards, the call ran the dispatcher on a
function 5 or 15 (then the block is in the coil list) or 6 or 16 (then it is in the
holding-register list), the block is the one the search loop of the dispatcher found for the
addressed range, which lies within that block, and regsStep holds with its position: every
other node of every list is unchanged, and the found block keeps its slave address, kind,
first address, size and callback; and nothing has been stored behind the 256 bytes of
arybytMbBuffer. -/
theorem decodePacket_writes_only_resolved_block_within_ceiling (s s' : State)
    (h : decodePacket s = some s') (hfit : readWithinCeiling s) :
    s'.regs.pStatusBits = s.regs.pStatusBits ∧ s'.regs.pInputRegs = s.regs.pInputRegs
    ∧ ((s.arybytMbBuffer 1 = READ_COILS ∨ s.arybytMbBuffer 1 = READ_STATUS_INPUTS
          ∨ s.arybytMbBuffer 1 = READ_HOLDING_REGISTERS
          ∨ s.arybytMbBuffer 1 = READ_INPUT_REGISTERS) → s'.regs = s.regs)
    ∧ (s'.regs ≠ s.regs →
        FrameReady s ∧ ∃ k j blk,
          (((s.arybytMbBuffer 1 = FORCE_SINGLE_COIL
                ∨ s.arybytMbBuffer 1 = FORCE_MULTIPLE_COILS) ∧ k = .pCoils)
            ∨ ((s.arybytMbBuffer 1 = PRESET_SINGLE_REGISTER
                ∨ s.arybytMbBuffer 1 = PRESET_MULTIPLE_REGISTERS) ∧ k = .pHoldingRegs))
          ∧ findBlock ((word (s.arybytMbBuffer 2) (s.arybytMbBuffer 3) + 1) % 65536)
              ((word (s.arybytMbBuffer 2) (s.arybytMbBuffer 3)
                + (if s.arybytMbBuffer 1 = FORCE_SINGLE_COIL
                      ∨ s.arybytMbBuffer 1 = PRESET_SINGLE_REGISTER then 1
                   else word (s.arybytMbBuffer 4) (s.arybytMbBuffer 5))) % 65536)
              (s.regs.get k) 0 = some j
          ∧ (s.regs.get k)[j]? = some blk
          ∧ (word (s.arybytMbBuffer 2) (s.arybytMbBuffer 3) + 1) % 65536 ≥ blk.uintAddress
          ∧ (word (s.arybytMbBuffer 2) (s.arybytMbBuffer 3)
                + (if s.arybytMbBuffer 1 = FORCE_SINGLE_COIL
                      ∨ s.arybytMbBuffer 1 = PRESET_SINGLE_REGISTER then 1
                   else word (s.arybytMbBuffer 4) (s.arybytMbBuffer 5))) % 65536
              ≤ (blk.uintAddress + blk.uintTotal + 65535) % 65536
          ∧ regsStep (some (k, j)) s.regs s'.regs)
    ∧ (∀ i, 256 ≤ i → s'.arybytMbBuffer i = s.arybytMbBuffer i) := by
  obtain ⟨hstep, hch⟩ := decodePacket_blocks s s' h
  have hlist : ∀ k', k' ≠ ListHead.pCoils → k' ≠ ListHead.pHoldingRegs →
      s'.regs.get k' = s.regs.get k' := by
    intro k' n1 n2
    by_cases hne : s'.regs = s.regs
    · rw [hne]
    · obtain ⟨-, k, j, hp, -, hk⟩ := hch hne
      apply regsStep_list_eq _ _ _ hstep
      intro j' hc
      rw [hp] at hc
      cases hc
      rcases hk with ⟨-, hk⟩ | ⟨-, hk⟩
      · exact n1 hk
      · exact n2 hk
  refine ⟨hlist .pStatusBits (by decide) (by decide), hlist .pInputRegs (by decide) (by decide),
    ?_, ?_, decodePacket_above s s' h hfit⟩
  · intro hread
    by_contra hne
    obtain ⟨-, k, j, -, -, hk⟩ := hch hne
    rcases hk with ⟨hk, -⟩ | ⟨hk, -⟩ <;> rcases hk with hk | hk <;>
      rcases hread with hr | hr | hr | hr <;> rw [hk] at hr <;> cases hr
  · intro hne
    obtain ⟨hr, k, j, hp, hf, hk⟩ := hch hne
    obtain ⟨blk, b1, -, b3, b4⟩ := findBlock_some _ _ _ _ _ hf
    rw [hp] at hstep
    exact ⟨hr, k, j, blk, hk, hf, b1, b3, b4, hstep⟩

theorem decodePacket_writes_only_resolved_block_within_ceiling_witness :
    ∃ s s', s = sessionState regsCoilsAndHolding 1
          (bufferOf [0x01, 0x06, 0x00, 0x00, 0x00, 0x05, 0x49, 0xC9]) 8 5
      ∧ decodePacket s = some s'
      ∧ s'.regs.pStatusBits = s.regs.pStatusBits ∧ s'.regs.pInputRegs = s.regs.pInputRegs
      ∧ ((s.arybytMbBuffer 1 = READ_COILS ∨ s.arybytMbBuffer 1 = READ_STATUS_INPUTS
            ∨ s.arybytMbBuffer 1 = READ_HOLDING_REGISTERS
            ∨ s.arybytMbBuffer 1 = READ_INPUT_REGISTERS) → s'.regs = s.regs)
      ∧ (s'.regs ≠ s.regs →
          FrameReady s ∧ ∃ k j blk,
            (((s.arybytMbBuffer 1 = FORCE_SINGLE_COIL
                  ∨ s.arybytMbBuffer 1 = FORCE_MULTIPLE_COILS) ∧ k = .pCoils)
              ∨ ((s.arybytMbBuffer 1 = PRESET_SINGLE_REGISTER
                  ∨ s.arybytMbBuffer 1 = PRESET_MULTIPLE_REGISTERS) ∧ k = .pHoldingRegs))
            ∧ findBlock ((word (s.arybytMbBuffer 2) (s.arybytMbBuffer 3) + 1) % 65536)
                ((word (s.arybytMbBuffer 2) (s.arybytMbBuffer 3)
                  + (if s.arybytMbBuffer 1 = FORCE_SINGLE_COIL
                        ∨ s.arybytMbBuffer 1 = PRESET_SINGLE_REGISTER then 1
                     else word (s.arybytMbBuffer 4) (s.arybytMbBuffer 5))) % 65536)
                (s.regs.get k) 0 = some j
            ∧ (s.regs.get k)[j]? = some blk
            ∧ (word (s.arybytMbBuffer 2) (s.arybytMbBuffer 3) + 1) % 65536 ≥ blk.uintAddress
            ∧ (word (s.arybytMbBuffer 2) (s.arybytMbBuffer 3)
                  + (if s.arybytMbBuffer 1 = FORCE_SINGLE_COIL
                        ∨ s.arybytMbBuffer 1 = PRESET_SINGLE_REGISTER then 1
                     else word (s.arybytMbBuffer 4) (s.arybytMbBuffer 5))) % 65536
                ≤ (blk.uintAddress + blk.uintTotal + 65535) % 65536
            ∧ regsStep (some (k, j)) s.regs s'.regs)
      ∧ (∀ i, 256 ≤ i → s'.arybytMbBuffer i = s.arybytMbBuffer i) :=
  (Option.isSome_iff_exists.mp
    (show (decodePacket (sessionState regsCoilsAndHolding 1
      (bufferOf [0x01, 0x06, 0x00, 0x00, 0x00, 0x05, 0x49, 0xC9]) 8 5)).isSome = true
      by decide)).elim
    (fun s' h => ⟨_, s', rfl, h,
      decodePacket_writes_only_resolved_block_within_ceiling _ s' h (by decide)⟩)

/-- C18 (the code departs from the claim): with the only holding-register block at
addresses 65526 to 65535, ten registers, the CRC-valid request 01 10 FF FE 00 01 02 12 34
(function 16, one register, address 65535) resolves that block, and the write loop stores
outside it. The first pass writes 0x1234 to offset 9, the last register of the block;
`uintAddr` wraps to 0, `uintAddr <= uintEAddr` holds again, and the second pass calls
setRegister for address 0 with the two bytes that follow in the buffer, the CRC bytes B1 F6,
which stores 0xB1F6 at offset (0 - 65526) mod 65536 = 10, behind the ten registers of the
block. The loop goes on from that state and does not end. -/
theorem writeLoop_stores_outside_resolved_block :
    (FrameReady (sessionState regsTopHolding 1
        (bufferOf [0x01, 0x10, 0xFF, 0xFE, 0x00, 0x01, 0x02, 0x12, 0x34, 0xB1, 0xF6]) 11 5)
      ∧ currBlock (resolveCurrBlock (selectTable { dispatchEntry (timerExpiry
          (sessionState regsTopHolding 1
            (bufferOf [0x01, 0x10, 0xFF, 0xFE, 0x00, 0x01, 0x02, 0x12, 0x34, 0xB1, 0xF6]) 11 5))
          with bytMbIndex := 3 }) 65535 65535)
        = some (blockOf HOLDING_REGISTERS 65526 10 (rampData 0x1100))
      ∧ (rampData 0x1100 9, rampData 0x1100 10) = (0x1109, 0x110A))
    ∧ (∀ fuel, writeLoop 65535 (fuel + 2) (WriteVars.mk
        (resolveCurrBlock (selectTable { dispatchEntry (timerExpiry
          (sessionState regsTopHolding 1
            (bufferOf [0x01, 0x10, 0xFF, 0xFE, 0x00, 0x01, 0x02, 0x12, 0x34, 0xB1, 0xF6]) 11 5))
          with bytMbIndex := 3 }) 65535 65535) 1 0 65535)
        = writeLoop 65535 fuel (WriteVars.mk
          (setRegister (setRegister
            (resolveCurrBlock (selectTable { dispatchEntry (timerExpiry
              (sessionState regsTopHolding 1
                (bufferOf [0x01, 0x10, 0xFF, 0xFE, 0x00, 0x01, 0x02, 0x12, 0x34, 0xB1, 0xF6])
                11 5))
              with bytMbIndex := 3 }) 65535 65535) 65535 0x12 0x34).1 0 0xB1 0xF6).1 1 4 1))
    ∧ (setRegister (setRegister
          (resolveCurrBlock (selectTable { dispatchEntry (timerExpiry
            (sessionState regsTopHolding 1
              (bufferOf [0x01, 0x10, 0xFF, 0xFE, 0x00, 0x01, 0x02, 0x12, 0x34, 0xB1, 0xF6])
              11 5))
            with bytMbIndex := 3 }) 65535 65535) 65535 0x12 0x34).1 0 0xB1
          0xF6).1.regs.pHoldingRegs.map
        (fun b => (b.uintAddress, b.uintTotal, b.paryData 9, b.paryData 10))
      = [(65526, 10, 0x1234, 0xB1F6)]
    ∧ writeLoop 65535 65536 (WriteVars.mk
        (resolveCurrBlock (selectTable { dispatchEntry (timerExpiry
          (sessionState regsTopHolding 1
            (bufferOf [0x01, 0x10, 0xFF, 0xFE, 0x00, 0x01, 0x02, 0x12, 0x34, 0xB1, 0xF6]) 11 5))
          with bytMbIndex := 3 }) 65535 65535) 1 0 65535) = none := by
  refine ⟨⟨by decide, rfl, rfl⟩, fun fuel => rfl, by decide, ?_⟩
  exact writeLoop_top_address 65536 _ ⟨_, rfl⟩ (by decide)

/-! ### The update flag from the write to the service run -/

theorem runWithinCeiling_cons (s : State) (e : Event) (rest : List Event)
    (h : runWithinCeiling s (e :: rest)) :
    readWithinCeiling (raise s e)
    ∧ ∀ t, decodePacket (raise s e) = some t → runWithinCeiling t rest := by
  constructor
  · exact h 0 (Nat.succ_pos _) s rfl e (by rw [List.getElem?_cons_zero]; rfl)
  · intro t ht j hj u hu e' he'
    refine h (j + 1) (Nat.succ_lt_succ hj) u ?_ e'
      (by rw [List.getElem?_cons_succ]; exact he')
    show (decodePacket (raise s e)).bind (fun x => runEvents x (rest.take j)) = some u
    rw [ht]
    exact hu

theorem runEvents_above :
    ∀ (events : List Event) (s t : State), runWithinCeiling s events →
      runEvents s events = some t →
      ∀ i, 256 ≤ i → t.arybytMbBuffer i = s.arybytMbBuffer i := by
  intro events
  induction events with
  | nil =>
    intro s t _ h i _
    cases h
    rfl
  | cons e rest ih =>
    intro s t hfit h i hi
    obtain ⟨f1, f2⟩ := runWithinCeiling_cons s e rest hfit
    have h' : (decodePacket (raise s e)).bind (fun u => runEvents u rest) = some t := h
    obtain ⟨u, hu, hr⟩ := Option.bind_eq_some.mp h'
    rw [ih u t (f2 u hu) hr i hi, decodePacket_above _ u hu f1 i hi]
    rfl

end DAQ12
